import Mathlib

/-!
# IM Lua 5 binding: marshaling helpers, compatibility gates and point-operation dispatch

A shallow embedding of `src/lua5/libimlua/imlua_aux.c`, `imlua_aux.h`,
`imlua_convert.c` and of bindings of `src/lua5/modules/process/imlua_process.c`:
the point operations and render operations with a Lua callback and their
callback trampolines, crop, color replacement, the operations on regions and
their measures, the Hough transform, rotation, interlace splitting, image
arithmetic and the rendering of a constant.

The Lua C API and the IM kernels are outside these files.  The Lua API is
embedded after the Lua 5.1 reference manual: a stack of values, tables and
images held by reference, errors that unwind to the caller.  A C function that
takes `lua_State *L` becomes a state transformer that either returns a value
or stops with a `Fault`, and in both cases yields the state reached.
-/

namespace ImLua

/-! ## Values and program state -/

/-- A Lua number (a C `double`).  Numbers are only moved and converted here,
never computed with, so they are kept as exact rationals. -/
abbrev lua_Number := ℚ

/-- A C `float` sample.  Widening a `float` to a `double` is exact, so it is the
identity on this representation; narrowing is `Host.c_float`. -/
abbrev float := ℚ

/-- A Lua value.  Tables, functions and userdata are references. -/
inductive LuaValue
  | nil
  | boolean (b : Bool)
  | lightuserdata (ref : Nat)
  | number (n : lua_Number)
  | string (s : String)
  | table (ref : Nat)
  | function (ref : Nat)
  | userdata (ref : Nat)
  | image (ref : Nat)
  | thread (ref : Nat)
  deriving DecidableEq, Repr

/-- A Lua table as the binding sees it: the length `lua_objlen` reports for it
and its integer-keyed entries.  For a table with holes Lua may report any
border, so the reported length is a datum of the table. -/
structure LuaTable where
  objlen : Nat
  entries : List (Int × LuaValue)
  deriving DecidableEq, Repr

/-- The value `t[k]` without metamethods: the first entry with key `k`, or nil. -/
def LuaTable.rawgeti (t : LuaTable) (k : Int) : LuaValue :=
  (t.entries.lookup k).getD LuaValue.nil

/-- The data types of `im.h`, as the specification enumerates them. -/
inductive imDataType
  | IM_BYTE | IM_SHORT | IM_USHORT | IM_INT | IM_FLOAT | IM_CFLOAT
  deriving DecidableEq, Repr

/-- The color spaces of `im.h`, as the specification enumerates them. -/
inductive imColorSpace
  | IM_RGB | IM_MAP | IM_GRAY | IM_BINARY | IM_CMYK | IM_YCBCR | IM_LAB | IM_LUV
  | IM_XYZ | IM_RGBA
  deriving DecidableEq, Repr

/-- The fields of `imImage` (`im_image.h`) that the binding reads, and the
sample planes.  `depth` does not count the alpha plane. -/
structure imImage where
  width : Int
  height : Int
  color_space : imColorSpace
  data_type : imDataType
  has_alpha : Bool
  depth : Int
  data : List (List float)
  deriving DecidableEq, Repr

/-- One argument of a recorded kernel call. -/
inductive KernelArg
  | img (ref : Nat)
  | imgs (refs : List Nat)
  | int (i : Int)
  | floats (xs : List float)
  | str (s : Option String)
  | ints (xs : Option (List Int))
  deriving DecidableEq, Repr

/-- A call of an IM kernel: its name and its arguments in order. -/
structure KernelCall where
  name : String
  args : List KernelArg
  deriving DecidableEq, Repr

/-- How a binding stops without returning.  `argerror` is `luaL_argerror`
(also reached through `luaL_typerror`), `error` is `luaL_error` or an error of
the interpreter, `undefined` is C undefined behaviour such as a read outside an
array. -/
inductive Fault
  | argerror (narg : Int) (extramsg : String)
  | error (msg : String)
  | undefined (what : String)
  deriving DecidableEq, Repr

/-- Whether a fault is an error raised through the Lua error mechanism (as
opposed to undefined behaviour of the C code). -/
def Fault.isLuaError : Fault → Bool
  | Fault.argerror _ _ => true
  | Fault.error _ => true
  | Fault.undefined _ => false

deriving instance DecidableEq for Except

/-- The state a binding runs in: the Lua stack of the running C function
(index 1 first), the tables and images the values refer to (a destroyed image
is `none`), the number of `malloc` and `free` calls made, the OpenMP team size
and thread-count setting, and the kernel calls made so far. -/
structure lua_State where
  stack : List LuaValue
  tables : List LuaTable
  images : List (Option imImage)
  malloc_count : Nat
  free_count : Nat
  omp_team : Nat
  omp_nthreads : Nat
  kernel_log : List KernelCall
  deriving DecidableEq, Repr

/-- What lies outside the binding and is not fixed by its sources: the
behaviour of the Lua functions it calls back, the interpreter's conversions
between strings and numbers, the C conversions between numeric types, and the
effect on the images of the kernels whose iteration the specification does not
describe.  `openmp` tells whether the module is built with `_OPENMP` defined,
`IM_PROCESS` whether `imlua_convert.c` is built with `IM_PROCESS` defined.
`imColorModeSpaceName`, `imDataTypeName`, `imImageIsBitmap` and `IM_ERR_NONE`
are the functions, the macro and the constant of those names of the IM
library; `kernel_out` gives what a kernel stores through its output pointers. -/
structure Host where
  call : Nat → List LuaValue → Except Fault (List LuaValue)
  str2d : String → Option lua_Number
  number2str : lua_Number → String
  number2int : lua_Number → Int
  c_float : lua_Number → float
  ulong2double : Nat → lua_Number
  ulong_bits : Nat
  openmp : Bool
  kernel : KernelCall → List (Option imImage) → Except Fault (Int × List (Option imImage))
  IM_PROCESS : Bool
  IM_ERR_NONE : Int
  imColorModeSpaceName : imColorSpace → String
  imDataTypeName : imDataType → String
  imImageIsBitmap : imImage → Bool
  kernel_out : KernelCall → List (Option imImage) → List (List ℚ)

/-- A computation over the state that returns a value or stops with a fault;
the state reached is kept in both cases. -/
def M (α : Type) : Type := lua_State → Except Fault α × lua_State

/-- Return a value, leaving the state as it is. -/
def M.pure {α : Type} (a : α) : M α := fun L => (Except.ok a, L)

/-- Sequence two computations; a fault of the first one ends the sequence. -/
def M.bind {α β : Type} (m : M α) (f : α → M β) : M β := fun L =>
  match m L with
  | (Except.ok a, L1) => f a L1
  | (Except.error e, L1) => (Except.error e, L1)

instance : Monad M where
  pure := M.pure
  bind := M.bind

/-- Stop with a fault. -/
def raise {α : Type} (e : Fault) : M α := fun L => (Except.error e, L)

/-- Read the state. -/
def getState : M lua_State := fun L => (Except.ok L, L)

/-! ## The Lua C API (Lua 5.1 reference manual) -/

/-- The value at an acceptable index of a stack: positive indices count from
the bottom, negative ones from the top; `none` where there is no value. -/
def stackIndex (stack : List LuaValue) (idx : Int) : Option LuaValue :=
  if 0 < idx then stack[(idx - 1).toNat]?
  else if idx < 0 ∧ -idx ≤ (stack.length : Int) then
    stack[((stack.length : Int) + idx).toNat]?
  else none

/-- The value at an acceptable stack index. -/
def lua_State.index (L : lua_State) (idx : Int) : Option LuaValue := stackIndex L.stack idx

/-- The stack position an index denotes (0-based from the bottom). -/
def lua_State.slot (L : lua_State) (idx : Int) : Nat :=
  if 0 < idx then (idx - 1).toNat else ((L.stack.length : Int) + idx).toNat

/-- The state with another thread-count setting. -/
def lua_State.withThreads (L : lua_State) (n : Nat) : lua_State :=
  { L with omp_nthreads := n }

/-- The state with another stack. -/
def lua_State.withStack (L : lua_State) (stack : List LuaValue) : lua_State :=
  { L with stack := stack }

def LUA_TNONE : Int := -1
def LUA_TNIL : Int := 0
def LUA_TBOOLEAN : Int := 1
def LUA_TLIGHTUSERDATA : Int := 2
def LUA_TNUMBER : Int := 3
def LUA_TSTRING : Int := 4
def LUA_TTABLE : Int := 5
def LUA_TFUNCTION : Int := 6
def LUA_TUSERDATA : Int := 7
def LUA_TTHREAD : Int := 8

/-- The type tag of a value. -/
def LuaValue.type : LuaValue → Int
  | .nil => LUA_TNIL
  | .boolean _ => LUA_TBOOLEAN
  | .lightuserdata _ => LUA_TLIGHTUSERDATA
  | .number _ => LUA_TNUMBER
  | .string _ => LUA_TSTRING
  | .table _ => LUA_TTABLE
  | .function _ => LUA_TFUNCTION
  | .userdata _ => LUA_TUSERDATA
  | .image _ => LUA_TUSERDATA
  | .thread _ => LUA_TTHREAD

/-- The type tag at an index, `LUA_TNONE` where there is no value. -/
def lua_type (L : lua_State) (idx : Int) : Int :=
  match L.index idx with
  | some v => v.type
  | none => LUA_TNONE

/-- The name of a type tag. -/
def lua_typename (t : Int) : String :=
  if t = LUA_TNIL then "nil"
  else if t = LUA_TBOOLEAN then "boolean"
  else if t = LUA_TLIGHTUSERDATA then "userdata"
  else if t = LUA_TNUMBER then "number"
  else if t = LUA_TSTRING then "string"
  else if t = LUA_TTABLE then "table"
  else if t = LUA_TFUNCTION then "function"
  else if t = LUA_TUSERDATA then "userdata"
  else if t = LUA_TTHREAD then "thread"
  else "no value"

def lua_istable (L : lua_State) (idx : Int) : Bool := lua_type L idx == LUA_TTABLE

def lua_isnil (L : lua_State) (idx : Int) : Bool := lua_type L idx == LUA_TNIL

def lua_isnoneornil (L : lua_State) (idx : Int) : Bool := decide (lua_type L idx ≤ 0)

/-- Push a value on the stack. -/
def push (v : LuaValue) : M Unit := fun L =>
  (Except.ok (), L.withStack (L.stack ++ [v]))

def lua_pushnil : M Unit := push LuaValue.nil

def lua_pushnumber (n : lua_Number) : M Unit := push (LuaValue.number n)

def lua_pushinteger (n : Int) : M Unit := push (LuaValue.number (n : ℚ))

def lua_pushboolean (b : Int) : M Unit := push (LuaValue.boolean (b != 0))

/-- Push a copy of the value at an index (nil where there is none). -/
def lua_pushvalue (idx : Int) : M Unit := fun L =>
  push ((L.index idx).getD LuaValue.nil) L

/-- Pop `n` values. -/
def lua_pop (n : Int) : M Unit := fun L =>
  (Except.ok (), L.withStack (L.stack.take (L.stack.length - n.toNat)))

/-- The table a table value at an index refers to (an empty one otherwise). -/
def lua_State.tableAt (L : lua_State) (idx : Int) : LuaTable :=
  match L.index idx with
  | some (LuaValue.table r) => (L.tables[r]?).getD ⟨0, []⟩
  | _ => ⟨0, []⟩

/-- The length of the value at an index: for a table what the length operator
reports, for a string its length, otherwise 0. -/
def lua_objlen (L : lua_State) (idx : Int) : Nat :=
  match L.index idx with
  | some (LuaValue.table _) => (L.tableAt idx).objlen
  | some (LuaValue.string s) => s.length
  | _ => 0

/-- Push `t[n]` for the table at an index. -/
def lua_rawgeti (idx : Int) (n : Int) : M Unit := fun L =>
  push ((L.tableAt idx).rawgeti n) L

/-- The conversion `lua_tonumber` applies: a number is itself, a string is
converted when it is a numeral. -/
def Host.tonumber (H : Host) : Option LuaValue → Option lua_Number
  | some (LuaValue.number n) => some n
  | some (LuaValue.string s) => H.str2d s
  | _ => none

def lua_isnumber (H : Host) (L : lua_State) (idx : Int) : Bool :=
  (H.tonumber (L.index idx)).isSome

/-- Raise an argument error. -/
def luaL_argerror {α : Type} (narg : Int) (extramsg : String) : M α :=
  raise (Fault.argerror narg extramsg)

/-- Raise an error with a message. -/
def luaL_error {α : Type} (msg : String) : M α := raise (Fault.error msg)

/-- Raise the argument error of a value of the wrong type. -/
def luaL_typerror {α : Type} (narg : Int) (tname : String) : M α := fun L =>
  luaL_argerror narg (tname ++ " expected, got " ++ lua_typename (lua_type L narg)) L

def luaL_checktype (narg : Int) (t : Int) : M Unit := fun L =>
  if lua_type L narg = t then (Except.ok (), L) else luaL_typerror narg (lua_typename t) L

def luaL_checknumber (H : Host) (narg : Int) : M lua_Number := fun L =>
  match H.tonumber (L.index narg) with
  | some d => (Except.ok d, L)
  | none => luaL_typerror narg (lua_typename LUA_TNUMBER) L

def luaL_checkint (H : Host) (narg : Int) : M Int := fun L =>
  match H.tonumber (L.index narg) with
  | some d => (Except.ok (H.number2int d), L)
  | none => luaL_typerror narg (lua_typename LUA_TNUMBER) L

/-- Replace the value at a stack position. -/
def lua_State.setSlot (L : lua_State) (i : Nat) (v : LuaValue) : lua_State :=
  L.withStack (L.stack.set i v)

/-- The string at an index; a number there is converted to a string in place. -/
def luaL_checkstring (H : Host) (narg : Int) : M String := fun L =>
  match L.index narg with
  | some (LuaValue.string s) => (Except.ok s, L)
  | some (LuaValue.number n) =>
      (Except.ok (H.number2str n), L.setSlot (L.slot narg) (LuaValue.string (H.number2str n)))
  | _ => luaL_typerror narg (lua_typename LUA_TSTRING) L

/-- The string at an index, or the default (here always `NULL`) when the
argument is absent or nil. -/
def luaL_optstring (H : Host) (narg : Int) : M (Option String) := fun L =>
  if lua_isnoneornil L narg then (Except.ok none, L)
  else match luaL_checkstring H narg L with
    | (Except.ok s, L1) => (Except.ok (some s), L1)
    | (Except.error e, L1) => (Except.error e, L1)

/-- Bring a list of results to the requested length, padding with nil. -/
def adjustResults (rs : List LuaValue) (nresults : Nat) : List LuaValue :=
  rs.take nresults ++ List.replicate (nresults - rs.length) LuaValue.nil

/-- Call the function below the top `nargs` values with them as arguments and
replace function and arguments by `nresults` results.  Calling a value that
is not a function is an error of the interpreter. -/
def lua_call (H : Host) (nargs nresults : Int) : M Unit := fun L =>
  if nargs < 0 ∨ (L.stack.length : Int) < nargs + 1 then
    (Except.error (Fault.undefined "lua_call: not enough values on the stack"), L)
  else
    let base := L.stack.length - (nargs.toNat + 1)
    match L.stack[base]? with
    | some (LuaValue.function r) =>
        match H.call r (L.stack.drop (base + 1)) with
        | Except.ok rs =>
            (Except.ok (), L.withStack (L.stack.take base ++ adjustResults rs nresults.toNat))
        | Except.error e => (Except.error e, L)
    | some v =>
        (Except.error (Fault.error ("attempt to call a " ++ lua_typename v.type ++ " value")), L)
    | none => (Except.error (Fault.undefined "lua_call: not enough values on the stack"), L)

/-! ## The C heap -/

/-- One `malloc` call. -/
def malloc : M Unit := fun L => (Except.ok (), { L with malloc_count := L.malloc_count + 1 })

/-- One `free` call. -/
def free : M Unit := fun L => (Except.ok (), { L with free_count := L.free_count + 1 })

/-! ## `imlua_aux.h` and `imlua_aux.c`: array marshaling -/

/-- The macro `imlua_getn`: the table size as an `int`. -/
def imlua_getn (L : lua_State) (i : Int) : Int := (lua_objlen L i : Int)

/-- The body of the reading loops `for (i = 0; i < n; i++)`: `k` elements are
left to read and the next one is element `i`. -/
def readLoop {α : Type} (elem : Int → M α) : Nat → Int → M (List α)
  | 0, _ => pure []
  | k + 1, i => do
      let v ← elem i
      let vs ← readLoop elem k (i + 1)
      pure (v :: vs)

/-- The function `imlua_toarrayintopt`.  The result is the array (`none` for
`NULL`) and the value stored through `count`. -/
def imlua_toarrayintopt (H : Host) (index : Int) (start : Int) : M (Option (List Int) × Int) :=
  fun L =>
  if lua_istable L index then
    let n := imlua_getn L index
    let n := if start = 0 then n + 1 else n
    (do
      malloc
      let value ← readLoop (fun i => do
        lua_rawgeti index (i + start)
        let x ← luaL_checkint H (-1)
        lua_pop 1
        pure x) n.toNat 0
      pure (some value, n)) L
  else if !lua_isnil L index then
    luaL_argerror index "must be a table or nil" L
  else
    (Except.ok (none, 0), L)

/-- The function `imlua_toarrayint`. -/
def imlua_toarrayint (H : Host) (index : Int) (start : Int) : M (Option (List Int) × Int) := do
  luaL_checktype index LUA_TTABLE
  imlua_toarrayintopt H index start

/-- The function `imlua_toarrayulongopt`: each element is read as an `int` and
stored as an `unsigned long`. -/
def imlua_toarrayulongopt (H : Host) (index : Int) (start : Int) : M (Option (List Nat) × Int) :=
  fun L =>
  if lua_istable L index then
    let n := imlua_getn L index
    let n := if start = 0 then n + 1 else n
    (do
      malloc
      let value ← readLoop (fun i => do
        lua_rawgeti index (i + start)
        let x ← luaL_checkint H (-1)
        lua_pop 1
        pure (x % 2 ^ H.ulong_bits).toNat) n.toNat 0
      pure (some value, n)) L
  else if !lua_isnil L index then
    luaL_argerror index "must be a table or nil" L
  else
    (Except.ok (none, 0), L)

/-- The function `imlua_toarrayulong`. -/
def imlua_toarrayulong (H : Host) (index : Int) (start : Int) : M (Option (List Nat) × Int) := do
  luaL_checktype index LUA_TTABLE
  imlua_toarrayulongopt H index start

/-- The function `imlua_toarrayfloatopt`. -/
def imlua_toarrayfloatopt (H : Host) (index : Int) (start : Int) :
    M (Option (List float) × Int) :=
  fun L =>
  if lua_istable L index then
    let n := imlua_getn L index
    let n := if start = 0 then n + 1 else n
    (do
      malloc
      let value ← readLoop (fun i => do
        lua_rawgeti index (i + start)
        let x ← luaL_checknumber H (-1)
        lua_pop 1
        pure (H.c_float x)) n.toNat 0
      pure (some value, n)) L
  else if !lua_isnil L index then
    luaL_argerror index "must be a table or nil" L
  else
    (Except.ok (none, 0), L)

/-- The function `imlua_toarrayfloat`. -/
def imlua_toarrayfloat (H : Host) (index : Int) (start : Int) :
    M (Option (List float) × Int) := do
  luaL_checktype index LUA_TTABLE
  imlua_toarrayfloatopt H index start

/-! ## `imlua_image.h`, `im_image.h`: images -/

/-- The function `imlua_checkimage` (declared in `imlua_image.h`, defined
outside these sources): the image pointer held by an image userdata at an
index; an argument error when the value is not an image userdata or the image
was destroyed. -/
def imlua_checkimage (param : Int) : M Nat := fun L =>
  match L.index param with
  | some (LuaValue.image p) =>
      match L.images[p]? with
      | some (some _) => (Except.ok p, L)
      | _ => luaL_argerror param "destroyed imImage" L
  | _ => luaL_typerror param "imImage" L

/-- Read the image a pointer refers to (`image->field`); following a pointer
to no image is undefined. -/
def deref (p : Nat) : M imImage := fun L =>
  match L.images[p]? with
  | some (some img) => (Except.ok img, L)
  | _ => (Except.error (Fault.undefined "read through a dangling image pointer"), L)

/-- Read `a[i]` of a C array; a read outside the array is undefined. -/
def arrayRead {α : Type} (a : List α) (i : Int) : M α := fun L =>
  if 0 ≤ i then
    match a[i.toNat]? with
    | some v => (Except.ok v, L)
    | none => (Except.error (Fault.undefined "read outside the array"), L)
  else (Except.error (Fault.undefined "read outside the array"), L)

/-- Write `a[i] = v` of a C array; a write outside the array is undefined. -/
def arrayWrite {α : Type} (a : List α) (i : Int) (v : α) : M (List α) := fun L =>
  if 0 ≤ i ∧ i.toNat < a.length then (Except.ok (a.set i.toNat v), L)
  else (Except.error (Fault.undefined "write outside the array"), L)

/-- Modelled from the spec: the predicate `imImageMatchSize` of `im_image.h`,
whose body is outside these sources.  "MatchSize: widths and heights equal." -/
def imImageMatchSize (image1 image2 : imImage) : Bool :=
  image1.width == image2.width && image1.height == image2.height

/-- Modelled from the spec: the predicate `imImageMatchColor` of `im_image.h`,
whose body is outside these sources.  "MatchColor: MatchDataType ∧
MatchColorSpace", written out on the fields the two compare. -/
def imImageMatchColor (image1 image2 : imImage) : Bool :=
  image1.data_type == image2.data_type && image1.color_space == image2.color_space

/-- Modelled from the spec: the predicate `imImageMatchDataType` of
`im_image.h`, whose body is outside these sources.  "MatchDataType: data_type
equal." -/
def imImageMatchDataType (image1 image2 : imImage) : Bool :=
  image1.data_type == image2.data_type

/-- Modelled from the spec: the predicate `imImageMatchColorSpace` of
`im_image.h`, whose body is outside these sources.  "MatchColorSpace:
color_space equal." -/
def imImageMatchColorSpace (image1 image2 : imImage) : Bool :=
  image1.color_space == image2.color_space

/-- Modelled from the spec: the predicate `imImageMatch` of `im_image.h`,
whose body is outside these sources.  "MatchFull: MatchSize ∧ MatchColor",
written out on the fields the two compare. -/
def imImageMatch (image1 image2 : imImage) : Bool :=
  image1.data_type == image2.data_type &&
    image1.width == image2.width && image1.height == image2.height &&
    image1.color_space == image2.color_space

/-! ## `imlua_aux.c`: errors of the compatibility gates -/

def imlua_errormatchsize : M Unit := luaL_error "images must have the same size"

def imlua_errormatchcolor : M Unit :=
  luaL_error "images must have the same data type and color space"

def imlua_errormatchdatatype : M Unit :=
  luaL_error "images must have the same size and data type"

def imlua_errormatchcolorspace : M Unit :=
  luaL_error "images must have the same size and color space"

def imlua_errormatch : M Unit :=
  luaL_error "images must have the same size, data type and color space"

/-- The macro `imlua_matchsize`. -/
def imlua_matchsize (i1 i2 : Nat) : M Unit := do
  let a ← deref i1
  let b ← deref i2
  if !imImageMatchSize a b then imlua_errormatchsize

/-- The macro `imlua_matchcolor`. -/
def imlua_matchcolor (i1 i2 : Nat) : M Unit := do
  let a ← deref i1
  let b ← deref i2
  if !imImageMatchColor a b then imlua_errormatchcolor

/-- The macro `imlua_matchdatatype`. -/
def imlua_matchdatatype (i1 i2 : Nat) : M Unit := do
  let a ← deref i1
  let b ← deref i2
  if !imImageMatchDataType a b then imlua_errormatchdatatype

/-- The macro `imlua_matchcolorspace`. -/
def imlua_matchcolorspace (i1 i2 : Nat) : M Unit := do
  let a ← deref i1
  let b ← deref i2
  if !imImageMatchColorSpace a b then imlua_errormatchcolorspace

/-- The macro `imlua_match`. -/
def imlua_match (i1 i2 : Nat) : M Unit := do
  let a ← deref i1
  let b ← deref i2
  if !imImageMatch a b then imlua_errormatch

/-- The macro `imlua_matchcheck`. -/
def imlua_matchcheck (cond : Bool) (extramsg : String) : M Unit :=
  if !cond then luaL_error extramsg else pure ()

/-- The loop `for (i = 1; i < n; i++)` of `imlua_toarrayimage`: `k` images are
left to compare with the first one and the next is `value[i]`. -/
def toarrayimage_matchLoop (value : List Nat) : Nat → Int → M Unit
  | 0, _ => pure ()
  | k + 1, i => do
      let p0 ← arrayRead value 0
      let pi ← arrayRead value i
      let image0 ← deref p0
      let imagei ← deref pi
      let check := imImageMatch image0 imagei
      if !check then free
      imlua_matchcheck check "images must have the same size and data type"
      toarrayimage_matchLoop value k (i + 1)

/-- The function `imlua_toarrayimage`.  The result is the array of image
pointers and the value stored through `count`. -/
def imlua_toarrayimage (index : Int) (start : Int) : M (List Nat × Int) := do
  luaL_checktype index LUA_TTABLE
  let L ← getState
  let n := imlua_getn L index
  let n := if start = 0 then n + 1 else n
  malloc
  let value ← readLoop (fun i => do
    lua_rawgeti index (i + start)
    let p ← imlua_checkimage (-1)
    lua_pop 1
    pure p) n.toNat 0
  toarrayimage_matchLoop value (n.toNat - 1) 1
  pure (value, n)

/-! ## `imlua_process.c`: local utilities -/

def imlua_errorcfloat (index : Int) : M Unit :=
  luaL_argerror index "image data type can NOT be cfloat"

/-- The macro `imlua_checknotcfloat`. -/
def imlua_checknotcfloat (a : Int) (i : Nat) : M Unit := do
  let image ← deref i
  if image.data_type = imDataType.IM_CFLOAT then imlua_errorcfloat a

/-- The loop of `imlua_unpacktable`: `k` entries are left to push and the next
is entry `i + 1`. -/
def unpackLoop (index : Int) : Nat → Int → M Unit
  | 0, _ => pure ()
  | k + 1, i => do
      lua_rawgeti index (i + 1)
      unpackLoop index k (i + 1)

/-- The function `imlua_unpacktable`. -/
def imlua_unpacktable (index : Int) : M Int := do
  let L ← getState
  let n := imlua_getn L index
  unpackLoop index n.toNat 0
  pure n

/-- The call `omp_get_num_threads()`: the size of the current team.  Without
`_OPENMP` the call is compiled out. -/
def omp_get_num_threads (H : Host) : M Int := fun L =>
  (Except.ok (if H.openmp then (L.omp_team : Int) else 0), L)

/-- The call `omp_set_num_threads(n)`: sets the number of threads of the next
parallel regions.  Without `_OPENMP` the call is compiled out. -/
def omp_set_num_threads (H : Host) (n : Int) : M Unit := fun L =>
  (Except.ok (), L.withThreads (if H.openmp then n.toNat else L.omp_nthreads))

/-- The C conversion `(float)i` of an `int`, exact on this representation. -/
def int2float (i : Int) : float := (i : ℚ)

/-- The C conversion `(int)f` of a `float`: truncation toward zero. -/
def float2int (f : float) : Int := Int.tdiv f.num f.den

/-- Record a kernel call. -/
def logKernel (c : KernelCall) : M Unit := fun L =>
  (Except.ok (), { L with kernel_log := L.kernel_log ++ [c] })

/-- A kernel whose effect is left to the host: the call is recorded, the host
gives the returned value and the images after the call, or the fault of a
callback. -/
def hostKernel (H : Host) (c : KernelCall) : M Int := fun L =>
  match H.kernel c L.images with
  | Except.ok (r, images) =>
      (Except.ok r, { L with kernel_log := L.kernel_log ++ [c], images := images })
  | Except.error e => (Except.error e, { L with kernel_log := L.kernel_log ++ [c] })

/-- Run an action for each element of a list in order. -/
def forEach {α : Type} (f : α → M Unit) : List α → M Unit
  | [] => pure ()
  | a :: as => do
      f a
      forEach f as

/-- The positions a point operation visits: plane by plane, row by row. -/
def pixelCoords (width height depth : Int) : List (Int × Int × Int) :=
  (List.range depth.toNat).flatMap fun d =>
    (List.range height.toNat).flatMap fun y =>
      (List.range width.toNat).map fun x => ((x : Int), (y : Int), (d : Int))

/-- The number of planes of an image, the alpha plane included. -/
def imImage.planes (image : imImage) : Int :=
  if image.has_alpha then image.depth + 1 else image.depth

/-- Read sample `offset` of plane `d`; a read outside the planes is undefined. -/
def readSample (image : imImage) (d offset : Int) : M float := do
  let plane ← arrayRead image.data d
  arrayRead plane offset

/-- Store an image through a pointer. -/
def setImage (p : Nat) (image : imImage) : M Unit := fun L =>
  (Except.ok (), { L with images := L.images.set p (some image) })

/-- Write sample `offset` of plane `d` of the image a pointer refers to. -/
def writeSample (p : Nat) (d offset : Int) (v : float) : M Unit := do
  let image ← deref p
  let plane ← arrayRead image.data d
  let plane ← arrayWrite plane offset v
  let data ← arrayWrite image.data d plane
  setImage p { image with data := data }

/-! ## `imlua_process.c`: point operations with a Lua callback -/

/-- The function `imluaUnOpFunc`.  The result is the returned `int` and the
value of `*dst_value` on return. -/
def imluaUnOpFunc (H : Host) (src_value : float) (dst_value : float) (x y d : Int) :
    M (Int × float) := do
  lua_pushvalue 3
  lua_pushnumber src_value
  let n ← imlua_unpacktable 4
  lua_pushvalue 5
  lua_pushinteger x
  lua_pushinteger y
  lua_pushinteger d
  lua_call H (1 + n + 4) 1
  let L ← getState
  let (ret, dst_value) ←
    (if !lua_isnil L (-1) then do
      let v ← luaL_checknumber H (-1)
      pure (1, H.c_float v)
    else pure (0, dst_value) : M (Int × float))
  lua_pop 1
  pure (ret, dst_value)

/-- Modelled from the spec: the kernel `imProcessUnaryPointOp` of
`im_process_pnt.h`, whose body is outside these sources.  "For every pixel
position (x,y) and plane d, calls callback(srcValue, &dstValue, params, x, y,
d); the callback may decline to set dstValue (signaled by a sentinel "no
value" return), in which case the destination pixel is left untouched";
"mutates dst in place, never src".  The callbacks of the binding have no way
to signal an abort, so the kernel returns true. -/
def imProcessUnaryPointOp (src_image dst_image : Nat)
    (func : float → float → Int → Int → Int → M (Int × float)) (op_name : Option String) :
    M Int := do
  logKernel ⟨"imProcessUnaryPointOp",
    [KernelArg.img src_image, KernelArg.img dst_image, KernelArg.str op_name]⟩
  let src ← deref src_image
  forEach (fun (c : Int × Int × Int) => do
      let x := c.1
      let y := c.2.1
      let d := c.2.2
      let src ← deref src_image
      let src_value ← readSample src d (y * src.width + x)
      let (ret, dst_value) ← func src_value 0 x y d
      if ret ≠ 0 then writeSample dst_image d (y * src.width + x) dst_value)
    (pixelCoords src.width src.height src.planes)
  pure 1

/-- The function `imluaProcessUnaryPointOp`. -/
def imluaProcessUnaryPointOp (H : Host) : M Int := do
  let src_image ← imlua_checkimage 1
  let dst_image ← imlua_checkimage 2
  let op_name ← luaL_optstring H 6
  let old_num_threads ← omp_get_num_threads H
  omp_set_num_threads H 1
  imlua_checknotcfloat 1 src_image
  imlua_checknotcfloat 1 dst_image
  imlua_matchsize src_image dst_image
  let src ← deref src_image
  let dst ← deref dst_image
  if src.depth ≠ dst.depth then luaL_error "images must have the same depth"
  luaL_checktype 3 LUA_TFUNCTION
  luaL_checktype 4 LUA_TTABLE
  let r ← imProcessUnaryPointOp src_image dst_image (imluaUnOpFunc H) op_name
  lua_pushboolean r
  omp_set_num_threads H old_num_threads
  pure 1

/-- The loop `for (d = 0; d < src_depth; d++) lua_pushnumber(L, src_value[d])`:
`k` values are left to push and the next is `src_value[d]`. -/
def pushLoop (src_value : List float) : Nat → Int → M Unit
  | 0, _ => pure ()
  | k + 1, d => do
      let v ← arrayRead src_value d
      lua_pushnumber v
      pushLoop src_value k (d + 1)

/-- The loop `for (d = 0; d < dst_depth; d++) dst_value[d] =
(float)luaL_checknumber(L, d-dst_depth)`: `k` results are left to store and
the next is result `d`. -/
def storeLoop (H : Host) (dst_depth : Int) (dst_value : List float) :
    Nat → Int → M (List float)
  | 0, _ => pure dst_value
  | k + 1, d => do
      let v ← luaL_checknumber H (d - dst_depth)
      let dst_value ← arrayWrite dst_value d (H.c_float v)
      storeLoop H dst_depth dst_value k (d + 1)

/-- The function `imluaUnColorOpFunc`.  The result is the returned `int` and
the contents of `dst_value` on return. -/
def imluaUnColorOpFunc (H : Host) (src_value : List float) (dst_value : List float)
    (params : List float) (x y : Int) : M (Int × List float) := do
  let p0 ← arrayRead params 0
  let src_depth := float2int p0
  let p1 ← arrayRead params 1
  let dst_depth := float2int p1
  lua_pushvalue 3
  pushLoop src_value src_depth.toNat 0
  let n ← imlua_unpacktable 4
  lua_pushvalue 5
  lua_pushinteger x
  lua_pushinteger y
  lua_call H (src_depth + n + 3) dst_depth
  let L ← getState
  let (ret, dst_value) ←
    (if !lua_isnil L (-dst_depth) then do
      let dst_value ← storeLoop H dst_depth dst_value dst_depth.toNat 0
      pure (1, dst_value)
    else pure (0, dst_value) : M (Int × List float))
  lua_pop dst_depth
  pure (ret, dst_value)

/-- Read sample `offset` of each of the first `k` planes of an image, from
plane `d` on. -/
def readPixel (image : imImage) (offset : Int) : Nat → Int → M (List float)
  | 0, _ => pure []
  | k + 1, d => do
      let v ← readSample image d offset
      let vs ← readPixel image offset k (d + 1)
      pure (v :: vs)

/-- Write the values of a pixel vector to sample `offset` of the planes of the
image a pointer refers to, from plane `d` on. -/
def writePixel (p : Nat) (offset : Int) : List float → Int → M Unit
  | [], _ => pure ()
  | v :: vs, d => do
      writeSample p d offset v
      writePixel p offset vs (d + 1)

/-- Modelled from the spec: the kernel `imProcessUnaryPointColorOp` of
`im_process_pnt.h`, whose body is outside these sources.  "Same contract but
the callback receives/returns a full pixel vector (all planes at once, length
= depth+alpha) instead of one plane at a time": the callback is called once
for every pixel position with the source pixel vector, and a destination pixel
the callback declines to set is left untouched. -/
def imProcessUnaryPointColorOp (src_image dst_image : Nat)
    (func : List float → List float → List float → Int → Int → M (Int × List float))
    (params : List float) (op_name : Option String) : M Int := do
  logKernel ⟨"imProcessUnaryPointColorOp",
    [KernelArg.img src_image, KernelArg.img dst_image, KernelArg.floats params,
      KernelArg.str op_name]⟩
  let src ← deref src_image
  let dst ← deref dst_image
  forEach (fun (c : Int × Int × Int) => do
      let x := c.1
      let y := c.2.1
      let src ← deref src_image
      let src_value ← readPixel src (y * src.width + x) src.planes.toNat 0
      let (ret, dst_value) ←
        func src_value (List.replicate dst.planes.toNat 0) params x y
      if ret ≠ 0 then writePixel dst_image (y * src.width + x) dst_value 0)
    (pixelCoords src.width src.height 1)
  pure 1

/-- The function `imluaProcessUnaryPointColorOp`. -/
def imluaProcessUnaryPointColorOp (H : Host) : M Int := do
  let src_image ← imlua_checkimage 1
  let dst_image ← imlua_checkimage 2
  let op_name ← luaL_optstring H 6
  let src ← deref src_image
  let dst ← deref dst_image
  let src_depth := if src.has_alpha then src.depth + 1 else src.depth
  let dst_depth := if dst.has_alpha then dst.depth + 1 else dst.depth
  let old_num_threads ← omp_get_num_threads H
  omp_set_num_threads H 1
  let params := [int2float src_depth, int2float dst_depth]
  imlua_checknotcfloat 1 src_image
  imlua_checknotcfloat 1 dst_image
  imlua_matchsize src_image dst_image
  luaL_checktype 3 LUA_TFUNCTION
  luaL_checktype 4 LUA_TTABLE
  let r ← imProcessUnaryPointColorOp src_image dst_image (imluaUnColorOpFunc H) params op_name
  lua_pushboolean r
  omp_set_num_threads H old_num_threads
  pure 1

/-- The function `imluaProcessMultiPointOp`.  The kernel
`imProcessMultiPointOp` is outside these sources and the specification does
not describe its iteration, so its effect is the host's. -/
def imluaProcessMultiPointOp (H : Host) : M Int := do
  let dst_image ← imlua_checkimage 2
  let op_name ← luaL_optstring H 6
  let old_num_threads ← omp_get_num_threads H
  omp_set_num_threads H 1
  imlua_checknotcfloat 1 dst_image
  luaL_checktype 3 LUA_TFUNCTION
  luaL_checktype 4 LUA_TTABLE
  let (src_image_list, src_count) ← imlua_toarrayimage 1 1
  let p0 ← arrayRead src_image_list 0
  let image0 ← deref p0
  if image0.data_type = imDataType.IM_CFLOAT then do
    free
    imlua_errorcfloat 1
  let dst ← deref dst_image
  if !imImageMatchSize image0 dst then do
    free
    imlua_errormatchsize
  if image0.depth ≠ dst.depth then do
    free
    luaL_error "source and destiny images must have the same depth"
  let params := [int2float src_count]
  let r ← hostKernel H ⟨"imProcessMultiPointOp",
    [KernelArg.imgs src_image_list, KernelArg.int src_count, KernelArg.img dst_image,
      KernelArg.floats params, KernelArg.str op_name]⟩
  lua_pushboolean r
  free
  omp_set_num_threads H old_num_threads
  pure 1

/-- The function `imluaProcessMultiPointColorOp`.  The kernel
`imProcessMultiPointColorOp` is outside these sources and the specification
does not describe its iteration, so its effect is the host's. -/
def imluaProcessMultiPointColorOp (H : Host) : M Int := do
  let dst_image ← imlua_checkimage 2
  let op_name ← luaL_optstring H 6
  let old_num_threads ← omp_get_num_threads H
  omp_set_num_threads H 1
  imlua_checknotcfloat 1 dst_image
  luaL_checktype 3 LUA_TFUNCTION
  luaL_checktype 4 LUA_TTABLE
  let (src_image_list, src_count) ← imlua_toarrayimage 1 1
  let p0 ← arrayRead src_image_list 0
  let image0 ← deref p0
  if image0.data_type = imDataType.IM_CFLOAT then do
    free
    imlua_errorcfloat 1
  let dst ← deref dst_image
  if !imImageMatchSize image0 dst then do
    free
    imlua_errormatchsize
  let src_depth := if image0.has_alpha then image0.depth + 1 else image0.depth
  let dst_depth := if dst.has_alpha then dst.depth + 1 else dst.depth
  let params := [int2float src_count, int2float src_depth, int2float dst_depth]
  let r ← hostKernel H ⟨"imProcessMultiPointColorOp",
    [KernelArg.imgs src_image_list, KernelArg.int src_count, KernelArg.img dst_image,
      KernelArg.floats params, KernelArg.str op_name]⟩
  lua_pushboolean r
  free
  omp_set_num_threads H old_num_threads
  pure 1

/-! ## `imlua_aux.h`, `imlua_aux.c`, `imlua_process.c`: gates on one image -/

/-- The function `imlua_argerrorcolorspace`.  The message is put together in
a buffer of 100 characters; appending a name that does not fit in it is
undefined. -/
def imlua_argerrorcolorspace (H : Host) (index : Int) (color_space : imColorSpace) : M Unit :=
  if "color space must be ".utf8ByteSize + (H.imColorModeSpaceName color_space).utf8ByteSize
      < 100 then
    luaL_argerror index ("color space must be " ++ H.imColorModeSpaceName color_space)
  else raise (Fault.undefined "strcat beyond the message buffer")

/-- The function `imlua_argerrordatatype`, with the same buffer. -/
def imlua_argerrordatatype (H : Host) (index : Int) (data_type : imDataType) : M Unit :=
  if "data type must be ".utf8ByteSize + (H.imDataTypeName data_type).utf8ByteSize < 100 then
    luaL_argerror index ("data type must be " ++ H.imDataTypeName data_type)
  else raise (Fault.undefined "strcat beyond the message buffer")

/-- The macro `imlua_checkcolorspace`. -/
def imlua_checkcolorspace (H : Host) (a : Int) (i : Nat) (c : imColorSpace) : M Unit := do
  let image ← deref i
  if image.color_space ≠ c then imlua_argerrorcolorspace H a c

/-- The macro `imlua_checkdatatype`. -/
def imlua_checkdatatype (H : Host) (a : Int) (i : Nat) (d : imDataType) : M Unit := do
  let image ← deref i
  if image.data_type ≠ d then imlua_argerrordatatype H a d

/-- The macro `imlua_checktype`: the color space check, then the data type
check. -/
def imlua_checktype (H : Host) (a : Int) (i : Nat) (c : imColorSpace) (d : imDataType) :
    M Unit := do
  imlua_checkcolorspace H a i c
  imlua_checkdatatype H a i d

/-- The function `imlua_checkhistogramtype`. -/
def imlua_checkhistogramtype (index : Int) (i : Nat) : M Unit := do
  let image ← deref i
  if image.data_type ≠ imDataType.IM_BYTE ∧ image.data_type ≠ imDataType.IM_SHORT ∧
      image.data_type ≠ imDataType.IM_USHORT then
    luaL_argerror index "image data type must be byte, short or ushort"

/-- The macro `luaL_argcheck`. -/
def luaL_argcheck (cond : Bool) (numarg : Int) (extramsg : String) : M Unit :=
  if !cond then luaL_argerror numarg extramsg else pure ()

/-- The function `lua_toboolean`: 0 for false, nil and an absent value, 1 for
every other value. -/
def lua_toboolean (L : lua_State) (idx : Int) : Int :=
  match L.index idx with
  | none => 0
  | some LuaValue.nil => 0
  | some (LuaValue.boolean false) => 0
  | some _ => 1

/-! ## `imlua_aux.c`: bit masks -/

/-- The C string a Lua string is read as through `const char *`: its
characters up to the first NUL.  A Lua string is a sequence of bytes and may
hold NUL bytes; each character stands for one byte. -/
def cstring (s : String) : List Char := s.toList.takeWhile (fun c => c != Char.ofNat 0)

/-- The function `strlen`. -/
def strlen (str : List Char) : Nat := str.length

/-- The loop `for (i = 0; i < 8; i++)` of `imlua_checkmask`: `k` characters
are left to read, the next is `str[i]`; `mask` is an `unsigned char`. -/
def maskLoop (index : Int) (str : List Char) : Nat → Int → Nat → M Nat
  | 0, _, mask => pure mask
  | k + 1, i, mask => do
      let c ← arrayRead str i
      if c ≠ '0' ∧ c ≠ '1' then
        luaL_argerror index "invalid mask, must have 0s or 1s only"
      maskLoop index str k (i + 1) ((mask ||| ((c.toNat - '0'.toNat) <<< (7 - i).toNat)) % 256)

/-- The function `imlua_checkmask`. -/
def imlua_checkmask (H : Host) (index : Int) : M Nat := do
  let s ← luaL_checkstring H index
  let str := cstring s
  if strlen str ≠ 8 then
    luaL_argerror index "invalid mask, must have 8 elements"
  maskLoop index str 8 0 0

/-! ## `imlua_aux.h`, `imlua_convert.c`: conversions -/

/-- The macro `imlua_pusherror(L, _e)`, which expands to
`((_e == IM_ERR_NONE)? lua_pushnil(L): lua_pushnumber(L, _e))`.  The text of
the argument stands twice in the expansion, so an argument that is a call is
evaluated for the comparison and, when the comparison fails, once more for
the value that is pushed. -/
def imlua_pusherror (H : Host) (e : M Int) : M Unit := do
  let e1 ← e
  if e1 = H.IM_ERR_NONE then lua_pushnil
  else do
    let e2 ← e
    lua_pushnumber (e2 : ℚ)

/-- The function `imluaConvertDataType`. -/
def imluaConvertDataType (H : Host) : M Int := do
  let src_image ← imlua_checkimage 1
  let dst_image ← imlua_checkimage 2
  let cpx2real ← luaL_checkint H 3
  let gamma ← luaL_checknumber H 4
  let gamma := H.c_float gamma
  let L ← getState
  let abssolute := lua_toboolean L 5
  let cast_mode ← luaL_checkint H 6
  imlua_matchcolorspace src_image dst_image
  imlua_pusherror H (hostKernel H
    ⟨if H.IM_PROCESS then "imProcessConvertDataType" else "imConvertDataType",
      [KernelArg.img src_image, KernelArg.img dst_image, KernelArg.int cpx2real,
        KernelArg.floats [gamma], KernelArg.int abssolute, KernelArg.int cast_mode]⟩)
  pure 1

/-- The function `imluaConvertColorSpace`. -/
def imluaConvertColorSpace (H : Host) : M Int := do
  let src_image ← imlua_checkimage 1
  let dst_image ← imlua_checkimage 2
  imlua_matchdatatype src_image dst_image
  imlua_pusherror H (hostKernel H
    ⟨if H.IM_PROCESS then "imProcessConvertColorSpace" else "imConvertColorSpace",
      [KernelArg.img src_image, KernelArg.img dst_image]⟩)
  pure 1

/-- The function `imluaConvertToBitmap`. -/
def imluaConvertToBitmap (H : Host) : M Int := do
  let src_image ← imlua_checkimage 1
  let dst_image ← imlua_checkimage 2
  let cpx2real ← luaL_checkint H 3
  let gamma ← luaL_checknumber H 4
  let gamma := H.c_float gamma
  let L ← getState
  let abssolute := lua_toboolean L 5
  let cast_mode ← luaL_checkint H 6
  imlua_matchsize src_image dst_image
  let dst ← deref dst_image
  imlua_matchcheck (H.imImageIsBitmap dst) "image must be a bitmap"
  imlua_pusherror H (hostKernel H
    ⟨if H.IM_PROCESS then "imProcessConvertToBitmap" else "imConvertToBitmap",
      [KernelArg.img src_image, KernelArg.img dst_image, KernelArg.int cpx2real,
        KernelArg.floats [gamma], KernelArg.int abssolute, KernelArg.int cast_mode]⟩)
  pure 1

/-! ## `imlua_process.c`: crop -/

/-- The function `imluaProcessCrop`. -/
def imluaProcessCrop (H : Host) : M Int := do
  let src_image ← imlua_checkimage 1
  let dst_image ← imlua_checkimage 2
  let xmin ← luaL_checkint H 3
  let ymin ← luaL_checkint H 4
  imlua_matchcolor src_image dst_image
  let src ← deref src_image
  let dst ← deref dst_image
  luaL_argcheck (decide (xmin ≥ 0) && decide (xmin < src.width)) 3
    "xmin must be >= 0 and < width"
  luaL_argcheck (decide (ymin ≥ 0) && decide (ymin < src.height)) 4
    "ymin must be >= 0 and < height"
  luaL_argcheck (decide (dst.width ≤ src.width - xmin)) 2
    "destiny image size must be smaller than source image width-xmin"
  luaL_argcheck (decide (dst.height ≤ src.height - ymin)) 2
    "destiny image size must be smaller than source image height-ymin"
  let _ ← hostKernel H ⟨"imProcessCrop",
    [KernelArg.img src_image, KernelArg.img dst_image, KernelArg.int xmin, KernelArg.int ymin]⟩
  pure 0

/-! ## `imlua_process.c`: replacing a color -/

/-- The function `imluaProcessReplaceColor`. -/
def imluaProcessReplaceColor (H : Host) : M Int := do
  let src_image ← imlua_checkimage 1
  let dst_image ← imlua_checkimage 2
  imlua_checknotcfloat 1 src_image
  imlua_match src_image dst_image
  let (src_color, src_count) ← imlua_toarrayfloat H 3 1
  let src ← deref src_image
  if src_count ≠ src.depth then do
    free
    luaL_argerror 3 "the colors must have the same number of components of the images"
  let (dst_color, dst_count) ← imlua_toarrayfloat H 4 1
  let src ← deref src_image
  if dst_count ≠ src.depth then do
    free
    free
    luaL_argerror 4 "the colors must have the same number of components of the images"
  let _ ← hostKernel H ⟨"imProcessReplaceColor",
    [KernelArg.img src_image, KernelArg.img dst_image, KernelArg.floats (src_color.getD []),
      KernelArg.floats (dst_color.getD [])]⟩
  free
  free
  pure 0

/-! ## Building Lua tables (Lua 5.1 reference manual), `imlua_aux.c`: new arrays -/

/-- The state with other tables. -/
def lua_State.withTables (L : lua_State) (tables : List LuaTable) : lua_State :=
  { L with tables := tables }

/-- The first border of a list of entries: the least `n` with `t[n + 1]` nil.
It is the length of a table whose values from 1 on have no holes. -/
def firstBorder (entries : List (Int × LuaValue)) : Nat :=
  ((List.range (entries.length + 1)).find?
    (fun n : Nat => (entries.lookup ((n : Int) + 1)).getD LuaValue.nil == LuaValue.nil)).getD 0

/-- The assignment `t[k] = v` without metamethods.  The manual lets the length
of a table with holes be any border; a table written through this function
reports its first border. -/
def LuaTable.rawseti (t : LuaTable) (k : Int) (v : LuaValue) : LuaTable :=
  ⟨firstBorder ((k, v) :: t.entries), (k, v) :: t.entries⟩

/-- The function `lua_createtable`: push a new empty table. -/
def lua_createtable (_narr _nrec : Int) : M Unit := fun L =>
  push (LuaValue.table L.tables.length) (L.withTables (L.tables ++ [⟨0, []⟩]))

/-- The function `lua_rawseti`: `t[n] = v` for the table `t` at an index and
the value `v` on top of the stack, which is popped.  Without a table at the
index or a value on the stack the call is undefined. -/
def lua_rawseti (idx : Int) (n : Int) : M Unit := fun L =>
  match L.index idx, L.index (-1) with
  | some (LuaValue.table r), some v =>
      match L.tables[r]? with
      | some t =>
          (Except.ok (), (L.withTables (L.tables.set r (t.rawseti n v))).withStack
            (L.stack.take (L.stack.length - 1)))
      | none => (Except.error (Fault.undefined "lua_rawseti: no table"), L)
  | _, _ => (Except.error (Fault.undefined "lua_rawseti: no table"), L)

/-- A loop `for (i = 0; i < count; i++) body(i)`: `k` rounds are left and the
next is round `i`. -/
def forLoop (body : Int → M Unit) : Nat → Int → M Unit
  | 0, _ => pure ()
  | k + 1, i => do
      body i
      forLoop body k (i + 1)

/-- The function `imlua_newarrayint`. -/
def imlua_newarrayint (value : List Int) (count : Int) (start : Int) : M Int := do
  lua_createtable count 0
  forLoop (fun i => do
    let v ← arrayRead value i
    lua_pushinteger v
    lua_rawseti (-2) (i + start)) count.toNat 0
  pure 1

/-- The function `imlua_newarrayulong`.  `lua_pushnumber` takes a `double`, so
each `unsigned long` is converted to one, which rounds it when it has more
significant bits than a `double` holds. -/
def imlua_newarrayulong (H : Host) (value : List Nat) (count : Int) (start : Int) : M Int := do
  lua_createtable count 0
  forLoop (fun i => do
    let v ← arrayRead value i
    lua_pushnumber (H.ulong2double v)
    lua_rawseti (-2) (i + start)) count.toNat 0
  pure 1

/-- The function `imlua_newarrayfloat`. -/
def imlua_newarrayfloat (value : List float) (count : Int) (start : Int) : M Int := do
  lua_createtable count 0
  forLoop (fun i => do
    let v ← arrayRead value i
    lua_pushnumber v
    lua_rawseti (-2) (i + start)) count.toNat 0
  pure 1

/-! ## `imlua_process.c`: image analysis -/

/-- A sample read through `imushort *`: an unsigned 16-bit number. -/
def ushortSample (v : float) : Int := float2int v % 65536

/-- The loop of `iGetMax`: `k` samples are left, the next is sample `i`. -/
def getMaxLoop (data : List float) : Nat → Int → Int → M Int
  | 0, _, max => pure max
  | k + 1, i, max => do
      let v ← arrayRead data i
      getMaxLoop data k (i + 1) (if ushortSample v > max then ushortSample v else max)

/-- The function `iGetMax`.  `image->count` is `width * height`. -/
def iGetMax (i : Nat) : M Int := do
  let image ← deref i
  let data ← arrayRead image.data 0
  getMaxLoop data (image.width * image.height).toNat 0 0

/-- The function `imlua_checkregioncount`. -/
def imlua_checkregioncount (H : Host) (narg : Int) (i : Nat) : M Int := fun L =>
  if lua_isnoneornil L narg then iGetMax i L
  else (do
    let n ← luaL_checknumber H narg
    pure (H.number2int n)) L

/-- An array of `count` cells after a kernel has stored into it: the values
the host gives, 0 where it gives none. -/
def outBuffer {α : Type} (conv : ℚ → α) (count : Int) (stored : List ℚ) : List α :=
  (List.range count.toNat).map (fun j => conv (stored.getD j 0))

/-- The function `imluaAnalyzeFindRegions`. -/
def imluaAnalyzeFindRegions (H : Host) : M Int := do
  let src_image ← imlua_checkimage 1
  let dst_image ← imlua_checkimage 2
  let connect ← luaL_checkint H 3
  let L ← getState
  let touch_border := lua_toboolean L 4
  imlua_checkcolorspace H 1 src_image imColorSpace.IM_BINARY
  imlua_checktype H 2 dst_image imColorSpace.IM_GRAY imDataType.IM_USHORT
  luaL_argcheck (decide (connect = 4) || decide (connect = 8)) 3
    "invalid connect value, must be 4 or 8"
  let r ← hostKernel H ⟨"imAnalyzeFindRegions",
    [KernelArg.img src_image, KernelArg.img dst_image, KernelArg.int connect,
      KernelArg.int touch_border]⟩
  lua_pushnumber (r : ℚ)
  pure 1

/-- The function `imluaAnalyzeMeasureHoles`.  The kernel stores the number of
holes through `holes_count`, which is the number the host returns, and fills
the arrays `area` and `perim`, which are the host's first and second output
arrays. -/
def imluaAnalyzeMeasureHoles (H : Host) : M Int := do
  let image ← imlua_checkimage 1
  imlua_checktype H 1 image imColorSpace.IM_GRAY imDataType.IM_USHORT
  let connect ← luaL_checkint H 2
  let count ← imlua_checkregioncount H 3 image
  malloc
  malloc
  let L ← getState
  let call : KernelCall := ⟨"imAnalyzeMeasureHoles", [KernelArg.img image, KernelArg.int connect]⟩
  let stored := H.kernel_out call L.images
  let holes_count ← hostKernel H call
  let area : List Int := outBuffer float2int count (stored.getD 0 [])
  let perim : List float := outBuffer (fun v => v) count (stored.getD 1 [])
  lua_pushnumber (holes_count : ℚ)
  let _ ← imlua_newarrayint area holes_count 0
  let _ ← imlua_newarrayfloat perim holes_count 0
  free
  free
  pure 3

/-- The function `imluaProcessRemoveByArea`. -/
def imluaProcessRemoveByArea (H : Host) : M Int := do
  let src_image ← imlua_checkimage 1
  let dst_image ← imlua_checkimage 2
  let connect ← luaL_checkint H 3
  let start_size ← luaL_checkint H 4
  let end_size ← luaL_checkint H 5
  let L ← getState
  let inside := lua_toboolean L 6
  imlua_checkcolorspace H 1 src_image imColorSpace.IM_BINARY
  imlua_match src_image dst_image
  luaL_argcheck (decide (connect = 4) || decide (connect = 8)) 3
    "invalid connect value, must be 4 or 8"
  let _ ← hostKernel H ⟨"imProcessRemoveByArea",
    [KernelArg.img src_image, KernelArg.img dst_image, KernelArg.int connect,
      KernelArg.int start_size, KernelArg.int end_size, KernelArg.int inside]⟩
  pure 0

/-- The function `imluaProcessFillHoles`. -/
def imluaProcessFillHoles (H : Host) : M Int := do
  let src_image ← imlua_checkimage 1
  let dst_image ← imlua_checkimage 2
  let connect ← luaL_checkint H 3
  imlua_checkcolorspace H 1 src_image imColorSpace.IM_BINARY
  imlua_match src_image dst_image
  luaL_argcheck (decide (connect = 4) || decide (connect = 8)) 3
    "invalid connect value, must be 4 or 8"
  let _ ← hostKernel H ⟨"imProcessFillHoles",
    [KernelArg.img src_image, KernelArg.img dst_image, KernelArg.int connect]⟩
  pure 0

/-! ## `imlua_process.c`: synthetic image render with a Lua callback -/

/-- The function `imluaRenderFunc`.  Its state is the global `g_State`, which
the binding sets to its own state for the time of the kernel call. -/
def imluaRenderFunc (H : Host) (x y d : Int) : M float := do
  lua_pushvalue 2
  lua_pushinteger x
  lua_pushinteger y
  lua_pushinteger d
  lua_pushvalue 4
  lua_call H 4 1
  let ret ← luaL_checknumber H (-1)
  lua_pop 1
  pure (H.c_float ret)

/-- Modelled from the spec: the kernel `imProcessRenderOp` of
`im_process_pnt.h`, whose body is outside these sources.  "For every pixel
(x,y,plane d), calls callback(x,y,d,params) -> value, writing value into
image; plus indicates accumulate-into-existing-value versus overwrite." -/
def imProcessRenderOp (image : Nat) (func : Int → Int → Int → M float)
    (render_name : String) (plus : Int) : M Int := do
  logKernel ⟨"imProcessRenderOp",
    [KernelArg.img image, KernelArg.str (some render_name), KernelArg.int plus]⟩
  let im ← deref image
  forEach (fun (c : Int × Int × Int) => do
      let x := c.1
      let y := c.2.1
      let d := c.2.2
      let value ← func x y d
      let im ← deref image
      if plus ≠ 0 then do
        let old ← readSample im d (y * im.width + x)
        writeSample image d (y * im.width + x) (old + value)
      else
        writeSample image d (y * im.width + x) value)
    (pixelCoords im.width im.height im.planes)
  pure 1

/-- The function `imluaProcessRenderOp`. -/
def imluaProcessRenderOp (H : Host) : M Int := do
  let image ← imlua_checkimage 1
  let render_name ← luaL_checkstring H 3
  let plus ← luaL_checkint H 5
  let old_num_threads ← omp_get_num_threads H
  omp_set_num_threads H 1
  imlua_checknotcfloat 1 image
  luaL_checktype 2 LUA_TFUNCTION
  luaL_checktype 4 LUA_TTABLE
  let r ← imProcessRenderOp image (imluaRenderFunc H) render_name plus
  lua_pushboolean r
  omp_set_num_threads H old_num_threads
  pure 1

/-- The function `imluaRenderCondFunc`.  The result is the returned `float`
and the value stored through `cond`. -/
def imluaRenderCondFunc (H : Host) (x y d : Int) : M (float × Int) := do
  lua_pushvalue 2
  lua_pushinteger x
  lua_pushinteger y
  lua_pushinteger d
  lua_pushvalue 4
  lua_call H 4 2
  let L ← getState
  let cond := lua_toboolean L (-1)
  let ret ← luaL_checknumber H (-2)
  lua_pop 2
  pure (H.c_float ret, cond)

/-- Modelled from the spec: the kernel `imProcessRenderCondOp` of
`im_process_pnt.h`, whose body is outside these sources.  "Like
invokeRenderOp but callback also returns a boolean "apply" flag; pixel is
written only if true." -/
def imProcessRenderCondOp (image : Nat) (func : Int → Int → Int → M (float × Int))
    (render_name : String) : M Int := do
  logKernel ⟨"imProcessRenderCondOp",
    [KernelArg.img image, KernelArg.str (some render_name)]⟩
  let im ← deref image
  forEach (fun (c : Int × Int × Int) => do
      let x := c.1
      let y := c.2.1
      let d := c.2.2
      let (value, cond) ← func x y d
      let im ← deref image
      if cond ≠ 0 then writeSample image d (y * im.width + x) value)
    (pixelCoords im.width im.height im.planes)
  pure 1

/-- The function `imluaProcessRenderCondOp`. -/
def imluaProcessRenderCondOp (H : Host) : M Int := do
  let image ← imlua_checkimage 1
  let render_name ← luaL_checkstring H 3
  let old_num_threads ← omp_get_num_threads H
  omp_set_num_threads H 1
  imlua_checknotcfloat 1 image
  luaL_checktype 2 LUA_TFUNCTION
  luaL_checktype 4 LUA_TTABLE
  let r ← imProcessRenderCondOp image (imluaRenderCondFunc H) render_name
  lua_pushboolean r
  omp_set_num_threads H old_num_threads
  pure 1

/-! ## `imlua_process.c`: measuring regions -/

/-- The function `imluaAnalyzeMeasureArea`.  The kernel fills `area`, which is
the host's first output array. -/
def imluaAnalyzeMeasureArea (H : Host) : M Int := do
  let image ← imlua_checkimage 1
  imlua_checktype H 1 image imColorSpace.IM_GRAY imDataType.IM_USHORT
  let count ← imlua_checkregioncount H 2 image
  malloc
  let L ← getState
  let call : KernelCall := ⟨"imAnalyzeMeasureArea", [KernelArg.img image, KernelArg.int count]⟩
  let stored := H.kernel_out call L.images
  let _ ← hostKernel H call
  let area : List Int := outBuffer float2int count (stored.getD 0 [])
  let _ ← imlua_newarrayint area count 0
  free
  pure 1

/-- The function `imluaAnalyzeMeasureCentroid`.  The region count is read into
`count` first; then `imlua_toarrayintopt` is given `&count` and stores through
it in every case (0 at its start, the number of elements for a table), so
that the `count` used from there on is the stored one.  The kernel fills `cx`
and `cy`, which are the host's first and second output arrays. -/
def imluaAnalyzeMeasureCentroid (H : Host) : M Int := do
  let image ← imlua_checkimage 1
  imlua_checktype H 1 image imColorSpace.IM_GRAY imDataType.IM_USHORT
  let _ ← imlua_checkregioncount H 3 image
  let (area, count) ← imlua_toarrayintopt H 2 0
  malloc
  malloc
  let L ← getState
  let call : KernelCall := ⟨"imAnalyzeMeasureCentroid",
    [KernelArg.img image, KernelArg.ints area, KernelArg.int count]⟩
  let stored := H.kernel_out call L.images
  let _ ← hostKernel H call
  let cx : List float := outBuffer (fun v => v) count (stored.getD 0 [])
  let cy : List float := outBuffer (fun v => v) count (stored.getD 1 [])
  let _ ← imlua_newarrayfloat cx count 0
  let _ ← imlua_newarrayfloat cy count 0
  if area.isSome then free
  free
  free
  pure 2

/-! ## `imlua_process.c`: Hough lines -/

/-- The macro `IMSQR` of `imlua_checkhoughsize`. -/
def IMSQR (x : Int) : Int := x * x

/-- The function `imlua_checkhoughsize`.  `hough_rmax` is
`(int)(sqrt((double)n)/2.0)` for the `int` `n = IMSQR(width) + IMSQR(height)`:
half the square root of `n`, truncated, which is the integer square root of
`n` halved.  The squares are computed in `int`, where a value of 2^31 or more
is an overflow, which is undefined. -/
def imlua_checkhoughsize (image hough_image : Nat) (param : Int) : M Unit := do
  let im ← deref image
  let hough ← deref hough_image
  if hough.width ≠ 180 then luaL_argerror param "invalid image width"
  if ¬ (IMSQR im.width + IMSQR im.height < 2 ^ 31) then
    raise (Fault.undefined "signed integer overflow")
  let hough_rmax : Int := ((Nat.sqrt (IMSQR im.width + IMSQR im.height).toNat / 2 : Nat) : Int)
  if hough.height ≠ 2 * hough_rmax + 1 then luaL_argerror param "invalid image height"

/-- The function `imluaProcessHoughLines`. -/
def imluaProcessHoughLines (H : Host) : M Int := do
  let src_image ← imlua_checkimage 1
  let dst_image ← imlua_checkimage 2
  imlua_checkcolorspace H 1 src_image imColorSpace.IM_BINARY
  imlua_checktype H 2 dst_image imColorSpace.IM_GRAY imDataType.IM_INT
  imlua_checkhoughsize src_image dst_image 2
  let r ← hostKernel H ⟨"imProcessHoughLines", [KernelArg.img src_image, KernelArg.img dst_image]⟩
  lua_pushboolean r
  pure 0

/-! ## `imlua_process.c`: geometric operations -/

/-- The function `imluaProcessRotateRef`.  `cos0` and `sin0` are `double`s, as
Lua numbers are, and are handed on as they are read. -/
def imluaProcessRotateRef (H : Host) : M Int := do
  let src_image ← imlua_checkimage 1
  let dst_image ← imlua_checkimage 2
  let cos0 ← luaL_checknumber H 3
  let sin0 ← luaL_checknumber H 4
  let x ← luaL_checkint H 5
  let y ← luaL_checkint H 6
  let L ← getState
  let to_origin := lua_toboolean L 7
  let order ← luaL_checkint H 8
  imlua_matchcolor src_image dst_image
  luaL_argcheck (decide (order = 0) || decide (order = 1) || decide (order = 3)) 5
    "invalid order, must be 0, 1, or 3"
  let r ← hostKernel H ⟨"imProcessRotateRef",
    [KernelArg.img src_image, KernelArg.img dst_image,
      KernelArg.floats [cos0, sin0], KernelArg.int x, KernelArg.int y,
      KernelArg.int to_origin, KernelArg.int order]⟩
  lua_pushboolean r
  pure 1

/-- The function `imluaProcessRotate90`. -/
def imluaProcessRotate90 (H : Host) : M Int := do
  let src_image ← imlua_checkimage 1
  let dst_image ← imlua_checkimage 2
  let L ← getState
  let dir := lua_toboolean L 3
  imlua_matchcolor src_image dst_image
  let src ← deref src_image
  let dst ← deref dst_image
  luaL_argcheck (decide (dst.width = src.height) && decide (dst.height = src.width)) 2
    "destiny width and height must have the source height and width"
  luaL_argcheck (decide (dir = -1) || decide (dir = 1)) 3 "invalid dir, can be -1 or 1 only"
  let _ ← hostKernel H ⟨"imProcessRotate90",
    [KernelArg.img src_image, KernelArg.img dst_image, KernelArg.int dir]⟩
  pure 0

/-- The function `imluaProcessInterlaceSplit`.  `/` and `%` are those of C on
`int`: the quotient is truncated toward zero and the remainder has the sign of
the dividend. -/
def imluaProcessInterlaceSplit (H : Host) : M Int := do
  let src_image ← imlua_checkimage 1
  let dst_image1 ← imlua_checkimage 2
  let dst_image2 ← imlua_checkimage 3
  imlua_matchcolor src_image dst_image1
  imlua_matchcolor src_image dst_image2
  let src ← deref src_image
  let dst1 ← deref dst_image1
  let dst2 ← deref dst_image2
  luaL_argcheck (decide (dst1.width = src.width) && decide (dst2.width = src.width)) 2
    "destiny width must be equal to source width"
  if Int.tmod src.height 2 ≠ 0 then do
    let dst_height1 := Int.tdiv src.height 2 + 1
    luaL_argcheck (decide (dst1.height = dst_height1)) 2
      "destiny1 height must be equal to source height/2+1 if height odd"
  else
    luaL_argcheck (decide (dst1.height = Int.tdiv src.height 2)) 2
      "destiny1 height must be equal to source height/2 if height even"
  luaL_argcheck (decide (dst2.height = Int.tdiv src.height 2)) 2
    "destiny2 height must be equal to source height/2"
  let _ ← hostKernel H ⟨"imProcessInterlaceSplit",
    [KernelArg.img src_image, KernelArg.img dst_image1, KernelArg.img dst_image2]⟩
  pure 0

/-! ## `imlua_process.c`: callbacks of the multi-image point operations -/

/-- The function `imluaMultiOpFunc`.  The result is the returned `int` and the
value of `*dst_value` on return. -/
def imluaMultiOpFunc (H : Host) (src_value : List float) (dst_value : float)
    (params : List float) (x y d : Int) : M (Int × float) := do
  let p0 ← arrayRead params 0
  let src_count := float2int p0
  lua_pushvalue 3
  pushLoop src_value src_count.toNat 0
  let n ← imlua_unpacktable 4
  lua_pushvalue 5
  lua_pushinteger x
  lua_pushinteger y
  lua_pushinteger d
  lua_call H (src_count + n + 4) 1
  let L ← getState
  let (ret, dst_value) ←
    (if !lua_isnil L (-1) then do
      let v ← luaL_checknumber H (-1)
      pure (1, H.c_float v)
    else pure (0, dst_value) : M (Int × float))
  lua_pop 1
  pure (ret, dst_value)

/-- The function `imluaMultiColorOpFunc`.  The result is the returned `int`
and the contents of `dst_value` on return. -/
def imluaMultiColorOpFunc (H : Host) (src_value : List float) (dst_value : List float)
    (params : List float) (x y : Int) : M (Int × List float) := do
  let p0 ← arrayRead params 0
  let src_count := float2int p0
  let p1 ← arrayRead params 1
  let src_depth := float2int p1
  let p2 ← arrayRead params 2
  let dst_depth := float2int p2
  lua_pushvalue 3
  let m := src_depth * src_count
  pushLoop src_value m.toNat 0
  let n ← imlua_unpacktable 4
  lua_pushvalue 5
  lua_pushinteger x
  lua_pushinteger y
  lua_call H (m + n + 3) dst_depth
  let L ← getState
  let (ret, dst_value) ←
    (if !lua_isnil L (-dst_depth) then do
      let dst_value ← storeLoop H dst_depth dst_value dst_depth.toNat 0
      pure (1, dst_value)
    else pure (0, dst_value) : M (Int × List float))
  lua_pop dst_depth
  pure (ret, dst_value)

/-! ## `imlua_process.c`: arithmetic -/

/-- The `switch (src_image1->data_type)` of `imluaProcessArithmeticOp`: the
data types the destination may have for each data type of the source. -/
def imluaProcessArithmeticOp_switch (src dst : imImage) : M Unit :=
  match src.data_type with
  | imDataType.IM_BYTE =>
      luaL_argcheck (dst.data_type == imDataType.IM_BYTE || dst.data_type == imDataType.IM_SHORT ||
        dst.data_type == imDataType.IM_USHORT || dst.data_type == imDataType.IM_INT ||
        dst.data_type == imDataType.IM_FLOAT) 2
        "source image is byte, destiny image data type can be byte, short, ushort, int and float only."
  | imDataType.IM_SHORT =>
      luaL_argcheck (dst.data_type == imDataType.IM_SHORT ||
        dst.data_type == imDataType.IM_USHORT || dst.data_type == imDataType.IM_INT ||
        dst.data_type == imDataType.IM_FLOAT) 2
        "source image is short, destiny image data type can be short, ushort, int and float only."
  | imDataType.IM_USHORT =>
      luaL_argcheck (dst.data_type == imDataType.IM_SHORT ||
        dst.data_type == imDataType.IM_USHORT || dst.data_type == imDataType.IM_INT ||
        dst.data_type == imDataType.IM_FLOAT) 2
        "source image is ushort, destiny image data type can be short, ushort, int and float only."
  | imDataType.IM_INT =>
      luaL_argcheck (dst.data_type == imDataType.IM_INT ||
        dst.data_type == imDataType.IM_FLOAT) 2
        "source image is int, destiny image data type can be int and float only."
  | imDataType.IM_FLOAT =>
      luaL_argcheck (dst.data_type == imDataType.IM_FLOAT) 2
        "source image is float, destiny image data type can be float only."
  | imDataType.IM_CFLOAT =>
      luaL_argcheck (dst.data_type == imDataType.IM_CFLOAT) 2
        "source image is cfloat, destiny image data type can be cfloat only."

/-- The function `imluaProcessArithmeticOp`. -/
def imluaProcessArithmeticOp (H : Host) : M Int := do
  let src_image1 ← imlua_checkimage 1
  let src_image2 ← imlua_checkimage 2
  let dst_image ← imlua_checkimage 3
  let op ← luaL_checkint H 4
  imlua_match src_image1 src_image2
  imlua_matchsize src_image1 dst_image
  imlua_matchsize src_image2 dst_image
  let src1 ← deref src_image1
  let dst ← deref dst_image
  imluaProcessArithmeticOp_switch src1 dst
  let _ ← hostKernel H ⟨"imProcessArithmeticOp",
    [KernelArg.img src_image1, KernelArg.img src_image2, KernelArg.img dst_image, KernelArg.int op]⟩
  pure 0

/-- The `switch (src_image->data_type)` of `imluaProcessArithmeticConstOp`. -/
def imluaProcessArithmeticConstOp_switch (src dst : imImage) : M Unit :=
  match src.data_type with
  | imDataType.IM_BYTE =>
      luaL_argcheck (dst.data_type == imDataType.IM_BYTE || dst.data_type == imDataType.IM_SHORT ||
        dst.data_type == imDataType.IM_USHORT || dst.data_type == imDataType.IM_INT ||
        dst.data_type == imDataType.IM_FLOAT) 2
        "source image is byte, destiny image data type can be byte, short, ushort, int and float only."
  | imDataType.IM_SHORT =>
      luaL_argcheck (dst.data_type == imDataType.IM_BYTE || dst.data_type == imDataType.IM_SHORT ||
        dst.data_type == imDataType.IM_USHORT || dst.data_type == imDataType.IM_INT ||
        dst.data_type == imDataType.IM_FLOAT) 2
        "source image is short, destiny image data type can be byte, short, ushort, int and float only."
  | imDataType.IM_USHORT =>
      luaL_argcheck (dst.data_type == imDataType.IM_BYTE || dst.data_type == imDataType.IM_SHORT ||
        dst.data_type == imDataType.IM_USHORT || dst.data_type == imDataType.IM_INT ||
        dst.data_type == imDataType.IM_FLOAT) 2
        "source image is ushort, destiny image data type can be byte, short, ushort, int and float only."
  | imDataType.IM_INT =>
      luaL_argcheck (dst.data_type == imDataType.IM_BYTE || dst.data_type == imDataType.IM_SHORT ||
        dst.data_type == imDataType.IM_USHORT || dst.data_type == imDataType.IM_INT ||
        dst.data_type == imDataType.IM_FLOAT) 2
        "source image is int, destiny image data type can be byte, short, ushort, int and float only."
  | imDataType.IM_FLOAT =>
      luaL_argcheck (dst.data_type == imDataType.IM_FLOAT) 2
        "source image is float, destiny image data type can be float only."
  | imDataType.IM_CFLOAT =>
      luaL_argcheck (dst.data_type == imDataType.IM_CFLOAT) 2
        "source image is cfloat, destiny image data type can be cfloat only."

/-- The function `imluaProcessArithmeticConstOp`. -/
def imluaProcessArithmeticConstOp (H : Host) : M Int := do
  let src_image ← imlua_checkimage 1
  let src_const ← luaL_checknumber H 2
  let src_const := H.c_float src_const
  let dst_image ← imlua_checkimage 3
  let op ← luaL_checkint H 4
  imlua_matchsize src_image dst_image
  let src ← deref src_image
  let dst ← deref dst_image
  imluaProcessArithmeticConstOp_switch src dst
  let _ ← hostKernel H ⟨"imProcessArithmeticConstOp",
    [KernelArg.img src_image, KernelArg.floats [src_const], KernelArg.img dst_image,
      KernelArg.int op]⟩
  pure 0

/-! ## `imlua_process.c`: rendering a constant -/

/-- The function `imluaProcessRenderConstant`. -/
def imluaProcessRenderConstant (H : Host) : M Int := do
  let image ← imlua_checkimage 1
  imlua_checknotcfloat 1 image
  let (value, count) ← imlua_toarrayfloat H 2 1
  let im ← deref image
  if count ≠ im.depth then do
    free
    luaL_argerror 2 "invalid number of planes"
  let r ← hostKernel H ⟨"imProcessRenderConstant",
    [KernelArg.img image, KernelArg.floats (value.getD [])]⟩
  lua_pushboolean r
  free
  pure 1

/-! ## What the claims speak of -/

/-- The values `imlua_unpacktable` pushes for a table. -/
def unpacked (t : LuaTable) : List LuaValue :=
  (List.range t.objlen).map (fun j : Nat => t.rawgeti ((j : Int) + 1))

/-- The value `lua_pushvalue(L, 5)` pushes in a callback trampoline, where a
copy of the function at index 3 has been pushed before: the fifth argument
of the binding, or that copy when the binding was given four arguments. -/
def userdataArg (L : lua_State) : LuaValue :=
  ((L.stack ++ [(L.index 3).getD LuaValue.nil])[4]?).getD LuaValue.nil

/-- The arguments `imluaUnOpFunc` gives the callback: the source value, the
unpacked parameters, the user data and the position. -/
def unOpArgs (L : lua_State) (src_value : float) (x y d : Int) : List LuaValue :=
  LuaValue.number src_value :: (unpacked (L.tableAt 4) ++
    [userdataArg L, LuaValue.number (x : ℚ), LuaValue.number (y : ℚ), LuaValue.number (d : ℚ)])

/-- The arguments `imluaUnColorOpFunc` gives the callback: the first
`src_depth` source components, the unpacked parameters, the user data and the
position. -/
def unColorOpArgs (L : lua_State) (src_value : List float) (src_depth : Int) (x y : Int) :
    List LuaValue :=
  (src_value.take src_depth.toNat).map LuaValue.number ++ (unpacked (L.tableAt 4) ++
    [userdataArg L, LuaValue.number (x : ℚ), LuaValue.number (y : ℚ)])

/-- A computation respects a relation between states when the state it
reaches, by return or by fault, is related to the state it started in. -/
def respects {α : Type} (I : lua_State → lua_State → Prop) (m : M α) : Prop :=
  ∀ L, I L (m L).2

/-- The relation "the callback function and the parameter table are where
they were and the images are unchanged", for states that had the function `f`
at index 3 and the table `r` at index 4. -/
def keepsImages (f r : Nat) (L L1 : lua_State) : Prop :=
  L.index 3 = some (LuaValue.function f) → L.index 4 = some (LuaValue.table r) →
    L1.index 3 = some (LuaValue.function f) ∧ L1.index 4 = some (LuaValue.table r) ∧
      L1.images = L.images

/-- The relation "nothing but the stack and the images changed". -/
def frame (L L1 : lua_State) : Prop :=
  L1.tables = L.tables ∧ L1.malloc_count = L.malloc_count ∧ L1.free_count = L.free_count ∧
    L1.omp_team = L.omp_team ∧ L1.omp_nthreads = L.omp_nthreads ∧ L1.kernel_log = L.kernel_log

/-- The relation "no kernel was called". -/
def keepsLog (L L1 : lua_State) : Prop := L1.kernel_log = L.kernel_log

/-- The byte a string of binary digits denotes, most significant bit first:
the sum over `i` in 0..7 of `bit_i * 2 ^ (7 - i)`. -/
def maskValue (str : List Char) : Nat :=
  ((List.range 8).map (fun i => ((str.getD i '0').toNat - '0'.toNat) * 2 ^ (7 - i))).sum

/-- The 8-digit binary rendering of a byte, most significant bit first. -/
def binary8 (b : Nat) : String :=
  String.mk ((List.range 8).map (fun i => if b.testBit (7 - i) then '1' else '0'))

/-- The value the loop of `imlua_checkmask` reaches when every character it
reads is a binary digit. -/
def maskLoopValue (str : List Char) : Nat → Nat → Nat → Nat
  | 0, _, mask => mask
  | k + 1, i, mask =>
      maskLoopValue str k (i + 1)
        ((mask ||| (((str.getD i '0').toNat - '0'.toNat) <<< (7 - i))) % 256)

/-- What `imluaProcessCrop` asks of its arguments: the images have the same
data type and color space, the corner lies in the source, and the destination
is no wider and no higher than what is left of the source from the corner. -/
def cropAccepts (src dst : imImage) (xmin ymin : Int) : Prop :=
  src.data_type = dst.data_type ∧ src.color_space = dst.color_space ∧
    0 ≤ xmin ∧ xmin < src.width ∧ 0 ≤ ymin ∧ ymin < src.height ∧
    dst.width ≤ src.width - xmin ∧ dst.height ≤ src.height - ymin

instance (src dst : imImage) (xmin ymin : Int) : Decidable (cropAccepts src dst xmin ymin) := by
  unfold cropAccepts
  infer_instance

/-- The relation "the thread-count setting is as it was". -/
def keepsThreads (L L1 : lua_State) : Prop := L1.omp_nthreads = L.omp_nthreads

/-- The relation "the thread-count setting is as it was, or it is 1". -/
def threadsKeptOrOne (L L1 : lua_State) : Prop :=
  L1.omp_nthreads = L.omp_nthreads ∨ L1.omp_nthreads = 1

/-- A computation respects a relation on error when every state it reaches by
a fault is related to the state it started in. -/
def respectsOnError {α : Type} (I : lua_State → lua_State → Prop) (m : M α) : Prop :=
  ∀ L e, (m L).1 = Except.error e → I L (m L).2

/-- The truth value of a Lua value: false for nil and for false, true for
every other value. -/
def truthy (v : LuaValue) : Int :=
  match v with
  | LuaValue.nil => 0
  | LuaValue.boolean false => 0
  | _ => 1

/-- The arguments `imluaRenderFunc` and `imluaRenderCondFunc` give the
callback: the position and the parameter table itself. -/
def renderArgs (L : lua_State) (x y d : Int) : List LuaValue :=
  [LuaValue.number (x : ℚ), LuaValue.number (y : ℚ), LuaValue.number (d : ℚ),
    (L.index 4).getD LuaValue.nil]

/-- Sample `(x, y)` of plane `d` of an image, where there is one. -/
def imImage.sample (im : imImage) (x y d : Int) : Option float :=
  if 0 ≤ d ∧ 0 ≤ y * im.width + x then
    (im.data[d.toNat]?).bind (fun plane => plane[(y * im.width + x).toNat]?)
  else none

/-- An image whose planes are all there: as many planes as `planes` says, each
of `width * height` samples. -/
def imImage.wellFormed (im : imImage) : Prop :=
  (im.data.length : Int) = im.planes ∧
    ∀ plane ∈ im.data, (plane.length : Int) = im.width * im.height

/-- A position inside an image. -/
def imImage.inside (im : imImage) (x y d : Int) : Prop :=
  0 ≤ x ∧ x < im.width ∧ 0 ≤ y ∧ y < im.height ∧ 0 ≤ d ∧ d < im.planes

/-- The planes after sample `off` of plane `d` is set to `v`. -/
def setSample (data : List (List float)) (d off : Nat) (v : float) : List (List float) :=
  data.set d ((data.getD d []).set off v)

/-- The planes after a conditional render: going through the positions in
order, the sample of a position is set to the value when the flag is not 0. -/
def renderCondData (value : Int → Int → Int → float) (flag : Int → Int → Int → Int)
    (width : Int) : List (List float) → List (Int × Int × Int) → List (List float)
  | data, [] => data
  | data, c :: cs =>
      renderCondData value flag width
        (if flag c.1 c.2.1 c.2.2 ≠ 0 then
          setSample data c.2.2.toNat (c.2.1 * width + c.1).toNat (value c.1 c.2.1 c.2.2)
        else data) cs

/-- The table `imlua_newarrayint` has built after the first `k` rounds of its
loop: round `i` assigns `value[i]` to the key `i + start`. -/
def arrayTable (value : List Int) (start : Int) : Nat → LuaTable
  | 0 => ⟨0, []⟩
  | k + 1 =>
      (arrayTable value start k).rawseti ((k : Int) + start)
        (LuaValue.number ((value.getD k 0 : Int) : ℚ))

/-- The arguments `imluaMultiOpFunc` gives the callback: the first `src_count`
source values, the unpacked parameters, the user data and the position. -/
def multiOpArgs (L : lua_State) (src_value : List float) (src_count : Int) (x y d : Int) :
    List LuaValue :=
  (src_value.take src_count.toNat).map LuaValue.number ++ (unpacked (L.tableAt 4) ++
    [userdataArg L, LuaValue.number (x : ℚ), LuaValue.number (y : ℚ), LuaValue.number (d : ℚ)])

/-- The arguments `imluaMultiColorOpFunc` gives the callback: the first
`src_depth * src_count` source components, the unpacked parameters, the user
data and the position. -/
def multiColorOpArgs (L : lua_State) (src_value : List float) (src_count src_depth : Int)
    (x y : Int) : List LuaValue :=
  (src_value.take (src_depth * src_count).toNat).map LuaValue.number ++
    (unpacked (L.tableAt 4) ++
      [userdataArg L, LuaValue.number (x : ℚ), LuaValue.number (y : ℚ)])

/-- The relation "the size of the current team is as it was". -/
def keepsTeam (L L1 : lua_State) : Prop := L1.omp_team = L.omp_team

/-- A computation returns with the thread-count setting `t` when every state
it reaches by a normal return has this setting. -/
def returnsWithThreads {α : Type} (t : Nat) (m : M α) : Prop :=
  ∀ L a L1, m L = (Except.ok a, L1) → L1.omp_nthreads = t

/-- A computation returns with the team size as the thread-count setting when
every state it reaches by a normal return has as its setting the size the
team had in the state it started in. -/
def returnsWithTeam {α : Type} (m : M α) : Prop :=
  ∀ L a L1, m L = (Except.ok a, L1) → L1.omp_nthreads = L.omp_team

/-! ## Concrete hosts and states for the examples -/

/-- A host for the examples: function 0 returns nothing, function 1 returns
its first argument, every other function returns the number 7; no string is a
numeral; numbers convert to `int` by truncation and to `float` unchanged, and
an `unsigned long` converts to the nearest `double` (53 significant bits,
ties to even); the opaque kernels report success, leave the images as they
are and store nothing through output pointers; the module is built with
OpenMP and without `IM_PROCESS`, the no-error code is 0 and a bitmap is an
image of bytes. -/
def exHost : Host where
  call := fun r args =>
    if r = 0 then Except.ok []
    else if r = 1 then Except.ok (args.take 1)
    else Except.ok [LuaValue.number 7]
  str2d := fun _ => none
  number2str := fun _ => "0"
  number2int := fun q => Int.tdiv q.num q.den
  c_float := fun q => q
  ulong2double := fun n =>
    if n < 2 ^ 53 then (n : ℚ)
    else
      let e := Nat.log2 n - 52
      let q := n / 2 ^ e
      let r := n % 2 ^ e
      let q := if 2 * r > 2 ^ e ∨ (2 * r = 2 ^ e ∧ q % 2 = 1) then q + 1 else q
      ((q * 2 ^ e : Nat) : ℚ)
  ulong_bits := 64
  openmp := true
  kernel := fun _ imgs => Except.ok (1, imgs)
  IM_PROCESS := false
  IM_ERR_NONE := 0
  imColorModeSpaceName := fun c =>
    match c with
    | imColorSpace.IM_RGB => "RGB"
    | imColorSpace.IM_MAP => "Map"
    | imColorSpace.IM_GRAY => "Gray"
    | imColorSpace.IM_BINARY => "Binary"
    | imColorSpace.IM_CMYK => "CMYK"
    | imColorSpace.IM_YCBCR => "YCbCr"
    | imColorSpace.IM_LAB => "Lab"
    | imColorSpace.IM_LUV => "Luv"
    | imColorSpace.IM_XYZ => "XYZ"
    | imColorSpace.IM_RGBA => "RGBA"
  imDataTypeName := fun d =>
    match d with
    | imDataType.IM_BYTE => "byte"
    | imDataType.IM_SHORT => "short"
    | imDataType.IM_USHORT => "ushort"
    | imDataType.IM_INT => "int"
    | imDataType.IM_FLOAT => "float"
    | imDataType.IM_CFLOAT => "cfloat"
  imImageIsBitmap := fun image => image.data_type == imDataType.IM_BYTE
  kernel_out := fun _ _ => []

/-- A state whose only argument is the table `{[0] = 5, 10, 20}` of length 2. -/
def exArrayState : lua_State where
  stack := [LuaValue.table 0]
  tables := [⟨2, [(0, LuaValue.number 5), (1, LuaValue.number 10), (2, LuaValue.number 20)]⟩]
  images := []
  malloc_count := 0
  free_count := 0
  omp_team := 1
  omp_nthreads := 4
  kernel_log := []

/-- A state whose first argument is nil and whose second is the number 3. -/
def exNilState : lua_State where
  stack := [LuaValue.nil, LuaValue.number 3]
  tables := []
  images := []
  malloc_count := 0
  free_count := 0
  omp_team := 1
  omp_nthreads := 4
  kernel_log := []

/-- A 2x2 image of one plane with the given type, color space and samples. -/
def exImage (cs : imColorSpace) (dt : imDataType) (depth : Int) (data : List (List float)) :
    imImage where
  width := 2
  height := 2
  color_space := cs
  data_type := dt
  has_alpha := false
  depth := depth
  data := data

/-- A gray 2x2 image with samples 1, 2, 3, 4. -/
def exGraySrc : imImage := exImage imColorSpace.IM_GRAY imDataType.IM_BYTE 1 [[1, 2, 3, 4]]

/-- A gray 2x2 image of zeros. -/
def exGrayDst : imImage := exImage imColorSpace.IM_GRAY imDataType.IM_BYTE 1 [[0, 0, 0, 0]]

/-- An RGB 2x2 image of three planes. -/
def exRgbSrc : imImage :=
  exImage imColorSpace.IM_RGB imDataType.IM_BYTE 3 [[1, 2, 3, 4], [5, 6, 7, 8], [9, 10, 11, 12]]

/-- A state for the unary point operations: a gray source with samples 1, 2,
3, 4, a gray destination of zeros, the function `f`, the parameter table
`{10, 20}` and no user data. -/
def exUnaryState (f : Nat) : lua_State where
  stack := [LuaValue.image 0, LuaValue.image 1, LuaValue.function f, LuaValue.table 0,
    LuaValue.nil]
  tables := [⟨2, [(1, LuaValue.number 10), (2, LuaValue.number 20)]⟩]
  images := [some exGraySrc, some exGrayDst]
  malloc_count := 0
  free_count := 0
  omp_team := 1
  omp_nthreads := 4
  kernel_log := []

/-- The state `exUnaryState f` with a destination that is three samples wide. -/
def exUnaryWideState (f : Nat) : lua_State :=
  { exUnaryState f with
    images := [some exGraySrc,
      some { exImage imColorSpace.IM_GRAY imDataType.IM_BYTE 1 [[0, 0, 0, 0, 0, 0]] with
        width := 3 }] }

/-- A state for the color point operations: an RGB source of three planes, a
gray destination of one plane, the function `f`, the parameter table
`{10, 20}` and no user data. -/
def exColorState (f : Nat) : lua_State :=
  { exUnaryState f with
    images := [some exRgbSrc, some exGrayDst] }

/-- A state for the multi-image point operations: the source list `srcs` (a
table of images), a gray destination, the function 2, the parameter table
`{10, 20}` and no user data; the images are `images` followed by the
destination. -/
def exMultiState (srcs : List (Int × LuaValue)) (n : Nat) (images : List imImage) : lua_State where
  stack := [LuaValue.table 1, LuaValue.image images.length, LuaValue.function 2,
    LuaValue.table 0, LuaValue.nil]
  tables := [⟨2, [(1, LuaValue.number 10), (2, LuaValue.number 20)]⟩, ⟨n, srcs⟩]
  images := images.map some ++ [some exGrayDst]
  malloc_count := 0
  free_count := 0
  omp_team := 1
  omp_nthreads := 4
  kernel_log := []

/-- Two gray source images in a list. -/
def exMultiTwo : lua_State :=
  exMultiState [(1, LuaValue.image 0), (2, LuaValue.image 1)] 2 [exGraySrc, exGraySrc]

/-- An empty source list. -/
def exMultiEmpty : lua_State := exMultiState [] 0 []

/-- Five source images in a list, the third one RGB and the others gray. -/
def exMultiFive : lua_State :=
  exMultiState [(1, LuaValue.image 0), (2, LuaValue.image 1), (3, LuaValue.image 2),
      (4, LuaValue.image 3), (5, LuaValue.image 4)] 5
    [exGraySrc, exGraySrc, { exGraySrc with color_space := imColorSpace.IM_RGB }, exGraySrc,
      exGraySrc]

/-- Five source images in a list, the third one of data type int and the
others bytes, all gray. -/
def exMultiFiveInt : lua_State :=
  exMultiState [(1, LuaValue.image 0), (2, LuaValue.image 1), (3, LuaValue.image 2),
      (4, LuaValue.image 3), (5, LuaValue.image 4)] 5
    [exGraySrc, exGraySrc, { exGraySrc with data_type := imDataType.IM_INT }, exGraySrc,
      exGraySrc]

/-- A state whose only argument is the given string. -/
def exStringState (s : String) : lua_State where
  stack := [LuaValue.string s]
  tables := []
  images := []
  malloc_count := 0
  free_count := 0
  omp_team := 1
  omp_nthreads := 4
  kernel_log := []

/-- A state whose only value is an image userdata, for the given image. -/
def exImageState (image : imImage) : lua_State where
  stack := [LuaValue.image 0]
  tables := []
  images := [some image]
  malloc_count := 0
  free_count := 0
  omp_team := 1
  omp_nthreads := 4
  kernel_log := []

/-- A host whose kernels fail on their first run and succeed on the second:
given two images with different samples a kernel copies the samples of the
first into the second and reports the error code 9; given two images with the
same samples it reports the no-error code 0. -/
def exRetryHost : Host :=
  { exHost with
    kernel := fun _ imgs =>
      match imgs with
      | [some a, some b] =>
          if a.data = b.data then Except.ok (0, imgs)
          else Except.ok (9, [some a, some { b with data := a.data }])
      | _ => Except.ok (0, imgs) }

/-- A state for the conversions: a gray source with samples 1, 2, 3, 4, a gray
destination of zeros, and the arguments `cpx2real = 0`, `gamma = 1`,
`abssolute = false`, `cast_mode = 0`. -/
def exConvertState : lua_State where
  stack := [LuaValue.image 0, LuaValue.image 1, LuaValue.number 0, LuaValue.number 1,
    LuaValue.boolean false, LuaValue.number 0]
  tables := []
  images := [some exGraySrc, some exGrayDst]
  malloc_count := 0
  free_count := 0
  omp_team := 1
  omp_nthreads := 4
  kernel_log := []

/-- A state for the crop: a gray 2x2 source, a gray destination of width
`w` and height 1, and the corner `(xmin, 1)`. -/
def exCropState (w xmin : Int) : lua_State where
  stack := [LuaValue.image 0, LuaValue.image 1, LuaValue.number xmin, LuaValue.number 1]
  tables := []
  images := [some exGraySrc, some { exGrayDst with width := w, height := 1 }]
  malloc_count := 0
  free_count := 0
  omp_team := 1
  omp_nthreads := 4
  kernel_log := []

/-- A binary 2x2 image. -/
def exBinary : imImage := exImage imColorSpace.IM_BINARY imDataType.IM_BYTE 1 [[0, 1, 1, 0]]

/-- A gray 2x2 image of unsigned shorts with the region labels 0, 1, 2, 2. -/
def exLabels : imImage := exImage imColorSpace.IM_GRAY imDataType.IM_USHORT 1 [[0, 1, 2, 2]]

/-- A state for the operations on regions: the images `src` and `dst`, then
the connectivity value `connect`, then the numbers 0 and 9. -/
def exConnectState (src dst : imImage) (connect : Int) : lua_State where
  stack := [LuaValue.image 0, LuaValue.image 1, LuaValue.number connect, LuaValue.number 0,
    LuaValue.number 9]
  tables := []
  images := [some src, some dst]
  malloc_count := 0
  free_count := 0
  omp_team := 1
  omp_nthreads := 4
  kernel_log := []

/-- A state for `imluaAnalyzeMeasureHoles`: a labelled image, the connectivity
value `connect` and the region count 2. -/
def exHolesState (connect : Int) : lua_State where
  stack := [LuaValue.image 0, LuaValue.number connect, LuaValue.number 2]
  tables := []
  images := [some exLabels]
  malloc_count := 0
  free_count := 0
  omp_team := 1
  omp_nthreads := 4
  kernel_log := []

/-- A state for `imluaProcessReplaceColor`: a gray source and a gray
destination of depth 1, the source color `{5}` and the given fourth
argument; the tables it may refer to are 1: `{7}`, 2: `{"x"}`, 3: `{1, 2}`. -/
def exReplaceState (dst_color : LuaValue) : lua_State where
  stack := [LuaValue.image 0, LuaValue.image 1, LuaValue.table 0, dst_color]
  tables := [⟨1, [(1, LuaValue.number 5)]⟩, ⟨1, [(1, LuaValue.number 7)]⟩,
    ⟨1, [(1, LuaValue.string "x")]⟩, ⟨2, [(1, LuaValue.number 1), (2, LuaValue.number 2)]⟩]
  images := [some exGraySrc, some exGrayDst]
  malloc_count := 0
  free_count := 0
  omp_team := 1
  omp_nthreads := 4
  kernel_log := []

/-- A host whose callbacks all return the value 7 and the flag "the position
is (1, 1)": they apply at the center of a 3x3 image only. -/
def exCenterHost : Host :=
  { exHost with
    call := fun _ args =>
      Except.ok [LuaValue.number 7,
        LuaValue.boolean (args.take 2 == [LuaValue.number 1, LuaValue.number 1])] }

/-- A gray 3x3 image with the samples 11, 12, ..., 19. -/
def exNine : imImage :=
  { exImage imColorSpace.IM_GRAY imDataType.IM_BYTE 1 [[11, 12, 13, 14, 15, 16, 17, 18, 19]] with
    width := 3, height := 3 }

/-- A state for the render operations: the image, the callback, the name
"center", the parameter table `{10, 20}` and the number 0. -/
def exRenderState (image : imImage) : lua_State where
  stack := [LuaValue.image 0, LuaValue.function 0, LuaValue.string "center", LuaValue.table 0,
    LuaValue.number 0]
  tables := [⟨2, [(1, LuaValue.number 10), (2, LuaValue.number 20)]⟩]
  images := [some image]
  malloc_count := 0
  free_count := 0
  omp_team := 1
  omp_nthreads := 4
  kernel_log := []

/-- A state for `imluaProcessInterlaceSplit`: a gray source two samples wide
and `h` high and two gray destinations two samples wide, `h1` and `h2` high. -/
def exInterlaceState (h h1 h2 : Int) : lua_State where
  stack := [LuaValue.image 0, LuaValue.image 1, LuaValue.image 2]
  tables := []
  images := [some { exGraySrc with height := h }, some { exGrayDst with height := h1 },
    some { exGrayDst with height := h2 }]
  malloc_count := 0
  free_count := 0
  omp_team := 1
  omp_nthreads := 4
  kernel_log := []

/-- A state for `imluaProcessRotate90`: a gray 2x2 source, a gray 2x2
destination and the given third argument. -/
def exRotateState (dir : LuaValue) : lua_State where
  stack := [LuaValue.image 0, LuaValue.image 1, dir]
  tables := []
  images := [some exGraySrc, some exGrayDst]
  malloc_count := 0
  free_count := 0
  omp_team := 1
  omp_nthreads := 4
  kernel_log := []

/-- A state for `imluaProcessRotateRef`: a gray 2x2 source, a gray 2x2
destination, cosine 0 and sine 1, the center (1, 1), `to_origin` false and the
order 1. -/
def exRotateRefState : lua_State where
  stack := [LuaValue.image 0, LuaValue.image 1, LuaValue.number 0, LuaValue.number 1,
    LuaValue.number 1, LuaValue.number 1, LuaValue.boolean false, LuaValue.number 1]
  tables := []
  images := [some exGraySrc, some exGrayDst]
  malloc_count := 0
  free_count := 0
  omp_team := 1
  omp_nthreads := 4
  kernel_log := []

/-- A state for `imluaProcessHoughLines`: a binary 2x2 source and a gray
destination of data type int, 180 samples wide and 3 high. -/
def exHoughState : lua_State where
  stack := [LuaValue.image 0, LuaValue.image 1]
  tables := []
  images := [some exBinary,
    some { exImage imColorSpace.IM_GRAY imDataType.IM_INT 1 [] with width := 180, height := 3 }]
  malloc_count := 0
  free_count := 0
  omp_team := 1
  omp_nthreads := 4
  kernel_log := []

/-- A state whose first argument is an image of region labels 0, 1, 2, 2 and
whose second argument is the given value. -/
def exCountState (count : LuaValue) : lua_State where
  stack := [LuaValue.image 0, count]
  tables := []
  images := [some exLabels]
  malloc_count := 0
  free_count := 0
  omp_team := 1
  omp_nthreads := 4
  kernel_log := []

/-- A state for `imluaProcessRenderConstant`: a gray image of depth 1 and the
table `t` as the values; the tables are 0: `{9}` and 1: `{9, 8}`. -/
def exConstantState (t : Nat) : lua_State where
  stack := [LuaValue.image 0, LuaValue.table t]
  tables := [⟨1, [(1, LuaValue.number 9)]⟩, ⟨2, [(1, LuaValue.number 9), (2, LuaValue.number 8)]⟩]
  images := [some exGraySrc]
  malloc_count := 0
  free_count := 0
  omp_team := 1
  omp_nthreads := 4
  kernel_log := []

/-- A state for the measures of regions: an image of region labels 0, 1, 2, 2
followed by the given arguments. -/
def exMeasureState (args : List LuaValue) : lua_State where
  stack := LuaValue.image 0 :: args
  tables := []
  images := [some exLabels]
  malloc_count := 0
  free_count := 0
  omp_team := 1
  omp_nthreads := 4
  kernel_log := []

/-! ## Theorems -/

theorem bind_apply {α β : Type} (m : M α) (f : α → M β) (L : lua_State) :
    (m >>= f) L = match m L with
      | (Except.ok a, L1) => f a L1
      | (Except.error e, L1) => (Except.error e, L1) := rfl

theorem pure_apply {α : Type} (a : α) (L : lua_State) :
    (pure a : M α) L = (Except.ok a, L) := rfl

@[simp] theorem withStack_stack (L : lua_State) (s : List LuaValue) :
    (L.withStack s).stack = s := rfl

@[simp] theorem withStack_tables (L : lua_State) (s : List LuaValue) :
    (L.withStack s).tables = L.tables := rfl

@[simp] theorem withStack_images (L : lua_State) (s : List LuaValue) :
    (L.withStack s).images = L.images := rfl

@[simp] theorem withStack_kernel_log (L : lua_State) (s : List LuaValue) :
    (L.withStack s).kernel_log = L.kernel_log := rfl

@[simp] theorem withStack_malloc_count (L : lua_State) (s : List LuaValue) :
    (L.withStack s).malloc_count = L.malloc_count := rfl

@[simp] theorem withStack_free_count (L : lua_State) (s : List LuaValue) :
    (L.withStack s).free_count = L.free_count := rfl

@[simp] theorem withStack_withStack (L : lua_State) (s t : List LuaValue) :
    (L.withStack s).withStack t = L.withStack t := rfl

@[simp] theorem withStack_self (L : lua_State) : L.withStack L.stack = L := rfl

@[simp] theorem withStack_index (L : lua_State) (s : List LuaValue) (idx : Int) :
    (L.withStack s).index idx = stackIndex s idx := rfl

@[simp] theorem withThreads_stack (L : lua_State) (n : Nat) :
    (L.withThreads n).stack = L.stack := rfl

@[simp] theorem withThreads_tables (L : lua_State) (n : Nat) :
    (L.withThreads n).tables = L.tables := rfl

@[simp] theorem withThreads_images (L : lua_State) (n : Nat) :
    (L.withThreads n).images = L.images := rfl

@[simp] theorem withThreads_kernel_log (L : lua_State) (n : Nat) :
    (L.withThreads n).kernel_log = L.kernel_log := rfl

@[simp] theorem withThreads_malloc_count (L : lua_State) (n : Nat) :
    (L.withThreads n).malloc_count = L.malloc_count := rfl

@[simp] theorem withThreads_free_count (L : lua_State) (n : Nat) :
    (L.withThreads n).free_count = L.free_count := rfl

@[simp] theorem withThreads_index (L : lua_State) (n : Nat) (idx : Int) :
    (L.withThreads n).index idx = L.index idx := rfl

@[simp] theorem withThreads_tableAt (L : lua_State) (n : Nat) (idx : Int) :
    (L.withThreads n).tableAt idx = L.tableAt idx := rfl

@[simp] theorem lua_type_withThreads (L : lua_State) (n : Nat) (idx : Int) :
    lua_type (L.withThreads n) idx = lua_type L idx := rfl

theorem index_neg_one_push (L : lua_State) (v : LuaValue) :
    (L.withStack (L.stack ++ [v])).index (-1) = some v := by
  simp [lua_State.index, stackIndex, lua_State.withStack]

theorem pop_one_push (L : lua_State) (v : LuaValue) :
    lua_pop 1 (L.withStack (L.stack ++ [v])) = (Except.ok (), L) := by
  simp [lua_pop, lua_State.withStack]

/-- A reading loop whose every step returns a value and restores the state
returns the values in order and restores the state. -/
theorem readLoop_ok {α : Type} (elem : Int → M α) (L : lua_State) (f : Int → α) :
    ∀ (k : Nat) (i : Int), (∀ j : Nat, j < k → elem (i + j) L = (Except.ok (f (i + j)), L)) →
      readLoop elem k i L = (Except.ok ((List.range k).map (fun j : Nat => f (i + j))), L)
  | 0, _, _ => rfl
  | k + 1, i, h => by
      have h0 := h 0 (Nat.succ_pos k)
      simp only [Nat.cast_zero, add_zero] at h0
      have ih := readLoop_ok elem L f k (i + 1) (fun j hj => by
        have := h (j + 1) (Nat.succ_lt_succ hj)
        simpa [add_assoc, add_comm 1 (j : Int)] using this)
      simp only [readLoop, bind_apply, h0, ih]
      rw [pure_apply, List.range_succ_eq_map]
      simp only [List.map_cons, List.map_map, Nat.cast_zero, add_zero, Function.comp_def,
        Nat.cast_succ, Nat.succ_eq_add_one, Nat.cast_add, Nat.cast_one]
      congr 4
      funext j
      rw [add_assoc, add_comm 1]

theorem tableAt_malloc (L : lua_State) (index : Int) :
    ({ L with malloc_count := L.malloc_count + 1 } : lua_State).tableAt index = L.tableAt index :=
  rfl

/-- One step of an array-reading loop: the element is pushed, converted and
popped, which restores the state. -/
theorem readElem_ok {α β : Type} (L : lua_State) (index k : Int) (check : Int → M α)
    (g : α → β) (a : α)
    (hcheck : check (-1) (L.withStack (L.stack ++ [(L.tableAt index).rawgeti k]))
      = (Except.ok a, L.withStack (L.stack ++ [(L.tableAt index).rawgeti k]))) :
    (do
      lua_rawgeti index k
      let x ← check (-1)
      lua_pop 1
      pure (g x) : M β) L = (Except.ok (g a), L) := by
  simp only [bind_apply, lua_rawgeti, push, hcheck, pop_one_push, pure_apply]

theorem luaL_checkint_push (H : Host) (L : lua_State) (v : LuaValue) (d : lua_Number)
    (h : H.tonumber (some v) = some d) :
    luaL_checkint H (-1) (L.withStack (L.stack ++ [v]))
      = (Except.ok (H.number2int d), L.withStack (L.stack ++ [v])) := by
  simp only [luaL_checkint, index_neg_one_push, h]

theorem luaL_checknumber_push (H : Host) (L : lua_State) (v : LuaValue) (d : lua_Number)
    (h : H.tonumber (some v) = some d) :
    luaL_checknumber H (-1) (L.withStack (L.stack ++ [v]))
      = (Except.ok d, L.withStack (L.stack ++ [v])) := by
  simp only [luaL_checknumber, index_neg_one_push, h]

/-- The number a table element converts to (0 when it does not convert). -/
theorem tonumber_getD (H : Host) (v : LuaValue) (h : (H.tonumber (some v)).isSome = true) :
    H.tonumber (some v) = some ((H.tonumber (some v)).getD 0) := by
  obtain ⟨d, hd⟩ := Option.isSome_iff_exists.mp h
  rw [hd, Option.getD_some]

/-- The common shape of the three optional array readers on a table whose
read elements all convert. -/
theorem toarray_table {α γ : Type} (H : Host) (L : lua_State) (index start : Int) (n : Int)
    (check : Int → M γ) (c : lua_Number → γ) (g : γ → α)
    (hcheck : ∀ (L1 : lua_State) (v : LuaValue) (d : lua_Number), H.tonumber (some v) = some d →
      check (-1) (L1.withStack (L1.stack ++ [v]))
        = (Except.ok (c d), L1.withStack (L1.stack ++ [v])))
    (hconv : ∀ i : Nat, (i : Int) < n →
      (H.tonumber (some ((L.tableAt index).rawgeti (i + start)))).isSome = true) :
    (do
      malloc
      let value ← readLoop (fun i => do
        lua_rawgeti index (i + start)
        let x ← check (-1)
        lua_pop 1
        pure (g x)) n.toNat 0
      pure (some value, n) : M (Option (List α) × Int)) L
    = (Except.ok (some ((List.range n.toNat).map (fun j : Nat =>
          g (c ((H.tonumber (some ((L.tableAt index).rawgeti ((j : Int) + start)))).getD 0)))), n),
        { L with malloc_count := L.malloc_count + 1 }) := by
  simp only [bind_apply, malloc]
  rw [readLoop_ok _ _ (fun i => g (c
    ((H.tonumber (some ((L.tableAt index).rawgeti (i + start)))).getD 0)))]
  · simp only [pure_apply, zero_add]
  · intro j hj
    rw [zero_add]
    have hd := tonumber_getD H _ (hconv j (by omega))
    exact readElem_ok _ index _ check g _ (hcheck _ _ _ hd)

/-- C1: for a table whose length operator reports `N` and whose read elements
all convert to numbers, each of `imlua_toarrayintopt`, `imlua_toarrayulongopt`
and `imlua_toarrayfloatopt` reports count `N` and returns `N` elements when
`start` is 1 (or any value but 0), and reports `N + 1` and returns `N + 1`
elements when `start` is 0. -/
theorem toarray_count_follows_start (H : Host) (L : lua_State) (index start : Int) (N : Nat)
    (htab : lua_istable L index = true) (hN : lua_objlen L index = N)
    (hconv : ∀ i : Nat, (i : Int) < (if start = 0 then (N : Int) + 1 else N) →
      (H.tonumber (some ((L.tableAt index).rawgeti (i + start)))).isSome = true) :
    (∃ v, (imlua_toarrayintopt H index start L).1
        = Except.ok (some v, if start = 0 then (N : Int) + 1 else N)
      ∧ (v.length : Int) = if start = 0 then (N : Int) + 1 else N) ∧
    (∃ v, (imlua_toarrayulongopt H index start L).1
        = Except.ok (some v, if start = 0 then (N : Int) + 1 else N)
      ∧ (v.length : Int) = if start = 0 then (N : Int) + 1 else N) ∧
    (∃ v, (imlua_toarrayfloatopt H index start L).1
        = Except.ok (some v, if start = 0 then (N : Int) + 1 else N)
      ∧ (v.length : Int) = if start = 0 then (N : Int) + 1 else N) := by
  have hn0 : (0 : Int) ≤ if start = 0 then (N : Int) + 1 else N := by
    split <;> omega
  have hlen : ∀ {β : Type} (g : Nat → β),
      (((List.range (if start = 0 then (N : Int) + 1 else N).toNat).map g).length : Int)
        = if start = 0 then (N : Int) + 1 else N := by
    intro β g
    simp only [List.length_map, List.length_range]
    exact Int.toNat_of_nonneg hn0
  refine ⟨?_, ?_, ?_⟩
  · have h1 := toarray_table H L index start _ (luaL_checkint H) H.number2int (fun x => x)
      (fun L1 v d hd => luaL_checkint_push H L1 v d hd) hconv
    simp only [imlua_toarrayintopt, htab, if_true, imlua_getn, hN, h1]
    exact ⟨_, rfl, hlen _⟩
  · have h1 := toarray_table H L index start _ (luaL_checkint H) H.number2int
      (fun x => (x % 2 ^ H.ulong_bits).toNat)
      (fun L1 v d hd => luaL_checkint_push H L1 v d hd) hconv
    simp only [imlua_toarrayulongopt, htab, if_true, imlua_getn, hN, h1]
    exact ⟨_, rfl, hlen _⟩
  · have h1 := toarray_table H L index start _ (luaL_checknumber H) (fun d => d) H.c_float
      (fun L1 v d hd => luaL_checknumber_push H L1 v d hd) hconv
    simp only [imlua_toarrayfloatopt, htab, if_true, imlua_getn, hN, h1]
    exact ⟨_, rfl, hlen _⟩

theorem toarray_count_follows_start_witness :
    ((∃ v, (imlua_toarrayintopt exHost 1 0 exArrayState).1 = Except.ok (some v, 3)
      ∧ (v.length : Int) = 3) ∧
    (∃ v, (imlua_toarrayulongopt exHost 1 0 exArrayState).1 = Except.ok (some v, 3)
      ∧ (v.length : Int) = 3) ∧
    (∃ v, (imlua_toarrayfloatopt exHost 1 0 exArrayState).1 = Except.ok (some v, 3)
      ∧ (v.length : Int) = 3)) ∧
    ((∃ v, (imlua_toarrayintopt exHost 1 1 exArrayState).1 = Except.ok (some v, 2)
      ∧ (v.length : Int) = 2) ∧
    (∃ v, (imlua_toarrayulongopt exHost 1 1 exArrayState).1 = Except.ok (some v, 2)
      ∧ (v.length : Int) = 2) ∧
    (∃ v, (imlua_toarrayfloatopt exHost 1 1 exArrayState).1 = Except.ok (some v, 2)
      ∧ (v.length : Int) = 2)) :=
  ⟨toarray_count_follows_start exHost exArrayState 1 0 2 (by decide) (by decide)
    (by
      intro i hi
      have hi3 : i < 3 := by simpa using hi
      interval_cases i <;> decide),
   toarray_count_follows_start exHost exArrayState 1 1 2 (by decide) (by decide)
    (by
      intro i hi
      have hi2 : i < 2 := by simpa using hi
      interval_cases i <;> decide)⟩

/-- C2: on an input that is not a table, the optional readers return a null
array with count 0 and leave the state as it is when the input is nil, and
raise the argument error "must be a table or nil" otherwise; the required
readers raise an argument error (a table was expected) in both cases, so also
on nil. -/
theorem toarray_absent_input (H : Host) (L : lua_State) (index start : Int)
    (hnt : lua_istable L index = false) :
    (imlua_toarrayintopt H index start L =
      if lua_isnil L index then (Except.ok (none, 0), L)
      else (Except.error (Fault.argerror index "must be a table or nil"), L)) ∧
    (imlua_toarrayulongopt H index start L =
      if lua_isnil L index then (Except.ok (none, 0), L)
      else (Except.error (Fault.argerror index "must be a table or nil"), L)) ∧
    (imlua_toarrayfloatopt H index start L =
      if lua_isnil L index then (Except.ok (none, 0), L)
      else (Except.error (Fault.argerror index "must be a table or nil"), L)) ∧
    imlua_toarrayint H index start L = (Except.error (Fault.argerror index
      ("table expected, got " ++ lua_typename (lua_type L index))), L) ∧
    imlua_toarrayulong H index start L = (Except.error (Fault.argerror index
      ("table expected, got " ++ lua_typename (lua_type L index))), L) ∧
    imlua_toarrayfloat H index start L = (Except.error (Fault.argerror index
      ("table expected, got " ++ lua_typename (lua_type L index))), L) := by
  have hty : ¬ lua_type L index = LUA_TTABLE := by
    simpa [lua_istable] using hnt
  have hreq : luaL_checktype index LUA_TTABLE L = (Except.error (Fault.argerror index
      ("table expected, got " ++ lua_typename (lua_type L index))), L) := by
    simp only [luaL_checktype, hty, if_false, luaL_typerror, luaL_argerror, raise]
    rfl
  refine ⟨?_, ?_, ?_, ?_, ?_, ?_⟩
  · cases hnil : lua_isnil L index <;>
      simp [imlua_toarrayintopt, hnt, hnil, luaL_argerror, raise]
  · cases hnil : lua_isnil L index <;>
      simp [imlua_toarrayulongopt, hnt, hnil, luaL_argerror, raise]
  · cases hnil : lua_isnil L index <;>
      simp [imlua_toarrayfloatopt, hnt, hnil, luaL_argerror, raise]
  · simp only [imlua_toarrayint, bind_apply, hreq]
  · simp only [imlua_toarrayulong, bind_apply, hreq]
  · simp only [imlua_toarrayfloat, bind_apply, hreq]

theorem toarray_absent_input_witness :
    ((imlua_toarrayintopt exHost 1 1 exNilState = (Except.ok (none, 0), exNilState)) ∧
      imlua_toarrayint exHost 1 1 exNilState
        = (Except.error (Fault.argerror 1 "table expected, got nil"), exNilState)) ∧
    ((imlua_toarrayfloatopt exHost 2 1 exNilState
        = (Except.error (Fault.argerror 2 "must be a table or nil"), exNilState)) ∧
      imlua_toarrayfloat exHost 2 1 exNilState
        = (Except.error (Fault.argerror 2 "table expected, got number"), exNilState)) := by
  have h1 := toarray_absent_input exHost exNilState 1 1 (by decide)
  have h2 := toarray_absent_input exHost exNilState 2 1 (by decide)
  exact ⟨⟨h1.1, h1.2.2.2.1⟩, ⟨h2.2.2.1, h2.2.2.2.2.2⟩⟩

/-- The macros of the gates on two live images: each returns with the state
as it is when its predicate holds and raises its own error otherwise. -/
theorem imlua_gates_eq (L : lua_State) (p q : Nat) (a b : imImage)
    (hp : L.images[p]? = some (some a)) (hq : L.images[q]? = some (some b)) :
    (imlua_matchsize p q L = if imImageMatchSize a b then (Except.ok (), L)
      else (Except.error (Fault.error "images must have the same size"), L)) ∧
    (imlua_matchcolor p q L = if imImageMatchColor a b then (Except.ok (), L)
      else (Except.error
        (Fault.error "images must have the same data type and color space"), L)) ∧
    (imlua_matchdatatype p q L = if imImageMatchDataType a b then (Except.ok (), L)
      else (Except.error (Fault.error "images must have the same size and data type"), L)) ∧
    (imlua_matchcolorspace p q L = if imImageMatchColorSpace a b then (Except.ok (), L)
      else (Except.error (Fault.error "images must have the same size and color space"), L)) ∧
    (imlua_match p q L = if imImageMatch a b then (Except.ok (), L)
      else (Except.error
        (Fault.error "images must have the same size, data type and color space"), L)) := by
  have hdp : deref p L = (Except.ok a, L) := by simp only [deref, hp]
  have hdq : deref q L = (Except.ok b, L) := by simp only [deref, hq]
  refine ⟨?_, ?_, ?_, ?_, ?_⟩
  · simp only [imlua_matchsize, bind_apply, hdp, hdq]
    cases imImageMatchSize a b <;> rfl
  · simp only [imlua_matchcolor, bind_apply, hdp, hdq]
    cases imImageMatchColor a b <;> rfl
  · simp only [imlua_matchdatatype, bind_apply, hdp, hdq]
    cases imImageMatchDataType a b <;> rfl
  · simp only [imlua_matchcolorspace, bind_apply, hdp, hdq]
    cases imImageMatchColorSpace a b <;> rfl
  · simp only [imlua_match, bind_apply, hdp, hdq]
    cases imImageMatch a b <;> rfl

/-- C3: for all images `a`, `b`, with the predicates as the specification
gives them, the full gate is the size gate and the color gate together and
the color gate is the data-type gate and the color-space gate together; so,
on two live images, `imlua_match` returns exactly when both `imlua_matchsize`
and `imlua_matchcolor` return, and `imlua_matchcolor` returns exactly when
both `imlua_matchdatatype` and `imlua_matchcolorspace` return. -/
theorem match_gates_decompose (a b : imImage) :
    imImageMatch a b = (imImageMatchSize a b && imImageMatchColor a b) ∧
    imImageMatchColor a b = (imImageMatchDataType a b && imImageMatchColorSpace a b) ∧
    (∀ (L : lua_State) (p q : Nat),
      L.images[p]? = some (some a) → L.images[q]? = some (some b) →
      (imlua_match p q L = (Except.ok (), L) ↔
        imlua_matchsize p q L = (Except.ok (), L) ∧
          imlua_matchcolor p q L = (Except.ok (), L)) ∧
      (imlua_matchcolor p q L = (Except.ok (), L) ↔
        imlua_matchdatatype p q L = (Except.ok (), L) ∧
          imlua_matchcolorspace p q L = (Except.ok (), L))) := by
  have hfull : imImageMatch a b = (imImageMatchSize a b && imImageMatchColor a b) := by
    simp only [imImageMatch, imImageMatchSize, imImageMatchColor]
    cases (a.data_type == b.data_type) <;> cases (a.width == b.width) <;>
      cases (a.height == b.height) <;> cases (a.color_space == b.color_space) <;> decide
  have hcolor : imImageMatchColor a b
      = (imImageMatchDataType a b && imImageMatchColorSpace a b) := by
    simp only [imImageMatchColor, imImageMatchDataType, imImageMatchColorSpace]
  refine ⟨hfull, hcolor, fun L p q hp hq => ?_⟩
  obtain ⟨e1, e2, e3, e4, e5⟩ := imlua_gates_eq L p q a b hp hq
  rw [e1, e2, e3, e4, e5, hfull, hcolor]
  cases imImageMatchSize a b <;> cases imImageMatchDataType a b <;>
    cases imImageMatchColorSpace a b <;> simp

theorem match_gates_decompose_witness :
    ((imlua_match 0 1 (exUnaryState 2) = (Except.ok (), exUnaryState 2) ↔
        imlua_matchsize 0 1 (exUnaryState 2) = (Except.ok (), exUnaryState 2) ∧
          imlua_matchcolor 0 1 (exUnaryState 2) = (Except.ok (), exUnaryState 2)) ∧
      (imlua_matchcolor 0 1 (exUnaryState 2) = (Except.ok (), exUnaryState 2) ↔
        imlua_matchdatatype 0 1 (exUnaryState 2) = (Except.ok (), exUnaryState 2) ∧
          imlua_matchcolorspace 0 1 (exUnaryState 2) = (Except.ok (), exUnaryState 2))) ∧
    (imImageMatch { exGraySrc with width := 4, height := 4 }
        { exGrayDst with width := 4, height := 4 } = true ∧
      imImageMatchColor { exGraySrc with width := 4, height := 4 }
        { exGrayDst with width := 4, height := 4, color_space := imColorSpace.IM_RGB } = false ∧
      imImageMatch { exGraySrc with width := 4, height := 4 }
        { exGrayDst with width := 4, height := 4, color_space := imColorSpace.IM_RGB } = false ∧
      imImageMatchSize { exGraySrc with width := 4, height := 4 }
        { exGrayDst with width := 4, height := 4, color_space := imColorSpace.IM_RGB } = true) ∧
    (imlua_match 0 1 (exUnaryState 2) = (Except.ok (), exUnaryState 2) ∧
      imlua_matchcolor 0 1 (exColorState 2)
        = (Except.error (Fault.error "images must have the same data type and color space"),
            exColorState 2) ∧
      imlua_matchsize 0 1 (exColorState 2) = (Except.ok (), exColorState 2)) :=
  ⟨(match_gates_decompose exGraySrc exGrayDst).2.2 (exUnaryState 2) 0 1 rfl rfl,
    by decide, by decide!⟩

/-- What `luaL_optstring` may change: nothing, or one stack position. -/
theorem luaL_optstring_spec (H : Host) (narg : Int) (L : lua_State) :
    ∃ r L1, luaL_optstring H narg L = (r, L1) ∧
      (L1 = L ∨ ∃ v, L1 = L.setSlot (L.slot narg) v) ∧
      (∀ e, r = Except.error e → e.isLuaError = true) := by
  unfold luaL_optstring
  by_cases hn : lua_isnoneornil L narg = true
  · exact ⟨_, _, by rw [if_pos hn], Or.inl rfl, by intro e he; cases he⟩
  · rw [if_neg hn]
    unfold luaL_checkstring
    cases hv : L.index narg with
    | none => exact ⟨_, _, rfl, Or.inl rfl, by intro e he; cases he; rfl⟩
    | some v =>
      cases v <;> first
        | exact ⟨_, _, rfl, Or.inl rfl, by intro e he; cases he; rfl⟩
        | exact ⟨_, _, rfl, Or.inl rfl, by intro e he; cases he⟩
        | exact ⟨_, _, rfl, Or.inr ⟨_, rfl⟩, by intro e he; cases he⟩

theorem ite_apply_M {α : Type} (c : Prop) [Decidable c] (f g : M α) (L : lua_State) :
    (if c then f else g) L = if c then f L else g L := by
  split <;> rfl

/-- When one of the gates of `imluaProcessUnaryPointOp` fails, the binding
raises an error, the kernel is not called and no image changes. -/
theorem unary_pointop_rejects (H : Host) (L : lua_State) (p q : Nat) (src dst : imImage)
    (h1 : L.index 1 = some (LuaValue.image p)) (hp : L.images[p]? = some (some src))
    (h2 : L.index 2 = some (LuaValue.image q)) (hq : L.images[q]? = some (some dst))
    (hbad : ¬ (src.width = dst.width ∧ src.height = dst.height ∧ src.depth = dst.depth ∧
        src.data_type ≠ imDataType.IM_CFLOAT ∧ dst.data_type ≠ imDataType.IM_CFLOAT)) :
    (∃ e, (imluaProcessUnaryPointOp H L).1 = Except.error e ∧ e.isLuaError = true) ∧
      (imluaProcessUnaryPointOp H L).2.kernel_log = L.kernel_log ∧
      (imluaProcessUnaryPointOp H L).2.images = L.images := by
  obtain ⟨r, L1, hopt, hL1, hr⟩ := luaL_optstring_spec H 6 L
  have himg : L1.images = L.images := by
    rcases hL1 with rfl | ⟨v, rfl⟩ <;> rfl
  have hlog : L1.kernel_log = L.kernel_log := by
    rcases hL1 with rfl | ⟨v, rfl⟩ <;> rfl
  simp only [imluaProcessUnaryPointOp, bind_apply, imlua_checkimage, h1, h2, hp, hq, hopt]
  cases r with
  | error e => exact ⟨⟨e, rfl, hr e rfl⟩, hlog, himg⟩
  | ok op_name =>
    by_cases c1 : src.data_type = imDataType.IM_CFLOAT
    · simp [omp_get_num_threads, omp_set_num_threads, imlua_checknotcfloat, deref, himg, hp, hq,
        bind_apply, ite_apply_M, c1, imlua_errorcfloat, luaL_argerror, raise, hlog, Fault.isLuaError]
    · by_cases c2 : dst.data_type = imDataType.IM_CFLOAT
      · simp [omp_get_num_threads, omp_set_num_threads, imlua_checknotcfloat, deref, himg, hp,
          hq, bind_apply, ite_apply_M, c1, c2, imlua_errorcfloat, luaL_argerror, raise, hlog,
          Fault.isLuaError, pure_apply]
      · by_cases c3 : imImageMatchSize src dst = true
        · have c4 : src.depth ≠ dst.depth := by
            intro hd
            apply hbad
            simp only [imImageMatchSize, Bool.and_eq_true, beq_iff_eq] at c3
            exact ⟨c3.1, c3.2, hd, c1, c2⟩
          simp [omp_get_num_threads, omp_set_num_threads, imlua_checknotcfloat, deref, himg, hp,
            hq, bind_apply, ite_apply_M, c1, c2, c3, c4, imlua_errorcfloat, luaL_argerror, raise,
            hlog, Fault.isLuaError, pure_apply, imlua_matchsize, luaL_error]
        · simp [omp_get_num_threads, omp_set_num_threads, imlua_checknotcfloat, deref, himg, hp,
            hq, bind_apply, ite_apply_M, c1, c2, c3, imlua_errorcfloat, luaL_argerror, raise,
            hlog, Fault.isLuaError, pure_apply, imlua_matchsize, luaL_error,
            imlua_errormatchsize]

/-- A positive index inside the stack denotes the same value after pushes. -/
theorem index_append (L : lua_State) (vs : List LuaValue) (idx : Int)
    (h0 : 0 < idx) (h1 : idx ≤ L.stack.length) :
    (L.withStack (L.stack ++ vs)).index idx = L.index idx := by
  have h2 : (idx - 1).toNat < L.stack.length := by omega
  simp only [lua_State.index, stackIndex, lua_State.withStack, h0, if_true]
  exact List.getElem?_append_left h2

theorem tableAt_append (L : lua_State) (vs : List LuaValue) (idx : Int)
    (h0 : 0 < idx) (h1 : idx ≤ L.stack.length) :
    (L.withStack (L.stack ++ vs)).tableAt idx = L.tableAt idx := by
  simp only [lua_State.tableAt, index_append L vs idx h0 h1]
  rfl

/-- The unpacking loop pushes the entries in order. -/
theorem unpackLoop_eq (index : Int) (t : LuaTable) :
    ∀ (k : Nat) (i : Int) (L : lua_State), 0 < index → index ≤ L.stack.length →
      L.tableAt index = t →
      unpackLoop index k i L = (Except.ok (),
        L.withStack (L.stack ++ (List.range k).map (fun j : Nat => t.rawgeti (i + j + 1))))
  | 0, _, L, _, _, _ => by simp [unpackLoop, pure_apply]
  | k + 1, i, L, h0, h1, ht => by
      have ih := unpackLoop_eq index t k (i + 1)
        (L.withStack (L.stack ++ [t.rawgeti (i + 1)])) h0
        (by simp only [withStack_stack, List.length_append, List.length_singleton]; omega)
        (by rw [tableAt_append L _ index h0 h1, ht])
      simp only [unpackLoop, bind_apply, lua_rawgeti, push, ht, ih, withStack_stack,
        withStack_withStack]
      rw [List.range_succ_eq_map]
      simp only [List.map_cons, List.map_map, List.append_assoc, List.singleton_append,
        Nat.cast_zero, add_zero, Function.comp_def, Nat.cast_succ]
      congr 5
      funext j
      congr 1
      omega

theorem imlua_unpacktable_eq (index : Int) (L : lua_State) (r : Nat)
    (h0 : 0 < index) (h1 : index ≤ L.stack.length) (hr : L.index index = some (LuaValue.table r)) :
    imlua_unpacktable index L = (Except.ok ((L.tableAt index).objlen : Int),
      L.withStack (L.stack ++ unpacked (L.tableAt index))) := by
  simp only [imlua_unpacktable, bind_apply, getState, imlua_getn, lua_objlen, hr, Int.toNat_ofNat]
  rw [unpackLoop_eq index (L.tableAt index) _ 0 L h0 h1 rfl]
  simp only [pure_apply, zero_add, unpacked]

/-- Calling the function that lies under its arguments on top of the stack. -/
theorem lua_call_eq (H : Host) (L : lua_State) (s args : List LuaValue) (f : Nat)
    (nargs nresults : Int) (hn : nargs = args.length) :
    lua_call H nargs nresults (L.withStack (s ++ LuaValue.function f :: args))
      = match H.call f args with
        | Except.ok rs =>
            (Except.ok (), L.withStack (s ++ adjustResults rs nresults.toNat))
        | Except.error e => (Except.error e, L.withStack (s ++ LuaValue.function f :: args)) := by
  have hlen : (s ++ LuaValue.function f :: args).length - (nargs.toNat + 1) = s.length := by
    simp only [List.length_append, List.length_cons, hn, Int.toNat_ofNat]
    omega
  have hcond : ¬ (nargs < 0 ∨ ((s ++ LuaValue.function f :: args).length : Int) < nargs + 1) := by
    simp only [List.length_append, List.length_cons, hn]
    push_cast
    omega
  simp only [lua_call, withStack_stack, hcond, if_false, hlen, List.getElem?_append_right,
    le_refl, Nat.sub_self, List.getElem?_cons_zero, List.take_left', withStack_withStack]
  have hdrop : List.drop (s.length + 1) (s ++ LuaValue.function f :: args) = args := by
    rw [List.drop_append_eq_append_drop]
    simp
  rw [hdrop]

theorem adjustResults_one (rs : List LuaValue) :
    adjustResults rs 1 = [rs.head?.getD LuaValue.nil] := by
  cases rs with
  | nil => rfl
  | cons a as => simp [adjustResults]

theorem type_eq_nil_iff (v : LuaValue) : v.type = LUA_TNIL ↔ v = LuaValue.nil := by
  cases v <;> simp [LuaValue.type, LUA_TNIL, LUA_TBOOLEAN, LUA_TLIGHTUSERDATA, LUA_TNUMBER,
    LUA_TSTRING, LUA_TTABLE, LUA_TFUNCTION, LUA_TUSERDATA, LUA_TTHREAD]

theorem stackIndex_neg_one (s : List LuaValue) (v : LuaValue) :
    stackIndex (s ++ [v]) (-1) = some v := by
  simp [stackIndex]

/-- The value at index 5 once the function copy and further values are pushed. -/
theorem stackIndex_five (L : lua_State) (f : Nat) (rest : List LuaValue)
    (hf : L.index 3 = some (LuaValue.function f)) (hlen : 4 ≤ L.stack.length) :
    (stackIndex (L.stack ++ [LuaValue.function f] ++ rest) 5).getD LuaValue.nil
      = userdataArg L := by
  have h : (4 : Nat) < (L.stack ++ [LuaValue.function f]).length := by
    simp only [List.length_append, List.length_singleton]; omega
  have h5 : ((5 : Int) - 1).toNat = 4 := by decide
  simp only [userdataArg, hf, Option.getD_some, stackIndex, h5]
  norm_num
  rw [List.append_cons, List.getElem?_append_left h]

/-- The whole effect of `imluaUnOpFunc`: the callback is called once; a nil
first result leaves `*dst_value` as it is and returns 0, a number (or a
numeral) is stored and 1 is returned, anything else is an error; on every
normal return the stack is as it was. -/
theorem imluaUnOpFunc_eq (H : Host) (L : lua_State) (f r : Nat) (src_value dst_value : float)
    (x y d : Int) (hf : L.index 3 = some (LuaValue.function f))
    (h4 : L.index 4 = some (LuaValue.table r)) (hlen : 4 ≤ L.stack.length) :
    imluaUnOpFunc H src_value dst_value x y d L =
      match H.call f (unOpArgs L src_value x y d) with
      | Except.error e =>
          (Except.error e,
            L.withStack (L.stack ++ LuaValue.function f :: unOpArgs L src_value x y d))
      | Except.ok rs =>
          if rs.head?.getD LuaValue.nil = LuaValue.nil then (Except.ok (0, dst_value), L)
          else match H.tonumber (some (rs.head?.getD LuaValue.nil)) with
            | some n => (Except.ok (1, H.c_float n), L)
            | none => (Except.error (Fault.argerror (-1) ("number expected, got " ++
                  lua_typename (rs.head?.getD LuaValue.nil).type)),
                L.withStack (L.stack ++ [rs.head?.getD LuaValue.nil])) := by
  have hidx4 : (L.withStack (L.stack ++ [LuaValue.function f] ++ [LuaValue.number src_value])).index 4
      = some (LuaValue.table r) := by
    rw [List.append_assoc, index_append L _ 4 (by norm_num) (by omega), h4]
  have htab : (L.withStack (L.stack ++ [LuaValue.function f] ++ [LuaValue.number src_value])).tableAt 4
      = L.tableAt 4 := by
    rw [List.append_assoc, tableAt_append L _ 4 (by norm_num) (by omega)]
  simp only [imluaUnOpFunc, bind_apply, lua_pushvalue, lua_pushnumber, lua_pushinteger, push, hf,
    Option.getD_some, withStack_stack, withStack_withStack]
  rw [imlua_unpacktable_eq 4 _ r (by norm_num)
    (by simp only [withStack_stack, List.length_append, List.length_singleton]; omega) hidx4]
  simp only [htab, withStack_stack, withStack_withStack, withStack_index]
  rw [List.append_assoc (L.stack ++ [LuaValue.function f]), stackIndex_five L f _ hf hlen]
  have hstack : L.stack ++ [LuaValue.function f] ++
      ([LuaValue.number src_value] ++ unpacked (L.tableAt 4)) ++ [userdataArg L] ++
        [LuaValue.number (x : ℚ)] ++ [LuaValue.number (y : ℚ)] ++ [LuaValue.number (d : ℚ)]
      = L.stack ++ LuaValue.function f :: unOpArgs L src_value x y d := by
    simp [unOpArgs, List.append_assoc]
  have hn : (1 + ((L.tableAt 4).objlen : Int) + 4) = (unOpArgs L src_value x y d).length := by
    simp only [unOpArgs, unpacked, List.length_cons, List.length_append, List.length_map,
      List.length_range, List.length_nil]
    push_cast
    ring
  rw [hstack, lua_call_eq H L _ _ f _ 1 hn]
  cases hcall : H.call f (unOpArgs L src_value x y d) with
  | error e => rfl
  | ok rs =>
    simp only [getState, adjustResults_one, Int.toNat_one, lua_isnil, lua_type, withStack_index,
      stackIndex_neg_one, ite_apply_M]
    generalize rs.head?.getD LuaValue.nil = b
    by_cases hnil : b = LuaValue.nil
    · subst hnil
      have hty : (LuaValue.nil.type == LUA_TNIL) = true := rfl
      simp only [hty, Bool.not_true, Bool.false_eq_true, if_false, if_true, pure_apply, lua_pop,
        withStack_stack, withStack_withStack, Int.toNat_one, List.length_append,
        List.length_singleton, Nat.add_sub_cancel, List.take_left', withStack_self]
    · have hty : (b.type == LUA_TNIL) = false := by
        rw [beq_eq_false_iff_ne]
        rwa [Ne, type_eq_nil_iff]
      simp only [hnil, if_false, hty, Bool.not_false, if_true, bind_apply, luaL_checknumber,
        withStack_index, stackIndex_neg_one]
      cases hnum : H.tonumber (some b) with
      | none =>
        simp only [luaL_typerror, luaL_argerror, raise, lua_type, withStack_index,
          stackIndex_neg_one]
        rfl
      | some n =>
        simp only [pure_apply, lua_pop, withStack_stack, withStack_withStack, Int.toNat_one,
          List.length_append, List.length_singleton, Nat.add_sub_cancel, List.take_left',
          withStack_self]


/-! ### Relations kept along a binding -/

theorem respects_bind {α β : Type} {I : lua_State → lua_State → Prop}
    (htrans : ∀ a b c, I a b → I b c → I a c) {m : M α} {f : α → M β}
    (hm : respects I m) (hf : ∀ a, respects I (f a)) : respects I (m >>= f) := by
  intro L
  rw [bind_apply]
  have h1 := hm L
  cases hr : m L with
  | mk r L1 =>
    rw [hr] at h1
    cases r with
    | error e => exact h1
    | ok a => exact htrans _ _ _ h1 (hf a L1)

theorem respects_of_state_eq {α : Type} {I : lua_State → lua_State → Prop}
    (hrefl : ∀ a, I a a) {m : M α} (h : ∀ L, (m L).2 = L) : respects I m := by
  intro L
  rw [h L]
  exact hrefl L

theorem respects_ite {α : Type} {I : lua_State → lua_State → Prop} (c : Prop) [Decidable c]
    {m1 m2 : M α} (h1 : respects I m1) (h2 : respects I m2) :
    respects I (if c then m1 else m2) := by
  split
  · exact h1
  · exact h2

theorem respects_forEach {α : Type} {I : lua_State → lua_State → Prop}
    (hrefl : ∀ a, I a a) (htrans : ∀ a b c, I a b → I b c → I a c) (g : α → M Unit)
    (hg : ∀ a, respects I (g a)) : ∀ as : List α, respects I (forEach g as)
  | [] => respects_of_state_eq hrefl (fun _ => rfl)
  | a :: as => respects_bind htrans (hg a) (fun _ => respects_forEach hrefl htrans g hg as)

/-! ### Primitives that leave the state as it is -/

theorem state_pure {α : Type} (a : α) (L : lua_State) : ((pure a : M α) L).2 = L := rfl

theorem state_raise {α : Type} (e : Fault) (L : lua_State) : ((raise e : M α) L).2 = L := rfl

theorem state_luaL_argerror {α : Type} (narg : Int) (msg : String) (L : lua_State) :
    ((luaL_argerror narg msg : M α) L).2 = L := rfl

theorem state_luaL_error {α : Type} (msg : String) (L : lua_State) :
    ((luaL_error msg : M α) L).2 = L := rfl

theorem state_luaL_typerror {α : Type} (narg : Int) (tname : String) (L : lua_State) :
    ((luaL_typerror narg tname : M α) L).2 = L := rfl

theorem state_luaL_checktype (narg t : Int) (L : lua_State) :
    (luaL_checktype narg t L).2 = L := by
  unfold luaL_checktype
  split <;> rfl

theorem state_imlua_checkimage (param : Int) (L : lua_State) :
    (imlua_checkimage param L).2 = L := by
  unfold imlua_checkimage
  split
  · split <;> rfl
  · rfl

theorem state_deref (p : Nat) (L : lua_State) : (deref p L).2 = L := by
  unfold deref
  split <;> rfl

theorem state_arrayRead {α : Type} (a : List α) (i : Int) (L : lua_State) :
    (arrayRead a i L).2 = L := by
  unfold arrayRead
  split
  · split <;> rfl
  · rfl

theorem state_arrayWrite {α : Type} (a : List α) (i : Int) (v : α) (L : lua_State) :
    (arrayWrite a i v L).2 = L := by
  unfold arrayWrite
  split <;> rfl

theorem state_omp_get_num_threads (H : Host) (L : lua_State) :
    (omp_get_num_threads H L).2 = L := rfl

/-- A sequence of state-preserving computations preserves the state. -/
theorem state_bind {α β : Type} (m : M α) (f : α → M β) (hm : ∀ L, (m L).2 = L)
    (hf : ∀ a L, (f a L).2 = L) (L : lua_State) : ((m >>= f) L).2 = L := by
  have h := respects_bind (I := fun a b => b = a) (fun a b c h1 h2 => by rw [h2, h1])
    (m := m) (f := f) hm (fun a L => hf a L)
  exact h L

theorem state_ite {α : Type} (c : Prop) [Decidable c] (m1 m2 : M α) (h1 : ∀ L, (m1 L).2 = L)
    (h2 : ∀ L, (m2 L).2 = L) (L : lua_State) : ((if c then m1 else m2) L).2 = L := by
  split
  · exact h1 L
  · exact h2 L

theorem state_imlua_checknotcfloat (a : Int) (i : Nat) (L : lua_State) :
    (imlua_checknotcfloat a i L).2 = L :=
  state_bind _ _ (state_deref i) (fun _ => state_ite _ _ _ (state_luaL_argerror _ _)
    (state_pure _)) L

theorem state_imlua_matchsize (i1 i2 : Nat) (L : lua_State) :
    (imlua_matchsize i1 i2 L).2 = L :=
  state_bind _ _ (state_deref i1) (fun _ => state_bind _ _ (state_deref i2)
    (fun _ => state_ite _ _ _ (state_luaL_error _) (state_pure _))) L

theorem state_readSample (image : imImage) (d offset : Int) (L : lua_State) :
    (readSample image d offset L).2 = L :=
  state_bind _ _ (state_arrayRead _ _) (fun _ => state_arrayRead _ _) L

/-! ### The callback and the images along `imluaProcessUnaryPointOp` -/

theorem keepsImages_refl (f r : Nat) (a : lua_State) : keepsImages f r a a :=
  fun h3 h4 => ⟨h3, h4, rfl⟩

theorem keepsImages_trans (f r : Nat) (a b c : lua_State) (h1 : keepsImages f r a b)
    (h2 : keepsImages f r b c) : keepsImages f r a c := by
  intro h3 h4
  obtain ⟨b3, b4, bi⟩ := h1 h3 h4
  obtain ⟨c3, c4, ci⟩ := h2 b3 b4
  exact ⟨c3, c4, ci.trans bi⟩

/-- A value at index 4 means at least four values on the stack. -/
theorem length_of_index_four (L : lua_State) (v : LuaValue) (h : L.index 4 = some v) :
    4 ≤ L.stack.length := by
  by_contra hlt
  have h3 : ((4 : Int) - 1).toNat = 3 := by decide
  simp only [lua_State.index, stackIndex, h3] at h
  norm_num at h
  rw [List.getElem?_eq_none (by omega)] at h
  cases h

/-- Replacing the value at index 6 leaves indices 3 and 4 as they are. -/
theorem index_setSlot_six (L : lua_State) (v : LuaValue) (idx : Int) (h0 : 0 < idx)
    (h1 : idx < 6) : (L.setSlot (L.slot 6) v).index idx = L.index idx := by
  have hs : L.slot 6 = 5 := by
    unfold lua_State.slot
    rw [if_pos (by norm_num)]
    rfl
  have hne : 5 ≠ (idx - 1).toNat := by omega
  simp only [lua_State.setSlot, withStack_index, lua_State.index, stackIndex, hs, h0, if_true]
  exact List.getElem?_set_ne hne

theorem keepsImages_optstring (H : Host) (f r : Nat) :
    respects (keepsImages f r) (luaL_optstring H 6) := by
  intro L h3 h4
  obtain ⟨res, L1, hopt, hL1, -⟩ := luaL_optstring_spec H 6 L
  rw [hopt]
  rcases hL1 with rfl | ⟨v, rfl⟩
  · exact ⟨h3, h4, rfl⟩
  · exact ⟨by rw [index_setSlot_six L v 3 (by norm_num) (by norm_num), h3],
      by rw [index_setSlot_six L v 4 (by norm_num) (by norm_num), h4], rfl⟩

theorem keepsImages_omp_set (H : Host) (f r : Nat) (n : Int) :
    respects (keepsImages f r) (omp_set_num_threads H n) :=
  fun _ h3 h4 => ⟨h3, h4, rfl⟩

theorem keepsImages_logKernel (f r : Nat) (c : KernelCall) :
    respects (keepsImages f r) (logKernel c) :=
  fun _ h3 h4 => ⟨h3, h4, rfl⟩

theorem keepsImages_push (f r : Nat) (v : LuaValue) : respects (keepsImages f r) (push v) := by
  intro L h3 h4
  have hlen := length_of_index_four L _ h4
  exact ⟨by rw [push, index_append L _ 3 (by norm_num) (by omega), h3],
    by rw [push, index_append L _ 4 (by norm_num) (by omega), h4], rfl⟩

/-- With a callback that always declines, one step of the unary kernel
leaves the state as it is. -/
theorem keepsImages_unary_step (H : Host) (f r : Nat) (src_image dst_image : Nat)
    (hdecl : ∀ args, ∃ rs, H.call f args = Except.ok rs ∧ rs.head?.getD LuaValue.nil = LuaValue.nil)
    (c : Int × Int × Int) :
    respects (keepsImages f r) (do
      let x := c.1
      let y := c.2.1
      let d := c.2.2
      let src ← deref src_image
      let src_value ← readSample src d (y * src.width + x)
      let (ret, dst_value) ← imluaUnOpFunc H src_value 0 x y d
      if ret ≠ 0 then writeSample dst_image d (y * src.width + x) dst_value) := by
  refine respects_bind (keepsImages_trans f r)
    (respects_of_state_eq (keepsImages_refl f r) (state_deref _)) (fun src => ?_)
  refine respects_bind (keepsImages_trans f r)
    (respects_of_state_eq (keepsImages_refl f r) (state_readSample _ _ _)) (fun src_value => ?_)
  intro L h3 h4
  obtain ⟨rs, hcall, hnil⟩ := hdecl (unOpArgs L src_value c.1 c.2.1 c.2.2)
  have hfun := imluaUnOpFunc_eq H L f r src_value 0 c.1 c.2.1 c.2.2 h3 h4
    (length_of_index_four L _ h4)
  simp only [hcall, hnil, if_true] at hfun
  simp only [bind_apply, hfun]
  exact ⟨h3, h4, rfl⟩

theorem keepsImages_imluaProcessUnaryPointOp (H : Host) (f r : Nat)
    (hdecl : ∀ args, ∃ rs, H.call f args = Except.ok rs ∧ rs.head?.getD LuaValue.nil = LuaValue.nil) :
    respects (keepsImages f r) (imluaProcessUnaryPointOp H) := by
  have ht := keepsImages_trans f r
  have hr := keepsImages_refl f r
  unfold imluaProcessUnaryPointOp
  refine respects_bind ht (respects_of_state_eq hr (state_imlua_checkimage _)) (fun src_image => ?_)
  refine respects_bind ht (respects_of_state_eq hr (state_imlua_checkimage _)) (fun dst_image => ?_)
  refine respects_bind ht (keepsImages_optstring H f r) (fun op_name => ?_)
  refine respects_bind ht (respects_of_state_eq hr (state_omp_get_num_threads H)) (fun old => ?_)
  refine respects_bind ht (keepsImages_omp_set H f r _) (fun _ => ?_)
  refine respects_bind ht (respects_of_state_eq hr (state_imlua_checknotcfloat _ _)) (fun _ => ?_)
  refine respects_bind ht (respects_of_state_eq hr (state_imlua_checknotcfloat _ _)) (fun _ => ?_)
  refine respects_bind ht (respects_of_state_eq hr (state_imlua_matchsize _ _)) (fun _ => ?_)
  refine respects_bind ht (respects_of_state_eq hr (state_deref _)) (fun src => ?_)
  refine respects_bind ht (respects_of_state_eq hr (state_deref _)) (fun dst => ?_)
  dsimp only
  have hrest : ∀ y : PUnit, respects (keepsImages f r) (do
      luaL_checktype 3 LUA_TFUNCTION
      luaL_checktype 4 LUA_TTABLE
      let r ← imProcessUnaryPointOp src_image dst_image (imluaUnOpFunc H) op_name
      lua_pushboolean r
      omp_set_num_threads H old
      pure 1 : M Int) := by
    intro _
    refine respects_bind ht (respects_of_state_eq hr (state_luaL_checktype _ _)) (fun _ => ?_)
    refine respects_bind ht (respects_of_state_eq hr (state_luaL_checktype _ _)) (fun _ => ?_)
    refine respects_bind ht ?_ (fun res => ?_)
    · unfold imProcessUnaryPointOp
      refine respects_bind ht (keepsImages_logKernel f r _) (fun _ => ?_)
      refine respects_bind ht (respects_of_state_eq hr (state_deref _)) (fun src1 => ?_)
      refine respects_bind ht ?_ (fun _ => respects_of_state_eq hr (state_pure _))
      exact respects_forEach hr ht _
        (keepsImages_unary_step H f r src_image dst_image hdecl) _
    · refine respects_bind ht (keepsImages_push f r _) (fun _ => ?_)
      exact respects_bind ht (keepsImages_omp_set H f r _)
        (fun _ => respects_of_state_eq hr (state_pure _))
  refine respects_ite _ ?_ ?_
  · exact respects_bind ht (respects_of_state_eq hr (state_luaL_error _)) hrest
  · exact respects_bind ht (respects_of_state_eq hr (state_pure _)) hrest

/-! ### The claims on the unary point operation -/

/-- C4: `imluaProcessUnaryPointOp` calls the point-operation kernel only if
source and destination have equal width and height and equal depth and neither
has data type complex float; if one of these fails it raises an error, the
kernel is not called and no image is modified. -/
theorem unary_pointop_kernel_only_behind_gates (H : Host) (L : lua_State) (p q : Nat)
    (src dst : imImage)
    (h1 : L.index 1 = some (LuaValue.image p)) (hp : L.images[p]? = some (some src))
    (h2 : L.index 2 = some (LuaValue.image q)) (hq : L.images[q]? = some (some dst)) :
    ((imluaProcessUnaryPointOp H L).2.kernel_log ≠ L.kernel_log →
      src.width = dst.width ∧ src.height = dst.height ∧ src.depth = dst.depth ∧
        src.data_type ≠ imDataType.IM_CFLOAT ∧ dst.data_type ≠ imDataType.IM_CFLOAT) ∧
    (¬ (src.width = dst.width ∧ src.height = dst.height ∧ src.depth = dst.depth ∧
        src.data_type ≠ imDataType.IM_CFLOAT ∧ dst.data_type ≠ imDataType.IM_CFLOAT) →
      (∃ e, (imluaProcessUnaryPointOp H L).1 = Except.error e ∧ e.isLuaError = true) ∧
        (imluaProcessUnaryPointOp H L).2.kernel_log = L.kernel_log ∧
        (imluaProcessUnaryPointOp H L).2.images = L.images) := by
  refine ⟨fun hlog => ?_, fun hbad => unary_pointop_rejects H L p q src dst h1 hp h2 hq hbad⟩
  by_contra hbad
  exact hlog (unary_pointop_rejects H L p q src dst h1 hp h2 hq hbad).2.1

theorem unary_pointop_kernel_only_behind_gates_witness :
    (∃ e, (imluaProcessUnaryPointOp exHost (exUnaryWideState 2)).1 = Except.error e
        ∧ e.isLuaError = true) ∧
      (imluaProcessUnaryPointOp exHost (exUnaryWideState 2)).2.kernel_log = [] ∧
      (imluaProcessUnaryPointOp exHost (exUnaryWideState 2)).2.images
        = (exUnaryWideState 2).images :=
  (unary_pointop_kernel_only_behind_gates exHost (exUnaryWideState 2) 0 1 _ _
    rfl rfl rfl rfl).2 (by decide)

/-- C5: in `imluaUnOpFunc` the destination value is left as it is and 0 ("no
value") is returned exactly when the first result of the callback is nil; when
it is a number, the destination value is set to that number and 1 is returned.
Consequently `imluaProcessUnaryPointOp` with a callback that always declines
leaves every image, so every destination sample, as it was. -/
theorem unop_declines_exactly_on_nil (H : Host) (L : lua_State) (f r : Nat)
    (hf : L.index 3 = some (LuaValue.function f))
    (h4 : L.index 4 = some (LuaValue.table r)) :
    (∀ (src_value dst_value : float) (x y d : Int) (rs : List LuaValue),
      H.call f (unOpArgs L src_value x y d) = Except.ok rs →
        (rs.head?.getD LuaValue.nil = LuaValue.nil →
          imluaUnOpFunc H src_value dst_value x y d L = (Except.ok (0, dst_value), L)) ∧
        (∀ n : lua_Number, rs.head?.getD LuaValue.nil = LuaValue.number n →
          imluaUnOpFunc H src_value dst_value x y d L = (Except.ok (1, H.c_float n), L)) ∧
        (∀ (ret : Int) (v : float) (L1 : lua_State),
          imluaUnOpFunc H src_value dst_value x y d L = (Except.ok (ret, v), L1) →
            (ret = 0 ↔ rs.head?.getD LuaValue.nil = LuaValue.nil))) ∧
    ((∀ args, ∃ rs, H.call f args = Except.ok rs ∧ rs.head?.getD LuaValue.nil = LuaValue.nil) →
      (imluaProcessUnaryPointOp H L).2.images = L.images) := by
  refine ⟨fun src_value dst_value x y d rs hcall => ?_, fun hdecl => ?_⟩
  · have hfun := imluaUnOpFunc_eq H L f r src_value dst_value x y d hf h4
      (length_of_index_four L _ h4)
    simp only [hcall] at hfun
    refine ⟨fun hnil => ?_, fun n hn => ?_, fun ret v L1 hret => ?_⟩
    · rw [hfun, if_pos hnil]
    · rw [hfun, hn, if_neg (by simp)]
      rfl
    · rw [hfun] at hret
      by_cases hnil : rs.head?.getD LuaValue.nil = LuaValue.nil
      · rw [if_pos hnil] at hret
        simp only [Prod.mk.injEq, Except.ok.injEq] at hret
        simp [hnil, ← hret.1.1]
      · rw [if_neg hnil] at hret
        cases hnum : H.tonumber (some (rs.head?.getD LuaValue.nil)) with
        | none => simp [hnum] at hret
        | some n =>
          simp only [hnum, Prod.mk.injEq, Except.ok.injEq] at hret
          simp [hnil, ← hret.1.1]
  · exact (keepsImages_imluaProcessUnaryPointOp H f r hdecl L hf h4).2.2

theorem unop_declines_exactly_on_nil_witness :
    (imluaUnOpFunc exHost 5 9 1 0 0 (exUnaryState 0) = (Except.ok (0, 9), exUnaryState 0) ∧
      (imluaProcessUnaryPointOp exHost (exUnaryState 0)).2.images = (exUnaryState 0).images) ∧
    imluaUnOpFunc exHost 5 9 1 0 0 (exUnaryState 2) = (Except.ok (1, 7), exUnaryState 2) :=
  ⟨⟨((unop_declines_exactly_on_nil exHost (exUnaryState 0) 0 0 rfl rfl).1
        5 9 1 0 0 [] rfl).1 rfl,
      (unop_declines_exactly_on_nil exHost (exUnaryState 0) 0 0 rfl rfl).2
        (fun _ => ⟨[], rfl, rfl⟩)⟩,
    ((unop_declines_exactly_on_nil exHost (exUnaryState 2) 2 0 rfl rfl).1
      5 9 1 0 0 [LuaValue.number 7] rfl).2.1 7 rfl⟩

/-! ### The color trampoline -/

theorem float2int_int2float (i : Int) : float2int (int2float i) = i := by
  simp [float2int, int2float]

/-- The pushing loop pushes the source components in order. -/
theorem pushLoop_eq (src_value : List float) :
    ∀ (k : Nat) (d : Nat) (L : lua_State), d + k ≤ src_value.length →
      pushLoop src_value k (d : Int) L = (Except.ok (),
        L.withStack (L.stack ++ ((src_value.drop d).take k).map LuaValue.number))
  | 0, _, L, _ => by simp [pushLoop, pure_apply]
  | k + 1, d, L, h => by
      have hd : d < src_value.length := by omega
      have ih := pushLoop_eq src_value k (d + 1)
        (L.withStack (L.stack ++ [LuaValue.number src_value[d]])) (by omega)
      have hread : arrayRead src_value (d : Int) L = (Except.ok src_value[d], L) := by
        simp [arrayRead, hd]
      simp only [Nat.cast_add, Nat.cast_one] at ih
      simp only [pushLoop, bind_apply, hread, lua_pushnumber, push, ih, withStack_stack,
        withStack_withStack]
      rw [List.drop_eq_getElem_cons hd, List.take_succ_cons, List.map_cons, List.append_assoc,
        List.singleton_append]

/-- The value at the negative index of result `d` among the results on top. -/
theorem stackIndex_result (s res : List LuaValue) (d : Nat) (h : d < res.length) :
    stackIndex (s ++ res) ((d : Int) - res.length) = res[d]? := by
  have h1 : ¬ (0 < (d : Int) - res.length) := by omega
  have h2 : ((d : Int) - res.length < 0 ∧
      -((d : Int) - res.length) ≤ ((s ++ res).length : Int)) := by
    simp only [List.length_append]; push_cast; omega
  have h3 : (((s ++ res).length : Int) + ((d : Int) - res.length)).toNat = s.length + d := by
    simp only [List.length_append]; push_cast; omega
  simp only [stackIndex, h1, h2, if_false, if_true, and_self, h3]
  rw [List.getElem?_append_right (by omega)]
  simp

theorem adjustResults_length (rs : List LuaValue) (n : Nat) :
    (adjustResults rs n).length = n := by
  simp only [adjustResults, List.length_append, List.length_take, List.length_replicate]
  omega

theorem frame_refl (a : lua_State) : frame a a := ⟨rfl, rfl, rfl, rfl, rfl, rfl⟩

theorem frame_trans (a b c : lua_State) (h1 : frame a b) (h2 : frame b c) : frame a c :=
  ⟨h2.1.trans h1.1, h2.2.1.trans h1.2.1, h2.2.2.1.trans h1.2.2.1,
    h2.2.2.2.1.trans h1.2.2.2.1, h2.2.2.2.2.1.trans h1.2.2.2.2.1,
    h2.2.2.2.2.2.trans h1.2.2.2.2.2⟩

theorem frame_withStack (L : lua_State) (s : List LuaValue) : frame L (L.withStack s) :=
  ⟨rfl, rfl, rfl, rfl, rfl, rfl⟩

theorem frame_of_state_eq {α : Type} {m : M α} (h : ∀ L, (m L).2 = L) : respects frame m :=
  respects_of_state_eq frame_refl h

theorem frame_push (v : LuaValue) : respects frame (push v) :=
  fun L => frame_withStack L _

theorem frame_lua_pushvalue (idx : Int) : respects frame (lua_pushvalue idx) :=
  fun L => frame_withStack L _

theorem frame_lua_rawgeti (idx n : Int) : respects frame (lua_rawgeti idx n) :=
  fun L => frame_withStack L _

theorem frame_lua_pop (n : Int) : respects frame (lua_pop n) :=
  fun L => frame_withStack L _

theorem frame_getState : respects frame getState := fun L => frame_refl L

theorem frame_luaL_checknumber (H : Host) (narg : Int) :
    respects frame (luaL_checknumber H narg) := by
  intro L
  unfold luaL_checknumber
  split
  · exact frame_refl L
  · exact frame_refl L

theorem frame_lua_call (H : Host) (nargs nresults : Int) :
    respects frame (lua_call H nargs nresults) := by
  intro L
  unfold lua_call
  split
  · exact frame_refl L
  · dsimp only
    split
    · split
      · exact frame_withStack L _
      · exact frame_refl L
    · exact frame_refl L
    · exact frame_refl L

theorem frame_pushLoop (src_value : List float) :
    ∀ (k : Nat) (d : Int), respects frame (pushLoop src_value k d)
  | 0, _ => frame_of_state_eq (state_pure _)
  | k + 1, d =>
      respects_bind frame_trans (frame_of_state_eq (state_arrayRead _ _))
        (fun _ => respects_bind frame_trans (frame_push _)
          (fun _ => frame_pushLoop src_value k (d + 1)))

theorem frame_unpackLoop (index : Int) :
    ∀ (k : Nat) (i : Int), respects frame (unpackLoop index k i)
  | 0, _ => frame_of_state_eq (state_pure _)
  | k + 1, i =>
      respects_bind frame_trans (frame_lua_rawgeti _ _)
        (fun _ => frame_unpackLoop index k (i + 1))

theorem frame_imlua_unpacktable (index : Int) : respects frame (imlua_unpacktable index) :=
  respects_bind frame_trans frame_getState
    (fun _ => respects_bind frame_trans (frame_unpackLoop _ _ _)
      (fun _ => frame_of_state_eq (state_pure _)))

theorem frame_storeLoop (H : Host) (dst_depth : Int) :
    ∀ (k : Nat) (dst_value : List float) (d : Int),
      respects frame (storeLoop H dst_depth dst_value k d)
  | 0, _, _ => frame_of_state_eq (state_pure _)
  | k + 1, _, d =>
      respects_bind frame_trans (frame_luaL_checknumber H _)
        (fun _ => respects_bind frame_trans (frame_of_state_eq (state_arrayWrite _ _ _))
          (fun _ => frame_storeLoop H dst_depth k _ (d + 1)))

theorem frame_imluaUnColorOpFunc (H : Host) (src_value dst_value params : List float)
    (x y : Int) : respects frame (imluaUnColorOpFunc H src_value dst_value params x y) := by
  have ht := frame_trans
  unfold imluaUnColorOpFunc
  refine respects_bind ht (frame_of_state_eq (state_arrayRead _ _)) (fun p0 => ?_)
  refine respects_bind ht (frame_of_state_eq (state_arrayRead _ _)) (fun p1 => ?_)
  refine respects_bind ht (frame_lua_pushvalue _) (fun _ => ?_)
  refine respects_bind ht (frame_pushLoop _ _ _) (fun _ => ?_)
  refine respects_bind ht (frame_imlua_unpacktable _) (fun n => ?_)
  refine respects_bind ht (frame_lua_pushvalue _) (fun _ => ?_)
  refine respects_bind ht (frame_push _) (fun _ => ?_)
  refine respects_bind ht (frame_push _) (fun _ => ?_)
  refine respects_bind ht (frame_lua_call H _ _) (fun _ => ?_)
  refine respects_bind ht frame_getState (fun L1 => ?_)
  refine respects_bind ht ?_ (fun res => ?_)
  · refine respects_ite _ ?_ (frame_of_state_eq (state_pure _))
    exact respects_bind ht (frame_storeLoop H _ _ _ _)
      (fun _ => frame_of_state_eq (state_pure _))
  · exact respects_bind ht (frame_lua_pop _) (fun _ => frame_of_state_eq (state_pure _))

theorem frame_writeSample (p : Nat) (d offset : Int) (v : float) :
    respects frame (writeSample p d offset v) := by
  have ht := frame_trans
  unfold writeSample
  refine respects_bind ht (frame_of_state_eq (state_deref _)) (fun image => ?_)
  refine respects_bind ht (frame_of_state_eq (state_arrayRead _ _)) (fun plane => ?_)
  refine respects_bind ht (frame_of_state_eq (state_arrayWrite _ _ _)) (fun plane1 => ?_)
  refine respects_bind ht (frame_of_state_eq (state_arrayWrite _ _ _)) (fun data => ?_)
  intro L
  exact ⟨rfl, rfl, rfl, rfl, rfl, rfl⟩

theorem frame_writePixel (p : Nat) (offset : Int) :
    ∀ (vs : List float) (d : Int), respects frame (writePixel p offset vs d)
  | [], _ => frame_of_state_eq (state_pure _)
  | v :: vs, d =>
      respects_bind frame_trans (frame_writeSample p d offset v)
        (fun _ => frame_writePixel p offset vs (d + 1))

theorem state_readPixel (image : imImage) (offset : Int) :
    ∀ (k : Nat) (d : Int) (L : lua_State), (readPixel image offset k d L).2 = L
  | 0, _, _ => rfl
  | k + 1, d, L =>
      state_bind _ _ (state_readSample image d offset)
        (fun _ => state_bind _ _ (state_readPixel image offset k (d + 1))
          (fun _ => state_pure _)) L

/-- The color kernel records its call and changes nothing else but the stack
and the images. -/
theorem imProcessUnaryPointColorOp_log (H : Host) (p q : Nat) (params : List float)
    (op_name : Option String) (L : lua_State) :
    (imProcessUnaryPointColorOp p q (imluaUnColorOpFunc H) params op_name L).2.kernel_log
      = L.kernel_log ++ [⟨"imProcessUnaryPointColorOp",
          [KernelArg.img p, KernelArg.img q, KernelArg.floats params,
            KernelArg.str op_name]⟩] := by
  have ht := frame_trans
  have hrest : respects frame (do
      let src ← deref p
      let dst ← deref q
      forEach (fun (c : Int × Int × Int) => do
          let x := c.1
          let y := c.2.1
          let src ← deref p
          let src_value ← readPixel src (y * src.width + x) src.planes.toNat 0
          let (ret, dst_value) ←
            imluaUnColorOpFunc H src_value (List.replicate dst.planes.toNat 0) params x y
          if ret ≠ 0 then writePixel q (y * src.width + x) dst_value 0)
        (pixelCoords src.width src.height 1)
      pure 1 : M Int) := by
    refine respects_bind ht (frame_of_state_eq (state_deref _)) (fun src => ?_)
    refine respects_bind ht (frame_of_state_eq (state_deref _)) (fun dst => ?_)
    refine respects_bind ht ?_ (fun _ => frame_of_state_eq (state_pure _))
    refine respects_forEach frame_refl ht _ (fun c => ?_) _
    refine respects_bind ht (frame_of_state_eq (state_deref _)) (fun src1 => ?_)
    refine respects_bind ht (frame_of_state_eq (state_readPixel _ _ _ _)) (fun sv => ?_)
    refine respects_bind ht (frame_imluaUnColorOpFunc H _ _ _ _ _) (fun res => ?_)
    exact respects_ite _ (frame_writePixel _ _ _ _) (frame_of_state_eq (state_pure _))
  unfold imProcessUnaryPointColorOp
  rw [bind_apply]
  simp only [logKernel]
  exact (hrest _).2.2.2.2.2

/-! ### The gates of `imluaProcessUnaryPointColorOp` -/

/-- When the sizes differ or an image is complex float,
`imluaProcessUnaryPointColorOp` raises an error, the kernel is not called and
no image changes. -/
theorem color_pointop_rejects (H : Host) (L : lua_State) (p q : Nat) (src dst : imImage)
    (h1 : L.index 1 = some (LuaValue.image p)) (hp : L.images[p]? = some (some src))
    (h2 : L.index 2 = some (LuaValue.image q)) (hq : L.images[q]? = some (some dst))
    (hbad : ¬ (src.width = dst.width ∧ src.height = dst.height ∧
        src.data_type ≠ imDataType.IM_CFLOAT ∧ dst.data_type ≠ imDataType.IM_CFLOAT)) :
    (∃ e, (imluaProcessUnaryPointColorOp H L).1 = Except.error e ∧ e.isLuaError = true) ∧
      (imluaProcessUnaryPointColorOp H L).2.kernel_log = L.kernel_log ∧
      (imluaProcessUnaryPointColorOp H L).2.images = L.images := by
  obtain ⟨r, L1, hopt, hL1, hr⟩ := luaL_optstring_spec H 6 L
  have himg : L1.images = L.images := by
    rcases hL1 with rfl | ⟨v, rfl⟩ <;> rfl
  have hlog : L1.kernel_log = L.kernel_log := by
    rcases hL1 with rfl | ⟨v, rfl⟩ <;> rfl
  simp only [imluaProcessUnaryPointColorOp, bind_apply, imlua_checkimage, h1, h2, hp, hq, hopt]
  cases r with
  | error e => exact ⟨⟨e, rfl, hr e rfl⟩, hlog, himg⟩
  | ok op_name =>
    by_cases c1 : src.data_type = imDataType.IM_CFLOAT
    · simp [omp_get_num_threads, omp_set_num_threads, imlua_checknotcfloat, deref, himg, hp, hq,
        bind_apply, ite_apply_M, c1, imlua_errorcfloat, luaL_argerror, raise, hlog,
        Fault.isLuaError]
    · by_cases c2 : dst.data_type = imDataType.IM_CFLOAT
      · simp [omp_get_num_threads, omp_set_num_threads, imlua_checknotcfloat, deref, himg, hp,
          hq, bind_apply, ite_apply_M, c1, c2, imlua_errorcfloat, luaL_argerror, raise, hlog,
          Fault.isLuaError, pure_apply]
      · have c3 : imImageMatchSize src dst = false := by
          rw [Bool.eq_false_iff]
          intro hm
          simp only [imImageMatchSize, Bool.and_eq_true, beq_iff_eq] at hm
          exact hbad ⟨hm.1, hm.2, c1, c2⟩
        simp [omp_get_num_threads, omp_set_num_threads, imlua_checknotcfloat, deref, himg, hp,
          hq, bind_apply, ite_apply_M, c1, c2, c3, imlua_errorcfloat, luaL_argerror, raise,
          hlog, Fault.isLuaError, pure_apply, imlua_matchsize, luaL_error,
          imlua_errormatchsize]

/-- When the gates pass, whatever the depths, `imluaProcessUnaryPointColorOp`
calls the kernel with the numbers of planes of source and destination as
parameters. -/
theorem color_pointop_accepts (H : Host) (L : lua_State) (p q : Nat) (src dst : imImage)
    (op_name : Option String)
    (h1 : L.index 1 = some (LuaValue.image p)) (hp : L.images[p]? = some (some src))
    (h2 : L.index 2 = some (LuaValue.image q)) (hq : L.images[q]? = some (some dst))
    (h3 : lua_type L 3 = LUA_TFUNCTION) (h4 : lua_type L 4 = LUA_TTABLE)
    (h6 : (luaL_optstring H 6 L).1 = Except.ok op_name)
    (hsize : src.width = dst.width ∧ src.height = dst.height)
    (hsrc : src.data_type ≠ imDataType.IM_CFLOAT) (hdst : dst.data_type ≠ imDataType.IM_CFLOAT) :
    (imluaProcessUnaryPointColorOp H L).2.kernel_log
      = L.kernel_log ++ [⟨"imProcessUnaryPointColorOp",
          [KernelArg.img p, KernelArg.img q,
            KernelArg.floats [int2float (if src.has_alpha then src.depth + 1 else src.depth),
              int2float (if dst.has_alpha then dst.depth + 1 else dst.depth)],
            KernelArg.str op_name]⟩] := by
  obtain ⟨r, L1, hopt, hL1, hr⟩ := luaL_optstring_spec H 6 L
  rw [hopt] at h6
  simp only at h6
  subst h6
  have himg : L1.images = L.images := by
    rcases hL1 with rfl | ⟨v, rfl⟩ <;> rfl
  have hlog : L1.kernel_log = L.kernel_log := by
    rcases hL1 with rfl | ⟨v, rfl⟩ <;> rfl
  have h3' : lua_type L1 3 = LUA_TFUNCTION := by
    rcases hL1 with rfl | ⟨v, rfl⟩
    · exact h3
    · rw [lua_type, index_setSlot_six L v 3 (by norm_num) (by norm_num)]; exact h3
  have h4' : lua_type L1 4 = LUA_TTABLE := by
    rcases hL1 with rfl | ⟨v, rfl⟩
    · exact h4
    · rw [lua_type, index_setSlot_six L v 4 (by norm_num) (by norm_num)]; exact h4
  have c3 : imImageMatchSize src dst = true := by
    simp [imImageMatchSize, hsize.1, hsize.2]
  simp only [imluaProcessUnaryPointColorOp, bind_apply, imlua_checkimage, h1, h2, hp, hq, hopt,
    omp_get_num_threads, omp_set_num_threads, imlua_checknotcfloat, deref, himg, hsrc, hdst,
    if_false, ite_apply_M, pure_apply, imlua_matchsize, c3, Bool.not_true, Bool.false_eq_true,
    luaL_checktype, lua_type_withThreads, withThreads_images, h3', h4', if_true]
  generalize hL2 : L1.withThreads (if H.openmp = true then Int.toNat 1 else L1.omp_nthreads) = L2
  have hlog2 : L2.kernel_log = L.kernel_log := by rw [← hL2]; exact hlog
  have hk := imProcessUnaryPointColorOp_log H p q
    [int2float (if src.has_alpha then src.depth + 1 else src.depth),
      int2float (if dst.has_alpha then dst.depth + 1 else dst.depth)] op_name L2
  cases hres : imProcessUnaryPointColorOp p q (imluaUnColorOpFunc H)
    [int2float (if src.has_alpha then src.depth + 1 else src.depth),
      int2float (if dst.has_alpha then dst.depth + 1 else dst.depth)] op_name L2 with
  | mk res L3 =>
    rw [hres] at hk
    cases res with
    | error e => simpa [hlog2] using hk
    | ok a => simpa [hlog2, lua_pushboolean, push] using hk

/-! ### The claims on the color point operation -/

/-- C6, as stated, fails: an RGB source of depth 3 and a gray destination of
depth 1 of the same size pass the gates of `imluaProcessUnaryPointColorOp`, and
the kernel is called on them. -/
theorem color_pointop_takes_unequal_depths :
    exRgbSrc.depth ≠ exGrayDst.depth ∧
    (exColorState 2).index 1 = some (LuaValue.image 0) ∧
    (exColorState 2).images[0]? = some (some exRgbSrc) ∧
    (exColorState 2).index 2 = some (LuaValue.image 1) ∧
    (exColorState 2).images[1]? = some (some exGrayDst) ∧
    (imluaProcessUnaryPointColorOp exHost (exColorState 2)).2.kernel_log
      = [⟨"imProcessUnaryPointColorOp", [KernelArg.img 0, KernelArg.img 1,
          KernelArg.floats [3, 1], KernelArg.str none]⟩] :=
  ⟨by decide, rfl, rfl, rfl, rfl,
    color_pointop_accepts exHost (exColorState 2) 0 1 exRgbSrc exGrayDst none rfl rfl rfl rfl
      rfl rfl rfl ⟨rfl, rfl⟩ (by decide) (by decide)⟩

/-- C6, amended: `imluaProcessUnaryPointColorOp` raises an error, without
calling the kernel and without changing an image, when the sizes differ or
when either image is complex float; it does not compare the depths: when the
sizes are equal, neither image is complex float and the other arguments are
well-typed, the kernel is called whatever the two depths are. -/
theorem color_pointop_gates (H : Host) (L : lua_State) (p q : Nat) (src dst : imImage)
    (h1 : L.index 1 = some (LuaValue.image p)) (hp : L.images[p]? = some (some src))
    (h2 : L.index 2 = some (LuaValue.image q)) (hq : L.images[q]? = some (some dst)) :
    (¬ (src.width = dst.width ∧ src.height = dst.height ∧
        src.data_type ≠ imDataType.IM_CFLOAT ∧ dst.data_type ≠ imDataType.IM_CFLOAT) →
      (∃ e, (imluaProcessUnaryPointColorOp H L).1 = Except.error e ∧ e.isLuaError = true) ∧
        (imluaProcessUnaryPointColorOp H L).2.kernel_log = L.kernel_log ∧
        (imluaProcessUnaryPointColorOp H L).2.images = L.images) ∧
    (src.width = dst.width ∧ src.height = dst.height ∧
        src.data_type ≠ imDataType.IM_CFLOAT ∧ dst.data_type ≠ imDataType.IM_CFLOAT →
      lua_type L 3 = LUA_TFUNCTION → lua_type L 4 = LUA_TTABLE →
      (∃ op_name, (luaL_optstring H 6 L).1 = Except.ok op_name) →
      (imluaProcessUnaryPointColorOp H L).2.kernel_log ≠ L.kernel_log) := by
  refine ⟨fun hbad => color_pointop_rejects H L p q src dst h1 hp h2 hq hbad,
    fun hok h3 h4 h6 => ?_⟩
  obtain ⟨op_name, hop⟩ := h6
  rw [color_pointop_accepts H L p q src dst op_name h1 hp h2 hq h3 h4 hop ⟨hok.1, hok.2.1⟩
    hok.2.2.1 hok.2.2.2]
  simp

theorem color_pointop_gates_witness :
    ((∃ e, (imluaProcessUnaryPointColorOp exHost (exUnaryWideState 2)).1 = Except.error e
        ∧ e.isLuaError = true) ∧
      (imluaProcessUnaryPointColorOp exHost (exUnaryWideState 2)).2.kernel_log = [] ∧
      (imluaProcessUnaryPointColorOp exHost (exUnaryWideState 2)).2.images
        = (exUnaryWideState 2).images) ∧
    (imluaProcessUnaryPointColorOp exHost (exColorState 2)).2.kernel_log ≠ [] :=
  ⟨(color_pointop_gates exHost (exUnaryWideState 2) 0 1 _ _ rfl rfl rfl rfl).1 (by decide),
    (color_pointop_gates exHost (exColorState 2) 0 1 _ _ rfl rfl rfl rfl).2 (by decide)
      rfl rfl ⟨none, rfl⟩⟩

/-- Reading one image of the table: what the element read is when the step
returns, and that the step then restores the state. -/
theorem readImage_inv (L L1 : lua_State) (index k : Int) (p : Nat)
    (h : (do
      lua_rawgeti index k
      let p ← imlua_checkimage (-1)
      lua_pop 1
      pure p : M Nat) L = (Except.ok p, L1)) :
    L1 = L ∧ (L.tableAt index).rawgeti k = LuaValue.image p ∧
      ∃ img, L.images[p]? = some (some img) := by
  simp only [bind_apply, lua_rawgeti, push, imlua_checkimage, withStack_index,
    stackIndex_neg_one, withStack_images] at h
  cases hv : (L.tableAt index).rawgeti k with
  | image p1 =>
    rw [hv] at h
    simp only at h
    cases hi : L.images[p1]? with
    | none => simp [hi, luaL_argerror, raise] at h
    | some o =>
      cases o with
      | none => simp [hi, luaL_argerror, raise] at h
      | some img =>
        simp only [hi, lua_pop, withStack_stack, withStack_withStack, List.length_append,
          List.length_singleton, Int.toNat_one, Nat.add_sub_cancel, List.take_left',
          withStack_self, pure_apply, Prod.mk.injEq, Except.ok.injEq] at h
        exact ⟨h.2.symm, by rw [← h.1], ⟨img, by rw [← h.1]; exact hi⟩⟩
  | _ =>
    rw [hv] at h
    simp [luaL_typerror, luaL_argerror, raise] at h

/-- Reading one image of the table when the element is a live image. -/
theorem readImage_ok (L : lua_State) (index k : Int) (p : Nat) (img : imImage)
    (hv : (L.tableAt index).rawgeti k = LuaValue.image p)
    (hi : L.images[p]? = some (some img)) :
    (do
      lua_rawgeti index k
      let p ← imlua_checkimage (-1)
      lua_pop 1
      pure p : M Nat) L = (Except.ok p, L) := by
  simp only [bind_apply, lua_rawgeti, push, imlua_checkimage, withStack_index,
    stackIndex_neg_one, withStack_images, hv, hi, lua_pop, withStack_stack,
    withStack_withStack, List.length_append, List.length_singleton, Int.toNat_one,
    Nat.add_sub_cancel, List.take_left', withStack_self, pure_apply]

/-- A reading loop that returns has run every step on the starting state,
when a step that returns restores the state. -/
theorem readLoop_inv {α : Type} (elem : Int → M α) (L : lua_State) (P : Int → α → Prop)
    (h : ∀ j v L1, elem j L = (Except.ok v, L1) → L1 = L ∧ P j v) :
    ∀ (k : Nat) (i : Int) (vs : List α) (L2 : lua_State),
      readLoop elem k i L = (Except.ok vs, L2) →
        L2 = L ∧ vs.length = k ∧ ∀ m : Nat, m < k → ∃ v, vs[m]? = some v ∧ P (i + m) v
  | 0, i, vs, L2, hr => by
      simp only [readLoop, pure_apply, Prod.mk.injEq, Except.ok.injEq] at hr
      exact ⟨hr.2.symm, by rw [← hr.1]; rfl, fun m hm => absurd hm (Nat.not_lt_zero m)⟩
  | k + 1, i, vs, L2, hr => by
      simp only [readLoop, bind_apply] at hr
      cases he : elem i L with
      | mk r L1 =>
        rw [he] at hr
        cases r with
        | error e => simp at hr
        | ok v =>
          obtain ⟨hL1, hP⟩ := h i v L1 he
          subst hL1
          simp only at hr
          cases hl : readLoop elem k (i + 1) L1 with
          | mk r2 L3 =>
            rw [hl] at hr
            cases r2 with
            | error e => simp at hr
            | ok vs1 =>
              obtain ⟨hL3, hlen, hall⟩ := readLoop_inv elem L1 P h k (i + 1) vs1 L3 hl
              simp only [pure_apply, Prod.mk.injEq, Except.ok.injEq] at hr
              refine ⟨hr.2.symm.trans hL3, by rw [← hr.1, List.length_cons, hlen], ?_⟩
              intro m hm
              rw [← hr.1]
              cases m with
              | zero => exact ⟨v, by simp, by simpa using hP⟩
              | succ m =>
                obtain ⟨w, hw, hPw⟩ := hall m (by omega)
                refine ⟨w, by simpa using hw, ?_⟩
                have : i + ((m + 1 : Nat) : Int) = i + 1 + (m : Int) := by push_cast; ring
                rw [this]
                exact hPw

/-- The comparing loop of `imlua_toarrayimage` on an array of live images:
it returns when every image left matches the first one, and otherwise frees
the array once and raises an error. -/
theorem toarrayimage_matchLoop_eq (L : lua_State) (value : List Nat) (img : Nat → imImage)
    (hlive : ∀ j, j < value.length →
      ∃ p, value[j]? = some p ∧ L.images[p]? = some (some (img j))) :
    ∀ (k i : Nat), i + k = value.length →
      toarrayimage_matchLoop value k (i : Int) L =
        if (List.range k).all (fun m => imImageMatch (img 0) (img (i + m))) = true then
          (Except.ok (), L)
        else (Except.error (Fault.error "images must have the same size and data type"),
          (free L).2)
  | 0, _, _ => rfl
  | k + 1, i, hik => by
      obtain ⟨p0, hp0, hi0⟩ := hlive 0 (by omega)
      obtain ⟨pi, hpi, hii⟩ := hlive i (by omega)
      have hr0 : arrayRead value 0 L = (Except.ok p0, L) := by
        simp [arrayRead, hp0]
      have hri : arrayRead value (i : Int) L = (Except.ok pi, L) := by
        simp [arrayRead, hpi]
      have ih := toarrayimage_matchLoop_eq L value img hlive k (i + 1) (by omega)
      simp only [Nat.cast_add, Nat.cast_one] at ih
      have hall : (List.range (k + 1)).all (fun m => imImageMatch (img 0) (img (i + m)))
          = (imImageMatch (img 0) (img i) &&
            (List.range k).all (fun m => imImageMatch (img 0) (img (i + 1 + m)))) := by
        rw [List.range_succ_eq_map, List.all_cons, List.all_map]
        simp only [Nat.add_zero, Function.comp_def, Nat.succ_eq_add_one]
        congr 2
        funext m
        congr 2
        omega
      rw [hall]
      cases hm : imImageMatch (img 0) (img i) with
      | true =>
        simp only [toarrayimage_matchLoop, bind_apply, hr0, hri, deref, hi0, hii, hm,
          Bool.not_true, Bool.false_eq_true, if_false, ite_apply_M, pure_apply,
          imlua_matchcheck, ih, Bool.true_and]
      | false =>
        simp only [toarrayimage_matchLoop, bind_apply, hr0, hri, deref, hi0, hii, hm,
          Bool.not_false, if_true, ite_apply_M, free, imlua_matchcheck,
          luaL_error, raise, Bool.false_and, Bool.false_eq_true, if_false]

theorem luaL_checktype_ok (narg t : Int) (L : lua_State) (h : lua_type L narg = t) :
    luaL_checktype narg t L = (Except.ok (), L) := by
  simp only [luaL_checktype, h, if_true]

theorem luaL_checktype_inv (narg t : Int) (L L1 : lua_State)
    (h : luaL_checktype narg t L = (Except.ok (), L1)) : L1 = L ∧ lua_type L narg = t := by
  unfold luaL_checktype at h
  split at h
  · next ht =>
    simp only [Prod.mk.injEq, Except.ok.injEq, true_and] at h
    exact ⟨h.symm, ht⟩
  · simp [luaL_typerror, luaL_argerror, raise] at h

/-- The image array reader on a table whose read elements are live images:
the array is allocated and filled; if every image matches the first one it is
returned, otherwise it is freed once and an error is raised. -/
theorem imlua_toarrayimage_eq (L : lua_State) (index start : Int) (ptr : Nat → Nat)
    (img : Nat → imImage) (htab : lua_type L index = LUA_TTABLE)
    (hent : ∀ j : Nat,
      j < (if start = 0 then imlua_getn L index + 1 else imlua_getn L index).toNat →
      (L.tableAt index).rawgeti (j + start) = LuaValue.image (ptr j) ∧
        L.images[ptr j]? = some (some (img j))) :
    imlua_toarrayimage index start L =
      if (List.range ((if start = 0 then imlua_getn L index + 1
            else imlua_getn L index).toNat - 1)).all
          (fun m => imImageMatch (img 0) (img (1 + m))) = true then
        (Except.ok ((List.range (if start = 0 then imlua_getn L index + 1
            else imlua_getn L index).toNat).map ptr,
          if start = 0 then imlua_getn L index + 1 else imlua_getn L index), (malloc L).2)
      else (Except.error (Fault.error "images must have the same size and data type"),
        (free (malloc L).2).2) := by
  generalize hn : (if start = 0 then imlua_getn L index + 1 else imlua_getn L index) = n at hent
  have hread := readLoop_ok (fun i => (do
      lua_rawgeti index (i + start)
      let p ← imlua_checkimage (-1)
      lua_pop 1
      pure p : M Nat)) (malloc L).2 (fun i => ptr i.toNat) n.toNat 0 (by
    intro j hj
    obtain ⟨hv, hi⟩ := hent j hj
    simp only [zero_add, Int.toNat_ofNat]
    exact readImage_ok (malloc L).2 index _ (ptr j) (img j) hv hi)
  simp only [zero_add, Int.toNat_ofNat] at hread
  have hlive : ∀ j, j < ((List.range n.toNat).map ptr).length →
      ∃ p, ((List.range n.toNat).map ptr)[j]? = some p ∧
        (malloc L).2.images[p]? = some (some (img j)) := by
    intro j hj
    simp only [List.length_map, List.length_range] at hj
    refine ⟨ptr j, ?_, (hent j hj).2⟩
    simp [hj]
  by_cases hz : n.toNat = 0
  · simp only [imlua_toarrayimage, bind_apply, luaL_checktype_ok index _ L htab, getState, hn,
      malloc, hz, readLoop, pure_apply, Nat.zero_sub, toarrayimage_matchLoop, List.range_zero,
      List.all_nil, if_true, List.map_nil]
  · have hm := toarrayimage_matchLoop_eq (malloc L).2 _ img hlive (n.toNat - 1) 1 (by
      simp only [List.length_map, List.length_range]; omega)
    simp only [Nat.cast_one] at hm
    simp only [imlua_toarrayimage, bind_apply, luaL_checktype_ok index _ L htab, getState, hn]
    have hmal : malloc L = (Except.ok (), (malloc L).2) := rfl
    rw [hmal]
    by_cases hall : (List.range (n.toNat - 1)).all
        (fun m => imImageMatch (img 0) (img (1 + m))) = true
    · simp only [hread, hm, hall, if_true, pure_apply]
    · simp only [hread, hm, hall, if_false, Bool.false_eq_true]

/-- What a returned image array is: the live images of the table entries,
all matching the first one, in a block allocated for them. -/
theorem imlua_toarrayimage_inv (L L1 : lua_State) (index start : Int) (value : List Nat)
    (n : Int) (h : imlua_toarrayimage index start L = (Except.ok (value, n), L1)) :
    L1 = (malloc L).2 ∧ lua_type L index = LUA_TTABLE ∧
      n = (if start = 0 then imlua_getn L index + 1 else imlua_getn L index) ∧
      value.length = n.toNat ∧
      ∃ img : Nat → imImage,
        (∀ j, j < value.length → ∃ p, value[j]? = some p ∧
          (L.tableAt index).rawgeti (j + start) = LuaValue.image p ∧
          L.images[p]? = some (some (img j))) ∧
        (∀ m, m + 1 < value.length → imImageMatch (img 0) (img (1 + m)) = true) := by
  simp only [imlua_toarrayimage, bind_apply] at h
  cases hc : luaL_checktype index LUA_TTABLE L with
  | mk rc Lc =>
    rw [hc] at h
    cases rc with
    | error e => simp at h
    | ok u =>
      obtain ⟨hLc, htab⟩ := luaL_checktype_inv index _ L Lc hc
      subst hLc
      simp only [getState] at h
      generalize hn : (if start = 0 then imlua_getn Lc index + 1 else imlua_getn Lc index)
        = n0 at h
      have hmal : malloc Lc = (Except.ok (), (malloc Lc).2) := rfl
      rw [hmal] at h
      simp only at h
      cases hrd : readLoop (fun i => (do
          lua_rawgeti index (i + start)
          let p ← imlua_checkimage (-1)
          lua_pop 1
          pure p : M Nat)) n0.toNat 0 (malloc Lc).2 with
      | mk rr L2 =>
        rw [hrd] at h
        cases rr with
        | error e => simp at h
        | ok vs =>
          obtain ⟨hL2, hlen, hall⟩ := readLoop_inv _ (malloc Lc).2
            (fun j p => (Lc.tableAt index).rawgeti (j + start) = LuaValue.image p ∧
              ∃ img, Lc.images[p]? = some (some img))
            (fun j v L3 hj => readImage_inv (malloc Lc).2 L3 index (j + start) v hj)
            n0.toNat 0 vs L2 hrd
          subst hL2
          simp only [zero_add] at hall
          have hex : ∀ j : Nat, ∃ im : imImage, j < vs.length →
              ∃ p, vs[j]? = some p ∧
                (Lc.tableAt index).rawgeti (j + start) = LuaValue.image p ∧
                Lc.images[p]? = some (some im) := by
            intro j
            by_cases hj : j < vs.length
            · obtain ⟨p, hp, hv, im, him⟩ := hall j (by omega)
              exact ⟨im, fun _ => ⟨p, hp, hv, him⟩⟩
            · exact ⟨⟨0, 0, imColorSpace.IM_RGB, imDataType.IM_BYTE, false, 0, []⟩,
                fun h => absurd h hj⟩
          choose img himg using hex
          have hm := toarrayimage_matchLoop_eq (malloc Lc).2 vs img
            (fun j hj => by
              obtain ⟨p, hp, _, him⟩ := himg j hj
              exact ⟨p, hp, him⟩)
          simp only at h
          by_cases hz : n0.toNat = 0
          · have hvs : vs = [] := List.length_eq_zero.mp (by omega)
            subst hvs
            simp only [hz, Nat.zero_sub, toarrayimage_matchLoop, pure_apply, Prod.mk.injEq,
              Except.ok.injEq] at h
            obtain ⟨⟨hv, hnn⟩, hL1⟩ := h
            refine ⟨hL1.symm, htab, hnn.symm, by rw [← hv, ← hnn, hz]; rfl, img, ?_, ?_⟩
            · intro j hj
              rw [← hv] at hj
              exact absurd hj (Nat.not_lt_zero j)
            · intro m hmlt
              rw [← hv] at hmlt
              exact absurd hmlt (Nat.not_lt_zero _)
          · have hm1 := hm (n0.toNat - 1) 1 (by omega)
            simp only [Nat.cast_one] at hm1
            rw [hm1] at h
            by_cases hallm : (List.range (n0.toNat - 1)).all
                (fun m => imImageMatch (img 0) (img (1 + m))) = true
            · simp only [hallm, if_true, pure_apply, Prod.mk.injEq, Except.ok.injEq] at h
              obtain ⟨⟨hv, hnn⟩, hL1⟩ := h
              subst hv
              refine ⟨hL1.symm, htab, hnn.symm, by rw [← hnn]; exact hlen, img, ?_, ?_⟩
              · intro j hj
                exact himg j hj
              · intro m hmlt
                rw [List.all_eq_true] at hallm
                exact hallm m (List.mem_range.mpr (by omega))
            · simp [hallm] at h

/-! ### Reaching the kernel of the multi-image point operation -/

/-- When a sequence changes the kernel log although its first part does not,
the first part returned and the rest changed the log. -/
theorem bind_reach {α β : Type} {m : M α} {f : α → M β} {L : lua_State}
    (hm : (m L).2.kernel_log = L.kernel_log)
    (h : ((m >>= f) L).2.kernel_log ≠ L.kernel_log) :
    ∃ a L1, m L = (Except.ok a, L1) ∧ L1.kernel_log = L.kernel_log ∧
      (f a L1).2.kernel_log ≠ L1.kernel_log := by
  rw [bind_apply] at h
  cases hr : m L with
  | mk r L1 =>
    rw [hr] at h hm
    cases r with
    | error e => exact absurd hm h
    | ok a =>
      refine ⟨a, L1, rfl, hm, ?_⟩
      simp only at hm h
      rw [hm]
      exact h

/-- What `luaL_optstring` on argument 6 keeps. -/
theorem luaL_optstring_keeps (H : Host) (L L1 : lua_State) (r : Except Fault (Option String))
    (h : luaL_optstring H 6 L = (r, L1)) :
    L1.images = L.images ∧ L1.tables = L.tables ∧ L1.kernel_log = L.kernel_log ∧
      L1.malloc_count = L.malloc_count ∧ L1.free_count = L.free_count ∧
      ∀ idx : Int, 0 < idx → idx < 6 → L1.index idx = L.index idx := by
  obtain ⟨r0, L0, hopt, hL0, -⟩ := luaL_optstring_spec H 6 L
  rw [hopt] at h
  simp only [Prod.mk.injEq] at h
  obtain ⟨-, rfl⟩ := h
  rcases hL0 with rfl | ⟨v, rfl⟩
  · exact ⟨rfl, rfl, rfl, rfl, rfl, fun _ _ _ => rfl⟩
  · exact ⟨rfl, rfl, rfl, rfl, rfl, fun idx h0 h1 => index_setSlot_six L v idx h0 h1⟩

theorem imlua_checkimage_inv (param : Int) (L L1 : lua_State) (p : Nat)
    (h : imlua_checkimage param L = (Except.ok p, L1)) :
    L1 = L ∧ L.index param = some (LuaValue.image p) ∧ ∃ img, L.images[p]? = some (some img) := by
  unfold imlua_checkimage at h
  cases hv : L.index param with
  | none => simp [hv, luaL_typerror, luaL_argerror, raise] at h
  | some v =>
    cases v with
    | image p1 =>
      simp only [hv] at h
      cases hi : L.images[p1]? with
      | none => simp [hi, luaL_argerror, raise] at h
      | some o =>
        cases o with
        | none => simp [hi, luaL_argerror, raise] at h
        | some img =>
          simp only [hi, Prod.mk.injEq, Except.ok.injEq] at h
          exact ⟨h.2.symm, by rw [← h.1], img, by rw [← h.1]; exact hi⟩
    | _ => simp [hv, luaL_typerror, luaL_argerror, raise] at h

theorem imImageMatch_iff (a b : imImage) :
    imImageMatch a b = true ↔ a.data_type = b.data_type ∧ a.width = b.width ∧
      a.height = b.height ∧ a.color_space = b.color_space := by
  simp only [imImageMatch, Bool.and_eq_true, beq_iff_eq]
  tauto

theorem keepsLog_refl (a : lua_State) : keepsLog a a := rfl

theorem keepsLog_trans (a b c : lua_State) (h1 : keepsLog a b) (h2 : keepsLog b c) :
    keepsLog a c := h2.trans h1

theorem keepsLog_of_frame {α : Type} {m : M α} (h : respects frame m) : respects keepsLog m :=
  fun L => (h L).2.2.2.2.2

theorem keepsLog_of_state_eq {α : Type} {m : M α} (h : ∀ L, (m L).2 = L) :
    respects keepsLog m :=
  respects_of_state_eq keepsLog_refl h

theorem keepsLog_malloc : respects keepsLog malloc := fun _ => rfl

theorem keepsLog_free : respects keepsLog free := fun _ => rfl

theorem keepsLog_readLoop {α : Type} (elem : Int → M α) (h : ∀ i, respects keepsLog (elem i)) :
    ∀ (k : Nat) (i : Int), respects keepsLog (readLoop elem k i)
  | 0, _ => keepsLog_of_state_eq (state_pure _)
  | k + 1, i =>
      respects_bind keepsLog_trans (h i)
        (fun _ => respects_bind keepsLog_trans (keepsLog_readLoop elem h k (i + 1))
          (fun _ => keepsLog_of_state_eq (state_pure _)))

theorem keepsLog_imlua_matchcheck (cond : Bool) (msg : String) :
    respects keepsLog (imlua_matchcheck cond msg) :=
  respects_ite _ (keepsLog_of_state_eq (state_luaL_error _)) (keepsLog_of_state_eq (state_pure _))

theorem keepsLog_matchLoop (value : List Nat) :
    ∀ (k : Nat) (i : Int), respects keepsLog (toarrayimage_matchLoop value k i)
  | 0, _ => keepsLog_of_state_eq (state_pure _)
  | k + 1, i => by
      have ht := keepsLog_trans
      unfold toarrayimage_matchLoop
      refine respects_bind ht (keepsLog_of_state_eq (state_arrayRead _ _)) (fun p0 => ?_)
      refine respects_bind ht (keepsLog_of_state_eq (state_arrayRead _ _)) (fun pi => ?_)
      refine respects_bind ht (keepsLog_of_state_eq (state_deref _)) (fun i0 => ?_)
      refine respects_bind ht (keepsLog_of_state_eq (state_deref _)) (fun ii => ?_)
      dsimp only
      have hrest : ∀ y : PUnit, respects keepsLog (do
          imlua_matchcheck (imImageMatch i0 ii) "images must have the same size and data type"
          toarrayimage_matchLoop value k (i + 1) : M Unit) := fun _ =>
        respects_bind ht (keepsLog_imlua_matchcheck _ _)
          (fun _ => keepsLog_matchLoop value k (i + 1))
      refine respects_ite _ ?_ ?_
      · exact respects_bind ht keepsLog_free hrest
      · exact respects_bind ht (keepsLog_of_state_eq (state_pure _)) hrest

theorem keepsLog_imlua_toarrayimage (index start : Int) :
    respects keepsLog (imlua_toarrayimage index start) := by
  have ht := keepsLog_trans
  unfold imlua_toarrayimage
  refine respects_bind ht (keepsLog_of_state_eq (state_luaL_checktype _ _)) (fun _ => ?_)
  refine respects_bind ht (keepsLog_of_state_eq (fun _ => rfl)) (fun L0 => ?_)
  refine respects_bind ht keepsLog_malloc (fun _ => ?_)
  refine respects_bind ht (keepsLog_readLoop _ (fun i => ?_) _ _) (fun value => ?_)
  · refine respects_bind ht (keepsLog_of_frame (frame_lua_rawgeti _ _)) (fun _ => ?_)
    refine respects_bind ht (keepsLog_of_state_eq (state_imlua_checkimage _)) (fun _ => ?_)
    exact respects_bind ht (keepsLog_of_frame (frame_lua_pop _))
      (fun _ => keepsLog_of_state_eq (state_pure _))
  · exact respects_bind ht (keepsLog_matchLoop _ _ _)
      (fun _ => keepsLog_of_state_eq (state_pure _))

theorem log_luaL_optstring (H : Host) (L : lua_State) :
    (luaL_optstring H 6 L).2.kernel_log = L.kernel_log :=
  (luaL_optstring_keeps H L (luaL_optstring H 6 L).2 (luaL_optstring H 6 L).1 rfl).2.2.1

theorem imlua_checknotcfloat_inv (a : Int) (i : Nat) (L L1 : lua_State)
    (h : imlua_checknotcfloat a i L = (Except.ok (), L1)) :
    L1 = L ∧ ∀ img, L.images[i]? = some (some img) → img.data_type ≠ imDataType.IM_CFLOAT := by
  have hs := state_imlua_checknotcfloat a i L
  rw [h] at hs
  simp only at hs
  subst hs
  refine ⟨rfl, fun img himg hcf => ?_⟩
  simp [imlua_checknotcfloat, bind_apply, deref, himg, hcf, imlua_errorcfloat, luaL_argerror,
    raise] at h

theorem arrayRead_inv {α : Type} (a : List α) (i : Int) (L L1 : lua_State) (v : α)
    (h : arrayRead a i L = (Except.ok v, L1)) : L1 = L ∧ 0 ≤ i ∧ a[i.toNat]? = some v := by
  unfold arrayRead at h
  split at h
  · next h0 =>
    cases hv : a[i.toNat]? with
    | none => simp [hv] at h
    | some w =>
      simp only [hv, Prod.mk.injEq, Except.ok.injEq] at h
      exact ⟨h.2.symm, h0, by rw [h.1]⟩
  · simp at h

theorem deref_inv (p : Nat) (L L1 : lua_State) (img : imImage)
    (h : deref p L = (Except.ok img, L1)) : L1 = L ∧ L.images[p]? = some (some img) := by
  unfold deref at h
  cases hv : L.images[p]? with
  | none => simp [hv] at h
  | some o =>
    cases o with
    | none => simp [hv] at h
    | some w =>
      simp only [hv, Prod.mk.injEq, Except.ok.injEq] at h
      exact ⟨h.2.symm, by rw [h.1]⟩

theorem tableAt_congr (L L1 : lua_State) (idx : Int) (hidx : L1.index idx = L.index idx)
    (ht : L1.tables = L.tables) : L1.tableAt idx = L.tableAt idx := by
  simp only [lua_State.tableAt, hidx, ht]

theorem lua_objlen_congr (L L1 : lua_State) (idx : Int) (hidx : L1.index idx = L.index idx)
    (ht : L1.tables = L.tables) : lua_objlen L1 idx = lua_objlen L idx := by
  simp only [lua_objlen, hidx, tableAt_congr L L1 idx hidx ht]

/-- What holds when `imluaProcessMultiPointOp` has called the kernel. -/
theorem multi_pointop_reach (H : Host) (L : lua_State)
    (h : (imluaProcessMultiPointOp H L).2.kernel_log ≠ L.kernel_log) :
    ∃ (value : List Nat) (img : Nat → imImage) (q : Nat) (dst : imImage),
      L.index 2 = some (LuaValue.image q) ∧ L.images[q]? = some (some dst) ∧
      value.length = lua_objlen L 1 ∧ 0 < value.length ∧
      (∀ j, j < value.length → ∃ p, value[j]? = some p ∧
        (L.tableAt 1).rawgeti (j + 1) = LuaValue.image p ∧
        L.images[p]? = some (some (img j))) ∧
      (∀ m, m + 1 < value.length → imImageMatch (img 0) (img (1 + m)) = true) ∧
      (img 0).data_type ≠ imDataType.IM_CFLOAT ∧ dst.data_type ≠ imDataType.IM_CFLOAT ∧
      imImageMatchSize (img 0) dst = true ∧ (img 0).depth = dst.depth := by
  unfold imluaProcessMultiPointOp at h
  obtain ⟨q, L0, e0, hl0, g0⟩ := bind_reach (by rw [state_imlua_checkimage]) h
  clear h
  obtain ⟨hL0, hq2, dst, hdst⟩ := imlua_checkimage_inv 2 L L0 q e0
  subst hL0
  obtain ⟨op_name, L1, e1, hl1, g1⟩ := bind_reach (log_luaL_optstring H L0) g0
  clear g0
  obtain ⟨hi1, ht1, -, hm1, hf1, hx1⟩ := luaL_optstring_keeps H L0 L1 _ e1
  obtain ⟨old, L2, e2, hl2, g2⟩ := bind_reach (m := omp_get_num_threads H) rfl g1
  clear g1
  obtain ⟨rfl, rfl⟩ : old = (if H.openmp then (L1.omp_team : Int) else 0) ∧ L2 = L1 := by
    simp only [omp_get_num_threads, Prod.mk.injEq, Except.ok.injEq] at e2
    exact ⟨e2.1.symm, e2.2.symm⟩
  obtain ⟨u3, L3, e3, hl3, g3⟩ := bind_reach (m := omp_set_num_threads H 1) rfl g2
  clear g2
  simp only [omp_set_num_threads, Prod.mk.injEq, Except.ok.injEq, true_and] at e3
  subst e3
  generalize hT : L2.withThreads (if H.openmp = true then Int.toNat 1 else L2.omp_nthreads)
    = T at g3 hl3
  have hTi : T.images = L0.images := by rw [← hT]; exact hi1
  have hTt : ∀ idx : Int, 0 < idx → idx < 6 → T.index idx = L0.index idx := by
    intro idx h0 h6; rw [← hT]; exact hx1 idx h0 h6
  have hTtab : T.tables = L0.tables := by rw [← hT]; exact ht1
  obtain ⟨u4, L4, e4, hl4, g4⟩ := bind_reach (by rw [state_imlua_checknotcfloat]) g3
  clear g3
  obtain ⟨rfl, hdcf⟩ := imlua_checknotcfloat_inv 1 q T L4 e4
  obtain ⟨u5, L5, e5, hl5, g5⟩ := bind_reach (by rw [state_luaL_checktype]) g4
  clear g4
  obtain ⟨rfl, h3ty⟩ := luaL_checktype_inv _ _ _ _ e5
  obtain ⟨u6, L6, e6, hl6, g6⟩ := bind_reach (by rw [state_luaL_checktype]) g5
  clear g5
  obtain ⟨rfl, h4ty⟩ := luaL_checktype_inv _ _ _ _ e6
  obtain ⟨vn, L7, e7, hl7, g7⟩ := bind_reach (keepsLog_imlua_toarrayimage 1 1 _) g6
  clear g6
  obtain ⟨value, n⟩ := vn
  obtain ⟨hL7, htab, hn, hlen, img, hent, hmatch⟩ := imlua_toarrayimage_inv _ _ _ _ _ _ e7
  dsimp only at g7
  obtain ⟨p0, L8, e8, hl8, g8⟩ := bind_reach (by rw [state_arrayRead]) g7
  clear g7
  obtain ⟨rfl, -, hp0⟩ := arrayRead_inv _ _ _ _ _ e8
  obtain ⟨image0, L9, e9, hl9, g9⟩ := bind_reach (by rw [state_deref]) g8
  clear g8
  obtain ⟨rfl, himage0⟩ := deref_inv _ _ _ _ e9
  have h9i : L9.images = L0.images := by rw [hL7]; exact hTi
  have hpos : 0 < value.length := by
    by_contra hz
    have : value = [] := List.length_eq_zero.mp (by omega)
    rw [this] at hp0
    simp at hp0
  have himg0 : image0 = img 0 := by
    obtain ⟨p, hp, -, hi⟩ := hent 0 hpos
    have hpp : p0 = p := by
      have : some p0 = some p := by rw [← hp, ← hp0]; rfl
      exact Option.some.inj this
    rw [hpp, h9i, ← hTi, hi] at himage0
    simp only [Option.some.injEq] at himage0
    exact himage0.symm
  have hdstT : L9.images[q]? = some (some dst) := by rw [h9i]; exact hdst
  by_cases c1 : image0.data_type = imDataType.IM_CFLOAT
  · exfalso
    rw [if_pos c1] at g9
    simp [bind_apply, free, imlua_errorcfloat, luaL_argerror, raise] at g9
  · rw [if_neg c1] at g9
    simp only [bind_apply, pure_apply, deref, hdstT] at g9
    by_cases c2 : imImageMatchSize image0 dst = true
    · by_cases c3 : image0.depth = dst.depth
      · refine ⟨value, img, q, dst, hq2, hdst, ?_, hpos, ?_, hmatch, by rw [← himg0]; exact c1,
          hdcf dst (by rw [hTi]; exact hdst), by rw [← himg0]; exact c2,
          by rw [← himg0]; exact c3⟩
        · rw [hlen, hn]
          simp only [one_ne_zero, if_false, imlua_getn, Int.toNat_ofNat]
          exact lua_objlen_congr L0 _ 1 (hTt 1 (by norm_num) (by norm_num)) hTtab
        · intro j hj
          obtain ⟨p, hp, hv, hi⟩ := hent j hj
          refine ⟨p, hp, ?_, by rw [← hTi]; exact hi⟩
          rw [← tableAt_congr L0 _ 1 (hTt 1 (by norm_num) (by norm_num)) hTtab]
          exact hv
      · exfalso
        simp [c2, c3, ite_apply_M, bind_apply, free, luaL_error, raise, pure_apply] at g9
    · exfalso
      simp [c2, ite_apply_M, bind_apply, free, imlua_errormatchsize, luaL_error, raise] at g9

/-! ### The claims on the multi-image point operation -/

/-- C8: whenever `imluaProcessMultiPointOp` reaches the kernel call, the
source list is not empty, its entries are live images of which every pair
matches fully (size, data type, color space), none of them is complex float
(only the first one is tested), the destination is not complex float, and the
first source image has the size and the depth of the destination. -/
theorem multi_pointop_kernel_inputs (H : Host) (L : lua_State)
    (h : (imluaProcessMultiPointOp H L).2.kernel_log ≠ L.kernel_log) :
    ∃ (value : List Nat) (img : Nat → imImage) (q : Nat) (dst : imImage),
      L.index 2 = some (LuaValue.image q) ∧ L.images[q]? = some (some dst) ∧
      value.length = lua_objlen L 1 ∧ 0 < value.length ∧
      (∀ j, j < value.length → ∃ p, value[j]? = some p ∧
        (L.tableAt 1).rawgeti (j + 1) = LuaValue.image p ∧
        L.images[p]? = some (some (img j))) ∧
      (∀ i j, i < value.length → j < value.length → imImageMatch (img i) (img j) = true) ∧
      (∀ j, j < value.length → (img j).data_type ≠ imDataType.IM_CFLOAT) ∧
      dst.data_type ≠ imDataType.IM_CFLOAT ∧
      imImageMatchSize (img 0) dst = true ∧ (img 0).depth = dst.depth := by
  obtain ⟨value, img, q, dst, h2, hq, hlen, hpos, hent, hmatch, hcf, hdcf, hsize, hdepth⟩ :=
    multi_pointop_reach H L h
  have hfirst : ∀ j, j < value.length → imImageMatch (img 0) (img j) = true := by
    intro j hj
    cases j with
    | zero => simp [imImageMatch]
    | succ m =>
      have := hmatch m (by omega)
      rwa [Nat.add_comm] at this
  refine ⟨value, img, q, dst, h2, hq, hlen, hpos, hent, ?_, ?_, hdcf, hsize, hdepth⟩
  · intro i j hi hj
    have h0i := (imImageMatch_iff _ _).1 (hfirst i hi)
    have h0j := (imImageMatch_iff _ _).1 (hfirst j hj)
    rw [imImageMatch_iff]
    exact ⟨h0i.1.symm.trans h0j.1, h0i.2.1.symm.trans h0j.2.1,
      h0i.2.2.1.symm.trans h0j.2.2.1, h0i.2.2.2.symm.trans h0j.2.2.2⟩
  · intro j hj hc
    have h0j := (imImageMatch_iff _ _).1 (hfirst j hj)
    exact hcf (h0j.1.trans hc)

theorem multi_pointop_kernel_inputs_witness :
    ∃ (value : List Nat) (img : Nat → imImage) (q : Nat) (dst : imImage),
      exMultiTwo.index 2 = some (LuaValue.image q) ∧ exMultiTwo.images[q]? = some (some dst) ∧
      value.length = lua_objlen exMultiTwo 1 ∧ 0 < value.length ∧
      (∀ j, j < value.length → ∃ p, value[j]? = some p ∧
        (exMultiTwo.tableAt 1).rawgeti (j + 1) = LuaValue.image p ∧
        exMultiTwo.images[p]? = some (some (img j))) ∧
      (∀ i j, i < value.length → j < value.length → imImageMatch (img i) (img j) = true) ∧
      (∀ j, j < value.length → (img j).data_type ≠ imDataType.IM_CFLOAT) ∧
      dst.data_type ≠ imDataType.IM_CFLOAT ∧
      imImageMatchSize (img 0) dst = true ∧ (img 0).depth = dst.depth :=
  multi_pointop_kernel_inputs exHost exMultiTwo (by decide)

/-- C9: on an empty source list both multi-image bindings allocate an array of
no elements and then read its element 0, which lies outside the array. -/
theorem multi_pointop_reads_empty_array :
    imluaProcessMultiPointOp exHost exMultiEmpty
      = (Except.error (Fault.undefined "read outside the array"),
        { exMultiEmpty with malloc_count := 1, omp_nthreads := 1 }) ∧
    imluaProcessMultiPointColorOp exHost exMultiEmpty
      = (Except.error (Fault.undefined "read outside the array"),
        { exMultiEmpty with malloc_count := 1, omp_nthreads := 1 }) := by
  decide

/-- On a source list of live images of which one does not match the first,
with the other arguments accepted, `imluaProcessMultiPointOp` allocates the
array, frees it once and raises the error of the image comparison without
calling the kernel. -/
theorem multi_pointop_mismatch (H : Host) (L : lua_State) (q : Nat) (dst : imImage)
    (op_name : Option String) (ptr : Nat → Nat) (img : Nat → imImage) (k : Nat)
    (h1 : lua_type L 1 = LUA_TTABLE)
    (h2 : L.index 2 = some (LuaValue.image q)) (hq : L.images[q]? = some (some dst))
    (hdcf : dst.data_type ≠ imDataType.IM_CFLOAT)
    (h3 : lua_type L 3 = LUA_TFUNCTION) (h4 : lua_type L 4 = LUA_TTABLE)
    (h6 : (luaL_optstring H 6 L).1 = Except.ok op_name)
    (hent : ∀ j, j < lua_objlen L 1 →
      (L.tableAt 1).rawgeti (j + 1) = LuaValue.image (ptr j) ∧
        L.images[ptr j]? = some (some (img j)))
    (hk1 : 1 ≤ k) (hk : k < lua_objlen L 1) (hmis : imImageMatch (img 0) (img k) = false) :
    (imluaProcessMultiPointOp H L).1
        = Except.error (Fault.error "images must have the same size and data type") ∧
      (imluaProcessMultiPointOp H L).2.malloc_count = L.malloc_count + 1 ∧
      (imluaProcessMultiPointOp H L).2.free_count = L.free_count + 1 ∧
      (imluaProcessMultiPointOp H L).2.kernel_log = L.kernel_log := by
  obtain ⟨r, L1, hopt, hL1, hr⟩ := luaL_optstring_spec H 6 L
  rw [hopt] at h6
  simp only at h6
  subst h6
  obtain ⟨hi1, ht1, hl1, hm1, hf1, hx1⟩ := luaL_optstring_keeps H L L1 _ hopt
  generalize hT : L1.withThreads (if H.openmp = true then Int.toNat 1 else L1.omp_nthreads) = T
  have hTi : T.images = L.images := by rw [← hT]; exact hi1
  have hTx : ∀ idx : Int, 0 < idx → idx < 6 → T.index idx = L.index idx := by
    intro idx h0 h6; rw [← hT]; exact hx1 idx h0 h6
  have hTt : T.tables = L.tables := by rw [← hT]; exact ht1
  have hTty : ∀ idx : Int, 0 < idx → idx < 6 → lua_type T idx = lua_type L idx := by
    intro idx h0 h6
    simp only [lua_type, hTx idx h0 h6]
  have hTn : imlua_getn T 1 = (lua_objlen L 1 : Int) := by
    simp only [imlua_getn, lua_objlen_congr L T 1 (hTx 1 (by norm_num) (by norm_num)) hTt]
  have harr := imlua_toarrayimage_eq T 1 1 ptr img
    (by rw [hTty 1 (by norm_num) (by norm_num)]; exact h1)
    (by
      intro j hj
      simp only [one_ne_zero, if_false, hTn, Int.toNat_ofNat] at hj
      obtain ⟨hv, hi⟩ := hent j hj
      exact ⟨by rw [tableAt_congr L T 1 (hTx 1 (by norm_num) (by norm_num)) hTt]; exact hv,
        by rw [hTi]; exact hi⟩)
  have hall : ¬ ((List.range ((if (1 : Int) = 0 then imlua_getn T 1 + 1
      else imlua_getn T 1).toNat - 1)).all
        (fun m => imImageMatch (img 0) (img (1 + m))) = true) := by
    simp only [one_ne_zero, if_false, hTn, Int.toNat_ofNat]
    intro hall
    rw [List.all_eq_true] at hall
    have := hall (k - 1) (List.mem_range.mpr (by omega))
    have hk' : 1 + (k - 1) = k := by omega
    rw [hk', hmis] at this
    cases this
  rw [if_neg hall] at harr
  simp only [imluaProcessMultiPointOp, bind_apply, imlua_checkimage, h2, hq, hopt,
    omp_get_num_threads, omp_set_num_threads, hT, imlua_checknotcfloat, deref, hTi, hdcf,
    if_false, ite_apply_M, pure_apply,
    luaL_checktype_ok 3 LUA_TFUNCTION T (by rw [hTty 3 (by norm_num) (by norm_num)]; exact h3),
    luaL_checktype_ok 4 LUA_TTABLE T (by rw [hTty 4 (by norm_num) (by norm_num)]; exact h4),
    harr]
  refine ⟨trivial, ?_, ?_, ?_⟩
  · simp only [free, malloc, ← hT, withThreads_malloc_count, hm1]
  · simp only [free, malloc, ← hT, withThreads_free_count, hf1]
  · simp only [free, malloc, ← hT, withThreads_kernel_log, hl1]

/-- C10, as stated, fails: with five source images of which the third differs
from the first in color space only, the error raised says "images must have
the same size and data type"; it is the very error raised when the third
image differs in data type only, and it does not name the color space. -/
theorem multi_pointop_mismatch_report :
    (imluaProcessMultiPointOp exHost exMultiFive).1
      = Except.error (Fault.error "images must have the same size and data type") ∧
    (imluaProcessMultiPointOp exHost exMultiFiveInt).1
      = Except.error (Fault.error "images must have the same size and data type") :=
  ⟨(multi_pointop_mismatch exHost exMultiFive 5 exGrayDst none (fun j => j)
      (fun j => if j = 2 then { exGraySrc with color_space := imColorSpace.IM_RGB }
        else exGraySrc) 2
      rfl rfl rfl (by decide) rfl rfl rfl
      (by
        intro j hj
        have hj5 : j < 5 := hj
        interval_cases j <;> exact ⟨rfl, rfl⟩)
      (by decide) (by decide) (by decide)).1,
    (multi_pointop_mismatch exHost exMultiFiveInt 5 exGrayDst none (fun j => j)
      (fun j => if j = 2 then { exGraySrc with data_type := imDataType.IM_INT }
        else exGraySrc) 2
      rfl rfl rfl (by decide) rfl rfl rfl
      (by
        intro j hj
        have hj5 : j < 5 := hj
        interval_cases j <;> exact ⟨rfl, rfl⟩)
      (by decide) (by decide) (by decide)).1⟩

/-- C10, amended: given a source list of five live images of which the third
differs from the first in color space, and otherwise accepted arguments,
`imluaProcessMultiPointOp` allocates the image array once and frees it once
before the error propagates, does not call the kernel, and fails with a plain
Lua error (not an argument error), the one of the image comparison in
`imlua_toarrayimage`. -/
theorem multi_pointop_frees_on_mismatch (H : Host) (L : lua_State) (q : Nat) (dst : imImage)
    (op_name : Option String) (ptr : Nat → Nat) (img : Nat → imImage)
    (h1 : lua_type L 1 = LUA_TTABLE) (hn : lua_objlen L 1 = 5)
    (h2 : L.index 2 = some (LuaValue.image q)) (hq : L.images[q]? = some (some dst))
    (hdcf : dst.data_type ≠ imDataType.IM_CFLOAT)
    (h3 : lua_type L 3 = LUA_TFUNCTION) (h4 : lua_type L 4 = LUA_TTABLE)
    (h6 : (luaL_optstring H 6 L).1 = Except.ok op_name)
    (hent : ∀ j : Nat, j < 5 →
      (L.tableAt 1).rawgeti (j + 1) = LuaValue.image (ptr j) ∧
        L.images[ptr j]? = some (some (img j)))
    (hcs : (img 2).color_space ≠ (img 0).color_space) :
    (∃ msg, (imluaProcessMultiPointOp H L).1 = Except.error (Fault.error msg)) ∧
      (imluaProcessMultiPointOp H L).2.malloc_count = L.malloc_count + 1 ∧
      (imluaProcessMultiPointOp H L).2.free_count = L.free_count + 1 ∧
      (imluaProcessMultiPointOp H L).2.kernel_log = L.kernel_log := by
  have hmis : imImageMatch (img 0) (img 2) = false := by
    rw [Bool.eq_false_iff]
    intro hm
    exact hcs ((imImageMatch_iff _ _).1 hm).2.2.2.symm
  obtain ⟨hres, hm, hf, hl⟩ := multi_pointop_mismatch H L q dst op_name ptr img 2 h1 h2 hq
    hdcf h3 h4 h6 (by rw [hn]; exact hent) (by norm_num) (by rw [hn]; norm_num) hmis
  exact ⟨⟨_, hres⟩, hm, hf, hl⟩

theorem multi_pointop_frees_on_mismatch_witness :
    (∃ msg, (imluaProcessMultiPointOp exHost exMultiFive).1 = Except.error (Fault.error msg)) ∧
      (imluaProcessMultiPointOp exHost exMultiFive).2.malloc_count
        = exMultiFive.malloc_count + 1 ∧
      (imluaProcessMultiPointOp exHost exMultiFive).2.free_count
        = exMultiFive.free_count + 1 ∧
      (imluaProcessMultiPointOp exHost exMultiFive).2.kernel_log = exMultiFive.kernel_log :=
  multi_pointop_frees_on_mismatch exHost exMultiFive 5 exGrayDst none (fun j => j)
    (fun j => if j = 2 then { exGraySrc with color_space := imColorSpace.IM_RGB }
      else exGraySrc)
    rfl rfl rfl rfl (by decide) rfl rfl rfl
    (by
      intro j hj
      interval_cases j <;> exact ⟨rfl, rfl⟩)
    (by decide)

/-! ### The gates on one image -/

theorem deref_ok (L : lua_State) (i : Nat) (image : imImage)
    (hi : L.images[i]? = some (some image)) : deref i L = (Except.ok image, L) := by
  simp only [deref, hi]

/-- C13: the color-space gate raises an argument error exactly when the color
space of the image differs from the expected one, with the message "color
space must be " followed by the name of the expected color space (a name that
fits in the message buffer); when the color spaces are equal it returns with
the state as it was. -/
theorem checkcolorspace_raises_iff_differs (H : Host) (L : lua_State) (a : Int) (i : Nat)
    (image : imImage) (c : imColorSpace) (hi : L.images[i]? = some (some image))
    (hname : (H.imColorModeSpaceName c).utf8ByteSize < 80) :
    imlua_checkcolorspace H a i c L =
      if image.color_space = c then (Except.ok (), L)
      else (Except.error (Fault.argerror a ("color space must be " ++ H.imColorModeSpaceName c)),
        L) := by
  have h20 : "color space must be ".utf8ByteSize = 20 := by decide
  have hfit : "color space must be ".utf8ByteSize + (H.imColorModeSpaceName c).utf8ByteSize
      < 100 := by omega
  by_cases hc : image.color_space = c
  · simp only [imlua_checkcolorspace, bind_apply, deref_ok L i image hi, hc, ne_eq,
      not_true_eq_false, if_false, if_true]
    rfl
  · simp only [imlua_checkcolorspace, bind_apply, deref_ok L i image hi, hc, ne_eq,
      not_false_eq_true, if_true, if_false, imlua_argerrorcolorspace, hfit, luaL_argerror, raise]

theorem checkcolorspace_raises_iff_differs_witness :
    imlua_checkcolorspace exHost 1 0 imColorSpace.IM_BINARY (exImageState exGraySrc)
        = (Except.error (Fault.argerror 1 "color space must be Binary"), exImageState exGraySrc) ∧
    imlua_checkcolorspace exHost 1 0 imColorSpace.IM_GRAY (exImageState exGraySrc)
        = (Except.ok (), exImageState exGraySrc) :=
  ⟨checkcolorspace_raises_iff_differs exHost (exImageState exGraySrc) 1 0 exGraySrc
      imColorSpace.IM_BINARY rfl (by decide),
    checkcolorspace_raises_iff_differs exHost (exImageState exGraySrc) 1 0 exGraySrc
      imColorSpace.IM_GRAY rfl (by decide)⟩

/-- C14: the not-complex gate raises an error exactly when the data type of the
image is complex float; for each of the other five data types it returns with
the state as it was. -/
theorem checknotcfloat_raises_iff_cfloat (L : lua_State) (a : Int) (i : Nat) (image : imImage)
    (hi : L.images[i]? = some (some image)) :
    (imlua_checknotcfloat a i L =
      if image.data_type = imDataType.IM_CFLOAT then
        (Except.error (Fault.argerror a "image data type can NOT be cfloat"), L)
      else (Except.ok (), L)) ∧
    (image.data_type = imDataType.IM_CFLOAT ↔
      ∃ e, (imlua_checknotcfloat a i L).1 = Except.error e) ∧
    (image.data_type ∈ [imDataType.IM_BYTE, imDataType.IM_SHORT, imDataType.IM_USHORT,
        imDataType.IM_INT, imDataType.IM_FLOAT] →
      imlua_checknotcfloat a i L = (Except.ok (), L)) := by
  have hmain : imlua_checknotcfloat a i L =
      if image.data_type = imDataType.IM_CFLOAT then
        (Except.error (Fault.argerror a "image data type can NOT be cfloat"), L)
      else (Except.ok (), L) := by
    by_cases hc : image.data_type = imDataType.IM_CFLOAT
    · simp only [imlua_checknotcfloat, bind_apply, deref_ok L i image hi, hc, if_true,
        imlua_errorcfloat, luaL_argerror, raise]
    · simp only [imlua_checknotcfloat, bind_apply, deref_ok L i image hi, hc, if_false]
      rfl
  refine ⟨hmain, ?_, ?_⟩
  · rw [hmain]
    by_cases hc : image.data_type = imDataType.IM_CFLOAT
    · simp [hc]
    · simp [hc]
  · intro hmem
    rw [hmain, if_neg]
    intro hc
    rw [hc] at hmem
    exact absurd hmem (by decide)

theorem checknotcfloat_raises_iff_cfloat_witness :
    imlua_checknotcfloat 1 0 (exImageState exGraySrc) = (Except.ok (), exImageState exGraySrc) :=
  (checknotcfloat_raises_iff_cfloat (exImageState exGraySrc) 1 0 exGraySrc rfl).2.2 (by decide)

/-- C15: the histogram gate returns, with the state as it was, exactly when the
data type of the image is byte, short or ushort, and raises an argument error
for int, float and complex float. -/
theorem checkhistogramtype_accepts_iff (L : lua_State) (index : Int) (i : Nat) (image : imImage)
    (hi : L.images[i]? = some (some image)) :
    (imlua_checkhistogramtype index i L = (Except.ok (), L) ↔
      image.data_type ∈ [imDataType.IM_BYTE, imDataType.IM_SHORT, imDataType.IM_USHORT]) ∧
    (image.data_type ∈ [imDataType.IM_INT, imDataType.IM_FLOAT, imDataType.IM_CFLOAT] →
      imlua_checkhistogramtype index i L =
        (Except.error (Fault.argerror index "image data type must be byte, short or ushort"),
          L)) := by
  have hmain : imlua_checkhistogramtype index i L =
      if image.data_type ≠ imDataType.IM_BYTE ∧ image.data_type ≠ imDataType.IM_SHORT ∧
          image.data_type ≠ imDataType.IM_USHORT then
        (Except.error (Fault.argerror index "image data type must be byte, short or ushort"), L)
      else (Except.ok (), L) := by
    simp only [imlua_checkhistogramtype, bind_apply, deref_ok L i image hi]
    split
    · simp only [luaL_argerror, raise]
    · rfl
  rw [hmain]
  cases hd : image.data_type <;> simp

theorem checkhistogramtype_accepts_iff_witness :
    (imlua_checkhistogramtype 1 0 (exImageState exGraySrc)
        = (Except.ok (), exImageState exGraySrc) ↔
      exGraySrc.data_type ∈ [imDataType.IM_BYTE, imDataType.IM_SHORT, imDataType.IM_USHORT]) :=
  (checkhistogramtype_accepts_iff (exImageState exGraySrc) 1 0 exGraySrc rfl).1

/-! ### Bit masks -/

theorem arrayRead_getD {α : Type} (a : List α) (i : Nat) (d : α) (L : lua_State)
    (h : i < a.length) : arrayRead a (i : Int) L = (Except.ok (a.getD i d), L) := by
  simp only [arrayRead, Int.natCast_nonneg, if_true, Int.toNat_ofNat,
    List.getElem?_eq_getElem h, List.getD_eq_getElem?_getD, Option.getD_some]

/-- The loop of `imlua_checkmask` on characters that lie in the string: it
returns the value of the binary digits when all of them are binary digits and
raises the argument error otherwise. -/
theorem maskLoop_eq (index : Int) (str : List Char) (L : lua_State) :
    ∀ (k i mask : Nat), i + k ≤ str.length →
      maskLoop index str k (i : Int) mask L =
        if ∀ j, j < k → (str.getD (i + j) '0' = '0' ∨ str.getD (i + j) '0' = '1') then
          (Except.ok (maskLoopValue str k i mask), L)
        else (Except.error (Fault.argerror index "invalid mask, must have 0s or 1s only"), L)
  | 0, i, mask, _ => by
      simp [maskLoop, maskLoopValue, pure_apply]
  | k + 1, i, mask, h => by
      have hget := arrayRead_getD str i '0' L (by omega)
      have ih := maskLoop_eq index str L k (i + 1)
        ((mask ||| (((str.getD i '0').toNat - '0'.toNat) <<< (7 - i))) % 256) (by omega)
      have hshift : (7 - (i : Int)).toNat = 7 - i := by omega
      have hcast : ((i : Int) + 1) = ((i + 1 : Nat) : Int) := by push_cast; rfl
      simp only [maskLoop, bind_apply, hget, hshift, hcast]
      by_cases hc : str.getD i '0' = '0' ∨ str.getD i '0' = '1'
      · have hnot : ¬ (str.getD i '0' ≠ '0' ∧ str.getD i '0' ≠ '1') := by
          rcases hc with h0 | h1
          · exact fun hh => hh.1 h0
          · exact fun hh => hh.2 h1
        rw [if_neg hnot, bind_apply, pure_apply]
        dsimp only
        rw [ih]
        have hiff : (∀ j, j < k + 1 →
              (str.getD (i + j) '0' = '0' ∨ str.getD (i + j) '0' = '1')) ↔
            (∀ j, j < k → (str.getD (i + 1 + j) '0' = '0' ∨ str.getD (i + 1 + j) '0' = '1')) := by
          constructor
          · intro hall j hj
            have := hall (j + 1) (by omega)
            rwa [show i + (j + 1) = i + 1 + j by omega] at this
          · intro hall j hj
            rcases Nat.eq_zero_or_pos j with hj0 | hjpos
            · subst hj0
              simpa using hc
            · have := hall (j - 1) (by omega)
              rwa [show i + 1 + (j - 1) = i + j by omega] at this
        simp only [hiff, maskLoopValue]
      · have hyes : str.getD i '0' ≠ '0' ∧ str.getD i '0' ≠ '1' := by
          constructor
          · exact fun h0 => hc (Or.inl h0)
          · exact fun h1 => hc (Or.inr h1)
        have hno : ¬ (∀ j, j < k + 1 →
              (str.getD (i + j) '0' = '0' ∨ str.getD (i + j) '0' = '1')) := by
          intro hall
          exact hc (by simpa using hall 0 (by omega))
        rw [if_pos hyes, if_neg hno, bind_apply]
        rfl

/-- On eight binary digits the loop of `imlua_checkmask` computes the sum of
`bit_i * 2 ^ (7 - i)`. -/
theorem maskLoopValue_eq_maskValue (str : List Char) (hlen : str.length = 8)
    (hbin : ∀ c ∈ str, c = '0' ∨ c = '1') : maskLoopValue str 8 0 0 = maskValue str := by
  match str, hlen, hbin with
  | [c0, c1, c2, c3, c4, c5, c6, c7], _, hbin =>
    have h0 := hbin c0 (by simp)
    have h1 := hbin c1 (by simp)
    have h2 := hbin c2 (by simp)
    have h3 := hbin c3 (by simp)
    have h4 := hbin c4 (by simp)
    have h5 := hbin c5 (by simp)
    have h6 := hbin c6 (by simp)
    have h7 := hbin c7 (by simp)
    clear hbin
    rcases h0 with rfl | rfl <;> rcases h1 with rfl | rfl <;> rcases h2 with rfl | rfl <;>
      rcases h3 with rfl | rfl <;> rcases h4 with rfl | rfl <;> rcases h5 with rfl | rfl <;>
      rcases h6 with rfl | rfl <;> rcases h7 with rfl | rfl <;> rfl

theorem luaL_checkstring_string (H : Host) (L : lua_State) (narg : Int) (s : String)
    (hs : L.index narg = some (LuaValue.string s)) :
    luaL_checkstring H narg L = (Except.ok s, L) := by
  simp only [luaL_checkstring, hs]

/-- The digits the loop of `imlua_checkmask` reads are all binary exactly when
all characters of a string of eight are. -/
theorem binary_digits_iff (str : List Char) (hlen : str.length = 8) :
    (∀ j, j < 8 → (str.getD (0 + j) '0' = '0' ∨ str.getD (0 + j) '0' = '1')) ↔
      ∀ c ∈ str, c = '0' ∨ c = '1' := by
  constructor
  · intro hall c hc
    obtain ⟨j, hj, hjc⟩ := List.getElem_of_mem hc
    have := hall j (by omega)
    rw [Nat.zero_add, List.getD_eq_getElem?_getD, List.getElem?_eq_getElem hj,
      Option.getD_some, hjc] at this
    exact this
  · intro hall j hj
    have hj2 : j < str.length := by omega
    rw [Nat.zero_add, List.getD_eq_getElem?_getD, List.getElem?_eq_getElem hj2,
      Option.getD_some]
    exact hall _ (List.getElem_mem hj2)

/-- What `imlua_checkmask` does on a string argument. -/
theorem imlua_checkmask_eq (H : Host) (L : lua_State) (index : Int) (s : String)
    (hs : L.index index = some (LuaValue.string s)) :
    imlua_checkmask H index L =
      if (cstring s).length = 8 then
        if ∀ c ∈ cstring s, c = '0' ∨ c = '1' then (Except.ok (maskValue (cstring s)), L)
        else (Except.error (Fault.argerror index "invalid mask, must have 0s or 1s only"), L)
      else (Except.error (Fault.argerror index "invalid mask, must have 8 elements"), L) := by
  simp only [imlua_checkmask, bind_apply, luaL_checkstring_string H L index s hs, strlen]
  by_cases hlen : (cstring s).length = 8
  · have hloop := maskLoop_eq index (cstring s) L 8 0 0 (by omega)
    simp only [Nat.cast_zero] at hloop
    simp only [hlen, ne_eq, not_true_eq_false, if_false, if_true, bind_apply, pure_apply, hloop,
      binary_digits_iff (cstring s) hlen]
    by_cases hbin : ∀ c ∈ cstring s, c = '0' ∨ c = '1'
    · rw [if_pos hbin, if_pos hbin, maskLoopValue_eq_maskValue _ hlen hbin]
    · rw [if_neg hbin, if_neg hbin]
  · simp only [hlen, ne_eq, not_false_eq_true, if_true, if_false, bind_apply, luaL_argerror,
      raise]

/-- The binary rendering of a byte is read back as that byte. -/
theorem binary8_spec : ∀ b, b < 256 →
    (cstring (binary8 b)).length = 8 ∧ (∀ c ∈ cstring (binary8 b), c = '0' ∨ c = '1') ∧
      maskValue (cstring (binary8 b)) = b := by
  decide!

/-- C20, as stated, fails: a string of 13 characters whose ninth character is
NUL is accepted, because the length is taken with `strlen`. -/
theorem checkmask_takes_string_with_nul :
    "11000110\x00junk".length = 13 ∧
    imlua_checkmask exHost 1 (exStringState "11000110\x00junk")
      = (Except.ok 198, exStringState "11000110\x00junk") := by
  decide!

/-- C20, amended: on a string argument `imlua_checkmask` accepts exactly the
strings whose characters up to the first NUL are eight and are all '0' or
'1' (for a string without NUL: the strings of length 8 of '0's and '1's), and
raises an argument error for every other string; it returns the byte whose
binary numeral, most significant bit first, those eight characters are, the
sum over `i` in 0..7 of `bit_i * 2 ^ (7 - i)`; the 8-digit binary rendering of
a byte is read back as that byte. -/
theorem checkmask_reads_binary_numeral (H : Host) (L : lua_State) (index : Int) (s : String)
    (hs : L.index index = some (LuaValue.string s)) :
    (((cstring s).length = 8 ∧ ∀ c ∈ cstring s, c = '0' ∨ c = '1') →
      imlua_checkmask H index L = (Except.ok (maskValue (cstring s)), L)) ∧
    (¬ ((cstring s).length = 8 ∧ ∀ c ∈ cstring s, c = '0' ∨ c = '1') →
      ∃ msg, imlua_checkmask H index L = (Except.error (Fault.argerror index msg), L)) ∧
    ((∀ c ∈ s.toList, c ≠ Char.ofNat 0) → cstring s = s.toList) ∧
    (∀ b, b < 256 → s = binary8 b → imlua_checkmask H index L = (Except.ok b, L)) := by
  have hmain := imlua_checkmask_eq H L index s hs
  refine ⟨fun hok => ?_, fun hbad => ?_, fun hnul => ?_, fun b hb hsb => ?_⟩
  · rw [hmain, if_pos hok.1, if_pos hok.2]
  · rw [hmain]
    by_cases hlen : (cstring s).length = 8
    · rw [if_pos hlen, if_neg (fun hbin => hbad ⟨hlen, hbin⟩)]
      exact ⟨_, rfl⟩
    · rw [if_neg hlen]
      exact ⟨_, rfl⟩
  · unfold cstring
    rw [List.takeWhile_eq_self_iff]
    intro c hc
    simpa using hnul c hc
  · subst hsb
    have h := binary8_spec b hb
    rw [hmain, if_pos h.1, if_pos h.2.1, h.2.2]

theorem checkmask_reads_binary_numeral_witness :
    imlua_checkmask exHost 1 (exStringState "11000110")
        = (Except.ok 198, exStringState "11000110") ∧
    (∃ msg, imlua_checkmask exHost 1 (exStringState "1100011")
        = (Except.error (Fault.argerror 1 msg), exStringState "1100011")) ∧
    (∃ msg, imlua_checkmask exHost 1 (exStringState "11000112")
        = (Except.error (Fault.argerror 1 msg), exStringState "11000112")) :=
  ⟨(checkmask_reads_binary_numeral exHost (exStringState "11000110") 1 "11000110" rfl).1
      (by decide),
    (checkmask_reads_binary_numeral exHost (exStringState "1100011") 1 "1100011" rfl).2.1
      (by decide),
    (checkmask_reads_binary_numeral exHost (exStringState "11000112") 1 "11000112" rfl).2.1
      (by decide)⟩

/-! ### The conversions -/

/-- C17: with a kernel that reports the error code 9 on its first run and the
no-error code on a second run, each conversion binding runs the kernel twice
and returns the number 0, which is neither nil nor the error code the kernel
reported first (with a kernel that reports no error the first time, nil is
returned after one run). -/
theorem convert_reruns_failed_kernel :
    exRetryHost.IM_ERR_NONE = 0 ∧
    exRetryHost.kernel ⟨"imConvertColorSpace", [KernelArg.img 0, KernelArg.img 1]⟩
        exConvertState.images
      = Except.ok (9, [some exGraySrc, some { exGrayDst with data := exGraySrc.data }]) ∧
    ((imluaConvertColorSpace exRetryHost exConvertState).1 = Except.ok 1 ∧
      (imluaConvertColorSpace exRetryHost exConvertState).2.stack
        = exConvertState.stack ++ [LuaValue.number 0] ∧
      (imluaConvertColorSpace exRetryHost exConvertState).2.kernel_log
        = [⟨"imConvertColorSpace", [KernelArg.img 0, KernelArg.img 1]⟩,
            ⟨"imConvertColorSpace", [KernelArg.img 0, KernelArg.img 1]⟩]) ∧
    ((imluaConvertDataType exRetryHost exConvertState).1 = Except.ok 1 ∧
      (imluaConvertDataType exRetryHost exConvertState).2.stack
        = exConvertState.stack ++ [LuaValue.number 0] ∧
      (imluaConvertDataType exRetryHost exConvertState).2.kernel_log.length = 2) ∧
    ((imluaConvertToBitmap exRetryHost exConvertState).1 = Except.ok 1 ∧
      (imluaConvertToBitmap exRetryHost exConvertState).2.stack
        = exConvertState.stack ++ [LuaValue.number 0] ∧
      (imluaConvertToBitmap exRetryHost exConvertState).2.kernel_log.length = 2) ∧
    ((imluaConvertColorSpace exRetryHost
          { exConvertState with images := [some exGraySrc, some exGraySrc] }).2.stack
        = exConvertState.stack ++ [LuaValue.nil] ∧
      (imluaConvertColorSpace exRetryHost
          { exConvertState with images := [some exGraySrc, some exGraySrc] }).2.kernel_log.length
        = 1) := by
  decide!

/-! ### Crop -/

theorem imlua_checkimage_ok (L : lua_State) (param : Int) (p : Nat) (image : imImage)
    (h : L.index param = some (LuaValue.image p)) (hp : L.images[p]? = some (some image)) :
    imlua_checkimage param L = (Except.ok p, L) := by
  simp only [imlua_checkimage, h, hp]

theorem luaL_checkint_ok (H : Host) (L : lua_State) (narg : Int) (d : lua_Number)
    (h : H.tonumber (L.index narg) = some d) :
    luaL_checkint H narg L = (Except.ok (H.number2int d), L) := by
  simp only [luaL_checkint, h]

theorem luaL_checknumber_ok (H : Host) (L : lua_State) (narg : Int) (d : lua_Number)
    (h : H.tonumber (L.index narg) = some d) :
    luaL_checknumber H narg L = (Except.ok d, L) := by
  simp only [luaL_checknumber, h]

theorem luaL_argcheck_eq (cond : Bool) (numarg : Int) (extramsg : String) (L : lua_State) :
    luaL_argcheck cond numarg extramsg L =
      if cond then (Except.ok (), L) else (Except.error (Fault.argerror numarg extramsg), L) := by
  cases cond <;> rfl

theorem hostKernel_log (H : Host) (c : KernelCall) (L : lua_State) :
    (hostKernel H c L).2.kernel_log = L.kernel_log ++ [c] := by
  unfold hostKernel
  split <;> rfl

/-- What `imluaProcessCrop` does on two images and two numbers. -/
theorem imluaProcessCrop_eq (H : Host) (L : lua_State) (p q : Nat) (src dst : imImage)
    (d3 d4 : lua_Number)
    (h1 : L.index 1 = some (LuaValue.image p)) (hp : L.images[p]? = some (some src))
    (h2 : L.index 2 = some (LuaValue.image q)) (hq : L.images[q]? = some (some dst))
    (h3 : H.tonumber (L.index 3) = some d3) (h4 : H.tonumber (L.index 4) = some d4) :
    (cropAccepts src dst (H.number2int d3) (H.number2int d4) →
      (imluaProcessCrop H L).2.kernel_log = L.kernel_log ++ [⟨"imProcessCrop",
        [KernelArg.img p, KernelArg.img q, KernelArg.int (H.number2int d3),
          KernelArg.int (H.number2int d4)]⟩]) ∧
    (¬ cropAccepts src dst (H.number2int d3) (H.number2int d4) →
      (∃ e, (imluaProcessCrop H L).1 = Except.error e ∧ e.isLuaError = true) ∧
        (imluaProcessCrop H L).2 = L) := by
  simp only [imluaProcessCrop, bind_apply, imlua_checkimage_ok L 1 p src h1 hp,
    imlua_checkimage_ok L 2 q dst h2 hq, luaL_checkint_ok H L 3 d3 h3,
    luaL_checkint_ok H L 4 d4 h4, imlua_matchcolor, deref_ok L p src hp, deref_ok L q dst hq,
    luaL_argcheck_eq, ite_apply_M, pure_apply]
  have hlog := hostKernel_log H ⟨"imProcessCrop",
    [KernelArg.img p, KernelArg.img q, KernelArg.int (H.number2int d3),
      KernelArg.int (H.number2int d4)]⟩ L
  by_cases c1 : imImageMatchColor src dst = true
  · by_cases c2 : 0 ≤ H.number2int d3 ∧ H.number2int d3 < src.width
    · by_cases c3 : 0 ≤ H.number2int d4 ∧ H.number2int d4 < src.height
      · by_cases c4 : dst.width ≤ src.width - H.number2int d3
        · by_cases c5 : dst.height ≤ src.height - H.number2int d4
          · refine ⟨fun _ => ?_, fun hrej => ?_⟩
            · simp only [c1, Bool.not_true, Bool.false_eq_true, if_false, deref_ok L p src hp,
                deref_ok L q dst hq, ge_iff_le, c2.1, c2.2, c3.1, c3.2, c4, c5, decide_True,
                Bool.and_self, if_true]
              cases hk : hostKernel H ⟨"imProcessCrop", [KernelArg.img p, KernelArg.img q,
                  KernelArg.int (H.number2int d3), KernelArg.int (H.number2int d4)]⟩ L with
              | mk r L1 =>
                rw [hk] at hlog
                cases r with
                | error e => exact hlog
                | ok a => exact hlog
            · exfalso
              apply hrej
              simp only [imImageMatchColor, Bool.and_eq_true, beq_iff_eq] at c1
              exact ⟨c1.1, c1.2, c2.1, c2.2, c3.1, c3.2, c4, c5⟩
          · refine ⟨fun hacc => absurd hacc.2.2.2.2.2.2.2 c5, fun _ => ?_⟩
            simp [c1, deref_ok L p src hp, deref_ok L q dst hq, c2.1, c2.2, c3.1, c3.2, c4, c5,
              Fault.isLuaError]
        · refine ⟨fun hacc => absurd hacc.2.2.2.2.2.2.1 c4, fun _ => ?_⟩
          simp [c1, deref_ok L p src hp, deref_ok L q dst hq, c2.1, c2.2, c3.1, c3.2, c4,
            Fault.isLuaError]
      · refine ⟨fun hacc => absurd ⟨hacc.2.2.2.2.1, hacc.2.2.2.2.2.1⟩ c3, fun _ => ?_⟩
        have c3b : ¬ (0 ≤ H.number2int d4 ∧ H.number2int d4 < src.height) := c3
        simp only [not_and_or] at c3b
        rcases c3b with c3b | c3b <;>
          simp [c1, deref_ok L p src hp, deref_ok L q dst hq, c2.1, c2.2, c3b, Fault.isLuaError]
    · refine ⟨fun hacc => absurd ⟨hacc.2.2.1, hacc.2.2.2.1⟩ c2, fun _ => ?_⟩
      have c2b : ¬ (0 ≤ H.number2int d3 ∧ H.number2int d3 < src.width) := c2
      simp only [not_and_or] at c2b
      rcases c2b with c2b | c2b <;>
        simp [c1, deref_ok L p src hp, deref_ok L q dst hq, c2b, Fault.isLuaError]
  · refine ⟨fun hacc => ?_, fun _ => ?_⟩
    · exfalso
      apply c1
      simp [imImageMatchColor, hacc.1, hacc.2.1]
    · simp [c1, imlua_errormatchcolor, luaL_error, raise, Fault.isLuaError]

/-- C12: given two images and two numbers, `imluaProcessCrop` calls the crop
kernel if and only if source and destination have the same data type and
color space, `0 <= xmin < src.width`, `0 <= ymin < src.height`,
`dst.width <= src.width - xmin` and `dst.height <= src.height - ymin`; on a
violation it raises an error with the state, so every image, as it was; on an
accepted call the rectangle from `(xmin, ymin)` of the destination's size lies
inside the source. -/
theorem crop_kernel_iff_rectangle_inside (H : Host) (L : lua_State) (p q : Nat)
    (src dst : imImage) (d3 d4 : lua_Number)
    (h1 : L.index 1 = some (LuaValue.image p)) (hp : L.images[p]? = some (some src))
    (h2 : L.index 2 = some (LuaValue.image q)) (hq : L.images[q]? = some (some dst))
    (h3 : H.tonumber (L.index 3) = some d3) (h4 : H.tonumber (L.index 4) = some d4) :
    ((imluaProcessCrop H L).2.kernel_log ≠ L.kernel_log ↔
      cropAccepts src dst (H.number2int d3) (H.number2int d4)) ∧
    (cropAccepts src dst (H.number2int d3) (H.number2int d4) →
      (imluaProcessCrop H L).2.kernel_log = L.kernel_log ++ [⟨"imProcessCrop",
        [KernelArg.img p, KernelArg.img q, KernelArg.int (H.number2int d3),
          KernelArg.int (H.number2int d4)]⟩] ∧
      0 ≤ H.number2int d3 ∧ H.number2int d3 + dst.width ≤ src.width ∧
      0 ≤ H.number2int d4 ∧ H.number2int d4 + dst.height ≤ src.height) ∧
    (¬ cropAccepts src dst (H.number2int d3) (H.number2int d4) →
      (∃ e, (imluaProcessCrop H L).1 = Except.error e ∧ e.isLuaError = true) ∧
        (imluaProcessCrop H L).2.kernel_log = L.kernel_log ∧
        (imluaProcessCrop H L).2.images = L.images) := by
  have hmain := imluaProcessCrop_eq H L p q src dst d3 d4 h1 hp h2 hq h3 h4
  refine ⟨⟨fun hlog => ?_, fun hacc => ?_⟩, fun hacc => ?_, fun hrej => ?_⟩
  · by_contra hrej
    exact hlog (by rw [(hmain.2 hrej).2])
  · rw [hmain.1 hacc]
    simp
  · refine ⟨hmain.1 hacc, hacc.2.2.1, ?_, hacc.2.2.2.2.1, ?_⟩
    · have := hacc.2.2.2.2.2.2.1
      omega
    · have := hacc.2.2.2.2.2.2.2
      omega
  · have h := hmain.2 hrej
    exact ⟨h.1, by rw [h.2], by rw [h.2]⟩

theorem crop_kernel_iff_rectangle_inside_witness :
    ((imluaProcessCrop exHost (exCropState 1 1)).2.kernel_log
        = [⟨"imProcessCrop", [KernelArg.img 0, KernelArg.img 1, KernelArg.int 1,
            KernelArg.int 1]⟩]) ∧
    ((∃ e, (imluaProcessCrop exHost (exCropState 2 1)).1 = Except.error e
          ∧ e.isLuaError = true) ∧
      (imluaProcessCrop exHost (exCropState 2 1)).2.kernel_log = [] ∧
      (imluaProcessCrop exHost (exCropState 2 1)).2.images = (exCropState 2 1).images) :=
  ⟨((crop_kernel_iff_rectangle_inside exHost (exCropState 1 1) 0 1 _ _ _ _
      rfl rfl rfl rfl rfl rfl).2.1 (by decide!)).1,
    (crop_kernel_iff_rectangle_inside exHost (exCropState 2 1) 0 1 _ _ _ _
      rfl rfl rfl rfl rfl rfl).2.2 (by decide!)⟩

/-! ### The connectivity check of the sibling bindings -/

theorem state_luaL_checkint (H : Host) (narg : Int) (L : lua_State) :
    (luaL_checkint H narg L).2 = L := by
  unfold luaL_checkint
  split <;> rfl

theorem state_imlua_argerrorcolorspace (H : Host) (index : Int) (c : imColorSpace)
    (L : lua_State) : (imlua_argerrorcolorspace H index c L).2 = L := by
  unfold imlua_argerrorcolorspace
  split <;> rfl

theorem state_imlua_argerrordatatype (H : Host) (index : Int) (d : imDataType)
    (L : lua_State) : (imlua_argerrordatatype H index d L).2 = L := by
  unfold imlua_argerrordatatype
  split <;> rfl

theorem state_imlua_checkcolorspace (H : Host) (a : Int) (i : Nat) (c : imColorSpace)
    (L : lua_State) : (imlua_checkcolorspace H a i c L).2 = L :=
  state_bind _ _ (state_deref _) (fun _ =>
    state_ite _ _ _ (state_imlua_argerrorcolorspace H a c) (state_pure _)) L

theorem state_imlua_checkdatatype (H : Host) (a : Int) (i : Nat) (d : imDataType)
    (L : lua_State) : (imlua_checkdatatype H a i d L).2 = L :=
  state_bind _ _ (state_deref _) (fun _ =>
    state_ite _ _ _ (state_imlua_argerrordatatype H a d) (state_pure _)) L

theorem state_imlua_checktype (H : Host) (a : Int) (i : Nat) (c : imColorSpace)
    (d : imDataType) (L : lua_State) : (imlua_checktype H a i c d L).2 = L :=
  state_bind _ _ (state_imlua_checkcolorspace H a i c) (fun _ =>
    state_imlua_checkdatatype H a i d) L

theorem state_imlua_match (i1 i2 : Nat) (L : lua_State) : (imlua_match i1 i2 L).2 = L :=
  state_bind _ _ (state_deref _) (fun _ =>
    state_bind _ _ (state_deref _) (fun _ =>
      state_ite _ _ _ (state_luaL_error _) (state_pure _))) L

theorem state_luaL_argcheck (cond : Bool) (numarg : Int) (extramsg : String) (L : lua_State) :
    (luaL_argcheck cond numarg extramsg L).2 = L := by
  cases cond <;> rfl

/-- When a sequence whose first part leaves the state as it is changes the
kernel log, the first part returned and the rest changed the log. -/
theorem bind_reach_state {α β : Type} {m : M α} {f : α → M β} {L : lua_State}
    (hm : ∀ L, (m L).2 = L) (h : ((m >>= f) L).2.kernel_log ≠ L.kernel_log) :
    ∃ a, m L = (Except.ok a, L) ∧ (f a L).2.kernel_log ≠ L.kernel_log := by
  obtain ⟨a, L1, e, -, g⟩ := bind_reach (by rw [hm]) h
  have hL1 : L1 = L := by
    have := hm L
    rw [e] at this
    exact this
  subst hL1
  exact ⟨a, e, g⟩

theorem luaL_checkint_inv (H : Host) (narg : Int) (L : lua_State) (c : Int)
    (h : luaL_checkint H narg L = (Except.ok c, L)) :
    ∃ d, H.tonumber (L.index narg) = some d ∧ c = H.number2int d := by
  unfold luaL_checkint at h
  cases hd : H.tonumber (L.index narg) with
  | none => simp [hd, luaL_typerror, luaL_argerror, raise] at h
  | some d =>
    simp only [hd, Prod.mk.injEq, Except.ok.injEq, and_true] at h
    exact ⟨d, rfl, h.symm⟩

theorem luaL_argcheck_inv (cond : Bool) (numarg : Int) (extramsg : String) (L : lua_State)
    (u : Unit) (h : luaL_argcheck cond numarg extramsg L = (Except.ok u, L)) : cond = true := by
  cases cond
  · simp [luaL_argcheck, luaL_argerror, raise] at h
  · rfl

/-- The three bindings that check their connectivity argument call their
kernel only with the connectivity 4 or 8. -/
theorem connect_checked_by_siblings (H : Host) (L : lua_State) :
    ((imluaAnalyzeFindRegions H L).2.kernel_log ≠ L.kernel_log →
      ∃ d, H.tonumber (L.index 3) = some d ∧ (H.number2int d = 4 ∨ H.number2int d = 8)) ∧
    ((imluaProcessRemoveByArea H L).2.kernel_log ≠ L.kernel_log →
      ∃ d, H.tonumber (L.index 3) = some d ∧ (H.number2int d = 4 ∨ H.number2int d = 8)) ∧
    ((imluaProcessFillHoles H L).2.kernel_log ≠ L.kernel_log →
      ∃ d, H.tonumber (L.index 3) = some d ∧ (H.number2int d = 4 ∨ H.number2int d = 8)) := by
  refine ⟨fun h => ?_, fun h => ?_, fun h => ?_⟩
  · unfold imluaAnalyzeFindRegions at h
    obtain ⟨p, -, g0⟩ := bind_reach_state (state_imlua_checkimage _) h
    obtain ⟨q, -, g1⟩ := bind_reach_state (state_imlua_checkimage _) g0
    obtain ⟨c, e2, g2⟩ := bind_reach_state (state_luaL_checkint H _) g1
    obtain ⟨L0, -, g3⟩ := bind_reach_state (m := getState) (fun _ => rfl) g2
    obtain ⟨_, -, g4⟩ := bind_reach_state (state_imlua_checkcolorspace H _ _ _) g3
    obtain ⟨_, -, g5⟩ := bind_reach_state (state_imlua_checktype H _ _ _ _) g4
    obtain ⟨u, e6, -⟩ := bind_reach_state (state_luaL_argcheck _ _ _) g5
    obtain ⟨d, hd, hc⟩ := luaL_checkint_inv H 3 L c e2
    have hcond := luaL_argcheck_inv _ _ _ _ u e6
    simp only [Bool.or_eq_true, decide_eq_true_eq] at hcond
    exact ⟨d, hd, by rw [← hc]; exact hcond⟩
  · unfold imluaProcessRemoveByArea at h
    obtain ⟨p, -, g0⟩ := bind_reach_state (state_imlua_checkimage _) h
    obtain ⟨q, -, g1⟩ := bind_reach_state (state_imlua_checkimage _) g0
    obtain ⟨c, e2, g2⟩ := bind_reach_state (state_luaL_checkint H _) g1
    obtain ⟨s, -, g3⟩ := bind_reach_state (state_luaL_checkint H _) g2
    obtain ⟨t, -, g4⟩ := bind_reach_state (state_luaL_checkint H _) g3
    obtain ⟨L0, -, g5⟩ := bind_reach_state (m := getState) (fun _ => rfl) g4
    obtain ⟨_, -, g6⟩ := bind_reach_state (state_imlua_checkcolorspace H _ _ _) g5
    obtain ⟨_, -, g7⟩ := bind_reach_state (state_imlua_match _ _) g6
    obtain ⟨u, e8, -⟩ := bind_reach_state (state_luaL_argcheck _ _ _) g7
    obtain ⟨d, hd, hc⟩ := luaL_checkint_inv H 3 L c e2
    have hcond := luaL_argcheck_inv _ _ _ _ u e8
    simp only [Bool.or_eq_true, decide_eq_true_eq] at hcond
    exact ⟨d, hd, by rw [← hc]; exact hcond⟩
  · unfold imluaProcessFillHoles at h
    obtain ⟨p, -, g0⟩ := bind_reach_state (state_imlua_checkimage _) h
    obtain ⟨q, -, g1⟩ := bind_reach_state (state_imlua_checkimage _) g0
    obtain ⟨c, e2, g2⟩ := bind_reach_state (state_luaL_checkint H _) g1
    obtain ⟨_, -, g3⟩ := bind_reach_state (state_imlua_checkcolorspace H _ _ _) g2
    obtain ⟨_, -, g4⟩ := bind_reach_state (state_imlua_match _ _) g3
    obtain ⟨u, e5, -⟩ := bind_reach_state (state_luaL_argcheck _ _ _) g4
    obtain ⟨d, hd, hc⟩ := luaL_checkint_inv H 3 L c e2
    have hcond := luaL_argcheck_inv _ _ _ _ u e5
    simp only [Bool.or_eq_true, decide_eq_true_eq] at hcond
    exact ⟨d, hd, by rw [← hc]; exact hcond⟩

/-! ### Connectivity -/

/-- C16: with the connectivity value 5, `imluaAnalyzeFindRegions`,
`imluaProcessRemoveByArea` and `imluaProcessFillHoles` raise the argument error
"invalid connect value, must be 4 or 8" and call no kernel, while
`imluaAnalyzeMeasureHoles`, which has no such check, passes the 5 to its
kernel and returns. -/
theorem measureholes_passes_any_connect :
    (imluaAnalyzeFindRegions exHost (exConnectState exBinary exLabels 5)
      = (Except.error (Fault.argerror 3 "invalid connect value, must be 4 or 8"),
          exConnectState exBinary exLabels 5)) ∧
    (imluaProcessRemoveByArea exHost (exConnectState exBinary exBinary 5)
      = (Except.error (Fault.argerror 3 "invalid connect value, must be 4 or 8"),
          exConnectState exBinary exBinary 5)) ∧
    (imluaProcessFillHoles exHost (exConnectState exBinary exBinary 5)
      = (Except.error (Fault.argerror 3 "invalid connect value, must be 4 or 8"),
          exConnectState exBinary exBinary 5)) ∧
    (imluaAnalyzeFindRegions exHost (exConnectState exBinary exLabels 8)).2.kernel_log
      = [⟨"imAnalyzeFindRegions", [KernelArg.img 0, KernelArg.img 1, KernelArg.int 8,
          KernelArg.int 1]⟩] ∧
    (imluaAnalyzeMeasureHoles exHost (exHolesState 5)).1 = Except.ok 3 ∧
    (imluaAnalyzeMeasureHoles exHost (exHolesState 5)).2.kernel_log
      = [⟨"imAnalyzeMeasureHoles", [KernelArg.img 0, KernelArg.int 5]⟩] := by
  decide!

/-! ### Replacing a color: the arrays -/

/-- C11, as stated, fails: with the first array built, a fourth argument that
is not a table, or that holds an element that is not a number, makes
`imlua_toarrayfloat` raise the error itself, and then one array, resp. two
arrays, are allocated and none is released. -/
theorem replacecolor_leaks_on_reader_error :
    (imluaProcessReplaceColor exHost (exReplaceState LuaValue.nil)
      = (Except.error (Fault.argerror 4 "table expected, got nil"),
          { exReplaceState LuaValue.nil with malloc_count := 1, free_count := 0 })) ∧
    ((imluaProcessReplaceColor exHost (exReplaceState (LuaValue.table 2))).1
      = Except.error (Fault.argerror (-1) "number expected, got string") ∧
    (imluaProcessReplaceColor exHost (exReplaceState (LuaValue.table 2))).2.malloc_count = 2 ∧
    (imluaProcessReplaceColor exHost (exReplaceState (LuaValue.table 2))).2.free_count = 0) := by
  decide!

/-- The required float reader on a table whose read elements all convert. -/
theorem imlua_toarrayfloat_ok (H : Host) (L : lua_State) (index start : Int) (N : Nat)
    (htab : lua_istable L index = true) (hN : lua_objlen L index = N)
    (hconv : ∀ i : Nat, (i : Int) < (if start = 0 then (N : Int) + 1 else N) →
      (H.tonumber (some ((L.tableAt index).rawgeti (i + start)))).isSome = true) :
    imlua_toarrayfloat H index start L
      = (Except.ok (some ((List.range (if start = 0 then (N : Int) + 1 else N).toNat).map
            (fun j : Nat => H.c_float
              ((H.tonumber (some ((L.tableAt index).rawgeti ((j : Int) + start)))).getD 0))),
          if start = 0 then (N : Int) + 1 else N),
        { L with malloc_count := L.malloc_count + 1 }) := by
  have hty : lua_type L index = LUA_TTABLE := by
    simpa [lua_istable] using htab
  have h1 := toarray_table H L index start _ (luaL_checknumber H) (fun d => d) H.c_float
    (fun L1 v d hd => luaL_checknumber_push H L1 v d hd) hconv
  simp only [imlua_toarrayfloat]
  rw [bind_apply, luaL_checktype_ok index LUA_TTABLE L hty]
  simp only [imlua_toarrayfloatopt, htab, if_true, imlua_getn, hN, h1]

/-- A reading loop with an element that does not convert stops with an error. -/
theorem readLoop_float_error (H : Host) (index start : Int) (L : lua_State) :
    ∀ (k : Nat) (i : Int), (∃ j : Nat, j < k ∧
        (H.tonumber (some ((L.tableAt index).rawgeti (i + j + start)))).isSome = false) →
      ∃ e L1, readLoop (fun i => do
          lua_rawgeti index (i + start)
          let x ← luaL_checknumber H (-1)
          lua_pop 1
          pure (H.c_float x)) k i L = (Except.error e, L1)
  | 0, _, h => by
      obtain ⟨j, hj, _⟩ := h
      omega
  | k + 1, i, h => by
      cases hc : H.tonumber (some ((L.tableAt index).rawgeti (i + start))) with
      | none =>
        simp only [readLoop, bind_apply, lua_rawgeti, push, luaL_checknumber, index_neg_one_push,
          hc, luaL_typerror, luaL_argerror, raise]
        exact ⟨_, _, rfl⟩
      | some d =>
        have hstep := readElem_ok L index (i + start) (luaL_checknumber H) H.c_float d
          (luaL_checknumber_push H L _ d hc)
        obtain ⟨j, hj, hbad⟩ := h
        have hj0 : j ≠ 0 := by
          intro h0
          subst h0
          simp [hc] at hbad
        obtain ⟨e, L1, ih⟩ := readLoop_float_error H index start L k (i + 1)
          ⟨j - 1, by omega, by
            have : (i + 1 + ((j - 1 : Nat) : Int) + start) = i + j + start := by omega
            rw [this]
            exact hbad⟩
        refine ⟨e, L1, ?_⟩
        simp only [readLoop]
        rw [bind_apply, hstep]
        dsimp only
        rw [bind_apply, ih]

theorem frame_readLoop {α : Type} (elem : Int → M α) (h : ∀ i, respects frame (elem i)) :
    ∀ (k : Nat) (i : Int), respects frame (readLoop elem k i)
  | 0, _ => frame_of_state_eq (fun _ => rfl)
  | k + 1, i =>
      respects_bind frame_trans (h i) (fun _ =>
        respects_bind frame_trans (frame_readLoop elem h k (i + 1)) (fun _ =>
          frame_of_state_eq (fun _ => rfl)))

/-- Reading the elements of a float array calls neither `malloc` nor `free`
nor a kernel. -/
theorem frame_readLoop_float (H : Host) (index start : Int) (k : Nat) (i : Int) :
    respects frame (readLoop (fun i => do
      lua_rawgeti index (i + start)
      let x ← luaL_checknumber H (-1)
      lua_pop 1
      pure (H.c_float x)) k i) :=
  frame_readLoop _ (fun i =>
    respects_bind frame_trans (frame_lua_rawgeti index (i + start)) (fun _ =>
      respects_bind frame_trans (frame_luaL_checknumber H (-1)) (fun _ =>
        respects_bind frame_trans (frame_lua_pop 1) (fun _ =>
          frame_of_state_eq (fun _ => rfl))))) k i

/-- The required float reader on a table with an element that does not
convert: it stops with an error after its `malloc`, without a `free`. -/
theorem imlua_toarrayfloat_error (H : Host) (L : lua_State) (index : Int)
    (htab : lua_istable L index = true)
    (hbad : ∃ j : Nat, j < lua_objlen L index ∧
      (H.tonumber (some ((L.tableAt index).rawgeti (j + 1)))).isSome = false) :
    (∃ e, (imlua_toarrayfloat H index 1 L).1 = Except.error e) ∧
      (imlua_toarrayfloat H index 1 L).2.malloc_count = L.malloc_count + 1 ∧
      (imlua_toarrayfloat H index 1 L).2.free_count = L.free_count ∧
      (imlua_toarrayfloat H index 1 L).2.kernel_log = L.kernel_log := by
  have hty : lua_type L index = LUA_TTABLE := by
    simpa [lua_istable] using htab
  obtain ⟨j, hj, hjbad⟩ := hbad
  obtain ⟨e, L1, hread⟩ := readLoop_float_error H index 1
    { L with malloc_count := L.malloc_count + 1 } (lua_objlen L index) 0
    ⟨j, hj, by simpa using hjbad⟩
  have hfr := frame_readLoop_float H index 1 (lua_objlen L index) 0
    { L with malloc_count := L.malloc_count + 1 }
  rw [hread] at hfr
  have hres : imlua_toarrayfloat H index 1 L = (Except.error e, L1) := by
    simp only [imlua_toarrayfloat]
    rw [bind_apply, luaL_checktype_ok index LUA_TTABLE L hty]
    simp only [imlua_toarrayfloatopt, htab, if_true, imlua_getn, one_ne_zero, if_false,
      Int.toNat_ofNat, bind_apply, malloc, hread]
  rw [hres]
  exact ⟨⟨e, rfl⟩, hfr.2.1, hfr.2.2.1, hfr.2.2.2.2.2⟩

theorem checknotcfloat_cases (L : lua_State) (a : Int) (i : Nat) (image : imImage)
    (hi : L.images[i]? = some (some image)) :
    imlua_checknotcfloat a i L =
      if image.data_type = imDataType.IM_CFLOAT then
        (Except.error (Fault.argerror a "image data type can NOT be cfloat"), L)
      else (Except.ok (), L) := by
  by_cases hc : image.data_type = imDataType.IM_CFLOAT
  · simp only [imlua_checknotcfloat, bind_apply, deref_ok L i image hi, hc, if_true,
      imlua_errorcfloat, luaL_argerror, raise]
  · simp only [imlua_checknotcfloat, bind_apply, deref_ok L i image hi, hc, if_false]
    rfl

theorem imlua_match_eq (L : lua_State) (p q : Nat) (src dst : imImage)
    (hp : L.images[p]? = some (some src)) (hq : L.images[q]? = some (some dst)) :
    imlua_match p q L =
      if imImageMatch src dst then (Except.ok (), L)
      else (Except.error
        (Fault.error "images must have the same size, data type and color space"), L) := by
  simp only [imlua_match, bind_apply, deref_ok L p src hp, deref_ok L q dst hq]
  cases imImageMatch src dst <;> rfl

/-- C11, amended: in `imluaProcessReplaceColor`, once the first array is built
with the right count, a second argument that is a table of numbers with a
wrong element count makes both arrays be released before the argument error
propagates, and on a normal return both arrays are released after the kernel
call, so that two arrays are allocated and two released; when the second
argument is not a table, or holds an element that is not a number, the error
is raised inside `imlua_toarrayfloat` and the arrays allocated so far (one,
resp. two) are not released. -/
theorem replacecolor_releases_on_wrong_count (H : Host) (L : lua_State) (p q : Nat)
    (src dst : imImage) (N3 : Nat)
    (h1 : L.index 1 = some (LuaValue.image p)) (hp : L.images[p]? = some (some src))
    (h2 : L.index 2 = some (LuaValue.image q)) (hq : L.images[q]? = some (some dst))
    (hnc : src.data_type ≠ imDataType.IM_CFLOAT) (hm : imImageMatch src dst = true)
    (h3t : lua_istable L 3 = true) (h3n : lua_objlen L 3 = N3) (h3d : (N3 : Int) = src.depth)
    (h3c : ∀ i : Nat, i < N3 →
      (H.tonumber (some ((L.tableAt 3).rawgeti (i + 1)))).isSome = true) :
    (lua_istable L 4 = true →
      (∀ i : Nat, i < lua_objlen L 4 →
        (H.tonumber (some ((L.tableAt 4).rawgeti (i + 1)))).isSome = true) →
      ((lua_objlen L 4 : Int) ≠ src.depth →
        imluaProcessReplaceColor H L = (Except.error (Fault.argerror 4
            "the colors must have the same number of components of the images"),
          { L with malloc_count := L.malloc_count + 1 + 1,
                   free_count := L.free_count + 1 + 1 })) ∧
      ((lua_objlen L 4 : Int) = src.depth →
        (∀ c, ∃ r imgs, H.kernel c L.images = Except.ok (r, imgs)) →
        (imluaProcessReplaceColor H L).1 = Except.ok 0 ∧
          (imluaProcessReplaceColor H L).2.malloc_count = L.malloc_count + 2 ∧
          (imluaProcessReplaceColor H L).2.free_count = L.free_count + 2 ∧
          (imluaProcessReplaceColor H L).2.kernel_log.length = L.kernel_log.length + 1)) ∧
    (lua_istable L 4 = false →
      imluaProcessReplaceColor H L = (Except.error (Fault.argerror 4
          ("table expected, got " ++ lua_typename (lua_type L 4))),
        { L with malloc_count := L.malloc_count + 1 })) ∧
    (lua_istable L 4 = true →
      (∃ j : Nat, j < lua_objlen L 4 ∧
        (H.tonumber (some ((L.tableAt 4).rawgeti (j + 1)))).isSome = false) →
      (∃ e, (imluaProcessReplaceColor H L).1 = Except.error e) ∧
        (imluaProcessReplaceColor H L).2.malloc_count = L.malloc_count + 2 ∧
        (imluaProcessReplaceColor H L).2.free_count = L.free_count) := by
  have e3 := imlua_toarrayfloat_ok H L 3 1 N3 h3t h3n (by simpa using h3c)
  simp only [one_ne_zero, if_false, Int.toNat_ofNat] at e3
  have hty3 : lua_type L 3 = LUA_TTABLE := by
    simpa [lua_istable] using h3t
  have hnot : imlua_checknotcfloat 1 p L = (Except.ok (), L) :=
    (checknotcfloat_cases L 1 p src hp).trans (if_neg hnc)
  have hmatch : imlua_match p q L = (Except.ok (), L) := by
    rw [imlua_match_eq L p q src dst hp hq, hm]
    rfl
  obtain ⟨Lm, hLm⟩ : ∃ Lm : lua_State, Lm = { L with malloc_count := L.malloc_count + 1 } :=
    ⟨_, rfl⟩
  rw [← hLm] at e3
  have hdm : deref p Lm = (Except.ok src, Lm) := deref_ok Lm p src (by rw [hLm]; exact hp)
  have htm : lua_istable Lm 4 = lua_istable L 4 := by rw [hLm]; rfl
  have hom : lua_objlen Lm 4 = lua_objlen L 4 := by rw [hLm]; rfl
  have ham : Lm.tableAt 4 = L.tableAt 4 := by rw [hLm]; rfl
  have hlm : lua_type Lm 4 = lua_type L 4 := by rw [hLm]; rfl
  have hpre : imluaProcessReplaceColor H L = (do
      let (dst_color, dst_count) ← imlua_toarrayfloat H 4 1
      let src ← deref p
      if dst_count ≠ src.depth then do
        free
        free
        luaL_argerror 4 "the colors must have the same number of components of the images"
      let _ ← hostKernel H ⟨"imProcessReplaceColor",
        [KernelArg.img p, KernelArg.img q, KernelArg.floats ((List.range N3).map
            (fun j : Nat => H.c_float
              ((H.tonumber (some ((L.tableAt 3).rawgeti ((j : Int) + 1)))).getD 0))),
          KernelArg.floats (dst_color.getD [])]⟩
      free
      free
      pure 0 : M Int) Lm := by
    simp only [imluaProcessReplaceColor, bind_apply, imlua_checkimage_ok L 1 p src h1 hp,
      imlua_checkimage_ok L 2 q dst h2 hq, hnot, hmatch, e3, hdm, h3d, ne_eq,
      not_true_eq_false, if_false, pure_apply, Option.getD_some]
  rw [hpre]
  have hread : lua_istable L 4 = true →
      (∀ i : Nat, i < lua_objlen L 4 →
        (H.tonumber (some ((L.tableAt 4).rawgeti (i + 1)))).isSome = true) →
      ∃ Lmm : lua_State, Lmm = { Lm with malloc_count := Lm.malloc_count + 1 } ∧
        deref p Lmm = (Except.ok src, Lmm) ∧
        imlua_toarrayfloat H 4 1 Lm = (Except.ok (some ((List.range (lua_objlen L 4)).map
            (fun j : Nat => H.c_float
              ((H.tonumber (some ((L.tableAt 4).rawgeti ((j : Int) + 1)))).getD 0))),
          (lua_objlen L 4 : Int)), Lmm) := by
    intro h4t h4c
    have e4 := imlua_toarrayfloat_ok H Lm 4 1 (lua_objlen L 4) (by rw [htm]; exact h4t) hom
      (by simpa [ham] using h4c)
    simp only [one_ne_zero, if_false, Int.toNat_ofNat, ham] at e4
    exact ⟨_, rfl, deref_ok _ p src (by rw [hLm]; exact hp), e4⟩
  refine ⟨fun h4t h4c => ⟨fun hne => ?_, fun heq hk => ?_⟩, fun h4t => ?_, fun h4t hbad => ?_⟩
  · obtain ⟨Lmm, hLmm, hdmm, e4⟩ := hread h4t h4c
    simp only [bind_apply, e4, hdmm, ne_eq, hne, not_false_eq_true, if_true, free,
      luaL_argerror, raise]
    subst hLmm hLm
    rfl
  · obtain ⟨Lmm, hLmm, hdmm, e4⟩ := hread h4t h4c
    obtain ⟨r, imgs, hkr⟩ := hk ⟨"imProcessReplaceColor",
        [KernelArg.img p, KernelArg.img q, KernelArg.floats ((List.range N3).map
            (fun j : Nat => H.c_float
              ((H.tonumber (some ((L.tableAt 3).rawgeti ((j : Int) + 1)))).getD 0))),
          KernelArg.floats ((List.range (lua_objlen L 4)).map
            (fun j : Nat => H.c_float
              ((H.tonumber (some ((L.tableAt 4).rawgeti ((j : Int) + 1)))).getD 0)))]⟩
    have himg : Lmm.images = L.images := by rw [hLmm, hLm]
    simp only [bind_apply, e4, hdmm, ne_eq, heq, not_true_eq_false, if_false, pure_apply,
      Option.getD_some, hostKernel, himg, hkr, free]
    subst hLmm hLm
    simp
  · have hty : ¬ lua_type L 4 = LUA_TTABLE := by
      simpa [lua_istable] using h4t
    simp only [bind_apply, imlua_toarrayfloat, luaL_checktype, hlm, hty, if_false,
      luaL_typerror, luaL_argerror, raise]
    subst hLm
    rfl
  · obtain ⟨⟨e, he⟩, hmal, hfree, _⟩ := imlua_toarrayfloat_error H Lm 4
      (by rw [htm]; exact h4t) (by rw [hom, ham]; exact hbad)
    cases hr : imlua_toarrayfloat H 4 1 Lm with
    | mk r L1 =>
      rw [hr] at he hmal hfree
      simp only at he hmal hfree
      subst he
      simp only [bind_apply, hr]
      refine ⟨⟨e, rfl⟩, ?_, ?_⟩
      · rw [hmal, hLm]
      · rw [hfree, hLm]

theorem replacecolor_releases_on_wrong_count_witness :
    (imluaProcessReplaceColor exHost (exReplaceState (LuaValue.table 3))
      = (Except.error (Fault.argerror 4
            "the colors must have the same number of components of the images"),
          { exReplaceState (LuaValue.table 3) with malloc_count := 2, free_count := 2 })) ∧
    ((imluaProcessReplaceColor exHost (exReplaceState (LuaValue.table 1))).1 = Except.ok 0 ∧
      (imluaProcessReplaceColor exHost (exReplaceState (LuaValue.table 1))).2.malloc_count = 2 ∧
      (imluaProcessReplaceColor exHost (exReplaceState (LuaValue.table 1))).2.free_count = 2 ∧
      (imluaProcessReplaceColor exHost (exReplaceState (LuaValue.table 1))).2.kernel_log.length
        = 1) :=
  ⟨((replacecolor_releases_on_wrong_count exHost (exReplaceState (LuaValue.table 3)) 0 1
        exGraySrc exGrayDst 1 rfl rfl rfl rfl (by decide) (by decide) (by decide) (by decide)
        (by decide) (by decide)).1 (by decide) (by decide)).1 (by decide),
    ((replacecolor_releases_on_wrong_count exHost (exReplaceState (LuaValue.table 1)) 0 1
        exGraySrc exGrayDst 1 rfl rfl rfl rfl (by decide) (by decide) (by decide) (by decide)
        (by decide) (by decide)).1 (by decide) (by decide)).2 (by decide)
      (fun _ => ⟨1, _, rfl⟩)⟩

/-! ### Conditional render -/

theorem adjustResults_two (rs : List LuaValue) :
    adjustResults rs 2 = [rs[0]?.getD LuaValue.nil, rs[1]?.getD LuaValue.nil] := by
  match rs with
  | [] => rfl
  | [a] => rfl
  | a :: b :: cs => simp [adjustResults]

theorem stackIndex_neg_two (s : List LuaValue) (a b : LuaValue) :
    stackIndex (s ++ [a, b]) (-2) = some a := by
  simp [stackIndex, List.getElem_append_right]

theorem stackIndex_neg_one_two (s : List LuaValue) (a b : LuaValue) :
    stackIndex (s ++ [a, b]) (-1) = some b := by
  have h : s ++ [a, b] = (s ++ [a]) ++ [b] := by simp
  rw [h, stackIndex_neg_one]

theorem lua_toboolean_truthy (L : lua_State) (idx : Int) (v : LuaValue)
    (h : L.index idx = some v) : lua_toboolean L idx = truthy v := by
  unfold lua_toboolean truthy
  rw [h]
  cases v with
  | boolean b => cases b <;> rfl
  | _ => rfl

/-- The whole effect of `imluaRenderCondFunc`: the callback is called once with
the position and the parameter table; its first result, converted, is the
value and the truth value of its second result is the flag; on every normal
return the stack is as it was. -/
theorem imluaRenderCondFunc_eq (H : Host) (L : lua_State) (f r : Nat) (x y d : Int)
    (hf : L.index 2 = some (LuaValue.function f))
    (h4 : L.index 4 = some (LuaValue.table r)) :
    imluaRenderCondFunc H x y d L =
      match H.call f (renderArgs L x y d) with
      | Except.error e =>
          (Except.error e, L.withStack (L.stack ++ LuaValue.function f :: renderArgs L x y d))
      | Except.ok rs =>
          match H.tonumber (some (rs[0]?.getD LuaValue.nil)) with
          | some n => (Except.ok (H.c_float n, truthy (rs[1]?.getD LuaValue.nil)), L)
          | none => (Except.error (Fault.argerror (-2) ("number expected, got " ++
                lua_typename (rs[0]?.getD LuaValue.nil).type)),
              L.withStack (L.stack ++ [rs[0]?.getD LuaValue.nil, rs[1]?.getD LuaValue.nil])) := by
  have hlen := length_of_index_four L _ h4
  have hidx4 : (L.withStack (L.stack ++ [LuaValue.function f] ++ [LuaValue.number (x : ℚ)] ++
      [LuaValue.number (y : ℚ)] ++ [LuaValue.number (d : ℚ)])).index 4
        = some (LuaValue.table r) := by
    rw [List.append_assoc, List.append_assoc, List.append_assoc,
      index_append L _ 4 (by norm_num) (by omega), h4]
  simp only [imluaRenderCondFunc, bind_apply, lua_pushvalue, lua_pushinteger, push, hf,
    Option.getD_some, withStack_stack, withStack_withStack, hidx4]
  have hstack : L.stack ++ [LuaValue.function f] ++ [LuaValue.number (x : ℚ)] ++
      [LuaValue.number (y : ℚ)] ++ [LuaValue.number (d : ℚ)] ++ [LuaValue.table r]
      = L.stack ++ LuaValue.function f :: renderArgs L x y d := by
    simp [renderArgs, h4, List.append_assoc]
  rw [hstack, lua_call_eq H L _ _ f 4 2 (by simp [renderArgs])]
  cases hcall : H.call f (renderArgs L x y d) with
  | error e => rfl
  | ok rs =>
    have hb : lua_toboolean (L.withStack
        (L.stack ++ [rs[0]?.getD LuaValue.nil, rs[1]?.getD LuaValue.nil])) (-1)
          = truthy (rs[1]?.getD LuaValue.nil) :=
      lua_toboolean_truthy _ (-1) _ (by rw [withStack_index, stackIndex_neg_one_two])
    simp only [getState, adjustResults_two, bind_apply, luaL_checknumber, withStack_index,
      stackIndex_neg_two, show (2 : Int).toNat = 2 from rfl]
    cases hnum : H.tonumber (some (rs[0]?.getD LuaValue.nil)) with
    | none =>
      simp only [luaL_typerror, luaL_argerror, raise, lua_type, withStack_index,
        stackIndex_neg_two]
      rfl
    | some n =>
      simp only [pure_apply, lua_pop, withStack_stack, withStack_withStack,
        show (2 : Int).toNat = 2 from rfl, List.length_append, List.length_cons,
        List.length_nil, Nat.add_sub_cancel, List.take_left', withStack_self, hb]

/-! ### The thread-count setting -/

theorem keepsThreads_refl (a : lua_State) : keepsThreads a a := rfl

theorem keepsThreads_trans (a b c : lua_State) (h1 : keepsThreads a b) (h2 : keepsThreads b c) :
    keepsThreads a c := h2.trans h1

theorem keepsThreads_of_frame {α : Type} {m : M α} (h : respects frame m) :
    respects keepsThreads m := fun L => (h L).2.2.2.2.1

theorem keepsThreads_of_state_eq {α : Type} {m : M α} (h : ∀ L, (m L).2 = L) :
    respects keepsThreads m := respects_of_state_eq keepsThreads_refl h

theorem keepsThreads_malloc : respects keepsThreads malloc := fun _ => rfl

theorem keepsThreads_free : respects keepsThreads free := fun _ => rfl

theorem keepsThreads_logKernel (c : KernelCall) : respects keepsThreads (logKernel c) :=
  fun _ => rfl

theorem keepsThreads_hostKernel (H : Host) (c : KernelCall) :
    respects keepsThreads (hostKernel H c) := by
  intro L
  unfold hostKernel
  split <;> rfl

theorem frame_luaL_checkstring (H : Host) (narg : Int) :
    respects frame (luaL_checkstring H narg) := by
  intro L
  unfold luaL_checkstring
  split
  · exact frame_refl L
  · exact frame_withStack L _
  · exact frame_refl L

theorem frame_luaL_optstring (H : Host) (narg : Int) :
    respects frame (luaL_optstring H narg) := by
  intro L
  have h := frame_luaL_checkstring H narg L
  unfold luaL_optstring
  split
  · exact frame_refl L
  · split
    · rename_i heq
      rw [heq] at h
      exact h
    · rename_i heq
      rw [heq] at h
      exact h

theorem frame_imluaUnOpFunc (H : Host) (src_value dst_value : float) (x y d : Int) :
    respects frame (imluaUnOpFunc H src_value dst_value x y d) := by
  have ht := frame_trans
  unfold imluaUnOpFunc
  refine respects_bind ht (frame_lua_pushvalue _) (fun _ => ?_)
  refine respects_bind ht (frame_push _) (fun _ => ?_)
  refine respects_bind ht (frame_imlua_unpacktable _) (fun n => ?_)
  refine respects_bind ht (frame_lua_pushvalue _) (fun _ => ?_)
  refine respects_bind ht (frame_push _) (fun _ => ?_)
  refine respects_bind ht (frame_push _) (fun _ => ?_)
  refine respects_bind ht (frame_push _) (fun _ => ?_)
  refine respects_bind ht (frame_lua_call H _ _) (fun _ => ?_)
  refine respects_bind ht frame_getState (fun L1 => ?_)
  refine respects_bind ht ?_ (fun res => ?_)
  · refine respects_ite _ ?_ (frame_of_state_eq (state_pure _))
    exact respects_bind ht (frame_luaL_checknumber H _)
      (fun _ => frame_of_state_eq (state_pure _))
  · exact respects_bind ht (frame_lua_pop _) (fun _ => frame_of_state_eq (state_pure _))

theorem frame_imluaRenderFunc (H : Host) (x y d : Int) :
    respects frame (imluaRenderFunc H x y d) := by
  have ht := frame_trans
  unfold imluaRenderFunc
  refine respects_bind ht (frame_lua_pushvalue _) (fun _ => ?_)
  refine respects_bind ht (frame_push _) (fun _ => ?_)
  refine respects_bind ht (frame_push _) (fun _ => ?_)
  refine respects_bind ht (frame_push _) (fun _ => ?_)
  refine respects_bind ht (frame_lua_pushvalue _) (fun _ => ?_)
  refine respects_bind ht (frame_lua_call H _ _) (fun _ => ?_)
  refine respects_bind ht (frame_luaL_checknumber H _) (fun _ => ?_)
  exact respects_bind ht (frame_lua_pop _) (fun _ => frame_of_state_eq (state_pure _))

theorem frame_imluaRenderCondFunc (H : Host) (x y d : Int) :
    respects frame (imluaRenderCondFunc H x y d) := by
  have ht := frame_trans
  unfold imluaRenderCondFunc
  refine respects_bind ht (frame_lua_pushvalue _) (fun _ => ?_)
  refine respects_bind ht (frame_push _) (fun _ => ?_)
  refine respects_bind ht (frame_push _) (fun _ => ?_)
  refine respects_bind ht (frame_push _) (fun _ => ?_)
  refine respects_bind ht (frame_lua_pushvalue _) (fun _ => ?_)
  refine respects_bind ht (frame_lua_call H _ _) (fun _ => ?_)
  refine respects_bind ht frame_getState (fun L1 => ?_)
  refine respects_bind ht (frame_luaL_checknumber H _) (fun _ => ?_)
  exact respects_bind ht (frame_lua_pop _) (fun _ => frame_of_state_eq (state_pure _))

/-- The unary kernel leaves the thread-count setting as it is when its
callback does. -/
theorem keepsThreads_imProcessUnaryPointOp (src_image dst_image : Nat)
    (func : float → float → Int → Int → Int → M (Int × float)) (op_name : Option String)
    (hfunc : ∀ a b x y d, respects keepsThreads (func a b x y d)) :
    respects keepsThreads (imProcessUnaryPointOp src_image dst_image func op_name) := by
  have ht := keepsThreads_trans
  unfold imProcessUnaryPointOp
  refine respects_bind ht (keepsThreads_logKernel _) (fun _ => ?_)
  refine respects_bind ht (keepsThreads_of_state_eq (state_deref _)) (fun src => ?_)
  refine respects_bind ht ?_ (fun _ => keepsThreads_of_state_eq (state_pure _))
  refine respects_forEach keepsThreads_refl ht _ (fun c => ?_) _
  refine respects_bind ht (keepsThreads_of_state_eq (state_deref _)) (fun src1 => ?_)
  refine respects_bind ht (keepsThreads_of_state_eq (state_readSample _ _ _)) (fun v => ?_)
  refine respects_bind ht (hfunc _ _ _ _ _) (fun res => ?_)
  refine respects_ite _ (keepsThreads_of_frame (frame_writeSample _ _ _ _)) ?_
  exact keepsThreads_of_state_eq (state_pure _)

theorem keepsThreads_imProcessUnaryPointColorOp (src_image dst_image : Nat)
    (func : List float → List float → List float → Int → Int → M (Int × List float))
    (params : List float) (op_name : Option String)
    (hfunc : ∀ a b c x y, respects keepsThreads (func a b c x y)) :
    respects keepsThreads
      (imProcessUnaryPointColorOp src_image dst_image func params op_name) := by
  have ht := keepsThreads_trans
  unfold imProcessUnaryPointColorOp
  refine respects_bind ht (keepsThreads_logKernel _) (fun _ => ?_)
  refine respects_bind ht (keepsThreads_of_state_eq (state_deref _)) (fun src => ?_)
  refine respects_bind ht (keepsThreads_of_state_eq (state_deref _)) (fun dst => ?_)
  refine respects_bind ht ?_ (fun _ => keepsThreads_of_state_eq (state_pure _))
  refine respects_forEach keepsThreads_refl ht _ (fun c => ?_) _
  refine respects_bind ht (keepsThreads_of_state_eq (state_deref _)) (fun src1 => ?_)
  refine respects_bind ht (keepsThreads_of_state_eq (state_readPixel _ _ _ _)) (fun v => ?_)
  refine respects_bind ht (hfunc _ _ _ _ _) (fun res => ?_)
  refine respects_ite _ (keepsThreads_of_frame (frame_writePixel _ _ _ _)) ?_
  exact keepsThreads_of_state_eq (state_pure _)

theorem keepsThreads_imProcessRenderOp (image : Nat) (func : Int → Int → Int → M float)
    (render_name : String) (plus : Int)
    (hfunc : ∀ x y d, respects keepsThreads (func x y d)) :
    respects keepsThreads (imProcessRenderOp image func render_name plus) := by
  have ht := keepsThreads_trans
  unfold imProcessRenderOp
  refine respects_bind ht (keepsThreads_logKernel _) (fun _ => ?_)
  refine respects_bind ht (keepsThreads_of_state_eq (state_deref _)) (fun im => ?_)
  refine respects_bind ht ?_ (fun _ => keepsThreads_of_state_eq (state_pure _))
  refine respects_forEach keepsThreads_refl ht _ (fun c => ?_) _
  refine respects_bind ht (hfunc _ _ _) (fun v => ?_)
  refine respects_bind ht (keepsThreads_of_state_eq (state_deref _)) (fun im1 => ?_)
  refine respects_ite _ ?_ (keepsThreads_of_frame (frame_writeSample _ _ _ _))
  exact respects_bind ht (keepsThreads_of_state_eq (state_readSample _ _ _))
    (fun _ => keepsThreads_of_frame (frame_writeSample _ _ _ _))

theorem keepsThreads_imProcessRenderCondOp (image : Nat)
    (func : Int → Int → Int → M (float × Int)) (render_name : String)
    (hfunc : ∀ x y d, respects keepsThreads (func x y d)) :
    respects keepsThreads (imProcessRenderCondOp image func render_name) := by
  have ht := keepsThreads_trans
  unfold imProcessRenderCondOp
  refine respects_bind ht (keepsThreads_logKernel _) (fun _ => ?_)
  refine respects_bind ht (keepsThreads_of_state_eq (state_deref _)) (fun im => ?_)
  refine respects_bind ht ?_ (fun _ => keepsThreads_of_state_eq (state_pure _))
  refine respects_forEach keepsThreads_refl ht _ (fun c => ?_) _
  refine respects_bind ht (hfunc _ _ _) (fun res => ?_)
  refine respects_bind ht (keepsThreads_of_state_eq (state_deref _)) (fun im1 => ?_)
  refine respects_ite _ (keepsThreads_of_frame (frame_writeSample _ _ _ _)) ?_
  exact keepsThreads_of_state_eq (state_pure _)

theorem keepsThreads_readLoop {α : Type} (elem : Int → M α)
    (h : ∀ i, respects keepsThreads (elem i)) :
    ∀ (k : Nat) (i : Int), respects keepsThreads (readLoop elem k i)
  | 0, _ => keepsThreads_of_state_eq (fun _ => rfl)
  | k + 1, i =>
      respects_bind keepsThreads_trans (h i) (fun _ =>
        respects_bind keepsThreads_trans (keepsThreads_readLoop elem h k (i + 1)) (fun _ =>
          keepsThreads_of_state_eq (fun _ => rfl)))

theorem keepsThreads_matchLoop (value : List Nat) :
    ∀ (k : Nat) (i : Int), respects keepsThreads (toarrayimage_matchLoop value k i)
  | 0, _ => keepsThreads_of_state_eq (state_pure _)
  | k + 1, i => by
      have ht := keepsThreads_trans
      unfold toarrayimage_matchLoop
      refine respects_bind ht (keepsThreads_of_state_eq (state_arrayRead _ _)) (fun p0 => ?_)
      refine respects_bind ht (keepsThreads_of_state_eq (state_arrayRead _ _)) (fun pi => ?_)
      refine respects_bind ht (keepsThreads_of_state_eq (state_deref _)) (fun i0 => ?_)
      refine respects_bind ht (keepsThreads_of_state_eq (state_deref _)) (fun ii => ?_)
      dsimp only
      have hrest : ∀ y : PUnit, respects keepsThreads (do
          imlua_matchcheck (imImageMatch i0 ii) "images must have the same size and data type"
          toarrayimage_matchLoop value k (i + 1) : M Unit) := fun _ =>
        respects_bind ht (by
            unfold imlua_matchcheck
            exact respects_ite _ (keepsThreads_of_state_eq (state_luaL_error _))
              (keepsThreads_of_state_eq (state_pure _)))
          (fun _ => keepsThreads_matchLoop value k (i + 1))
      refine respects_ite _ ?_ ?_
      · exact respects_bind ht keepsThreads_free hrest
      · exact respects_bind ht (keepsThreads_of_state_eq (state_pure _)) hrest

theorem keepsThreads_imlua_toarrayimage (index start : Int) :
    respects keepsThreads (imlua_toarrayimage index start) := by
  have ht := keepsThreads_trans
  unfold imlua_toarrayimage
  refine respects_bind ht (keepsThreads_of_state_eq (state_luaL_checktype _ _)) (fun _ => ?_)
  refine respects_bind ht (keepsThreads_of_state_eq (fun _ => rfl)) (fun L0 => ?_)
  refine respects_bind ht keepsThreads_malloc (fun _ => ?_)
  refine respects_bind ht (keepsThreads_readLoop _ (fun i => ?_) _ _) (fun value => ?_)
  · refine respects_bind ht (keepsThreads_of_frame (frame_lua_rawgeti _ _)) (fun _ => ?_)
    refine respects_bind ht (keepsThreads_of_state_eq (state_imlua_checkimage _)) (fun _ => ?_)
    exact respects_bind ht (keepsThreads_of_frame (frame_lua_pop _))
      (fun _ => keepsThreads_of_state_eq (state_pure _))
  · exact respects_bind ht (keepsThreads_matchLoop _ _ _)
      (fun _ => keepsThreads_of_state_eq (state_pure _))

/-- The shape of `imluaProcessUnaryPointOp` as far as the thread-count setting
goes: steps that leave it as it is, the call that sets it to 1, and at the end
the call that sets it to the value read at the start. -/
theorem chain_imluaProcessUnaryPointOp (H : Host) (I : lua_State → lua_State → Prop)
    (Q : M Int → Prop)
    (hbind : ∀ (α : Type) (m : M α) (f : α → M Int),
      respects I m → (∀ a, Q (f a)) → Q (m >>= f))
    (hite : ∀ (c : Prop) [Decidable c] (m1 m2 : M Int), Q m1 → Q m2 → Q (if c then m1 else m2))
    (hk : ∀ (α : Type) (m : M α), respects keepsThreads m → respects I m)
    (h1 : respects I (omp_set_num_threads H 1))
    (htail : ∀ old : Int, Q (omp_set_num_threads H old >>= fun _ => pure 1)) :
    Q (imluaProcessUnaryPointOp H) := by
  unfold imluaProcessUnaryPointOp
  refine hbind _ _ _ (hk _ _ (keepsThreads_of_state_eq (state_imlua_checkimage _))) (fun s => ?_)
  refine hbind _ _ _ (hk _ _ (keepsThreads_of_state_eq (state_imlua_checkimage _))) (fun t => ?_)
  refine hbind _ _ _ (hk _ _ (keepsThreads_of_frame (frame_luaL_optstring H _))) (fun n => ?_)
  refine hbind _ _ _ (hk _ _ (keepsThreads_of_state_eq (state_omp_get_num_threads H)))
    (fun old => ?_)
  refine hbind _ _ _ h1 (fun _ => ?_)
  refine hbind _ _ _ (hk _ _ (keepsThreads_of_state_eq (state_imlua_checknotcfloat _ _)))
    (fun _ => ?_)
  refine hbind _ _ _ (hk _ _ (keepsThreads_of_state_eq (state_imlua_checknotcfloat _ _)))
    (fun _ => ?_)
  refine hbind _ _ _ (hk _ _ (keepsThreads_of_state_eq (state_imlua_matchsize _ _)))
    (fun _ => ?_)
  refine hbind _ _ _ (hk _ _ (keepsThreads_of_state_eq (state_deref _))) (fun src => ?_)
  refine hbind _ _ _ (hk _ _ (keepsThreads_of_state_eq (state_deref _))) (fun dst => ?_)
  dsimp only
  have hrest : ∀ y : PUnit, Q (do
      luaL_checktype 3 LUA_TFUNCTION
      luaL_checktype 4 LUA_TTABLE
      let r ← imProcessUnaryPointOp s t (imluaUnOpFunc H) n
      lua_pushboolean r
      omp_set_num_threads H old
      pure 1 : M Int) := by
    intro _
    refine hbind _ _ _ (hk _ _ (keepsThreads_of_state_eq (state_luaL_checktype _ _)))
      (fun _ => ?_)
    refine hbind _ _ _ (hk _ _ (keepsThreads_of_state_eq (state_luaL_checktype _ _)))
      (fun _ => ?_)
    refine hbind _ _ _ (hk _ _ (keepsThreads_imProcessUnaryPointOp _ _ _ _
      (fun a b x y d => keepsThreads_of_frame (frame_imluaUnOpFunc H a b x y d)))) (fun r => ?_)
    exact hbind _ _ _ (hk _ _ (keepsThreads_of_frame (frame_push _))) (fun _ => htail old)
  refine hite _ _ _ ?_ ?_
  · exact hbind _ _ _ (hk _ _ (keepsThreads_of_state_eq (state_luaL_error _))) hrest
  · exact hbind _ _ _ (hk _ _ (keepsThreads_of_state_eq (state_pure _))) hrest

theorem chain_imluaProcessUnaryPointColorOp (H : Host) (I : lua_State → lua_State → Prop)
    (Q : M Int → Prop)
    (hbind : ∀ (α : Type) (m : M α) (f : α → M Int),
      respects I m → (∀ a, Q (f a)) → Q (m >>= f))
    (hk : ∀ (α : Type) (m : M α), respects keepsThreads m → respects I m)
    (h1 : respects I (omp_set_num_threads H 1))
    (htail : ∀ old : Int, Q (omp_set_num_threads H old >>= fun _ => pure 1)) :
    Q (imluaProcessUnaryPointColorOp H) := by
  unfold imluaProcessUnaryPointColorOp
  refine hbind _ _ _ (hk _ _ (keepsThreads_of_state_eq (state_imlua_checkimage _))) (fun s => ?_)
  refine hbind _ _ _ (hk _ _ (keepsThreads_of_state_eq (state_imlua_checkimage _))) (fun t => ?_)
  refine hbind _ _ _ (hk _ _ (keepsThreads_of_frame (frame_luaL_optstring H _))) (fun n => ?_)
  refine hbind _ _ _ (hk _ _ (keepsThreads_of_state_eq (state_deref _))) (fun src => ?_)
  refine hbind _ _ _ (hk _ _ (keepsThreads_of_state_eq (state_deref _))) (fun dst => ?_)
  dsimp only
  refine hbind _ _ _ (hk _ _ (keepsThreads_of_state_eq (state_omp_get_num_threads H)))
    (fun old => ?_)
  refine hbind _ _ _ h1 (fun _ => ?_)
  refine hbind _ _ _ (hk _ _ (keepsThreads_of_state_eq (state_imlua_checknotcfloat _ _)))
    (fun _ => ?_)
  refine hbind _ _ _ (hk _ _ (keepsThreads_of_state_eq (state_imlua_checknotcfloat _ _)))
    (fun _ => ?_)
  refine hbind _ _ _ (hk _ _ (keepsThreads_of_state_eq (state_imlua_matchsize _ _)))
    (fun _ => ?_)
  refine hbind _ _ _ (hk _ _ (keepsThreads_of_state_eq (state_luaL_checktype _ _)))
    (fun _ => ?_)
  refine hbind _ _ _ (hk _ _ (keepsThreads_of_state_eq (state_luaL_checktype _ _)))
    (fun _ => ?_)
  refine hbind _ _ _ (hk _ _ (keepsThreads_imProcessUnaryPointColorOp _ _ _ _ _
    (fun a b c x y => keepsThreads_of_frame (frame_imluaUnColorOpFunc H a b c x y))))
    (fun r => ?_)
  exact hbind _ _ _ (hk _ _ (keepsThreads_of_frame (frame_push _))) (fun _ => htail old)

theorem chain_imluaProcessRenderOp (H : Host) (I : lua_State → lua_State → Prop)
    (Q : M Int → Prop)
    (hbind : ∀ (α : Type) (m : M α) (f : α → M Int),
      respects I m → (∀ a, Q (f a)) → Q (m >>= f))
    (hk : ∀ (α : Type) (m : M α), respects keepsThreads m → respects I m)
    (h1 : respects I (omp_set_num_threads H 1))
    (htail : ∀ old : Int, Q (omp_set_num_threads H old >>= fun _ => pure 1)) :
    Q (imluaProcessRenderOp H) := by
  unfold imluaProcessRenderOp
  refine hbind _ _ _ (hk _ _ (keepsThreads_of_state_eq (state_imlua_checkimage _))) (fun s => ?_)
  refine hbind _ _ _ (hk _ _ (keepsThreads_of_frame (frame_luaL_checkstring H _))) (fun n => ?_)
  refine hbind _ _ _ (hk _ _ (keepsThreads_of_state_eq (state_luaL_checkint H _))) (fun p => ?_)
  refine hbind _ _ _ (hk _ _ (keepsThreads_of_state_eq (state_omp_get_num_threads H)))
    (fun old => ?_)
  refine hbind _ _ _ h1 (fun _ => ?_)
  refine hbind _ _ _ (hk _ _ (keepsThreads_of_state_eq (state_imlua_checknotcfloat _ _)))
    (fun _ => ?_)
  refine hbind _ _ _ (hk _ _ (keepsThreads_of_state_eq (state_luaL_checktype _ _)))
    (fun _ => ?_)
  refine hbind _ _ _ (hk _ _ (keepsThreads_of_state_eq (state_luaL_checktype _ _)))
    (fun _ => ?_)
  refine hbind _ _ _ (hk _ _ (keepsThreads_imProcessRenderOp _ _ _ _
    (fun x y d => keepsThreads_of_frame (frame_imluaRenderFunc H x y d)))) (fun r => ?_)
  exact hbind _ _ _ (hk _ _ (keepsThreads_of_frame (frame_push _))) (fun _ => htail old)

theorem chain_imluaProcessRenderCondOp (H : Host) (I : lua_State → lua_State → Prop)
    (Q : M Int → Prop)
    (hbind : ∀ (α : Type) (m : M α) (f : α → M Int),
      respects I m → (∀ a, Q (f a)) → Q (m >>= f))
    (hk : ∀ (α : Type) (m : M α), respects keepsThreads m → respects I m)
    (h1 : respects I (omp_set_num_threads H 1))
    (htail : ∀ old : Int, Q (omp_set_num_threads H old >>= fun _ => pure 1)) :
    Q (imluaProcessRenderCondOp H) := by
  unfold imluaProcessRenderCondOp
  refine hbind _ _ _ (hk _ _ (keepsThreads_of_state_eq (state_imlua_checkimage _))) (fun s => ?_)
  refine hbind _ _ _ (hk _ _ (keepsThreads_of_frame (frame_luaL_checkstring H _))) (fun n => ?_)
  refine hbind _ _ _ (hk _ _ (keepsThreads_of_state_eq (state_omp_get_num_threads H)))
    (fun old => ?_)
  refine hbind _ _ _ h1 (fun _ => ?_)
  refine hbind _ _ _ (hk _ _ (keepsThreads_of_state_eq (state_imlua_checknotcfloat _ _)))
    (fun _ => ?_)
  refine hbind _ _ _ (hk _ _ (keepsThreads_of_state_eq (state_luaL_checktype _ _)))
    (fun _ => ?_)
  refine hbind _ _ _ (hk _ _ (keepsThreads_of_state_eq (state_luaL_checktype _ _)))
    (fun _ => ?_)
  refine hbind _ _ _ (hk _ _ (keepsThreads_imProcessRenderCondOp _ _ _
    (fun x y d => keepsThreads_of_frame (frame_imluaRenderCondFunc H x y d)))) (fun r => ?_)
  exact hbind _ _ _ (hk _ _ (keepsThreads_of_frame (frame_push _))) (fun _ => htail old)

theorem chain_imluaProcessMultiPointOp (H : Host) (I : lua_State → lua_State → Prop)
    (Q : M Int → Prop)
    (hbind : ∀ (α : Type) (m : M α) (f : α → M Int),
      respects I m → (∀ a, Q (f a)) → Q (m >>= f))
    (hite : ∀ (c : Prop) [Decidable c] (m1 m2 : M Int), Q m1 → Q m2 → Q (if c then m1 else m2))
    (hk : ∀ (α : Type) (m : M α), respects keepsThreads m → respects I m)
    (h1 : respects I (omp_set_num_threads H 1))
    (htail : ∀ old : Int, Q (omp_set_num_threads H old >>= fun _ => pure 1)) :
    Q (imluaProcessMultiPointOp H) := by
  unfold imluaProcessMultiPointOp
  refine hbind _ _ _ (hk _ _ (keepsThreads_of_state_eq (state_imlua_checkimage _))) (fun t => ?_)
  refine hbind _ _ _ (hk _ _ (keepsThreads_of_frame (frame_luaL_optstring H _))) (fun n => ?_)
  refine hbind _ _ _ (hk _ _ (keepsThreads_of_state_eq (state_omp_get_num_threads H)))
    (fun old => ?_)
  refine hbind _ _ _ h1 (fun _ => ?_)
  refine hbind _ _ _ (hk _ _ (keepsThreads_of_state_eq (state_imlua_checknotcfloat _ _)))
    (fun _ => ?_)
  refine hbind _ _ _ (hk _ _ (keepsThreads_of_state_eq (state_luaL_checktype _ _)))
    (fun _ => ?_)
  refine hbind _ _ _ (hk _ _ (keepsThreads_of_state_eq (state_luaL_checktype _ _)))
    (fun _ => ?_)
  refine hbind _ _ _ (hk _ _ (keepsThreads_imlua_toarrayimage _ _)) (fun res => ?_)
  obtain ⟨src_image_list, src_count⟩ := res
  dsimp only
  refine hbind _ _ _ (hk _ _ (keepsThreads_of_state_eq (state_arrayRead _ _))) (fun p0 => ?_)
  refine hbind _ _ _ (hk _ _ (keepsThreads_of_state_eq (state_deref _))) (fun image0 => ?_)
  dsimp only
  repeat' first
    | exact htail old
    | refine hite _ _ _ ?_ ?_
    | refine hbind _ _ _ (hk _ _ keepsThreads_free) (fun _ => ?_)
    | refine hbind _ _ _ (hk _ _ (keepsThreads_of_state_eq (state_pure _))) (fun _ => ?_)
    | refine hbind _ _ _ (hk _ _ (keepsThreads_of_state_eq (state_luaL_error _))) (fun _ => ?_)
    | refine hbind _ _ _ (hk _ _ (keepsThreads_of_state_eq (state_luaL_argerror _ _)))
        (fun _ => ?_)
    | refine hbind _ _ _ (hk _ _ (keepsThreads_of_state_eq (state_deref _))) (fun _ => ?_)
    | refine hbind _ _ _ (hk _ _ (keepsThreads_hostKernel H _)) (fun _ => ?_)

theorem chain_imluaProcessMultiPointColorOp (H : Host) (I : lua_State → lua_State → Prop)
    (Q : M Int → Prop)
    (hbind : ∀ (α : Type) (m : M α) (f : α → M Int),
      respects I m → (∀ a, Q (f a)) → Q (m >>= f))
    (hite : ∀ (c : Prop) [Decidable c] (m1 m2 : M Int), Q m1 → Q m2 → Q (if c then m1 else m2))
    (hk : ∀ (α : Type) (m : M α), respects keepsThreads m → respects I m)
    (h1 : respects I (omp_set_num_threads H 1))
    (htail : ∀ old : Int, Q (omp_set_num_threads H old >>= fun _ => pure 1)) :
    Q (imluaProcessMultiPointColorOp H) := by
  unfold imluaProcessMultiPointColorOp
  refine hbind _ _ _ (hk _ _ (keepsThreads_of_state_eq (state_imlua_checkimage _))) (fun t => ?_)
  refine hbind _ _ _ (hk _ _ (keepsThreads_of_frame (frame_luaL_optstring H _))) (fun n => ?_)
  refine hbind _ _ _ (hk _ _ (keepsThreads_of_state_eq (state_omp_get_num_threads H)))
    (fun old => ?_)
  refine hbind _ _ _ h1 (fun _ => ?_)
  refine hbind _ _ _ (hk _ _ (keepsThreads_of_state_eq (state_imlua_checknotcfloat _ _)))
    (fun _ => ?_)
  refine hbind _ _ _ (hk _ _ (keepsThreads_of_state_eq (state_luaL_checktype _ _)))
    (fun _ => ?_)
  refine hbind _ _ _ (hk _ _ (keepsThreads_of_state_eq (state_luaL_checktype _ _)))
    (fun _ => ?_)
  refine hbind _ _ _ (hk _ _ (keepsThreads_imlua_toarrayimage _ _)) (fun res => ?_)
  obtain ⟨src_image_list, src_count⟩ := res
  dsimp only
  refine hbind _ _ _ (hk _ _ (keepsThreads_of_state_eq (state_arrayRead _ _))) (fun p0 => ?_)
  refine hbind _ _ _ (hk _ _ (keepsThreads_of_state_eq (state_deref _))) (fun image0 => ?_)
  dsimp only
  repeat' first
    | exact htail old
    | refine hite _ _ _ ?_ ?_
    | refine hbind _ _ _ (hk _ _ keepsThreads_free) (fun _ => ?_)
    | refine hbind _ _ _ (hk _ _ (keepsThreads_of_state_eq (state_pure _))) (fun _ => ?_)
    | refine hbind _ _ _ (hk _ _ (keepsThreads_of_state_eq (state_luaL_error _))) (fun _ => ?_)
    | refine hbind _ _ _ (hk _ _ (keepsThreads_of_state_eq (state_luaL_argerror _ _)))
        (fun _ => ?_)
    | refine hbind _ _ _ (hk _ _ (keepsThreads_of_state_eq (state_deref _))) (fun _ => ?_)
    | refine hbind _ _ _ (hk _ _ (keepsThreads_hostKernel H _)) (fun _ => ?_)

theorem respectsOnError_bind {α β : Type} {I : lua_State → lua_State → Prop}
    (htrans : ∀ a b c, I a b → I b c → I a c) {m : M α} {f : α → M β}
    (hm : respects I m) (hf : ∀ a, respectsOnError I (f a)) : respectsOnError I (m >>= f) := by
  intro L e
  rw [bind_apply]
  have h1 := hm L
  cases hr : m L with
  | mk r L1 =>
    rw [hr] at h1
    cases r with
    | error e1 => exact fun _ => h1
    | ok a => exact fun he => htrans _ _ _ h1 (hf a L1 e he)

theorem threadsKeptOrOne_trans (a b c : lua_State) (h1 : threadsKeptOrOne a b)
    (h2 : threadsKeptOrOne b c) : threadsKeptOrOne a c := by
  unfold threadsKeptOrOne at *
  rcases h2 with h2 | h2
  · rw [h2]
    exact h1
  · exact Or.inr h2

/-- Built without OpenMP, every dispatcher of a stateful callback leaves the
thread-count setting as it is. -/
theorem dispatchers_keep_threads_without_openmp (H : Host) (hop : H.openmp = false) :
    respects keepsThreads (imluaProcessUnaryPointOp H) ∧
    respects keepsThreads (imluaProcessUnaryPointColorOp H) ∧
    respects keepsThreads (imluaProcessMultiPointOp H) ∧
    respects keepsThreads (imluaProcessMultiPointColorOp H) ∧
    respects keepsThreads (imluaProcessRenderOp H) ∧
    respects keepsThreads (imluaProcessRenderCondOp H) := by
  have hset : ∀ n : Int, respects keepsThreads (omp_set_num_threads H n) := by
    intro n L
    simp [omp_set_num_threads, hop, keepsThreads, lua_State.withThreads]
  have hbind : ∀ (α : Type) (m : M α) (f : α → M Int), respects keepsThreads m →
      (∀ a, respects keepsThreads (f a)) → respects keepsThreads (m >>= f) :=
    fun _ _ _ hm hf => respects_bind keepsThreads_trans hm hf
  have hite : ∀ (c : Prop) [Decidable c] (m1 m2 : M Int), respects keepsThreads m1 →
      respects keepsThreads m2 → respects keepsThreads (if c then m1 else m2) :=
    fun c _ _ _ h1 h2 => respects_ite c h1 h2
  have hk : ∀ (α : Type) (m : M α), respects keepsThreads m → respects keepsThreads m :=
    fun _ _ h => h
  have htail : ∀ old : Int, respects keepsThreads
      (omp_set_num_threads H old >>= fun _ => (pure 1 : M Int)) :=
    fun old => respects_bind keepsThreads_trans (hset old)
      (fun _ => keepsThreads_of_state_eq (state_pure _))
  exact ⟨chain_imluaProcessUnaryPointOp H _ _ hbind hite hk (hset 1) htail,
    chain_imluaProcessUnaryPointColorOp H _ _ hbind hk (hset 1) htail,
    chain_imluaProcessMultiPointOp H _ _ hbind hite hk (hset 1) htail,
    chain_imluaProcessMultiPointColorOp H _ _ hbind hite hk (hset 1) htail,
    chain_imluaProcessRenderOp H _ _ hbind hk (hset 1) htail,
    chain_imluaProcessRenderCondOp H _ _ hbind hk (hset 1) htail⟩

/-- On an exit by error, every dispatcher of a stateful callback leaves the
thread-count setting as it was or at 1. -/
theorem dispatchers_threads_on_error (H : Host) :
    respectsOnError threadsKeptOrOne (imluaProcessUnaryPointOp H) ∧
    respectsOnError threadsKeptOrOne (imluaProcessUnaryPointColorOp H) ∧
    respectsOnError threadsKeptOrOne (imluaProcessMultiPointOp H) ∧
    respectsOnError threadsKeptOrOne (imluaProcessMultiPointColorOp H) ∧
    respectsOnError threadsKeptOrOne (imluaProcessRenderOp H) ∧
    respectsOnError threadsKeptOrOne (imluaProcessRenderCondOp H) := by
  have hset : respects threadsKeptOrOne (omp_set_num_threads H 1) := by
    intro L
    cases hop : H.openmp
    · exact Or.inl (by simp [omp_set_num_threads, hop, lua_State.withThreads])
    · exact Or.inr (by simp [omp_set_num_threads, hop, lua_State.withThreads])
  have hbind : ∀ (α : Type) (m : M α) (f : α → M Int), respects threadsKeptOrOne m →
      (∀ a, respectsOnError threadsKeptOrOne (f a)) →
      respectsOnError threadsKeptOrOne (m >>= f) :=
    fun _ _ _ hm hf => respectsOnError_bind threadsKeptOrOne_trans hm hf
  have hite : ∀ (c : Prop) [Decidable c] (m1 m2 : M Int),
      respectsOnError threadsKeptOrOne m1 → respectsOnError threadsKeptOrOne m2 →
      respectsOnError threadsKeptOrOne (if c then m1 else m2) := by
    intro c _ m1 m2 h1 h2
    split
    · exact h1
    · exact h2
  have hk : ∀ (α : Type) (m : M α), respects keepsThreads m → respects threadsKeptOrOne m :=
    fun _ _ h L => Or.inl (h L)
  have htail : ∀ old : Int, respectsOnError threadsKeptOrOne
      (omp_set_num_threads H old >>= fun _ => (pure 1 : M Int)) := by
    intro old L e he
    simp [bind_apply, omp_set_num_threads, pure_apply] at he
  exact ⟨chain_imluaProcessUnaryPointOp H _ _ hbind hite hk hset htail,
    chain_imluaProcessUnaryPointColorOp H _ _ hbind hk hset htail,
    chain_imluaProcessMultiPointOp H _ _ hbind hite hk hset htail,
    chain_imluaProcessMultiPointColorOp H _ _ hbind hite hk hset htail,
    chain_imluaProcessRenderOp H _ _ hbind hk hset htail,
    chain_imluaProcessRenderCondOp H _ _ hbind hk hset htail⟩

theorem returnsWithThreads_bind {α β : Type} (t : Nat) (m : M α) (f : α → M β)
    (hf : ∀ a, returnsWithThreads t (f a)) : returnsWithThreads t (m >>= f) := by
  intro L b L2 h
  rw [bind_apply] at h
  cases hr : m L with
  | mk r L1 =>
    rw [hr] at h
    cases r with
    | error e => simp at h
    | ok a => exact hf a L1 b L2 h

theorem returnsWithThreads_ite {α : Type} (t : Nat) (c : Prop) [Decidable c] (m1 m2 : M α)
    (h1 : returnsWithThreads t m1) (h2 : returnsWithThreads t m2) :
    returnsWithThreads t (if c then m1 else m2) := by
  split
  · exact h1
  · exact h2

/-- The end of every dispatcher, built with OpenMP: the setting is the value
that was read at the start. -/
theorem returnsWithThreads_tail (H : Host) (hop : H.openmp = true) (old : Int) :
    returnsWithThreads old.toNat (omp_set_num_threads H old >>= fun _ => (pure 1 : M Int)) := by
  intro L a L1 h
  simp only [bind_apply, omp_set_num_threads, hop, if_true, pure_apply, Prod.mk.injEq] at h
  rw [← h.2]
  rfl

theorem returnsWithTeam_bind {α β : Type} (m : M α) (f : α → M β)
    (hm : respects keepsTeam m) (hf : ∀ a, returnsWithTeam (f a)) :
    returnsWithTeam (m >>= f) := by
  intro L b L2 h
  rw [bind_apply] at h
  have hk := hm L
  cases hr : m L with
  | mk r L1 =>
    rw [hr] at h hk
    cases r with
    | error e => simp at h
    | ok a =>
      rw [hf a L1 b L2 h]
      exact hk

/-- Built with OpenMP, `omp_get_num_threads()` gives the size of the team, so
a dispatcher whose end sets what was read sets the size of the team. -/
theorem returnsWithTeam_get {β : Type} (H : Host) (hop : H.openmp = true) (rest : Int → M β)
    (hrest : ∀ old, returnsWithThreads old.toNat (rest old)) :
    returnsWithTeam (omp_get_num_threads H >>= rest) := by
  intro L b L2 h
  simp only [bind_apply, omp_get_num_threads, hop, if_true] at h
  have := hrest (L.omp_team : Int) L b L2 h
  simpa using this

theorem keepsTeam_of_frame {α : Type} {m : M α} (h : respects frame m) :
    respects keepsTeam m := fun L => (h L).2.2.2.1

theorem keepsTeam_of_state_eq {α : Type} {m : M α} (h : ∀ L, (m L).2 = L) :
    respects keepsTeam m := fun L => by
  unfold keepsTeam
  rw [h L]

/-- Built with OpenMP, each of the six dispatchers returns with the size of
the team as the thread-count setting. -/
theorem dispatchers_return_with_team (H : Host) (hop : H.openmp = true) :
    returnsWithTeam (imluaProcessUnaryPointOp H) ∧
    returnsWithTeam (imluaProcessUnaryPointColorOp H) ∧
    returnsWithTeam (imluaProcessMultiPointOp H) ∧
    returnsWithTeam (imluaProcessMultiPointColorOp H) ∧
    returnsWithTeam (imluaProcessRenderOp H) ∧
    returnsWithTeam (imluaProcessRenderCondOp H) := by
  refine ⟨?_, ?_, ?_, ?_, ?_, ?_⟩
  · unfold imluaProcessUnaryPointOp
    refine returnsWithTeam_bind _ _ (keepsTeam_of_state_eq (state_imlua_checkimage _))
      (fun s => ?_)
    refine returnsWithTeam_bind _ _ (keepsTeam_of_state_eq (state_imlua_checkimage _))
      (fun t => ?_)
    refine returnsWithTeam_bind _ _ (keepsTeam_of_frame (frame_luaL_optstring H _)) (fun n => ?_)
    refine returnsWithTeam_get H hop _ (fun old => ?_)
    repeat' first
      | exact returnsWithThreads_tail H hop old
      | refine returnsWithThreads_ite _ _ _ _ ?_ ?_
      | refine returnsWithThreads_bind _ _ _ (fun _ => ?_)
  · unfold imluaProcessUnaryPointColorOp
    refine returnsWithTeam_bind _ _ (keepsTeam_of_state_eq (state_imlua_checkimage _))
      (fun s => ?_)
    refine returnsWithTeam_bind _ _ (keepsTeam_of_state_eq (state_imlua_checkimage _))
      (fun t => ?_)
    refine returnsWithTeam_bind _ _ (keepsTeam_of_frame (frame_luaL_optstring H _)) (fun n => ?_)
    refine returnsWithTeam_bind _ _ (keepsTeam_of_state_eq (state_deref _)) (fun src => ?_)
    refine returnsWithTeam_bind _ _ (keepsTeam_of_state_eq (state_deref _)) (fun dst => ?_)
    dsimp only
    refine returnsWithTeam_get H hop _ (fun old => ?_)
    repeat' first
      | exact returnsWithThreads_tail H hop old
      | refine returnsWithThreads_ite _ _ _ _ ?_ ?_
      | refine returnsWithThreads_bind _ _ _ (fun _ => ?_)
  · unfold imluaProcessMultiPointOp
    refine returnsWithTeam_bind _ _ (keepsTeam_of_state_eq (state_imlua_checkimage _))
      (fun t => ?_)
    refine returnsWithTeam_bind _ _ (keepsTeam_of_frame (frame_luaL_optstring H _)) (fun n => ?_)
    refine returnsWithTeam_get H hop _ (fun old => ?_)
    refine returnsWithThreads_bind _ _ _ (fun _ => ?_)
    refine returnsWithThreads_bind _ _ _ (fun _ => ?_)
    refine returnsWithThreads_bind _ _ _ (fun _ => ?_)
    refine returnsWithThreads_bind _ _ _ (fun _ => ?_)
    refine returnsWithThreads_bind _ _ _ (fun res => ?_)
    obtain ⟨src_image_list, src_count⟩ := res
    dsimp only
    repeat' first
      | exact returnsWithThreads_tail H hop old
      | refine returnsWithThreads_ite _ _ _ _ ?_ ?_
      | refine returnsWithThreads_bind _ _ _ (fun _ => ?_)
  · unfold imluaProcessMultiPointColorOp
    refine returnsWithTeam_bind _ _ (keepsTeam_of_state_eq (state_imlua_checkimage _))
      (fun t => ?_)
    refine returnsWithTeam_bind _ _ (keepsTeam_of_frame (frame_luaL_optstring H _)) (fun n => ?_)
    refine returnsWithTeam_get H hop _ (fun old => ?_)
    refine returnsWithThreads_bind _ _ _ (fun _ => ?_)
    refine returnsWithThreads_bind _ _ _ (fun _ => ?_)
    refine returnsWithThreads_bind _ _ _ (fun _ => ?_)
    refine returnsWithThreads_bind _ _ _ (fun _ => ?_)
    refine returnsWithThreads_bind _ _ _ (fun res => ?_)
    obtain ⟨src_image_list, src_count⟩ := res
    dsimp only
    repeat' first
      | exact returnsWithThreads_tail H hop old
      | refine returnsWithThreads_ite _ _ _ _ ?_ ?_
      | refine returnsWithThreads_bind _ _ _ (fun _ => ?_)
  · unfold imluaProcessRenderOp
    refine returnsWithTeam_bind _ _ (keepsTeam_of_state_eq (state_imlua_checkimage _))
      (fun s => ?_)
    refine returnsWithTeam_bind _ _ (keepsTeam_of_frame (frame_luaL_checkstring H _))
      (fun n => ?_)
    refine returnsWithTeam_bind _ _ (keepsTeam_of_state_eq (state_luaL_checkint H _))
      (fun plus => ?_)
    refine returnsWithTeam_get H hop _ (fun old => ?_)
    repeat' first
      | exact returnsWithThreads_tail H hop old
      | refine returnsWithThreads_ite _ _ _ _ ?_ ?_
      | refine returnsWithThreads_bind _ _ _ (fun _ => ?_)
  · unfold imluaProcessRenderCondOp
    refine returnsWithTeam_bind _ _ (keepsTeam_of_state_eq (state_imlua_checkimage _))
      (fun s => ?_)
    refine returnsWithTeam_bind _ _ (keepsTeam_of_frame (frame_luaL_checkstring H _))
      (fun n => ?_)
    refine returnsWithTeam_get H hop _ (fun old => ?_)
    repeat' first
      | exact returnsWithThreads_tail H hop old
      | refine returnsWithThreads_ite _ _ _ _ ?_ ?_
      | refine returnsWithThreads_bind _ _ _ (fun _ => ?_)

/-- C19 fails in the code: each dispatcher reads the value it later writes
back with `omp_get_num_threads()`, which is the size of the current team (1
outside a parallel region), not the thread-count setting.  So, built with
OpenMP, on every normal return of each of the six dispatchers the thread-count
setting is the size of the team, whatever it was before the call. -/
theorem dispatchers_leave_team_size (H : Host) (hop : H.openmp = true) (L : lua_State) :
    (∀ n L1, imluaProcessUnaryPointOp H L = (Except.ok n, L1) →
      L1.omp_nthreads = L.omp_team) ∧
    (∀ n L1, imluaProcessUnaryPointColorOp H L = (Except.ok n, L1) →
      L1.omp_nthreads = L.omp_team) ∧
    (∀ n L1, imluaProcessMultiPointOp H L = (Except.ok n, L1) →
      L1.omp_nthreads = L.omp_team) ∧
    (∀ n L1, imluaProcessMultiPointColorOp H L = (Except.ok n, L1) →
      L1.omp_nthreads = L.omp_team) ∧
    (∀ n L1, imluaProcessRenderOp H L = (Except.ok n, L1) →
      L1.omp_nthreads = L.omp_team) ∧
    (∀ n L1, imluaProcessRenderCondOp H L = (Except.ok n, L1) →
      L1.omp_nthreads = L.omp_team) := by
  obtain ⟨h1, h2, h3, h4, h5, h6⟩ := dispatchers_return_with_team H hop
  exact ⟨h1 L, h2 L, h3 L, h4 L, h5 L, h6 L⟩

theorem dispatchers_leave_team_size_witness :
    ((exUnaryState 2).omp_nthreads = 4 ∧ (exUnaryState 2).omp_team = 1 ∧
      (imluaProcessUnaryPointOp exHost (exUnaryState 2)).1 = Except.ok 1 ∧
      (imluaProcessUnaryPointOp exHost (exUnaryState 2)).2.omp_nthreads
        = (exUnaryState 2).omp_team) ∧
    ((imluaProcessUnaryPointColorOp exHost (exColorState 2)).1 = Except.ok 1 ∧
      (exColorState 2).omp_nthreads = 4 ∧
      (imluaProcessUnaryPointColorOp exHost (exColorState 2)).2.omp_nthreads = 1) ∧
    ((imluaProcessMultiPointOp exHost exMultiTwo).1 = Except.ok 1 ∧
      exMultiTwo.omp_nthreads = 4 ∧
      (imluaProcessMultiPointOp exHost exMultiTwo).2.omp_nthreads = 1) ∧
    ((imluaProcessMultiPointColorOp exHost exMultiTwo).1 = Except.ok 1 ∧
      (imluaProcessMultiPointColorOp exHost exMultiTwo).2.omp_nthreads = 1) ∧
    ((imluaProcessRenderOp exCenterHost (exRenderState exNine)).1 = Except.ok 1 ∧
      (exRenderState exNine).omp_nthreads = 4 ∧
      (imluaProcessRenderOp exCenterHost (exRenderState exNine)).2.omp_nthreads = 1) ∧
    ((imluaProcessRenderCondOp exCenterHost (exRenderState exNine)).1 = Except.ok 1 ∧
      (imluaProcessRenderCondOp exCenterHost (exRenderState exNine)).2.omp_nthreads = 1) ∧
    ((exUnaryWideState 2).omp_nthreads = 4 ∧
      (imluaProcessUnaryPointOp exHost (exUnaryWideState 2)).1
        = Except.error (Fault.error "images must have the same size") ∧
      (imluaProcessUnaryPointOp exHost (exUnaryWideState 2)).2.omp_nthreads = 1) ∧
    (imluaProcessUnaryPointOp { exHost with openmp := false } (exUnaryState 2)).2.omp_nthreads
      = 4 :=
  ⟨⟨by decide, by decide, by decide!,
      (dispatchers_leave_team_size exHost rfl (exUnaryState 2)).1 1
        (imluaProcessUnaryPointOp exHost (exUnaryState 2)).2 (by decide!)⟩,
    by decide!, by decide!, by decide!, by decide!, by decide!, by decide!, by decide!⟩

/-! ### The conditional render, pixel by pixel -/

theorem mem_pixelCoords (width height depth : Int) (c : Int × Int × Int) :
    c ∈ pixelCoords width height depth ↔
      (0 ≤ c.1 ∧ c.1 < width) ∧ (0 ≤ c.2.1 ∧ c.2.1 < height) ∧ (0 ≤ c.2.2 ∧ c.2.2 < depth) := by
  obtain ⟨x, y, d⟩ := c
  simp only [pixelCoords, List.mem_flatMap, List.mem_map, List.mem_range, Prod.mk.injEq]
  simp only [bind, List.flatMap, List.mem_flatten, List.mem_map, pure, List.mem_range,
    List.singleton]
  constructor
  · rintro ⟨d0, hd0, y0, hy0, x0, ⟨l, ⟨a, ha, rfl⟩, hmem⟩, h1, h2, h3⟩
    simp only [List.mem_singleton] at hmem
    subst h1 h2 h3 hmem
    omega
  · rintro ⟨⟨hx0, hx1⟩, ⟨hy0, hy1⟩, hd0, hd1⟩
    refine ⟨d.toNat, by omega, y.toNat, by omega, x,
      ⟨[x], ⟨x.toNat, by omega, ?_⟩, ?_⟩, rfl, ?_, ?_⟩
    · rw [Int.toNat_of_nonneg hx0]
    · simp
    · omega
    · omega

theorem offset_bound (w h x y : Int) (hx0 : 0 ≤ x) (hx1 : x < w) (hy0 : 0 ≤ y) (hy1 : y < h) :
    0 ≤ y * w + x ∧ y * w + x < w * h := by
  constructor
  · have := mul_nonneg hy0 (le_trans hx0 hx1.le)
    omega
  · nlinarith

theorem offset_inj (w x y x1 y1 : Int) (hx0 : 0 ≤ x) (hx1 : x < w) (hx2 : 0 ≤ x1)
    (hx3 : x1 < w) (h : y * w + x = y1 * w + x1) : x = x1 ∧ y = y1 := by
  have hy : y = y1 := by
    by_contra hne
    rcases lt_or_gt_of_ne hne with hlt | hgt
    · have : y + 1 ≤ y1 := by omega
      nlinarith
    · have : y1 + 1 ≤ y := by omega
      nlinarith
  subst hy
  exact ⟨by omega, rfl⟩

theorem setSample_length (data : List (List float)) (d off : Nat) (v : float) :
    (setSample data d off v).length = data.length := by
  simp [setSample]

theorem setSample_planes (data : List (List float)) (d off : Nat) (v : float) (count : Int)
    (h : ∀ plane ∈ data, (plane.length : Int) = count) :
    ∀ plane ∈ setSample data d off v, (plane.length : Int) = count := by
  intro plane hmem
  unfold setSample at hmem
  rcases List.mem_or_eq_of_mem_set hmem with h1 | h1
  · exact h plane h1
  · subst h1
    by_cases hd : d < data.length
    · rw [List.length_set, List.getD_eq_getElem _ _ hd]
      exact h _ (List.getElem_mem hd)
    · rw [List.set_eq_of_length_le (by omega)] at hmem
      exact h _ hmem

theorem setSample_get (data : List (List float)) (d off : Nat) (v : float) (d1 off1 : Nat)
    (hd : d < data.length) (hoff : off < (data.getD d []).length) :
    ((setSample data d off v)[d1]?).bind (fun plane => plane[off1]?)
      = if d1 = d ∧ off1 = off then some v else (data[d1]?).bind (fun plane => plane[off1]?) := by
  unfold setSample
  by_cases h1 : d1 = d
  · subst h1
    rw [List.getElem?_set_self hd]
    simp only [Option.some_bind, true_and]
    by_cases h2 : off1 = off
    · subst h2
      rw [List.getElem?_set_self hoff, if_pos rfl]
    · rw [List.getElem?_set_ne (fun h => h2 h.symm), if_neg h2, List.getD_eq_getElem _ _ hd,
        List.getElem?_eq_getElem hd]
      rfl
  · rw [List.getElem?_set_ne (fun h => h1 h.symm), if_neg (fun h => h1 h.1)]

theorem set_getElem?_self {α : Type} : ∀ (l : List α) (i : Nat) (a : α),
    l[i]? = some a → l.set i a = l
  | [], _, _, h => by simp at h
  | x :: l, 0, a, h => by
      simp only [List.getElem?_cons_zero, Option.some.injEq] at h
      simp [h]
  | x :: l, i + 1, a, h => by
      simp only [List.getElem?_cons_succ] at h
      simp [set_getElem?_self l i a h]

/-- Writing a sample that is there sets it and leaves the rest of the state
as it is. -/
theorem writeSample_ok (S : lua_State) (p : Nat) (im : imImage) (d off : Int) (v : float)
    (hp : S.images[p]? = some (some im)) (hd0 : 0 ≤ d) (hd1 : d.toNat < im.data.length)
    (hoff0 : 0 ≤ off) (hoff1 : off.toNat < (im.data.getD d.toNat []).length) :
    writeSample p d off v S = (Except.ok (),
      (setImage p { im with data := setSample im.data d.toNat off.toNat v } S).2) := by
  have hplane : im.data[d.toNat]? = some (im.data.getD d.toNat []) := by
    rw [List.getD_eq_getElem _ _ hd1, List.getElem?_eq_getElem hd1]
  have hlt : off.toNat < (im.data.getD d.toNat []).length := hoff1
  simp only [writeSample, bind_apply, deref_ok S p im hp, arrayRead, hd0, if_true, hplane,
    arrayWrite, hoff0, hlt, hd1, and_self, setSample]
  rfl

/-- The loop of the conditional render kernel with the trampoline of the
binding, on positions inside the image: it returns, and the planes are the
planes after the conditional render. -/
theorem renderCond_loop (H : Host) (p f r : Nat) (w h planes : Int)
    (value : Int → Int → Int → float) (flag : Int → Int → Int → Int)
    (hcb : ∀ x y d : Int, (0 ≤ x ∧ x < w) ∧ (0 ≤ y ∧ y < h) ∧ (0 ≤ d ∧ d < planes) →
      ∃ rs n, H.call f [LuaValue.number (x : ℚ), LuaValue.number (y : ℚ),
          LuaValue.number (d : ℚ), LuaValue.table r] = Except.ok rs ∧
        H.tonumber (some (rs[0]?.getD LuaValue.nil)) = some n ∧ H.c_float n = value x y d ∧
        truthy (rs[1]?.getD LuaValue.nil) = flag x y d) :
    ∀ (cs : List (Int × Int × Int)) (S : lua_State) (im : imImage),
      (∀ c ∈ cs, (0 ≤ c.1 ∧ c.1 < w) ∧ (0 ≤ c.2.1 ∧ c.2.1 < h) ∧
        (0 ≤ c.2.2 ∧ c.2.2 < planes)) →
      S.index 2 = some (LuaValue.function f) → S.index 4 = some (LuaValue.table r) →
      S.images[p]? = some (some im) → im.width = w →
      (im.data.length : Int) = planes →
      (∀ plane ∈ im.data, (plane.length : Int) = w * h) →
      ∃ S1, forEach (fun (c : Int × Int × Int) => do
            let x := c.1
            let y := c.2.1
            let d := c.2.2
            let (value, cond) ← imluaRenderCondFunc H x y d
            let im ← deref p
            if cond ≠ 0 then writeSample p d (y * im.width + x) value) cs S
          = (Except.ok (), S1) ∧
        S1.stack = S.stack ∧ frame S S1 ∧
        S1.images = S.images.set p
          (some { im with data := renderCondData value flag w im.data cs })
  | [], S, im, _, _, _, hp, _, _, _ => by
      refine ⟨S, rfl, rfl, frame_refl S, ?_⟩
      exact (set_getElem?_self _ _ _ hp).symm
  | c :: cs, S, im, hin, hf, h4, hp, hw, hlen, hplanes => by
      subst hw
      obtain ⟨x, y, d⟩ := c
      have hc := hin (x, y, d) (List.mem_cons_self _ _)
      simp only at hc
      obtain ⟨rs, n, hcall, hnum, hval, hflag⟩ := hcb x y d hc
      have htramp : imluaRenderCondFunc H x y d S = (Except.ok (value x y d, flag x y d), S) := by
        have h := imluaRenderCondFunc_eq H S f r x y d hf h4
        have hargs : renderArgs S x y d = [LuaValue.number (x : ℚ), LuaValue.number (y : ℚ),
            LuaValue.number (d : ℚ), LuaValue.table r] := by
          simp [renderArgs, h4]
        rw [hargs, hcall] at h
        simp only [hnum] at h
        rw [h, hval, hflag]
      by_cases hfl : flag x y d ≠ 0
      · have hoffb := offset_bound im.width h x y hc.1.1 hc.1.2 hc.2.1.1 hc.2.1.2
        have hdlt : d.toNat < im.data.length := by omega
        have hplane : ((im.data.getD d.toNat []).length : Int) = im.width * h := by
          rw [List.getD_eq_getElem _ _ hdlt]
          exact hplanes _ (List.getElem_mem hdlt)
        have hofflt : (y * im.width + x).toNat < (im.data.getD d.toNat []).length := by omega
        have hwrite := writeSample_ok S p im d (y * im.width + x) (value x y d) hp hc.2.2.1 hdlt
          hoffb.1 hofflt
        have hplt : p < S.images.length := (List.getElem?_eq_some_iff.mp hp).1
        obtain ⟨data1, hdata1⟩ : ∃ data1, data1
            = setSample im.data d.toNat (y * im.width + x).toNat (value x y d) := ⟨_, rfl⟩
        rw [← hdata1] at hwrite
        obtain ⟨S1, hS1, hst, hfr, himg⟩ := renderCond_loop H p f r im.width h planes value flag
          hcb cs (setImage p { im with data := data1 } S).2 { im with data := data1 }
          (fun c hc => hin c (List.mem_cons_of_mem _ hc)) hf h4
          (by simp only [setImage]; exact List.getElem?_set_self hplt) rfl
          (by rw [hdata1, setSample_length]; exact hlen)
          (by rw [hdata1]; exact setSample_planes _ _ _ _ _ hplanes)
        refine ⟨S1, ?_, hst, ?_, ?_⟩
        · simp only [forEach, bind_apply, htramp, deref_ok S p im hp, hfl, if_true, hwrite,
            ne_eq, not_false_eq_true]
          exact hS1
        · exact frame_trans _ _ _ ⟨rfl, rfl, rfl, rfl, rfl, rfl⟩ hfr
        · rw [himg]
          simp only [setImage, List.set_set, renderCondData, hfl, if_true, ne_eq,
            not_false_eq_true, hdata1]
      · obtain ⟨S1, hS1, hst, hfr, himg⟩ := renderCond_loop H p f r im.width h planes value flag
          hcb cs S im (fun c hc => hin c (List.mem_cons_of_mem _ hc)) hf h4 hp rfl hlen hplanes
        refine ⟨S1, ?_, hst, hfr, ?_⟩
        · simp only [forEach, bind_apply, htramp, deref_ok S p im hp, hfl, if_false, pure_apply]
          exact hS1
        · rw [himg]
          simp only [renderCondData, hfl, if_false]

/-- The planes after a conditional render, sample by sample: a position that
was visited with a flag other than 0 holds the value, every other position
holds what it held. -/
theorem renderCondData_sample (value : Int → Int → Int → float)
    (flag : Int → Int → Int → Int) (w h planes : Int) :
    ∀ (cs : List (Int × Int × Int)) (data : List (List float)),
      (∀ c ∈ cs, (0 ≤ c.1 ∧ c.1 < w) ∧ (0 ≤ c.2.1 ∧ c.2.1 < h) ∧
        (0 ≤ c.2.2 ∧ c.2.2 < planes)) →
      (data.length : Int) = planes → (∀ plane ∈ data, (plane.length : Int) = w * h) →
      ∀ x y d : Int, (0 ≤ x ∧ x < w) ∧ (0 ≤ y ∧ y < h) ∧ (0 ≤ d ∧ d < planes) →
        ((renderCondData value flag w data cs)[d.toNat]?).bind
            (fun plane => plane[(y * w + x).toNat]?)
          = if (x, y, d) ∈ cs ∧ flag x y d ≠ 0 then some (value x y d)
            else (data[d.toNat]?).bind (fun plane => plane[(y * w + x).toNat]?)
  | [], data, _, _, _, x, y, d, _ => by
      simp [renderCondData]
  | c :: cs, data, hin, hlen, hplanes, x, y, d, ht => by
      obtain ⟨cx, cy, cd⟩ := c
      have hc := hin (cx, cy, cd) (List.mem_cons_self _ _)
      simp only at hc
      have hcs : ∀ c ∈ cs, (0 ≤ c.1 ∧ c.1 < w) ∧ (0 ≤ c.2.1 ∧ c.2.1 < h) ∧
          (0 ≤ c.2.2 ∧ c.2.2 < planes) := fun c hc => hin c (List.mem_cons_of_mem _ hc)
      have hoffc := offset_bound w h cx cy hc.1.1 hc.1.2 hc.2.1.1 hc.2.1.2
      have hofft := offset_bound w h x y ht.1.1 ht.1.2 ht.2.1.1 ht.2.1.2
      have hsame : (d.toNat = cd.toNat ∧ (y * w + x).toNat = (cy * w + cx).toNat) ↔
          (x, y, d) = (cx, cy, cd) := by
        constructor
        · rintro ⟨h1, h2⟩
          have hd : d = cd := by omega
          have hoff : y * w + x = cy * w + cx := by omega
          obtain ⟨hx, hy⟩ := offset_inj w x y cx cy ht.1.1 ht.1.2 hc.1.1 hc.1.2 hoff
          rw [hx, hy, hd]
        · intro heq
          simp only [Prod.mk.injEq] at heq
          obtain ⟨rfl, rfl, rfl⟩ := heq
          exact ⟨rfl, rfl⟩
      simp only [renderCondData, List.mem_cons]
      by_cases hfl : flag cx cy cd ≠ 0
      · have hdlt : cd.toNat < data.length := by omega
        have hplane : ((data.getD cd.toNat []).length : Int) = w * h := by
          rw [List.getD_eq_getElem _ _ hdlt]
          exact hplanes _ (List.getElem_mem hdlt)
        have hofflt : (cy * w + cx).toNat < (data.getD cd.toNat []).length := by omega
        rw [if_pos hfl, renderCondData_sample value flag w h planes cs _ hcs
          (by rw [setSample_length]; exact hlen) (setSample_planes _ _ _ _ _ hplanes) x y d ht,
          setSample_get data _ _ _ _ _ hdlt hofflt]
        by_cases hmem : (x, y, d) ∈ cs ∧ flag x y d ≠ 0
        · rw [if_pos hmem, if_pos ⟨Or.inr hmem.1, hmem.2⟩]
        · rw [if_neg hmem]
          by_cases heq : (x, y, d) = (cx, cy, cd)
          · rw [if_pos (hsame.mpr heq)]
            simp only [Prod.mk.injEq] at heq
            obtain ⟨rfl, rfl, rfl⟩ := heq
            rw [if_pos ⟨Or.inl rfl, hfl⟩]
          · rw [if_neg (fun hh => heq (hsame.mp hh)), if_neg]
            rintro ⟨h1 | h1, h2⟩
            · exact heq h1
            · exact hmem ⟨h1, h2⟩
      · rw [if_neg hfl, renderCondData_sample value flag w h planes cs data hcs hlen hplanes
          x y d ht]
        by_cases hmem : (x, y, d) ∈ cs ∧ flag x y d ≠ 0
        · rw [if_pos hmem, if_pos ⟨Or.inr hmem.1, hmem.2⟩]
        · rw [if_neg hmem, if_neg]
          rintro ⟨h1 | h1, h2⟩
          · simp only [Prod.mk.injEq] at h1
            obtain ⟨rfl, rfl, rfl⟩ := h1
            exact hfl h2
          · exact hmem ⟨h1, h2⟩

/-- The conditional render on a well-formed image with a callback that returns
a number and a flag at every position inside the image: the binding returns,
and each sample inside the image holds the callback's value where the flag was
true and what it held before where the flag was false. -/
theorem rendercond_pixels (H : Host) (L : lua_State) (p f r : Nat) (name : String)
    (im : imImage) (value : Int → Int → Int → float) (flag : Int → Int → Int → Int)
    (h1 : L.index 1 = some (LuaValue.image p)) (hp : L.images[p]? = some (some im))
    (hf : L.index 2 = some (LuaValue.function f))
    (h3 : L.index 3 = some (LuaValue.string name))
    (h4 : L.index 4 = some (LuaValue.table r))
    (hnc : im.data_type ≠ imDataType.IM_CFLOAT) (hwf : im.wellFormed)
    (hcb : ∀ x y d : Int, im.inside x y d →
      ∃ rs n, H.call f [LuaValue.number (x : ℚ), LuaValue.number (y : ℚ),
          LuaValue.number (d : ℚ), LuaValue.table r] = Except.ok rs ∧
        H.tonumber (some (rs[0]?.getD LuaValue.nil)) = some n ∧ H.c_float n = value x y d ∧
        truthy (rs[1]?.getD LuaValue.nil) = flag x y d) :
    ∃ data1, (imluaProcessRenderCondOp H L).1 = Except.ok 1 ∧
      (imluaProcessRenderCondOp H L).2.images = L.images.set p (some { im with data := data1 }) ∧
      ∀ x y d : Int, im.inside x y d →
        ({ im with data := data1 } : imImage).sample x y d
          = if flag x y d ≠ 0 then some (value x y d) else im.sample x y d := by
  obtain ⟨S0, hS0⟩ : ∃ S0 : lua_State, S0
      = L.withThreads (if H.openmp then (1 : Int).toNat else L.omp_nthreads) := ⟨_, rfl⟩
  obtain ⟨S1, hS1⟩ : ∃ S1 : lua_State, S1 = (logKernel ⟨"imProcessRenderCondOp",
      [KernelArg.img p, KernelArg.str (some name)]⟩ S0).2 := ⟨_, rfl⟩
  have hp0 : S0.images[p]? = some (some im) := by rw [hS0]; exact hp
  have hp1 : S1.images[p]? = some (some im) := by rw [hS1]; exact hp0
  have hf1 : S1.index 2 = some (LuaValue.function f) := by rw [hS1, hS0]; exact hf
  have h41 : S1.index 4 = some (LuaValue.table r) := by rw [hS1, hS0]; exact h4
  have ht2 : lua_type S0 2 = LUA_TFUNCTION := by
    rw [hS0, lua_type_withThreads]
    simp only [lua_type, hf]
    rfl
  have ht4 : lua_type S0 4 = LUA_TTABLE := by
    rw [hS0, lua_type_withThreads]
    simp only [lua_type, h4]
    rfl
  have hin : ∀ c ∈ pixelCoords im.width im.height im.planes,
      (0 ≤ c.1 ∧ c.1 < im.width) ∧ (0 ≤ c.2.1 ∧ c.2.1 < im.height) ∧
        (0 ≤ c.2.2 ∧ c.2.2 < im.planes) :=
    fun c hc => (mem_pixelCoords _ _ _ c).mp hc
  have hcb1 : ∀ x y d : Int, (0 ≤ x ∧ x < im.width) ∧ (0 ≤ y ∧ y < im.height) ∧
      (0 ≤ d ∧ d < im.planes) →
      ∃ rs n, H.call f [LuaValue.number (x : ℚ), LuaValue.number (y : ℚ),
          LuaValue.number (d : ℚ), LuaValue.table r] = Except.ok rs ∧
        H.tonumber (some (rs[0]?.getD LuaValue.nil)) = some n ∧ H.c_float n = value x y d ∧
        truthy (rs[1]?.getD LuaValue.nil) = flag x y d :=
    fun x y d hh => hcb x y d ⟨hh.1.1, hh.1.2, hh.2.1.1, hh.2.1.2, hh.2.2.1, hh.2.2.2⟩
  obtain ⟨S2, hloop, hst2, hfr2, himg2⟩ := renderCond_loop H p f r im.width im.height im.planes
    value flag hcb1 (pixelCoords im.width im.height im.planes) S1 im hin hf1 h41 hp1 rfl
    hwf.1 hwf.2
  have hnot : imlua_checknotcfloat 1 p S0 = (Except.ok (), S0) :=
    (checknotcfloat_cases S0 1 p im hp0).trans (if_neg hnc)
  have hres : imluaProcessRenderCondOp H L = (Except.ok 1,
      (S2.withStack (S2.stack ++ [LuaValue.boolean true])).withThreads
        (if H.openmp then (if H.openmp then (L.omp_team : Int) else 0).toNat
          else S2.omp_nthreads)) := by
    have hlog : logKernel ⟨"imProcessRenderCondOp",
        [KernelArg.img p, KernelArg.str (some name)]⟩ S0 = (Except.ok (), S1) := by
      rw [hS1]
      rfl
    have hk : imProcessRenderCondOp p (imluaRenderCondFunc H) name S0 = (Except.ok 1, S2) := by
      unfold imProcessRenderCondOp
      rw [bind_apply, hlog]
      dsimp only
      rw [bind_apply, deref_ok S1 p im hp1]
      dsimp only
      rw [bind_apply, hloop]
      rfl
    simp only [imluaProcessRenderCondOp, bind_apply, imlua_checkimage_ok L 1 p im h1 hp,
      luaL_checkstring_string H L 3 name h3, omp_get_num_threads, omp_set_num_threads, ← hS0,
      hnot, luaL_checktype_ok 2 LUA_TFUNCTION S0 ht2, luaL_checktype_ok 4 LUA_TTABLE S0 ht4,
      hk, lua_pushboolean, push, pure_apply]
    rfl
  refine ⟨renderCondData value flag im.width im.data
    (pixelCoords im.width im.height im.planes), ?_, ?_, ?_⟩
  · rw [hres]
  · rw [hres]
    simp only [withThreads_images, withStack_images, himg2, hS1, hS0]
    rfl
  · intro x y d hins
    have hrange : (0 ≤ x ∧ x < im.width) ∧ (0 ≤ y ∧ y < im.height) ∧ (0 ≤ d ∧ d < im.planes) :=
      ⟨⟨hins.1, hins.2.1⟩, ⟨hins.2.2.1, hins.2.2.2.1⟩, hins.2.2.2.2.1, hins.2.2.2.2.2⟩
    have hoff := offset_bound im.width im.height x y hins.1 hins.2.1 hins.2.2.1 hins.2.2.2.1
    have hs := renderCondData_sample value flag im.width im.height im.planes
      (pixelCoords im.width im.height im.planes) im.data hin hwf.1 hwf.2 x y d hrange
    have hmem : (x, y, d) ∈ pixelCoords im.width im.height im.planes :=
      (mem_pixelCoords _ _ _ (x, y, d)).mpr hrange
    simp only [imImage.sample, hins.2.2.2.2.1, hoff.1, and_self, if_true, hs, hmem, true_and]

/-! ### The claim on the conditional render -/

/-- C18: for every position `(x, y, d)` the trampoline `imluaRenderCondFunc`
calls the callback with `(x, y, d, params)` and returns the callback's first
result as the value and the truth value of its second result as the flag, with
the stack as it was; so `imluaProcessRenderCondOp` on a well-formed image
writes a sample only where the flag is true: afterwards each sample inside the
image holds the callback's value where the flag was true and what it held
before where the flag was false.  On a 3x3 image with samples 11 to 19, a
callback that applies only at the center, with value 7, leaves the other eight
samples as they were and the center at 7. -/
theorem rendercond_value_and_flag (H : Host) (L : lua_State) (f r : Nat)
    (hf : L.index 2 = some (LuaValue.function f))
    (h4 : L.index 4 = some (LuaValue.table r)) :
    (∀ (x y d : Int) (rs : List LuaValue) (n : lua_Number),
      H.call f [LuaValue.number (x : ℚ), LuaValue.number (y : ℚ), LuaValue.number (d : ℚ),
          LuaValue.table r] = Except.ok rs →
      H.tonumber (some (rs[0]?.getD LuaValue.nil)) = some n →
      imluaRenderCondFunc H x y d L
        = (Except.ok (H.c_float n, truthy (rs[1]?.getD LuaValue.nil)), L)) ∧
    (∀ (p : Nat) (name : String) (im : imImage) (value : Int → Int → Int → float)
      (flag : Int → Int → Int → Int),
      L.index 1 = some (LuaValue.image p) → L.images[p]? = some (some im) →
      L.index 3 = some (LuaValue.string name) →
      im.data_type ≠ imDataType.IM_CFLOAT → im.wellFormed →
      (∀ x y d : Int, im.inside x y d →
        ∃ rs n, H.call f [LuaValue.number (x : ℚ), LuaValue.number (y : ℚ),
            LuaValue.number (d : ℚ), LuaValue.table r] = Except.ok rs ∧
          H.tonumber (some (rs[0]?.getD LuaValue.nil)) = some n ∧
          H.c_float n = value x y d ∧ truthy (rs[1]?.getD LuaValue.nil) = flag x y d) →
      ∃ data1, (imluaProcessRenderCondOp H L).1 = Except.ok 1 ∧
        (imluaProcessRenderCondOp H L).2.images
          = L.images.set p (some { im with data := data1 }) ∧
        ∀ x y d : Int, im.inside x y d →
          ({ im with data := data1 } : imImage).sample x y d
            = if flag x y d ≠ 0 then some (value x y d) else im.sample x y d) ∧
    ((imluaProcessRenderCondOp exCenterHost (exRenderState exNine)).1 = Except.ok 1 ∧
      (imluaProcessRenderCondOp exCenterHost (exRenderState exNine)).2.images
        = [some { exNine with data := [[11, 12, 13, 14, 7, 16, 17, 18, 19]] }]) := by
  refine ⟨fun x y d rs n hcall hnum => ?_,
    fun p name im value flag h1 hp h3 hnc hwf hcb =>
      rendercond_pixels H L p f r name im value flag h1 hp hf h3 h4 hnc hwf hcb,
    by decide!, by decide!⟩
  have h := imluaRenderCondFunc_eq H L f r x y d hf h4
  have hargs : renderArgs L x y d = [LuaValue.number (x : ℚ), LuaValue.number (y : ℚ),
      LuaValue.number (d : ℚ), LuaValue.table r] := by
    simp [renderArgs, h4]
  rw [hargs, hcall] at h
  simp only [hnum] at h
  exact h

theorem rendercond_value_and_flag_witness :
    (imluaRenderCondFunc exCenterHost 1 1 0 (exRenderState exNine)
        = (Except.ok (7, 1), exRenderState exNine) ∧
      imluaRenderCondFunc exCenterHost 2 1 0 (exRenderState exNine)
        = (Except.ok (7, 0), exRenderState exNine)) ∧
    ∃ data1, (imluaProcessRenderCondOp exCenterHost (exRenderState exNine)).1 = Except.ok 1 ∧
      (imluaProcessRenderCondOp exCenterHost (exRenderState exNine)).2.images
        = (exRenderState exNine).images.set 0 (some { exNine with data := data1 }) ∧
      ∀ x y d : Int, exNine.inside x y d →
        ({ exNine with data := data1 } : imImage).sample x y d
          = if (if x = 1 ∧ y = 1 then (1 : Int) else 0) ≠ 0 then some 7
            else exNine.sample x y d :=
  ⟨⟨(rendercond_value_and_flag exCenterHost (exRenderState exNine) 0 0 rfl rfl).1 1 1 0
      [LuaValue.number 7, LuaValue.boolean true] 7 (by decide!) rfl,
    (rendercond_value_and_flag exCenterHost (exRenderState exNine) 0 0 rfl rfl).1 2 1 0
      [LuaValue.number 7, LuaValue.boolean false] 7 (by decide!) rfl⟩,
   (rendercond_value_and_flag exCenterHost (exRenderState exNine) 0 0 rfl rfl).2.1 0 "center"
      exNine (fun _ _ _ => 7) (fun x y _ => if x = 1 ∧ y = 1 then 1 else 0) rfl rfl rfl
      (by decide) ⟨by decide, by decide⟩
      (by
        intro x y d hins
        obtain ⟨hx0, hx1, hy0, hy1, hd0, hd1⟩ := hins
        have hx3 : x < 3 := hx1
        have hy3 : y < 3 := hy1
        have hd3 : d < 1 := hd1
        interval_cases x <;> interval_cases y <;> interval_cases d <;>
          exact ⟨_, 7, rfl, rfl, rfl, by decide!⟩)⟩

/-! ### The data-type checks of the arithmetic bindings -/

/-- The switch of `imluaProcessArithmeticOp` returns or raises an argument
error, and leaves the state as it is. -/
theorem state_imluaProcessArithmeticOp_switch (src dst : imImage) (L : lua_State) :
    (imluaProcessArithmeticOp_switch src dst L).2 = L := by
  unfold imluaProcessArithmeticOp_switch
  cases src.data_type <;> exact state_luaL_argcheck _ _ _ L

theorem state_imluaProcessArithmeticConstOp_switch (src dst : imImage) (L : lua_State) :
    (imluaProcessArithmeticConstOp_switch src dst L).2 = L := by
  unfold imluaProcessArithmeticConstOp_switch
  cases src.data_type <;> exact state_luaL_argcheck _ _ _ L

/-- The bindings call their kernel only behind their data-type checks: when
`imluaProcessArithmeticOp` or `imluaProcessArithmeticConstOp` reaches its
kernel, the switch has accepted the first source image and the destination
image. -/
theorem arithmetic_kernel_behind_switch (H : Host) (L : lua_State) :
    ((imluaProcessArithmeticOp H L).2.kernel_log ≠ L.kernel_log →
      ∃ p r src dst, L.index 1 = some (LuaValue.image p) ∧ L.index 3 = some (LuaValue.image r) ∧
        L.images[p]? = some (some src) ∧ L.images[r]? = some (some dst) ∧
        imluaProcessArithmeticOp_switch src dst L = (Except.ok (), L)) ∧
    ((imluaProcessArithmeticConstOp H L).2.kernel_log ≠ L.kernel_log →
      ∃ p r src dst, L.index 1 = some (LuaValue.image p) ∧ L.index 3 = some (LuaValue.image r) ∧
        L.images[p]? = some (some src) ∧ L.images[r]? = some (some dst) ∧
        imluaProcessArithmeticConstOp_switch src dst L = (Except.ok (), L)) := by
  refine ⟨fun h => ?_, fun h => ?_⟩
  · unfold imluaProcessArithmeticOp at h
    obtain ⟨p, e0, g0⟩ := bind_reach_state (state_imlua_checkimage _) h
    obtain ⟨q, -, g1⟩ := bind_reach_state (state_imlua_checkimage _) g0
    obtain ⟨r, e2, g2⟩ := bind_reach_state (state_imlua_checkimage _) g1
    obtain ⟨op, -, g3⟩ := bind_reach_state (state_luaL_checkint H _) g2
    obtain ⟨_, -, g4⟩ := bind_reach_state (state_imlua_match _ _) g3
    obtain ⟨_, -, g5⟩ := bind_reach_state (state_imlua_matchsize _ _) g4
    obtain ⟨_, -, g6⟩ := bind_reach_state (state_imlua_matchsize _ _) g5
    obtain ⟨src, e7, g7⟩ := bind_reach_state (state_deref _) g6
    obtain ⟨dst, e8, g8⟩ := bind_reach_state (state_deref _) g7
    obtain ⟨u, e9, -⟩ := bind_reach_state (state_imluaProcessArithmeticOp_switch _ _) g8
    exact ⟨p, r, src, dst, (imlua_checkimage_inv 1 L L p e0).2.1,
      (imlua_checkimage_inv 3 L L r e2).2.1, (deref_inv p L L src e7).2,
      (deref_inv r L L dst e8).2, e9⟩
  · unfold imluaProcessArithmeticConstOp at h
    obtain ⟨p, e0, g0⟩ := bind_reach_state (state_imlua_checkimage _) h
    obtain ⟨c, -, g1⟩ := bind_reach_state (m := luaL_checknumber H 2)
      (fun L => by unfold luaL_checknumber; split <;> rfl) g0
    obtain ⟨r, e2, g2⟩ := bind_reach_state (state_imlua_checkimage _) g1
    obtain ⟨op, -, g3⟩ := bind_reach_state (state_luaL_checkint H _) g2
    obtain ⟨_, -, g4⟩ := bind_reach_state (state_imlua_matchsize _ _) g3
    obtain ⟨src, e7, g7⟩ := bind_reach_state (state_deref _) g4
    obtain ⟨dst, e8, g8⟩ := bind_reach_state (state_deref _) g7
    obtain ⟨u, e9, -⟩ := bind_reach_state (state_imluaProcessArithmeticConstOp_switch _ _) g8
    exact ⟨p, r, src, dst, (imlua_checkimage_inv 1 L L p e0).2.1,
      (imlua_checkimage_inv 3 L L r e2).2.1, (deref_inv p L L src e7).2,
      (deref_inv r L L dst e8).2, e9⟩

/-- C28: for all source and destination images, with data types `s` and `d`:
if the data-type check of `imluaProcessArithmeticOp` accepts them, so does the
check of `imluaProcessArithmeticConstOp`; both accept `d = s`; both raise
their argument error for a complex destination with a source that is not
complex and for a complex source with a destination that is not complex. -/
theorem arithmetic_datatype_checks (src dst : imImage) (L : lua_State) :
    (imluaProcessArithmeticOp_switch src dst L = (Except.ok (), L) →
      imluaProcessArithmeticConstOp_switch src dst L = (Except.ok (), L)) ∧
    (src.data_type = dst.data_type →
      imluaProcessArithmeticOp_switch src dst L = (Except.ok (), L) ∧
      imluaProcessArithmeticConstOp_switch src dst L = (Except.ok (), L)) ∧
    (src.data_type ≠ imDataType.IM_CFLOAT → dst.data_type = imDataType.IM_CFLOAT →
      (∃ msg, imluaProcessArithmeticOp_switch src dst L
        = (Except.error (Fault.argerror 2 msg), L)) ∧
      (∃ msg, imluaProcessArithmeticConstOp_switch src dst L
        = (Except.error (Fault.argerror 2 msg), L))) ∧
    (src.data_type = imDataType.IM_CFLOAT → dst.data_type ≠ imDataType.IM_CFLOAT →
      (∃ msg, imluaProcessArithmeticOp_switch src dst L
        = (Except.error (Fault.argerror 2 msg), L)) ∧
      (∃ msg, imluaProcessArithmeticConstOp_switch src dst L
        = (Except.error (Fault.argerror 2 msg), L))) := by
  unfold imluaProcessArithmeticOp_switch imluaProcessArithmeticConstOp_switch
  cases hs : src.data_type <;> cases hd : dst.data_type <;>
    simp [luaL_argcheck, luaL_argerror, raise, pure_apply]

theorem arithmetic_datatype_checks_witness :
    imluaProcessArithmeticConstOp_switch exGraySrc { exGraySrc with data_type := imDataType.IM_INT }
        exNilState = (Except.ok (), exNilState) ∧
    (imluaProcessArithmeticOp_switch exGraySrc exGrayDst exNilState = (Except.ok (), exNilState) ∧
      imluaProcessArithmeticConstOp_switch exGraySrc exGrayDst exNilState
        = (Except.ok (), exNilState)) ∧
    ((∃ msg, imluaProcessArithmeticOp_switch exGraySrc
          { exGraySrc with data_type := imDataType.IM_CFLOAT } exNilState
        = (Except.error (Fault.argerror 2 msg), exNilState)) ∧
      (∃ msg, imluaProcessArithmeticConstOp_switch exGraySrc
          { exGraySrc with data_type := imDataType.IM_CFLOAT } exNilState
        = (Except.error (Fault.argerror 2 msg), exNilState))) ∧
    ((∃ msg, imluaProcessArithmeticOp_switch { exGraySrc with data_type := imDataType.IM_CFLOAT }
          exGraySrc exNilState = (Except.error (Fault.argerror 2 msg), exNilState)) ∧
      (∃ msg, imluaProcessArithmeticConstOp_switch
          { exGraySrc with data_type := imDataType.IM_CFLOAT } exGraySrc exNilState
        = (Except.error (Fault.argerror 2 msg), exNilState))) :=
  ⟨(arithmetic_datatype_checks exGraySrc { exGraySrc with data_type := imDataType.IM_INT }
      exNilState).1 (by decide),
    (arithmetic_datatype_checks exGraySrc exGrayDst exNilState).2.1 (by decide),
    (arithmetic_datatype_checks exGraySrc { exGraySrc with data_type := imDataType.IM_CFLOAT }
      exNilState).2.2.1 (by decide) (by decide),
    (arithmetic_datatype_checks { exGraySrc with data_type := imDataType.IM_CFLOAT } exGraySrc
      exNilState).2.2.2 (by decide) (by decide)⟩

/-! ### Splitting an interlaced image -/

theorem state_imlua_matchcolor (i1 i2 : Nat) (L : lua_State) :
    (imlua_matchcolor i1 i2 L).2 = L :=
  state_bind _ _ (state_deref _) (fun _ =>
    state_bind _ _ (state_deref _) (fun _ =>
      state_ite _ _ _ (state_luaL_error _) (state_pure _))) L

theorem imlua_matchcolor_eq (L : lua_State) (p q : Nat) (src dst : imImage)
    (hp : L.images[p]? = some (some src)) (hq : L.images[q]? = some (some dst)) :
    imlua_matchcolor p q L =
      if imImageMatchColor src dst then (Except.ok (), L)
      else (Except.error
        (Fault.error "images must have the same data type and color space"), L) := by
  simp only [imlua_matchcolor, bind_apply, deref_ok L p src hp, deref_ok L q dst hq]
  cases imImageMatchColor src dst <;> rfl

/-- The quotient and the remainder of C for a dividend that is not negative
and the divisor 2. -/
theorem tdiv_two (h : Int) (h0 : 0 ≤ h) :
    Int.tdiv h 2 = ⌊(h : ℚ) / 2⌋ ∧
      (if Int.tmod h 2 ≠ 0 then Int.tdiv h 2 + 1 else Int.tdiv h 2) = ⌈(h : ℚ) / 2⌉ := by
  have hd : Int.tdiv h 2 = h / 2 := Int.tdiv_eq_ediv h0 (by norm_num)
  have hm : Int.tmod h 2 = h % 2 := Int.tmod_eq_emod h0 (by norm_num)
  have hfl : ⌊(h : ℚ) / 2⌋ = h / 2 := by
    rw [Int.floor_eq_iff]
    have h1 := Int.emod_add_ediv h 2
    have h2 := Int.emod_nonneg h (by norm_num : (2 : Int) ≠ 0)
    have h3 := Int.emod_lt_of_pos h (by norm_num : (0 : Int) < 2)
    have h4 : (h : ℚ) = ((h % 2 : Int) : ℚ) + 2 * ((h / 2 : Int) : ℚ) := by
      exact_mod_cast h1.symm
    have h5 : (0 : ℚ) ≤ ((h % 2 : Int) : ℚ) := by exact_mod_cast h2
    have h6 : ((h % 2 : Int) : ℚ) < 2 := by exact_mod_cast h3
    constructor <;> linarith
  have hcl : ⌈(h : ℚ) / 2⌉ = if h % 2 ≠ 0 then h / 2 + 1 else h / 2 := by
    have h1 := Int.emod_add_ediv h 2
    have h2 := Int.emod_nonneg h (by norm_num : (2 : Int) ≠ 0)
    have h3 := Int.emod_lt_of_pos h (by norm_num : (0 : Int) < 2)
    have h4 : (h : ℚ) = ((h % 2 : Int) : ℚ) + 2 * ((h / 2 : Int) : ℚ) := by
      exact_mod_cast h1.symm
    by_cases hodd : h % 2 = 0
    · rw [if_neg (by simpa using hodd), Int.ceil_eq_iff]
      rw [hodd] at h4
      push_cast at h4 ⊢
      constructor <;> linarith
    · have h1' : h % 2 = 1 := by omega
      rw [if_pos hodd, Int.ceil_eq_iff]
      rw [h1'] at h4
      push_cast at h4 ⊢
      constructor <;> linarith
  rw [hd, hm, hfl, hcl]
  exact ⟨rfl, rfl⟩

/-- C29: for a source of height `h ≥ 0`, whenever all the checks of
`imluaProcessInterlaceSplit` pass (the kernel is reached), the first
destination has height `⌈h / 2⌉` and the second `⌊h / 2⌋`, so that the two
heights add up to `h`, and both destinations have the width of the source;
and the checks do pass for destinations of these sizes with the data type and
color space of the source. -/
theorem interlacesplit_heights (H : Host) (L : lua_State) (p q r : Nat)
    (src dst1 dst2 : imImage)
    (h1 : L.index 1 = some (LuaValue.image p)) (hp : L.images[p]? = some (some src))
    (h2 : L.index 2 = some (LuaValue.image q)) (hq : L.images[q]? = some (some dst1))
    (h3 : L.index 3 = some (LuaValue.image r)) (hr : L.images[r]? = some (some dst2))
    (hh : 0 ≤ src.height) :
    ((imluaProcessInterlaceSplit H L).2.kernel_log ≠ L.kernel_log →
      dst1.height = ⌈(src.height : ℚ) / 2⌉ ∧ dst2.height = ⌊(src.height : ℚ) / 2⌋ ∧
        dst1.height + dst2.height = src.height ∧
        dst1.width = src.width ∧ dst2.width = src.width) ∧
    (imImageMatchColor src dst1 = true → imImageMatchColor src dst2 = true →
      dst1.width = src.width → dst2.width = src.width →
      dst1.height = ⌈(src.height : ℚ) / 2⌉ → dst2.height = ⌊(src.height : ℚ) / 2⌋ →
      (imluaProcessInterlaceSplit H L).2.kernel_log = L.kernel_log ++ [⟨"imProcessInterlaceSplit",
        [KernelArg.img p, KernelArg.img q, KernelArg.img r]⟩]) := by
  obtain ⟨hfl, hcl⟩ := tdiv_two src.height hh
  refine ⟨fun h => ?_, fun m1 m2 w1 w2 e1 e2 => ?_⟩
  · unfold imluaProcessInterlaceSplit at h
    rw [bind_apply, imlua_checkimage_ok L 1 p src h1 hp] at h
    dsimp only at h
    rw [bind_apply, imlua_checkimage_ok L 2 q dst1 h2 hq] at h
    dsimp only at h
    rw [bind_apply, imlua_checkimage_ok L 3 r dst2 h3 hr] at h
    dsimp only at h
    obtain ⟨_, -, g1⟩ := bind_reach_state (state_imlua_matchcolor _ _) h
    obtain ⟨_, -, g2⟩ := bind_reach_state (state_imlua_matchcolor _ _) g1
    rw [bind_apply, deref_ok L p src hp] at g2
    dsimp only at g2
    rw [bind_apply, deref_ok L q dst1 hq] at g2
    dsimp only at g2
    rw [bind_apply, deref_ok L r dst2 hr] at g2
    dsimp only at g2
    obtain ⟨u3, e3, g3⟩ := bind_reach_state (state_luaL_argcheck _ _ _) g2
    have c3 := luaL_argcheck_inv _ _ _ _ u3 e3
    simp only [Bool.and_eq_true, decide_eq_true_eq] at c3
    have c45 : dst1.height
        = (if Int.tmod src.height 2 ≠ 0 then Int.tdiv src.height 2 + 1
          else Int.tdiv src.height 2) ∧ dst2.height = Int.tdiv src.height 2 := by
      by_cases hodd : Int.tmod src.height 2 ≠ 0
      · rw [if_pos hodd] at g3 ⊢
        obtain ⟨u4, e4, g4⟩ := bind_reach_state (state_luaL_argcheck _ _ _) g3
        obtain ⟨u5, e5, -⟩ := bind_reach_state (state_luaL_argcheck _ _ _) g4
        have c4 := luaL_argcheck_inv _ _ _ _ u4 e4
        have c5 := luaL_argcheck_inv _ _ _ _ u5 e5
        simp only [decide_eq_true_eq] at c4 c5
        exact ⟨c4, c5⟩
      · rw [if_neg hodd] at g3 ⊢
        obtain ⟨u4, e4, g4⟩ := bind_reach_state (state_luaL_argcheck _ _ _) g3
        obtain ⟨u5, e5, -⟩ := bind_reach_state (state_luaL_argcheck _ _ _) g4
        have c4 := luaL_argcheck_inv _ _ _ _ u4 e4
        have c5 := luaL_argcheck_inv _ _ _ _ u5 e5
        simp only [decide_eq_true_eq] at c4 c5
        exact ⟨c4, c5⟩
    obtain ⟨c4, c5⟩ := c45
    have hd1 : dst1.height = ⌈(src.height : ℚ) / 2⌉ := by rw [c4, hcl]
    have hd2 : dst2.height = ⌊(src.height : ℚ) / 2⌋ := by rw [c5, hfl]
    refine ⟨hd1, hd2, ?_, c3.1, c3.2⟩
    have hd : Int.tdiv src.height 2 = src.height / 2 := Int.tdiv_eq_ediv hh (by norm_num)
    have hm : Int.tmod src.height 2 = src.height % 2 := Int.tmod_eq_emod hh (by norm_num)
    rw [c4, c5, hd, hm]
    split <;> omega
  · have k5 : dst2.height = Int.tdiv src.height 2 := by rw [e2, hfl]
    have hlog := hostKernel_log H ⟨"imProcessInterlaceSplit",
      [KernelArg.img p, KernelArg.img q, KernelArg.img r]⟩ L
    have hk : ((do
        let _ ← hostKernel H ⟨"imProcessInterlaceSplit",
          [KernelArg.img p, KernelArg.img q, KernelArg.img r]⟩
        pure 0 : M Int) L).2.kernel_log = L.kernel_log ++ [⟨"imProcessInterlaceSplit",
          [KernelArg.img p, KernelArg.img q, KernelArg.img r]⟩] := by
      rw [bind_apply]
      cases hk : hostKernel H ⟨"imProcessInterlaceSplit",
          [KernelArg.img p, KernelArg.img q, KernelArg.img r]⟩ L with
      | mk res L1 =>
        rw [hk] at hlog
        cases res with
        | error e => exact hlog
        | ok a => exact hlog
    rw [← hcl] at e1
    unfold imluaProcessInterlaceSplit
    by_cases hodd : Int.tmod src.height 2 ≠ 0
    · rw [if_pos hodd] at e1
      simp only [bind_apply, imlua_checkimage_ok L 1 p src h1 hp,
        imlua_checkimage_ok L 2 q dst1 h2 hq, imlua_checkimage_ok L 3 r dst2 h3 hr,
        imlua_matchcolor_eq L p q src dst1 hp hq, imlua_matchcolor_eq L p r src dst2 hp hr, m1,
        m2, if_true, deref_ok L p src hp, deref_ok L q dst1 hq, deref_ok L r dst2 hr,
        luaL_argcheck_eq, w1, w2, decide_True, Bool.and_self, k5, hodd, ne_eq, not_false_eq_true,
        e1]
      simpa only [bind_apply] using hk
    · rw [if_neg hodd] at e1
      simp only [bind_apply, imlua_checkimage_ok L 1 p src h1 hp,
        imlua_checkimage_ok L 2 q dst1 h2 hq, imlua_checkimage_ok L 3 r dst2 h3 hr,
        imlua_matchcolor_eq L p q src dst1 hp hq, imlua_matchcolor_eq L p r src dst2 hp hr, m1,
        m2, if_true, deref_ok L p src hp, deref_ok L q dst1 hq, deref_ok L r dst2 hr,
        luaL_argcheck_eq, w1, w2, decide_True, Bool.and_self, k5, hodd, if_false, e1]
      simpa only [bind_apply] using hk

theorem interlacesplit_heights_witness :
    (imluaProcessInterlaceSplit exHost (exInterlaceState 3 2 1)).2.kernel_log
      = (exInterlaceState 3 2 1).kernel_log ++ [⟨"imProcessInterlaceSplit",
        [KernelArg.img 0, KernelArg.img 1, KernelArg.img 2]⟩] ∧
    ((2 : Int) = ⌈((3 : Int) : ℚ) / 2⌉ ∧ (1 : Int) = ⌊((3 : Int) : ℚ) / 2⌋ ∧
      (2 : Int) + 1 = 3 ∧ (2 : Int) = 2 ∧ (2 : Int) = 2) := by
  have hfl : (1 : Int) = ⌊((3 : Int) : ℚ) / 2⌋ := by
    symm
    rw [Int.floor_eq_iff]
    norm_num
  have hcl : (2 : Int) = ⌈((3 : Int) : ℚ) / 2⌉ := by
    symm
    rw [Int.ceil_eq_iff]
    norm_num
  have hthm := interlacesplit_heights exHost (exInterlaceState 3 2 1) 0 1 2 _ _ _
    rfl rfl rfl rfl rfl rfl (by decide)
  have hlog := hthm.2 (by decide) (by decide) rfl rfl hcl hfl
  exact ⟨hlog, hthm.1 (by rw [hlog]; decide)⟩

/-! ### The direction of the rotation by 90 degrees -/

theorem lua_toboolean_cases (L : lua_State) (idx : Int) :
    lua_toboolean L idx = 0 ∨ lua_toboolean L idx = 1 := by
  unfold lua_toboolean
  split <;> simp

/-- C23 fails in the code: `imluaProcessRotate90` reads its direction with
`lua_toboolean`, which gives 0 or 1.  So whenever the kernel is reached the
third argument is a true value and the kernel is given the direction 1: it is
never given -1.  Called with -1 the binding invokes the kernel with the
direction 1, called with 5 or with 0 it accepts the direction and invokes the
kernel with 1 as well, and `false` is rejected with "invalid dir, can be -1
or 1 only". -/
theorem rotate90_direction_is_truth_value :
    (∀ (H : Host) (L : lua_State),
      (imluaProcessRotate90 H L).2.kernel_log ≠ L.kernel_log →
        lua_toboolean L 3 = 1 ∧
        ∃ p q, (imluaProcessRotate90 H L).2.kernel_log = L.kernel_log ++ [⟨"imProcessRotate90",
          [KernelArg.img p, KernelArg.img q, KernelArg.int 1]⟩]) ∧
    (imluaProcessRotate90 exHost (exRotateState (LuaValue.number (-1)))).1 = Except.ok 0 ∧
    (imluaProcessRotate90 exHost (exRotateState (LuaValue.number (-1)))).2.kernel_log
      = [⟨"imProcessRotate90", [KernelArg.img 0, KernelArg.img 1, KernelArg.int 1]⟩] ∧
    (imluaProcessRotate90 exHost (exRotateState (LuaValue.number 1))).2.kernel_log
      = [⟨"imProcessRotate90", [KernelArg.img 0, KernelArg.img 1, KernelArg.int 1]⟩] ∧
    (imluaProcessRotate90 exHost (exRotateState (LuaValue.number 5))).1 = Except.ok 0 ∧
    (imluaProcessRotate90 exHost (exRotateState (LuaValue.number 5))).2.kernel_log
      = [⟨"imProcessRotate90", [KernelArg.img 0, KernelArg.img 1, KernelArg.int 1]⟩] ∧
    (imluaProcessRotate90 exHost (exRotateState (LuaValue.number 0))).2.kernel_log
      = [⟨"imProcessRotate90", [KernelArg.img 0, KernelArg.img 1, KernelArg.int 1]⟩] ∧
    imluaProcessRotate90 exHost (exRotateState (LuaValue.boolean false))
      = (Except.error (Fault.argerror 3 "invalid dir, can be -1 or 1 only"),
          exRotateState (LuaValue.boolean false)) := by
  refine ⟨fun H L h => ?_, by decide!, by decide!, by decide!, by decide!, by decide!,
    by decide!, by decide!⟩
  unfold imluaProcessRotate90 at h ⊢
  obtain ⟨p, e0, g0⟩ := bind_reach_state (state_imlua_checkimage _) h
  obtain ⟨q, e1, g1⟩ := bind_reach_state (state_imlua_checkimage _) g0
  obtain ⟨L0, e2, g2⟩ := bind_reach_state (m := getState) (fun _ => rfl) g1
  obtain ⟨u3, e3, g3⟩ := bind_reach_state (state_imlua_matchcolor _ _) g2
  obtain ⟨src, e4, g4⟩ := bind_reach_state (state_deref _) g3
  obtain ⟨dst, e5, g5⟩ := bind_reach_state (state_deref _) g4
  obtain ⟨u6, e6, g6⟩ := bind_reach_state (state_luaL_argcheck _ _ _) g5
  obtain ⟨u7, e7, g7⟩ := bind_reach_state (state_luaL_argcheck _ _ _) g6
  have hL0 : L0 = L := by
    simp only [getState, Prod.mk.injEq, Except.ok.injEq] at e2
    exact e2.1.symm
  subst hL0
  have c7 := luaL_argcheck_inv _ _ _ _ u7 e7
  simp only [Bool.or_eq_true, decide_eq_true_eq] at c7
  have hdir : lua_toboolean L0 3 = 1 := by
    rcases lua_toboolean_cases L0 3 with h0 | h1
    · rw [h0] at c7
      omega
    · exact h1
  refine ⟨hdir, p, q, ?_⟩
  have hlog := hostKernel_log H ⟨"imProcessRotate90",
    [KernelArg.img p, KernelArg.img q, KernelArg.int (lua_toboolean L0 3)]⟩ L0
  simp only [bind_apply, e0, e1, e3, e4, e5, e6, e7, getState]
  rw [hdir] at hlog ⊢
  cases hk : hostKernel H ⟨"imProcessRotate90",
      [KernelArg.img p, KernelArg.img q, KernelArg.int 1]⟩ L0 with
  | mk res L1 =>
    rw [hk] at hlog
    cases res with
    | error e => exact hlog
    | ok a => exact hlog

theorem rotate90_direction_is_truth_value_witness :
    lua_toboolean (exRotateState (LuaValue.number (-1))) 3 = 1 ∧
      ∃ p q, (imluaProcessRotate90 exHost (exRotateState (LuaValue.number (-1)))).2.kernel_log
        = (exRotateState (LuaValue.number (-1))).kernel_log ++ [⟨"imProcessRotate90",
          [KernelArg.img p, KernelArg.img q, KernelArg.int 1]⟩] :=
  rotate90_direction_is_truth_value.1 exHost (exRotateState (LuaValue.number (-1))) (by decide!)

/-! ### The number of results of the Hough transform binding -/

theorem imlua_checkcolorspace_ok (H : Host) (L : lua_State) (a : Int) (i : Nat) (image : imImage)
    (c : imColorSpace) (hi : L.images[i]? = some (some image)) (hc : image.color_space = c) :
    imlua_checkcolorspace H a i c L = (Except.ok (), L) := by
  simp only [imlua_checkcolorspace, bind_apply, deref_ok L i image hi, hc, ne_eq,
    not_true_eq_false, if_false]
  rfl

theorem imlua_checktype_ok (H : Host) (L : lua_State) (a : Int) (i : Nat) (image : imImage)
    (c : imColorSpace) (d : imDataType) (hi : L.images[i]? = some (some image))
    (hc : image.color_space = c) (hd : image.data_type = d) :
    imlua_checktype H a i c d L = (Except.ok (), L) := by
  simp only [imlua_checktype, bind_apply, imlua_checkcolorspace_ok H L a i image c hi hc,
    imlua_checkdatatype, deref_ok L i image hi, hd, ne_eq, not_true_eq_false, if_false]
  rfl

/-- A sibling of the Hough binding: `imluaProcessRotateRef` pushes the result
of its kernel and declares one result. -/
theorem rotateref_declares_its_result :
    imluaProcessRotateRef exHost exRotateRefState
      = (Except.ok 1,
          { exRotateRefState with
            stack := exRotateRefState.stack ++ [LuaValue.boolean true]
            kernel_log := [⟨"imProcessRotateRef", [KernelArg.img 0, KernelArg.img 1,
              KernelArg.floats [0, 1], KernelArg.int 1, KernelArg.int 1, KernelArg.int 0,
              KernelArg.int 1]⟩] }) := by
  decide!

/-- C24 fails in the code: when all the checks of `imluaProcessHoughLines`
pass (a binary source, a gray destination of data type int, 180 samples wide
and `2 * rmax + 1` high) and the kernel returns `r`, the binding pushes the
boolean of `r` and then returns 0: it declares no result, so that the caller
is given no value although one value was pushed. -/
theorem houghlines_declares_no_result (H : Host) (L : lua_State) (p q : Nat)
    (src dst : imImage) (r : Int) (imgs : List (Option imImage))
    (h1 : L.index 1 = some (LuaValue.image p)) (hp : L.images[p]? = some (some src))
    (h2 : L.index 2 = some (LuaValue.image q)) (hq : L.images[q]? = some (some dst))
    (hcs : src.color_space = imColorSpace.IM_BINARY)
    (hdc : dst.color_space = imColorSpace.IM_GRAY) (hdt : dst.data_type = imDataType.IM_INT)
    (hw : dst.width = 180) (hov : IMSQR src.width + IMSQR src.height < 2 ^ 31)
    (hh : dst.height
      = 2 * ((Nat.sqrt (IMSQR src.width + IMSQR src.height).toNat / 2 : Nat) : Int) + 1)
    (hk : H.kernel ⟨"imProcessHoughLines", [KernelArg.img p, KernelArg.img q]⟩ L.images
      = Except.ok (r, imgs)) :
    imluaProcessHoughLines H L
      = (Except.ok 0,
          { L with
            stack := L.stack ++ [LuaValue.boolean (r != 0)]
            images := imgs
            kernel_log := L.kernel_log ++ [⟨"imProcessHoughLines",
              [KernelArg.img p, KernelArg.img q]⟩] }) := by
  have hsize : imlua_checkhoughsize p q 2 L = (Except.ok (), L) := by
    simp only [imlua_checkhoughsize, bind_apply, deref_ok L p src hp, deref_ok L q dst hq, hw,
      ne_eq, not_true_eq_false, if_false, hov, hh, pure_apply, ite_apply_M]
  simp only [imluaProcessHoughLines, bind_apply, imlua_checkimage_ok L 1 p src h1 hp,
    imlua_checkimage_ok L 2 q dst h2 hq, imlua_checkcolorspace_ok H L 1 p src _ hp hcs,
    imlua_checktype_ok H L 2 q dst _ _ hq hdc hdt, hsize, hostKernel, hk, lua_pushboolean, push,
    pure_apply]
  rfl

theorem houghlines_declares_no_result_witness :
    imluaProcessHoughLines exHost exHoughState
      = (Except.ok 0,
          { exHoughState with
            stack := exHoughState.stack ++ [LuaValue.boolean ((1 : Int) != 0)]
            images := exHoughState.images
            kernel_log := exHoughState.kernel_log ++ [⟨"imProcessHoughLines",
              [KernelArg.img 0, KernelArg.img 1]⟩] }) :=
  houghlines_declares_no_result exHost exHoughState 0 1 _ _ 1 _ rfl rfl rfl rfl rfl rfl rfl rfl
    (by decide) (by decide!) rfl

/-! ### The greatest region label -/

theorem ushortSample_nonneg (v : float) : 0 ≤ ushortSample v :=
  Int.emod_nonneg _ (by norm_num)

/-- The loop of `iGetMax` on samples that lie in the plane: it returns a
number that is at least the starting maximum and at least every sample read,
and that is the starting maximum or one of the samples read. -/
theorem getMaxLoop_spec (data : List float) (L : lua_State) :
    ∀ (k i : Nat) (max : Int), i + k ≤ data.length →
      ∃ m, getMaxLoop data k (i : Int) max L = (Except.ok m, L) ∧ max ≤ m ∧
        (∀ j, i ≤ j → j < i + k → ushortSample (data.getD j 0) ≤ m) ∧
        (m = max ∨ ∃ j, i ≤ j ∧ j < i + k ∧ m = ushortSample (data.getD j 0))
  | 0, i, max, _ => ⟨max, rfl, le_refl _, fun j h1 h2 => by omega, Or.inl rfl⟩
  | k + 1, i, max, h => by
      obtain ⟨m, hm, hge, hall, hsome⟩ := getMaxLoop_spec data L k (i + 1)
        (if ushortSample (data.getD i 0) > max then ushortSample (data.getD i 0) else max)
        (by omega)
      have hread := arrayRead_getD data i 0 L (by omega)
      refine ⟨m, ?_, ?_, ?_, ?_⟩
      · simp only [getMaxLoop, bind_apply, hread]
        simpa only [Nat.cast_add, Nat.cast_one] using hm
      · split at hge <;> omega
      · intro j h1 h2
        by_cases hj : j = i
        · subst hj
          split at hge <;> omega
        · exact hall j (by omega) (by omega)
      · rcases hsome with h0 | ⟨j, h1, h2, h3⟩
        · by_cases hgt : ushortSample (data.getD i 0) > max
          · rw [if_pos hgt] at h0
            exact Or.inr ⟨i, le_refl _, by omega, h0⟩
          · rw [if_neg hgt] at h0
            exact Or.inl h0
        · exact Or.inr ⟨j, by omega, by omega, h3⟩

/-- A value that converts to a number is neither absent nor nil. -/
theorem tonumber_not_noneornil (H : Host) (L : lua_State) (narg : Int) (d : lua_Number)
    (h : H.tonumber (L.index narg) = some d) : lua_isnoneornil L narg = false := by
  unfold lua_isnoneornil lua_type
  cases hv : L.index narg with
  | none => rw [hv] at h; cases h
  | some v =>
    rw [hv] at h
    cases v with
    | number n => simp [LuaValue.type, LUA_TNUMBER]
    | string s => simp [LuaValue.type, LUA_TSTRING]
    | _ => simp [Host.tonumber] at h

/-- C27: on an image whose plane 0 holds its `width * height` samples,
`iGetMax` returns a number `m` that is at least every sample of the plane read
as an unsigned 16-bit number, that is one of these samples when there is one,
and that is 0 when there is none or when all of them are 0;
`imlua_checkregioncount` returns `m` when the count argument is absent or nil,
and the given number, converted to `int`, otherwise. -/
theorem igetmax_is_maximum (H : Host) (L : lua_State) (i : Nat) (image : imImage)
    (plane : List float) (hi : L.images[i]? = some (some image))
    (h0 : image.data[0]? = some plane)
    (hlen : (image.width * image.height).toNat ≤ plane.length) :
    ∃ m, iGetMax i L = (Except.ok m, L) ∧
      (∀ j, j < (image.width * image.height).toNat → ushortSample (plane.getD j 0) ≤ m) ∧
      (0 < (image.width * image.height).toNat →
        ∃ j, j < (image.width * image.height).toNat ∧ m = ushortSample (plane.getD j 0)) ∧
      ((image.width * image.height).toNat = 0 → m = 0) ∧
      ((∀ j, j < (image.width * image.height).toNat → ushortSample (plane.getD j 0) = 0) →
        m = 0) ∧
      (∀ narg, lua_isnoneornil L narg = true →
        imlua_checkregioncount H narg i L = (Except.ok m, L)) ∧
      (∀ narg d, H.tonumber (L.index narg) = some d →
        imlua_checkregioncount H narg i L = (Except.ok (H.number2int d), L)) := by
  obtain ⟨m, hm, hge, hall, hsome⟩ := getMaxLoop_spec plane L
    (image.width * image.height).toNat 0 0 (by omega)
  have hplane : arrayRead image.data 0 L = (Except.ok plane, L) := by
    simp only [arrayRead, le_refl, if_true, Int.toNat_zero, h0]
  have hmax : iGetMax i L = (Except.ok m, L) := by
    simp only [iGetMax, bind_apply, deref_ok L i image hi, hplane]
    simpa only [Nat.cast_zero] using hm
  refine ⟨m, hmax, fun j hj => hall j (Nat.zero_le j) (by omega), fun hpos => ?_, fun hz => ?_,
    fun hzero => ?_, fun narg hn => ?_, fun narg d hd => ?_⟩
  · rcases hsome with hm0 | ⟨j, -, h2, h3⟩
    · refine ⟨0, hpos, ?_⟩
      have h1 := hall 0 (le_refl _) (by omega)
      have h2 := ushortSample_nonneg (plane.getD 0 0)
      omega
    · exact ⟨j, by omega, h3⟩
  · rcases hsome with hm0 | ⟨j, -, h2, -⟩
    · exact hm0
    · omega
  · rcases hsome with hm0 | ⟨j, -, h2, h3⟩
    · exact hm0
    · rw [h3]
      exact hzero j (by omega)
  · simp only [imlua_checkregioncount, hn, if_true, hmax]
  · simp only [imlua_checkregioncount, tonumber_not_noneornil H L narg d hd, Bool.false_eq_true,
      if_false, bind_apply, luaL_checknumber_ok H L narg d hd, pure_apply]

theorem igetmax_is_maximum_witness :
    (∃ m, iGetMax 0 (exCountState (LuaValue.number 7))
        = (Except.ok m, exCountState (LuaValue.number 7)) ∧
      (∀ j, j < 4 → ushortSample (([0, 1, 2, 2] : List float).getD j 0) ≤ m) ∧
      ((0 : Nat) < 4 → ∃ j, j < 4 ∧ m = ushortSample (([0, 1, 2, 2] : List float).getD j 0)) ∧
      ((4 : Nat) = 0 → m = 0) ∧
      ((∀ j, j < 4 → ushortSample (([0, 1, 2, 2] : List float).getD j 0) = 0) → m = 0) ∧
      (∀ narg, lua_isnoneornil (exCountState (LuaValue.number 7)) narg = true →
        imlua_checkregioncount exHost narg 0 (exCountState (LuaValue.number 7))
          = (Except.ok m, exCountState (LuaValue.number 7))) ∧
      (∀ narg d, exHost.tonumber ((exCountState (LuaValue.number 7)).index narg) = some d →
        imlua_checkregioncount exHost narg 0 (exCountState (LuaValue.number 7))
          = (Except.ok (exHost.number2int d), exCountState (LuaValue.number 7)))) ∧
    iGetMax 0 (exCountState (LuaValue.number 7))
      = (Except.ok 2, exCountState (LuaValue.number 7)) ∧
    imlua_checkregioncount exHost 2 0 (exCountState LuaValue.nil)
      = (Except.ok 2, exCountState LuaValue.nil) ∧
    imlua_checkregioncount exHost 3 0 (exCountState LuaValue.nil)
      = (Except.ok 2, exCountState LuaValue.nil) ∧
    imlua_checkregioncount exHost 2 0 (exCountState (LuaValue.number 7))
      = (Except.ok 7, exCountState (LuaValue.number 7)) :=
  ⟨igetmax_is_maximum exHost (exCountState (LuaValue.number 7)) 0 exLabels [0, 1, 2, 2] rfl rfl
    (by decide), by decide!, by decide!, by decide!, by decide!⟩

/-! ### Building an array and reading it back -/

theorem find_range (p : Nat → Bool) :
    ∀ (N n : Nat), n < N → p n = true → (∀ j, j < n → p j = false) →
      (List.range N).find? p = some n
  | 0, n, h, _, _ => by omega
  | N + 1, n, h, hp, hlt => by
      rw [List.range_succ, List.find?_append]
      by_cases hn : n < N
      · rw [find_range p N n hn hp hlt]
        rfl
      · have hN : n = N := by omega
        subst hN
        have hnone : (List.range n).find? p = none := by
          rw [List.find?_eq_none]
          intro x hx
          rw [List.mem_range] at hx
          rw [hlt x hx]
          exact Bool.false_ne_true
        rw [hnone]
        simp [hp]

theorem arrayTable_entries_length (value : List Int) (start : Int) :
    ∀ n, (arrayTable value start n).entries.length = n
  | 0 => rfl
  | n + 1 => by
      simp only [arrayTable, LuaTable.rawseti, List.length_cons,
        arrayTable_entries_length value start n]

/-- The entries of the table built: the keys `start`, ..., `start + n - 1`
hold the elements in order and every other key is nil. -/
theorem arrayTable_rawgeti (value : List Int) (start : Int) :
    ∀ (n : Nat) (key : Int), (arrayTable value start n).rawgeti key =
      if start ≤ key ∧ key < start + n then
        LuaValue.number ((value.getD (key - start).toNat 0 : Int) : ℚ)
      else LuaValue.nil
  | 0, key => by
      have h : ¬ (start ≤ key ∧ key < start + ((0 : Nat) : Int)) := by
        push_cast
        omega
      rw [if_neg h]
      rfl
  | n + 1, key => by
      have ih := arrayTable_rawgeti value start n key
      simp only [LuaTable.rawgeti] at ih ⊢
      simp only [arrayTable, LuaTable.rawseti, List.lookup_cons]
      by_cases hk : key = (n : Int) + start
      · subst hk
        have h : start ≤ (n : Int) + start ∧ (n : Int) + start < start + ((n + 1 : Nat) : Int) := by
          push_cast
          omega
        rw [if_pos h]
        simp
      · have hb : (key == (n : Int) + start) = false := by
          rw [beq_eq_false_iff_ne]
          exact hk
        rw [hb]
        simp only
        rw [ih]
        by_cases h1 : start ≤ key ∧ key < start + (n : Int)
        · rw [if_pos h1, if_pos (by push_cast; omega)]
        · rw [if_neg h1, if_neg (by push_cast; omega)]

/-- The length the table built reports: the number of elements when they
start at key 1, one less when they start at key 0. -/
theorem arrayTable_objlen (value : List Int) (start : Int) (n : Nat) (hn : 1 ≤ n)
    (hs : start = 0 ∨ start = 1) :
    ((arrayTable value start n).objlen : Int) = if start = 0 then (n : Int) - 1 else n := by
  obtain ⟨m, rfl⟩ : ∃ m, n = m + 1 := ⟨n - 1, by omega⟩
  have hget := arrayTable_rawgeti value start (m + 1)
  have hlen := arrayTable_entries_length value start (m + 1)
  have hobj : (arrayTable value start (m + 1)).objlen
      = firstBorder (arrayTable value start (m + 1)).entries := rfl
  rw [hobj]
  unfold firstBorder
  simp only [LuaTable.rawgeti] at hget
  rcases hs with rfl | rfl
  · rw [find_range _ _ m (by omega)]
    · simp
    · rw [hget, if_neg (by push_cast; omega)]
      rfl
    · intro j hj
      rw [hget, if_pos (by push_cast; omega)]
      rfl
  · rw [find_range _ _ (m + 1) (by omega)]
    · simp
    · rw [hget, if_neg (by push_cast; omega)]
      rfl
    · intro j hj
      rw [hget, if_pos (by push_cast; omega)]
      rfl

theorem set_of_getElem? {α : Type} :
    ∀ (l : List α) (i : Nat) (a : α), l[i]? = some a → l.set i a = l
  | [], _, _, h => by simp at h
  | x :: xs, 0, a, h => by
      simp only [List.getElem?_cons_zero, Option.some.injEq] at h
      rw [h]
      rfl
  | x :: xs, i + 1, a, h => by
      simp only [List.getElem?_cons_succ] at h
      simp only [List.set_cons_succ, set_of_getElem? xs i a h]

/-- The loop of `imlua_newarrayint` with the table on top of the stack: each
round leaves the stack as it is and assigns one element. -/
theorem newarrayint_loop (value : List Int) (start : Int) (s : List LuaValue) (r : Nat) :
    ∀ (k j : Nat) (L : lua_State), j + k ≤ value.length → L.stack = s ++ [LuaValue.table r] →
      L.tables[r]? = some (arrayTable value start j) →
      forLoop (fun i => do
          let v ← arrayRead value i
          lua_pushinteger v
          lua_rawseti (-2) (i + start)) k (j : Int) L
        = (Except.ok (), L.withTables (L.tables.set r (arrayTable value start (j + k))))
  | 0, j, L, _, _, ht => by
      simp only [forLoop, pure_apply, Nat.add_zero, set_of_getElem? _ _ _ ht]
      rfl
  | k + 1, j, L, h, hs, ht => by
      have hread := arrayRead_getD value j 0 L (by omega)
      have hr : r < L.tables.length := by
        by_contra hlt
        rw [List.getElem?_eq_none (by omega)] at ht
        cases ht
      obtain ⟨L1, hL1⟩ : ∃ L1, L1 = L.withTables
          (L.tables.set r (arrayTable value start (j + 1))) := ⟨_, rfl⟩
      have hstep : lua_rawseti (-2) ((j : Int) + start)
          (L.withStack (L.stack ++ [LuaValue.number ((value.getD j 0 : Int) : ℚ)]))
          = (Except.ok (), L1) := by
        have hi2 : stackIndex (s ++ [LuaValue.table r] ++
              [LuaValue.number ((value.getD j 0 : Int) : ℚ)]) (-2)
            = some (LuaValue.table r) := by
          rw [List.append_assoc]
          exact stackIndex_neg_two s _ _
        have hi1 : stackIndex (s ++ [LuaValue.table r] ++
              [LuaValue.number ((value.getD j 0 : Int) : ℚ)]) (-1)
            = some (LuaValue.number ((value.getD j 0 : Int) : ℚ)) := stackIndex_neg_one _ _
        simp only [lua_rawseti, withStack_index, hs, hi2, hi1, withStack_tables, ht,
          withStack_stack, List.length_append, List.length_singleton, Nat.add_sub_cancel,
          List.take_left', hL1, arrayTable]
        rw [← hs]
        rfl
      have hL1s : L1.stack = s ++ [LuaValue.table r] := by rw [hL1]; exact hs
      have hL1t : L1.tables[r]? = some (arrayTable value start (j + 1)) := by
        rw [hL1]
        exact List.getElem?_set_self hr
      have ih := newarrayint_loop value start s r k (j + 1) L1 (by omega) hL1s hL1t
      have hpush : lua_pushinteger (value.getD j 0) L
          = (Except.ok (), L.withStack (L.stack ++ [LuaValue.number ((value.getD j 0 : Int) : ℚ)])) :=
        rfl
      simp only [Nat.cast_add, Nat.cast_one] at ih
      rw [forLoop, bind_apply, bind_apply, hread]
      dsimp only
      rw [bind_apply, hpush]
      dsimp only
      rw [hstep]
      dsimp only
      rw [ih, hL1, show j + 1 + k = j + (k + 1) by omega]
      simp only [lua_State.withTables, List.set_set]

/-- What `imlua_newarrayint` does: it pushes a new table that holds the first
`count` elements of the array from the key `start` on. -/
theorem imlua_newarrayint_eq (value : List Int) (n : Nat) (start : Int) (L : lua_State)
    (hn : n ≤ value.length) :
    imlua_newarrayint value (n : Int) start L
      = (Except.ok 1,
          (L.withTables (L.tables ++ [arrayTable value start n])).withStack
            (L.stack ++ [LuaValue.table L.tables.length])) := by
  obtain ⟨L0, hL0⟩ : ∃ L0, L0 = (L.withTables (L.tables ++ [⟨0, []⟩])).withStack
      (L.stack ++ [LuaValue.table L.tables.length]) := ⟨_, rfl⟩
  have hcreate : lua_createtable (n : Int) 0 L = (Except.ok (), L0) := by
    rw [hL0]
    rfl
  have hs : L0.stack = L.stack ++ [LuaValue.table L.tables.length] := by rw [hL0]; rfl
  have ht : L0.tables[L.tables.length]? = some (arrayTable value start 0) := by
    rw [hL0]
    simp [lua_State.withTables, lua_State.withStack, arrayTable]
  have hloop := newarrayint_loop value start L.stack L.tables.length n 0 L0 (by omega) hs ht
  simp only [Nat.cast_zero, Nat.zero_add] at hloop
  simp only [imlua_newarrayint, bind_apply, hcreate, Int.toNat_ofNat, hloop, pure_apply]
  rw [hL0]
  simp [lua_State.withTables, lua_State.withStack]

/-- C25: for an `int` array `v` of `count ≥ 1` elements (each of which the
conversion of a Lua number to `int` gives back) and `start` 0 or 1,
`imlua_newarrayint(v, count, start)` pushes a table in which the key
`i + start` holds element `i`, and `imlua_toarrayint` on this table with the
same `start` stores `count` through its count pointer and returns the
elements of `v` in order. -/
theorem newarrayint_toarrayint_roundtrip (H : Host) (L : lua_State) (v : List Int)
    (start : Int) (hc : 1 ≤ v.length) (hs : start = 0 ∨ start = 1)
    (hint : ∀ x ∈ v, H.number2int (x : ℚ) = x) :
    ∃ L1, imlua_newarrayint v (v.length : Int) start L = (Except.ok 1, L1) ∧
      L1.stack = L.stack ++ [LuaValue.table L.tables.length] ∧
      imlua_toarrayint H (-1) start L1
        = (Except.ok (some v, (v.length : Int)),
            { L1 with malloc_count := L1.malloc_count + 1 }) ∧
      ∀ i : Nat, i < v.length →
        (L1.tableAt (-1)).rawgeti ((i : Int) + start)
          = LuaValue.number ((v.getD i 0 : Int) : ℚ) := by
  refine ⟨_, imlua_newarrayint_eq v v.length start L (le_refl _), rfl, ?_, ?_⟩
  all_goals
    obtain ⟨L1, hL1⟩ : ∃ L1, L1 = (L.withTables (L.tables ++ [arrayTable v start v.length])).withStack
      (L.stack ++ [LuaValue.table L.tables.length]) := ⟨_, rfl⟩
    rw [← hL1]
    have hidx : L1.index (-1) = some (LuaValue.table L.tables.length) := by
      rw [hL1]
      exact stackIndex_neg_one _ _
    have htab : L1.tableAt (-1) = arrayTable v start v.length := by
      simp only [lua_State.tableAt, hidx]
      rw [hL1]
      simp [lua_State.withTables, lua_State.withStack]
    have hget : ∀ i : Nat, i < v.length →
        (L1.tableAt (-1)).rawgeti ((i : Int) + start)
          = LuaValue.number ((v.getD i 0 : Int) : ℚ) := by
      intro i hi
      rw [htab, arrayTable_rawgeti, if_pos (by omega)]
      congr 3
      omega
  · have hty : lua_type L1 (-1) = LUA_TTABLE := by
      simp only [lua_type, hidx]
      rfl
    have histab : lua_istable L1 (-1) = true := by
      simp only [lua_istable, hty, beq_self_eq_true]
    have hobj : (lua_objlen L1 (-1) : Int) = if start = 0 then (v.length : Int) - 1 else v.length := by
      simp only [lua_objlen, hidx, htab]
      exact arrayTable_objlen v start v.length hc hs
    have hn : (if start = 0 then imlua_getn L1 (-1) + 1 else imlua_getn L1 (-1)) = (v.length : Int) := by
      simp only [imlua_getn, hobj]
      split <;> omega
    have h1 := toarray_table H L1 (-1) start (v.length : Int) (luaL_checkint H) H.number2int
      (fun x => x) (fun L2 w d hd => luaL_checkint_push H L2 w d hd)
      (fun i hi => by
        rw [hget i (by omega)]
        rfl)
    have hlist : (List.range (v.length : Int).toNat).map (fun j : Nat =>
        (fun x : Int => x) (H.number2int
          ((H.tonumber (some ((L1.tableAt (-1)).rawgeti ((j : Int) + start)))).getD 0))) = v := by
      apply List.ext_getElem
      · simp
      · intro i h1 h2
        simp only [List.getElem_map, List.getElem_range, hget i h2, Host.tonumber,
          Option.getD_some, List.getD_eq_getElem v 0 h2]
        exact hint _ (List.getElem_mem h2)
    simp only [imlua_toarrayint]
    rw [bind_apply, luaL_checktype_ok (-1) LUA_TTABLE L1 hty]
    simp only [imlua_toarrayintopt, histab, if_true, hn, h1, hlist]
  · exact hget

theorem newarrayint_toarrayint_roundtrip_witness :
    (∃ L1, imlua_newarrayint [5, -3, 7] (([5, -3, 7] : List Int).length : Int) 0 exNilState
        = (Except.ok 1, L1) ∧
      L1.stack = exNilState.stack ++ [LuaValue.table exNilState.tables.length] ∧
      imlua_toarrayint exHost (-1) 0 L1
        = (Except.ok (some [5, -3, 7], (([5, -3, 7] : List Int).length : Int)),
            { L1 with malloc_count := L1.malloc_count + 1 }) ∧
      ∀ i : Nat, i < ([5, -3, 7] : List Int).length →
        (L1.tableAt (-1)).rawgeti ((i : Int) + 0)
          = LuaValue.number (((([5, -3, 7] : List Int).getD i 0 : Int)) : ℚ)) ∧
    (∃ L1, imlua_newarrayint [5, -3, 7] (([5, -3, 7] : List Int).length : Int) 1 exNilState
        = (Except.ok 1, L1) ∧
      L1.stack = exNilState.stack ++ [LuaValue.table exNilState.tables.length] ∧
      imlua_toarrayint exHost (-1) 1 L1
        = (Except.ok (some [5, -3, 7], (([5, -3, 7] : List Int).length : Int)),
            { L1 with malloc_count := L1.malloc_count + 1 }) ∧
      ∀ i : Nat, i < ([5, -3, 7] : List Int).length →
        (L1.tableAt (-1)).rawgeti ((i : Int) + 1)
          = LuaValue.number (((([5, -3, 7] : List Int).getD i 0 : Int)) : ℚ)) ∧
    (imlua_newarrayint [5, -3, 7] 3 0 exNilState).2.tables
      = [⟨2, [(2, LuaValue.number 7), (1, LuaValue.number (-3)), (0, LuaValue.number 5)]⟩] ∧
    (imlua_newarrayint [5, -3, 7] 3 1 exNilState).2.tables
      = [⟨3, [(3, LuaValue.number 7), (2, LuaValue.number (-3)), (1, LuaValue.number 5)]⟩] :=
  ⟨newarrayint_toarrayint_roundtrip exHost exNilState [5, -3, 7] 0 (by decide) (Or.inl rfl)
      (by decide!),
    newarrayint_toarrayint_roundtrip exHost exNilState [5, -3, 7] 1 (by decide) (Or.inr rfl)
      (by decide!),
    by decide!, by decide!⟩

/-! ### Rendering a constant: the number of values -/

/-- C22: for an image that is not complex and a table of `N` numbers,
`imluaProcessRenderConstant` raises the argument error "invalid number of
planes" if and only if `N` differs from the depth of the image; on this
failure the value array has been allocated and released and the kernel has not
been called; when `N` is the depth the kernel is called with the values (and
returns), the array is released after it and one result is returned; so the
kernel is called exactly when the count is the depth. -/
theorem renderconstant_checks_count (H : Host) (L : lua_State) (p : Nat) (image : imImage)
    (N : Nat) (h1 : L.index 1 = some (LuaValue.image p)) (hp : L.images[p]? = some (some image))
    (hnc : image.data_type ≠ imDataType.IM_CFLOAT)
    (h2t : lua_istable L 2 = true) (h2n : lua_objlen L 2 = N)
    (h2c : ∀ i : Nat, i < N →
      (H.tonumber (some ((L.tableAt 2).rawgeti (i + 1)))).isSome = true)
    (hk : ∀ c, ∃ r imgs, H.kernel c L.images = Except.ok (r, imgs)) :
    ((imluaProcessRenderConstant H L).1
        = Except.error (Fault.argerror 2 "invalid number of planes") ↔ (N : Int) ≠ image.depth) ∧
    ((N : Int) ≠ image.depth →
      imluaProcessRenderConstant H L
        = (Except.error (Fault.argerror 2 "invalid number of planes"),
            { L with malloc_count := L.malloc_count + 1, free_count := L.free_count + 1 })) ∧
    ((N : Int) = image.depth →
      (imluaProcessRenderConstant H L).1 = Except.ok 1 ∧
        (imluaProcessRenderConstant H L).2.malloc_count = L.malloc_count + 1 ∧
        (imluaProcessRenderConstant H L).2.free_count = L.free_count + 1 ∧
        (imluaProcessRenderConstant H L).2.kernel_log
          = L.kernel_log ++ [⟨"imProcessRenderConstant",
            [KernelArg.img p, KernelArg.floats ((List.range N).map
              (fun j : Nat => H.c_float
                ((H.tonumber (some ((L.tableAt 2).rawgeti ((j : Int) + 1)))).getD 0)))]⟩]) ∧
    ((imluaProcessRenderConstant H L).2.kernel_log ≠ L.kernel_log ↔ (N : Int) = image.depth) := by
  have e2 := imlua_toarrayfloat_ok H L 2 1 N h2t h2n (by simpa using h2c)
  simp only [one_ne_zero, if_false, Int.toNat_ofNat] at e2
  have hnot : imlua_checknotcfloat 1 p L = (Except.ok (), L) :=
    (checknotcfloat_cases L 1 p image hp).trans (if_neg hnc)
  obtain ⟨Lm, hLm⟩ : ∃ Lm : lua_State, Lm = { L with malloc_count := L.malloc_count + 1 } :=
    ⟨_, rfl⟩
  rw [← hLm] at e2
  have hdm : deref p Lm = (Except.ok image, Lm) := deref_ok Lm p image (by rw [hLm]; exact hp)
  have hbad : (N : Int) ≠ image.depth →
      imluaProcessRenderConstant H L
        = (Except.error (Fault.argerror 2 "invalid number of planes"),
            { L with malloc_count := L.malloc_count + 1, free_count := L.free_count + 1 }) := by
    intro hne
    simp only [imluaProcessRenderConstant, bind_apply, imlua_checkimage_ok L 1 p image h1 hp,
      hnot, e2, hdm, ne_eq, hne, not_false_eq_true, if_true, free, luaL_argerror, raise]
    rw [hLm]
  obtain ⟨r, imgs, hkr⟩ := hk ⟨"imProcessRenderConstant",
    [KernelArg.img p, KernelArg.floats ((List.range N).map
      (fun j : Nat => H.c_float
        ((H.tonumber (some ((L.tableAt 2).rawgeti ((j : Int) + 1)))).getD 0)))]⟩
  have hkm : H.kernel ⟨"imProcessRenderConstant",
      [KernelArg.img p, KernelArg.floats ((List.range N).map
        (fun j : Nat => H.c_float
          ((H.tonumber (some ((L.tableAt 2).rawgeti ((j : Int) + 1)))).getD 0)))]⟩ Lm.images
      = Except.ok (r, imgs) := by
    rw [hLm]
    exact hkr
  have hgood : (N : Int) = image.depth →
      imluaProcessRenderConstant H L
        = (Except.ok 1,
            { L with
              stack := L.stack ++ [LuaValue.boolean (r != 0)]
              images := imgs
              malloc_count := L.malloc_count + 1
              free_count := L.free_count + 1
              kernel_log := L.kernel_log ++ [⟨"imProcessRenderConstant",
                [KernelArg.img p, KernelArg.floats ((List.range N).map
                  (fun j : Nat => H.c_float
                    ((H.tonumber (some ((L.tableAt 2).rawgeti ((j : Int) + 1)))).getD 0)))]⟩] }) := by
    intro heq
    simp only [imluaProcessRenderConstant, bind_apply, imlua_checkimage_ok L 1 p image h1 hp,
      hnot, e2, hdm, ne_eq, heq, not_true_eq_false, if_false, pure_apply, Option.getD_some,
      hostKernel, hkm, lua_pushboolean, push, free]
    rw [hLm]
    rfl
  refine ⟨⟨fun herr => ?_, fun hne => by rw [hbad hne]⟩, hbad, fun heq => ?_, ⟨fun hlog => ?_,
    fun heq => ?_⟩⟩
  · intro heq
    rw [hgood heq] at herr
    cases herr
  · rw [hgood heq]
    exact ⟨rfl, rfl, rfl, rfl⟩
  · by_contra hne
    rw [hbad hne] at hlog
    exact hlog rfl
  · rw [hgood heq]
    simp

theorem renderconstant_checks_count_witness :
    ((imluaProcessRenderConstant exHost (exConstantState 0)).1 = Except.ok 1 ∧
      (imluaProcessRenderConstant exHost (exConstantState 0)).2.malloc_count
        = (exConstantState 0).malloc_count + 1 ∧
      (imluaProcessRenderConstant exHost (exConstantState 0)).2.free_count
        = (exConstantState 0).free_count + 1 ∧
      (imluaProcessRenderConstant exHost (exConstantState 0)).2.kernel_log
        = (exConstantState 0).kernel_log ++ [⟨"imProcessRenderConstant",
          [KernelArg.img 0, KernelArg.floats ((List.range 1).map
            (fun j : Nat => exHost.c_float
              ((exHost.tonumber (some (((exConstantState 0).tableAt 2).rawgeti
                ((j : Int) + 1)))).getD 0)))]⟩]) ∧
    imluaProcessRenderConstant exHost (exConstantState 1)
      = (Except.error (Fault.argerror 2 "invalid number of planes"),
          { exConstantState 1 with
            malloc_count := (exConstantState 1).malloc_count + 1,
            free_count := (exConstantState 1).free_count + 1 }) ∧
    (imluaProcessRenderConstant exHost (exConstantState 0)).2.kernel_log
      = [⟨"imProcessRenderConstant", [KernelArg.img 0, KernelArg.floats [9]]⟩] :=
  ⟨(renderconstant_checks_count exHost (exConstantState 0) 0 exGraySrc 1 rfl rfl (by decide)
      (by decide) (by decide) (by
        intro i hi
        interval_cases i
        decide!)
      (fun c => ⟨1, _, rfl⟩)).2.2.1 (by decide),
    (renderconstant_checks_count exHost (exConstantState 1) 0 exGraySrc 2 rfl rfl (by decide)
      (by decide) (by decide) (by
        intro i hi
        interval_cases i <;> decide!)
      (fun c => ⟨1, _, rfl⟩)).2.1 (by decide),
    by decide!⟩

/-! ### The region count of the centroid measure -/

theorem imlua_checkregioncount_number (H : Host) (L : lua_State) (narg : Int) (i : Nat)
    (d : lua_Number) (hd : H.tonumber (L.index narg) = some d) :
    imlua_checkregioncount H narg i L = (Except.ok (H.number2int d), L) := by
  simp only [imlua_checkregioncount, tonumber_not_noneornil H L narg d hd, Bool.false_eq_true,
    if_false, bind_apply, luaL_checknumber_ok H L narg d hd, pure_apply]

/-- C21 fails in the code: in `imluaAnalyzeMeasureCentroid` the region count is
overwritten through `&count` by `imlua_toarrayintopt`.  With nil for the area
and a number for the count, whatever the number, the kernel is called with the
count 0 and the binding returns two new tables that are both empty. -/
theorem measurecentroid_count_overwritten (H : Host) (L : lua_State) (p : Nat)
    (image : imImage) (d : lua_Number) (r : Int) (imgs : List (Option imImage))
    (h1 : L.index 1 = some (LuaValue.image p)) (hp : L.images[p]? = some (some image))
    (hcs : image.color_space = imColorSpace.IM_GRAY)
    (hdt : image.data_type = imDataType.IM_USHORT)
    (h2 : L.index 2 = some LuaValue.nil) (h3 : H.tonumber (L.index 3) = some d)
    (hk : H.kernel ⟨"imAnalyzeMeasureCentroid",
        [KernelArg.img p, KernelArg.ints none, KernelArg.int 0]⟩ L.images
      = Except.ok (r, imgs)) :
    imluaAnalyzeMeasureCentroid H L
      = (Except.ok 2,
          { L with
            stack := L.stack ++ [LuaValue.table L.tables.length,
              LuaValue.table (L.tables.length + 1)]
            tables := L.tables ++ [⟨0, []⟩, ⟨0, []⟩]
            images := imgs
            malloc_count := L.malloc_count + 2
            free_count := L.free_count + 2
            kernel_log := L.kernel_log ++ [⟨"imAnalyzeMeasureCentroid",
              [KernelArg.img p, KernelArg.ints none, KernelArg.int 0]⟩] }) := by
  have hnt : lua_istable L 2 = false := by
    simp only [lua_istable, lua_type, h2]
    rfl
  have hnil : lua_isnil L 2 = true := by
    simp only [lua_isnil, lua_type, h2]
    rfl
  have harea : imlua_toarrayintopt H 2 0 L = (Except.ok (none, 0), L) := by
    simp only [imlua_toarrayintopt, hnt, hnil, Bool.false_eq_true, if_false, Bool.not_true]
  simp only [imluaAnalyzeMeasureCentroid, bind_apply, imlua_checkimage_ok L 1 p image h1 hp,
    imlua_checktype_ok H L 1 p image _ _ hp hcs hdt, imlua_checkregioncount_number H L 3 p d h3,
    harea, malloc, getState, hostKernel, hk, outBuffer, Int.toNat_zero, List.range_zero,
    List.map_nil, imlua_newarrayfloat, lua_createtable, push, forLoop, pure_apply,
    Option.isSome_none, Bool.false_eq_true, if_false, free]
  simp [lua_State.withTables, lua_State.withStack, List.append_assoc]

theorem measurecentroid_count_overwritten_witness :
    imluaAnalyzeMeasureCentroid exHost (exMeasureState [LuaValue.nil, LuaValue.number 2])
      = (Except.ok 2,
          { exMeasureState [LuaValue.nil, LuaValue.number 2] with
            stack := (exMeasureState [LuaValue.nil, LuaValue.number 2]).stack ++
              [LuaValue.table (exMeasureState [LuaValue.nil, LuaValue.number 2]).tables.length,
                LuaValue.table
                  ((exMeasureState [LuaValue.nil, LuaValue.number 2]).tables.length + 1)]
            tables := (exMeasureState [LuaValue.nil, LuaValue.number 2]).tables ++
              [⟨0, []⟩, ⟨0, []⟩]
            images := (exMeasureState [LuaValue.nil, LuaValue.number 2]).images
            malloc_count := (exMeasureState [LuaValue.nil, LuaValue.number 2]).malloc_count + 2
            free_count := (exMeasureState [LuaValue.nil, LuaValue.number 2]).free_count + 2
            kernel_log := (exMeasureState [LuaValue.nil, LuaValue.number 2]).kernel_log ++
              [⟨"imAnalyzeMeasureCentroid",
                [KernelArg.img 0, KernelArg.ints none, KernelArg.int 0]⟩] }) ∧
    ((imluaAnalyzeMeasureCentroid exHost (exMeasureState [LuaValue.nil])).1 = Except.ok 2 ∧
      (imluaAnalyzeMeasureCentroid exHost (exMeasureState [LuaValue.nil])).2.tables
        = [⟨0, []⟩, ⟨0, []⟩] ∧
      iGetMax 0 (exMeasureState [LuaValue.nil]) = (Except.ok 2, exMeasureState [LuaValue.nil])) ∧
    imluaAnalyzeMeasureCentroid exHost (exMeasureState [])
      = (Except.error (Fault.argerror 2 "must be a table or nil"), exMeasureState []) ∧
    ((imluaAnalyzeMeasureArea exHost (exMeasureState [LuaValue.number 2])).1 = Except.ok 1 ∧
      (imluaAnalyzeMeasureArea exHost (exMeasureState [LuaValue.number 2])).2.tables
        = [⟨1, [(1, LuaValue.number 0), (0, LuaValue.number 0)]⟩] ∧
      (imluaAnalyzeMeasureArea exHost (exMeasureState [])).2.tables
        = [⟨1, [(1, LuaValue.number 0), (0, LuaValue.number 0)]⟩]) :=
  ⟨measurecentroid_count_overwritten exHost (exMeasureState [LuaValue.nil, LuaValue.number 2])
      0 exLabels 2 1 _ rfl rfl rfl rfl rfl rfl rfl,
    by decide!, by decide!, by decide!⟩

/-! ### The stack along the callback trampolines -/

/-- The end of a trampoline that asks for one result, from the result on top
of the stack: nil is "no value", a number is stored, anything else is an
error; on a return the result is popped. -/
theorem single_tail_eq (H : Host) (dst_value : float) (L : lua_State) (b : LuaValue) :
    (do
      let L ← getState
      let (ret, dst_value) ←
        (if !lua_isnil L (-1) then do
          let v ← luaL_checknumber H (-1)
          pure (1, H.c_float v)
        else pure (0, dst_value) : M (Int × float))
      lua_pop 1
      pure (ret, dst_value) : M (Int × float)) (L.withStack (L.stack ++ [b]))
    = if b = LuaValue.nil then (Except.ok ((0 : Int), dst_value), L)
      else match H.tonumber (some b) with
        | some n => (Except.ok ((1 : Int), H.c_float n), L)
        | none => (Except.error (Fault.argerror (-1) ("number expected, got " ++
              lua_typename b.type)), L.withStack (L.stack ++ [b])) := by
  simp only [bind_apply, getState, lua_isnil, lua_type, withStack_index, stackIndex_neg_one,
    ite_apply_M]
  by_cases hnil : b = LuaValue.nil
  · subst hnil
    have hty : (LuaValue.nil.type == LUA_TNIL) = true := rfl
    simp only [hty, Bool.not_true, Bool.false_eq_true, if_false, if_true, pure_apply, lua_pop,
      withStack_stack, withStack_withStack, Int.toNat_one, List.length_append,
      List.length_singleton, Nat.add_sub_cancel, List.take_left', withStack_self]
  · have hty : (b.type == LUA_TNIL) = false := by
      rw [beq_eq_false_iff_ne]
      rwa [Ne, type_eq_nil_iff]
    simp only [hnil, if_false, hty, Bool.not_false, if_true, bind_apply, luaL_checknumber,
      withStack_index, stackIndex_neg_one]
    cases hnum : H.tonumber (some b) with
    | none =>
      simp only [luaL_typerror, luaL_argerror, raise, lua_type, withStack_index,
        stackIndex_neg_one]
      rfl
    | some n =>
      simp only [pure_apply, lua_pop, withStack_stack, withStack_withStack, Int.toNat_one,
        List.length_append, List.length_singleton, Nat.add_sub_cancel, List.take_left',
        withStack_self]

theorem state_luaL_checknumber (H : Host) (narg : Int) (L : lua_State) :
    (luaL_checknumber H narg L).2 = L := by
  unfold luaL_checknumber
  split <;> rfl

theorem state_storeLoop (H : Host) (dst_depth : Int) :
    ∀ (k : Nat) (dst_value : List float) (d : Int) (L : lua_State),
      (storeLoop H dst_depth dst_value k d L).2 = L
  | 0, _, _, _ => rfl
  | k + 1, _, d, L =>
      state_bind _ _ (state_luaL_checknumber H _)
        (fun _ => state_bind _ _ (state_arrayWrite _ _ _)
          (fun _ => state_storeLoop H dst_depth k _ (d + 1))) L

/-- The end of a trampoline that asks for `dst_depth` results: whenever it
returns, the results are popped and the state is the one before the call. -/
theorem color_tail_state (H : Host) (dd : Int) (dst_value : List float) (L : lua_State)
    (res : List LuaValue) (hlen : res.length = dd.toNat)
    (out : Int × List float) (L1 : lua_State)
    (h : (do
      let L ← getState
      let (ret, dst_value) ←
        (if !lua_isnil L (-dd) then do
          let dst_value ← storeLoop H dd dst_value dd.toNat 0
          pure (1, dst_value)
        else pure (0, dst_value) : M (Int × List float))
      lua_pop dd
      pure (ret, dst_value) : M (Int × List float)) (L.withStack (L.stack ++ res))
      = (Except.ok out, L1)) : L1 = L := by
  have hpop : lua_pop dd (L.withStack (L.stack ++ res)) = (Except.ok (), L) := by
    simp only [lua_pop, withStack_stack, withStack_withStack, List.length_append, hlen,
      Nat.add_sub_cancel, List.take_left', withStack_self]
  have hmid : ∀ S : lua_State, ((if !lua_isnil (L.withStack (L.stack ++ res)) (-dd) then do
          let dst_value ← storeLoop H dd dst_value dd.toNat 0
          pure (1, dst_value)
        else pure (0, dst_value) : M (Int × List float)) S).2 = S := by
    intro S
    split
    · exact state_bind _ _ (state_storeLoop H dd _ _ _) (fun _ => state_pure _) S
    · rfl
  simp only [bind_apply, getState] at h
  have hm := hmid (L.withStack (L.stack ++ res))
  revert h
  cases hr : (if !lua_isnil (L.withStack (L.stack ++ res)) (-dd) then do
          let dst_value ← storeLoop H dd dst_value dd.toNat 0
          pure (1, dst_value)
        else pure (0, dst_value) : M (Int × List float)) (L.withStack (L.stack ++ res)) with
  | mk a S =>
    rw [hr] at hm
    simp only at hm
    subst hm
    cases a with
    | error e =>
      intro h
      simp at h
    | ok v =>
      intro h
      simp only [hpop, pure_apply, Prod.mk.injEq] at h
      exact h.2.symm

/-- Up to the call, `imluaUnColorOpFunc` pushes the function and its arguments
and calls the function once for `dst_depth` results; an error of the callback
propagates. -/
theorem imluaUnColorOpFunc_match (H : Host) (L : lua_State) (f r : Nat)
    (src_value dst_value : List float) (sd dd : Int) (x y : Int)
    (hf : L.index 3 = some (LuaValue.function f)) (h4 : L.index 4 = some (LuaValue.table r))
    (hsd0 : 0 ≤ sd) (hsd : sd.toNat ≤ src_value.length) :
    imluaUnColorOpFunc H src_value dst_value [int2float sd, int2float dd] x y L =
      match H.call f (unColorOpArgs L src_value sd x y) with
      | Except.ok rs =>
          (do
            let L ← getState
            let (ret, dst_value) ←
              (if !lua_isnil L (-dd) then do
                let dst_value ← storeLoop H dd dst_value dd.toNat 0
                pure (1, dst_value)
              else pure (0, dst_value) : M (Int × List float))
            lua_pop dd
            pure (ret, dst_value)) (L.withStack (L.stack ++ adjustResults rs dd.toNat))
      | Except.error e =>
          (Except.error e,
            L.withStack (L.stack ++ LuaValue.function f :: unColorOpArgs L src_value sd x y)) := by
  have hlen := length_of_index_four L _ h4
  have hp0 : arrayRead [int2float sd, int2float dd] 0 L = (Except.ok (int2float sd), L) := rfl
  have hp1 : arrayRead [int2float sd, int2float dd] 1 L = (Except.ok (int2float dd), L) := rfl
  have hpush := pushLoop_eq src_value sd.toNat 0
    (L.withStack (L.stack ++ [LuaValue.function f])) (by omega)
  simp only [Nat.cast_zero, List.drop_zero, withStack_stack, withStack_withStack] at hpush
  have hidx4 : (L.withStack (L.stack ++ [LuaValue.function f] ++
      List.map LuaValue.number (List.take sd.toNat src_value))).index 4
      = some (LuaValue.table r) := by
    rw [List.append_assoc, index_append L _ 4 (by norm_num) (by omega), h4]
  have htab : (L.withStack (L.stack ++ [LuaValue.function f] ++
      List.map LuaValue.number (List.take sd.toNat src_value))).tableAt 4 = L.tableAt 4 := by
    rw [List.append_assoc, tableAt_append L _ 4 (by norm_num) (by omega)]
  simp only [imluaUnColorOpFunc, bind_apply, hp0, hp1, float2int_int2float, lua_pushvalue,
    lua_pushinteger, push, hf, Option.getD_some, hpush]
  rw [imlua_unpacktable_eq 4 _ r (by norm_num)
    (by simp only [withStack_stack, List.length_append, List.length_singleton]; omega) hidx4]
  simp only [htab, withStack_stack, withStack_withStack, withStack_index]
  rw [List.append_assoc (L.stack ++ [LuaValue.function f]), stackIndex_five L f _ hf hlen]
  have hstack : L.stack ++ [LuaValue.function f] ++
      (List.map LuaValue.number (List.take sd.toNat src_value) ++ unpacked (L.tableAt 4)) ++
        [userdataArg L] ++ [LuaValue.number (x : ℚ)] ++ [LuaValue.number (y : ℚ)]
      = L.stack ++ LuaValue.function f :: unColorOpArgs L src_value sd x y := by
    simp [unColorOpArgs, List.append_assoc]
  have hn : (sd + ((L.tableAt 4).objlen : Int) + 3)
      = (unColorOpArgs L src_value sd x y).length := by
    simp only [unColorOpArgs, unpacked, List.length_cons, List.length_append, List.length_map,
      List.length_range, List.length_nil, List.length_take]
    rw [min_eq_left hsd]
    push_cast
    rw [Int.toNat_of_nonneg hsd0]
    ring
  rw [hstack, lua_call_eq H L _ _ f _ dd hn]
  cases H.call f (unColorOpArgs L src_value sd x y) <;> rfl

/-- Up to the call, `imluaMultiOpFunc` pushes the function and its arguments
and calls the function once for one result; an error of the callback
propagates. -/
theorem imluaMultiOpFunc_match (H : Host) (L : lua_State) (f r : Nat)
    (src_value : List float) (dst_value : float) (sc : Int) (x y d : Int)
    (hf : L.index 3 = some (LuaValue.function f)) (h4 : L.index 4 = some (LuaValue.table r))
    (hsc0 : 0 ≤ sc) (hsc : sc.toNat ≤ src_value.length) :
    imluaMultiOpFunc H src_value dst_value [int2float sc] x y d L =
      match H.call f (multiOpArgs L src_value sc x y d) with
      | Except.ok rs =>
          (do
            let L ← getState
            let (ret, dst_value) ←
              (if !lua_isnil L (-1) then do
                let v ← luaL_checknumber H (-1)
                pure (1, H.c_float v)
              else pure (0, dst_value) : M (Int × float))
            lua_pop 1
            pure (ret, dst_value)) (L.withStack (L.stack ++ adjustResults rs 1))
      | Except.error e =>
          (Except.error e,
            L.withStack (L.stack ++ LuaValue.function f :: multiOpArgs L src_value sc x y d)) := by
  have hlen := length_of_index_four L _ h4
  have hp0 : arrayRead [int2float sc] 0 L = (Except.ok (int2float sc), L) := rfl
  have hpush := pushLoop_eq src_value sc.toNat 0
    (L.withStack (L.stack ++ [LuaValue.function f])) (by omega)
  simp only [Nat.cast_zero, List.drop_zero, withStack_stack, withStack_withStack] at hpush
  have hidx4 : (L.withStack (L.stack ++ [LuaValue.function f] ++
      List.map LuaValue.number (List.take sc.toNat src_value))).index 4
      = some (LuaValue.table r) := by
    rw [List.append_assoc, index_append L _ 4 (by norm_num) (by omega), h4]
  have htab : (L.withStack (L.stack ++ [LuaValue.function f] ++
      List.map LuaValue.number (List.take sc.toNat src_value))).tableAt 4 = L.tableAt 4 := by
    rw [List.append_assoc, tableAt_append L _ 4 (by norm_num) (by omega)]
  simp only [imluaMultiOpFunc, bind_apply, hp0, float2int_int2float, lua_pushvalue,
    lua_pushinteger, push, hf, Option.getD_some, hpush]
  rw [imlua_unpacktable_eq 4 _ r (by norm_num)
    (by simp only [withStack_stack, List.length_append, List.length_singleton]; omega) hidx4]
  simp only [htab, withStack_stack, withStack_withStack, withStack_index]
  rw [List.append_assoc (L.stack ++ [LuaValue.function f]), stackIndex_five L f _ hf hlen]
  have hstack : L.stack ++ [LuaValue.function f] ++
      (List.map LuaValue.number (List.take sc.toNat src_value) ++ unpacked (L.tableAt 4)) ++
        [userdataArg L] ++ [LuaValue.number (x : ℚ)] ++ [LuaValue.number (y : ℚ)] ++
        [LuaValue.number (d : ℚ)]
      = L.stack ++ LuaValue.function f :: multiOpArgs L src_value sc x y d := by
    simp [multiOpArgs, List.append_assoc]
  have hn : (sc + ((L.tableAt 4).objlen : Int) + 4)
      = (multiOpArgs L src_value sc x y d).length := by
    simp only [multiOpArgs, unpacked, List.length_cons, List.length_append, List.length_map,
      List.length_range, List.length_nil, List.length_take]
    rw [min_eq_left hsc]
    push_cast
    rw [Int.toNat_of_nonneg hsc0]
    ring
  rw [hstack, lua_call_eq H L _ _ f _ 1 hn]
  cases H.call f (multiOpArgs L src_value sc x y d) <;> rfl

/-- Up to the call, `imluaMultiColorOpFunc` pushes the function and its
arguments and calls the function once for `dst_depth` results; an error of the
callback propagates. -/
theorem imluaMultiColorOpFunc_match (H : Host) (L : lua_State) (f r : Nat)
    (src_value dst_value : List float) (sc sd dd : Int) (x y : Int)
    (hf : L.index 3 = some (LuaValue.function f)) (h4 : L.index 4 = some (LuaValue.table r))
    (hm0 : 0 ≤ sd * sc) (hm : (sd * sc).toNat ≤ src_value.length) :
    imluaMultiColorOpFunc H src_value dst_value [int2float sc, int2float sd, int2float dd] x y L =
      match H.call f (multiColorOpArgs L src_value sc sd x y) with
      | Except.ok rs =>
          (do
            let L ← getState
            let (ret, dst_value) ←
              (if !lua_isnil L (-dd) then do
                let dst_value ← storeLoop H dd dst_value dd.toNat 0
                pure (1, dst_value)
              else pure (0, dst_value) : M (Int × List float))
            lua_pop dd
            pure (ret, dst_value)) (L.withStack (L.stack ++ adjustResults rs dd.toNat))
      | Except.error e =>
          (Except.error e,
            L.withStack
              (L.stack ++ LuaValue.function f :: multiColorOpArgs L src_value sc sd x y)) := by
  have hlen := length_of_index_four L _ h4
  have hp0 : arrayRead [int2float sc, int2float sd, int2float dd] 0 L
      = (Except.ok (int2float sc), L) := rfl
  have hp1 : arrayRead [int2float sc, int2float sd, int2float dd] 1 L
      = (Except.ok (int2float sd), L) := rfl
  have hp2 : arrayRead [int2float sc, int2float sd, int2float dd] 2 L
      = (Except.ok (int2float dd), L) := rfl
  have hpush := pushLoop_eq src_value (sd * sc).toNat 0
    (L.withStack (L.stack ++ [LuaValue.function f])) (by omega)
  simp only [Nat.cast_zero, List.drop_zero, withStack_stack, withStack_withStack] at hpush
  have hidx4 : (L.withStack (L.stack ++ [LuaValue.function f] ++
      List.map LuaValue.number (List.take (sd * sc).toNat src_value))).index 4
      = some (LuaValue.table r) := by
    rw [List.append_assoc, index_append L _ 4 (by norm_num) (by omega), h4]
  have htab : (L.withStack (L.stack ++ [LuaValue.function f] ++
      List.map LuaValue.number (List.take (sd * sc).toNat src_value))).tableAt 4
      = L.tableAt 4 := by
    rw [List.append_assoc, tableAt_append L _ 4 (by norm_num) (by omega)]
  simp only [imluaMultiColorOpFunc, bind_apply, hp0, hp1, hp2, float2int_int2float,
    lua_pushvalue, lua_pushinteger, push, hf, Option.getD_some, hpush]
  rw [imlua_unpacktable_eq 4 _ r (by norm_num)
    (by simp only [withStack_stack, List.length_append, List.length_singleton]; omega) hidx4]
  simp only [htab, withStack_stack, withStack_withStack, withStack_index]
  rw [List.append_assoc (L.stack ++ [LuaValue.function f]), stackIndex_five L f _ hf hlen]
  have hstack : L.stack ++ [LuaValue.function f] ++
      (List.map LuaValue.number (List.take (sd * sc).toNat src_value) ++
        unpacked (L.tableAt 4)) ++
        [userdataArg L] ++ [LuaValue.number (x : ℚ)] ++ [LuaValue.number (y : ℚ)]
      = L.stack ++ LuaValue.function f :: multiColorOpArgs L src_value sc sd x y := by
    simp [multiColorOpArgs, List.append_assoc]
  have hn : (sd * sc + ((L.tableAt 4).objlen : Int) + 3)
      = (multiColorOpArgs L src_value sc sd x y).length := by
    simp only [multiColorOpArgs, unpacked, List.length_cons, List.length_append,
      List.length_map, List.length_range, List.length_nil, List.length_take]
    rw [min_eq_left hm]
    push_cast
    rw [Int.toNat_of_nonneg hm0]
    ring
  rw [hstack, lua_call_eq H L _ _ f _ dd hn]
  cases H.call f (multiColorOpArgs L src_value sc sd x y) <;> rfl

/-- The end of a trampoline that asks for `dst_depth ≥ 1` results, when the
first result is nil: 0 is returned, the destination is left as it is and the
state is the one before the call. -/
theorem color_tail_nil (H : Host) (dd : Int) (dst_value : List float) (L : lua_State)
    (res : List LuaValue) (hlen : res.length = dd.toNat) (hdd : 1 ≤ dd)
    (hnil : res[0]? = some LuaValue.nil) :
    (do
      let L ← getState
      let (ret, dst_value) ←
        (if !lua_isnil L (-dd) then do
          let dst_value ← storeLoop H dd dst_value dd.toNat 0
          pure (1, dst_value)
        else pure (0, dst_value) : M (Int × List float))
      lua_pop dd
      pure (ret, dst_value) : M (Int × List float)) (L.withStack (L.stack ++ res))
      = (Except.ok (0, dst_value), L) := by
  have hcast : (res.length : Int) = dd := by rw [hlen]; omega
  have hidx : stackIndex (L.stack ++ res) (-dd) = res[0]? := by
    have := stackIndex_result L.stack res 0 (by omega)
    rw [hcast] at this
    simpa using this
  have hisnil : lua_isnil (L.withStack (L.stack ++ res)) (-dd) = true := by
    simp only [lua_isnil, lua_type, withStack_index, hidx, hnil]
    rfl
  simp only [bind_apply, getState, hisnil, Bool.not_true, Bool.false_eq_true, if_false,
    pure_apply, lua_pop, withStack_stack, withStack_withStack, List.length_append, hlen,
    Nat.add_sub_cancel, List.take_left', withStack_self]

/-- C26: with the callback function at index 3 and the parameter table at
index 4, each of the four trampolines pushes the function and then exactly as
many values as it gives `lua_call` for the number of arguments (the source
values, the unpacked parameters, the user data and the coordinates), so that
the callback is called with exactly these values; and on every normal return
the results asked for are popped and the state, so the whole stack with its
slots 3, 4 and 5, is the one the trampoline started in.  Each trampoline does
return normally when the callback answers nil.  The counts of source values
and results are those the dispatchers give: not negative, and within the
arrays handed to the trampoline. -/
theorem trampolines_restore_stack (H : Host) (L : lua_State) (f r : Nat)
    (hf : L.index 3 = some (LuaValue.function f)) (h4 : L.index 4 = some (LuaValue.table r)) :
    (∀ (src_value dst_value : float) (x y d : Int),
      ((unOpArgs L src_value x y d).length : Int) = 1 + ((L.tableAt 4).objlen : Int) + 4 ∧
      (∀ out L1, imluaUnOpFunc H src_value dst_value x y d L = (Except.ok out, L1) →
        L1 = L ∧ ∃ rs, H.call f (unOpArgs L src_value x y d) = Except.ok rs) ∧
      (∀ rs, H.call f (unOpArgs L src_value x y d) = Except.ok rs →
        (adjustResults rs 1)[0]? = some LuaValue.nil →
        imluaUnOpFunc H src_value dst_value x y d L = (Except.ok (0, dst_value), L)) ∧
      (∀ e, H.call f (unOpArgs L src_value x y d) = Except.error e →
        imluaUnOpFunc H src_value dst_value x y d L = (Except.error e,
          L.withStack (L.stack ++ LuaValue.function f :: unOpArgs L src_value x y d)))) ∧
    (∀ (src_value dst_value : List float) (sd dd x y : Int),
      0 ≤ sd → sd.toNat ≤ src_value.length → 0 ≤ dd →
      ((unColorOpArgs L src_value sd x y).length : Int)
        = sd + ((L.tableAt 4).objlen : Int) + 3 ∧
      (∀ out L1, imluaUnColorOpFunc H src_value dst_value [int2float sd, int2float dd] x y L
          = (Except.ok out, L1) →
        L1 = L ∧ ∃ rs, H.call f (unColorOpArgs L src_value sd x y) = Except.ok rs) ∧
      (∀ rs, H.call f (unColorOpArgs L src_value sd x y) = Except.ok rs → 1 ≤ dd →
        (adjustResults rs dd.toNat)[0]? = some LuaValue.nil →
        imluaUnColorOpFunc H src_value dst_value [int2float sd, int2float dd] x y L
          = (Except.ok (0, dst_value), L)) ∧
      (∀ e, H.call f (unColorOpArgs L src_value sd x y) = Except.error e →
        imluaUnColorOpFunc H src_value dst_value [int2float sd, int2float dd] x y L
          = (Except.error e,
            L.withStack (L.stack ++ LuaValue.function f :: unColorOpArgs L src_value sd x y)))) ∧
    (∀ (src_value : List float) (dst_value : float) (sc x y d : Int),
      0 ≤ sc → sc.toNat ≤ src_value.length →
      ((multiOpArgs L src_value sc x y d).length : Int)
        = sc + ((L.tableAt 4).objlen : Int) + 4 ∧
      (∀ out L1, imluaMultiOpFunc H src_value dst_value [int2float sc] x y d L
          = (Except.ok out, L1) →
        L1 = L ∧ ∃ rs, H.call f (multiOpArgs L src_value sc x y d) = Except.ok rs) ∧
      (∀ rs, H.call f (multiOpArgs L src_value sc x y d) = Except.ok rs →
        (adjustResults rs 1)[0]? = some LuaValue.nil →
        imluaMultiOpFunc H src_value dst_value [int2float sc] x y d L
          = (Except.ok (0, dst_value), L)) ∧
      (∀ e, H.call f (multiOpArgs L src_value sc x y d) = Except.error e →
        imluaMultiOpFunc H src_value dst_value [int2float sc] x y d L
          = (Except.error e,
            L.withStack (L.stack ++ LuaValue.function f :: multiOpArgs L src_value sc x y d)))) ∧
    (∀ (src_value dst_value : List float) (sc sd dd x y : Int),
      0 ≤ sd * sc → (sd * sc).toNat ≤ src_value.length → 0 ≤ dd →
      ((multiColorOpArgs L src_value sc sd x y).length : Int)
        = sd * sc + ((L.tableAt 4).objlen : Int) + 3 ∧
      (∀ out L1, imluaMultiColorOpFunc H src_value dst_value
            [int2float sc, int2float sd, int2float dd] x y L = (Except.ok out, L1) →
        L1 = L ∧ ∃ rs, H.call f (multiColorOpArgs L src_value sc sd x y) = Except.ok rs) ∧
      (∀ rs, H.call f (multiColorOpArgs L src_value sc sd x y) = Except.ok rs → 1 ≤ dd →
        (adjustResults rs dd.toNat)[0]? = some LuaValue.nil →
        imluaMultiColorOpFunc H src_value dst_value
            [int2float sc, int2float sd, int2float dd] x y L = (Except.ok (0, dst_value), L)) ∧
      (∀ e, H.call f (multiColorOpArgs L src_value sc sd x y) = Except.error e →
        imluaMultiColorOpFunc H src_value dst_value
            [int2float sc, int2float sd, int2float dd] x y L
          = (Except.error e, L.withStack
              (L.stack ++ LuaValue.function f :: multiColorOpArgs L src_value sc sd x y)))) := by
  have hone : ∀ rs : List LuaValue, ∃ b, adjustResults rs 1 = [b] := fun rs =>
    ⟨_, adjustResults_one rs⟩
  refine ⟨fun src_value dst_value x y d => ⟨?_, fun out L1 h => ?_, fun rs hcall hnil => ?_,
      fun e hcall => ?_⟩,
    fun src_value dst_value sd dd x y hsd0 hsd hdd0 => ⟨?_, fun out L1 h => ?_,
      fun rs hcall hdd hnil => ?_, fun e hcall => ?_⟩,
    fun src_value dst_value sc x y d hsc0 hsc => ⟨?_, fun out L1 h => ?_,
      fun rs hcall hnil => ?_, fun e hcall => ?_⟩,
    fun src_value dst_value sc sd dd x y hm0 hm hdd0 => ⟨?_, fun out L1 h => ?_,
      fun rs hcall hdd hnil => ?_, fun e hcall => ?_⟩⟩
  -- imluaUnOpFunc
  · simp only [unOpArgs, unpacked, List.length_cons, List.length_append, List.length_map,
      List.length_range, List.length_nil]
    push_cast
    ring
  · have hfun := imluaUnOpFunc_eq H L f r src_value dst_value x y d hf h4
      (length_of_index_four L _ h4)
    rw [hfun] at h
    cases hcall : H.call f (unOpArgs L src_value x y d) with
    | error e => simp [hcall] at h
    | ok rs =>
      refine ⟨?_, rs, rfl⟩
      simp only [hcall] at h
      split at h
      · simp only [Prod.mk.injEq] at h
        exact h.2.symm
      · split at h
        · simp only [Prod.mk.injEq] at h
          exact h.2.symm
        · simp at h
  · have hfun := imluaUnOpFunc_eq H L f r src_value dst_value x y d hf h4
      (length_of_index_four L _ h4)
    rw [adjustResults_one] at hnil
    simp only [List.getElem?_cons_zero, Option.some.injEq] at hnil
    rw [hfun]
    simp only [hcall, hnil, if_true]
  · have hfun := imluaUnOpFunc_eq H L f r src_value dst_value x y d hf h4
      (length_of_index_four L _ h4)
    rw [hfun]
    simp only [hcall]
  -- imluaUnColorOpFunc
  · simp only [unColorOpArgs, unpacked, List.length_cons, List.length_append, List.length_map,
      List.length_range, List.length_nil, List.length_take]
    rw [min_eq_left hsd]
    push_cast
    rw [Int.toNat_of_nonneg hsd0]
    ring
  · have hfun := imluaUnColorOpFunc_match H L f r src_value dst_value sd dd x y hf h4 hsd0 hsd
    rw [hfun] at h
    cases hcall : H.call f (unColorOpArgs L src_value sd x y) with
    | error e => simp [hcall] at h
    | ok rs =>
      simp only [hcall] at h
      exact ⟨color_tail_state H dd dst_value L _ (adjustResults_length rs dd.toNat) out L1 h,
        rs, rfl⟩
  · rw [imluaUnColorOpFunc_match H L f r src_value dst_value sd dd x y hf h4 hsd0 hsd]
    simp only [hcall]
    exact color_tail_nil H dd dst_value L _ (adjustResults_length rs dd.toNat) hdd hnil
  · rw [imluaUnColorOpFunc_match H L f r src_value dst_value sd dd x y hf h4 hsd0 hsd]
    simp only [hcall]
  -- imluaMultiOpFunc
  · simp only [multiOpArgs, unpacked, List.length_cons, List.length_append, List.length_map,
      List.length_range, List.length_nil, List.length_take]
    rw [min_eq_left hsc]
    push_cast
    rw [Int.toNat_of_nonneg hsc0]
    ring
  · have hfun := imluaMultiOpFunc_match H L f r src_value dst_value sc x y d hf h4 hsc0 hsc
    rw [hfun] at h
    cases hcall : H.call f (multiOpArgs L src_value sc x y d) with
    | error e => simp [hcall] at h
    | ok rs =>
      refine ⟨?_, rs, rfl⟩
      obtain ⟨b, hb⟩ := hone rs
      simp only [hcall, hb] at h
      rw [single_tail_eq] at h
      split at h
      · simp only [Prod.mk.injEq] at h
        exact h.2.symm
      · split at h
        · simp only [Prod.mk.injEq] at h
          exact h.2.symm
        · simp at h
  · rw [imluaMultiOpFunc_match H L f r src_value dst_value sc x y d hf h4 hsc0 hsc]
    obtain ⟨b, hb⟩ := hone rs
    rw [hb] at hnil
    simp only [List.getElem?_cons_zero, Option.some.injEq] at hnil
    simp only [hcall, hb]
    rw [single_tail_eq, if_pos hnil]
  · rw [imluaMultiOpFunc_match H L f r src_value dst_value sc x y d hf h4 hsc0 hsc]
    simp only [hcall]
  -- imluaMultiColorOpFunc
  · simp only [multiColorOpArgs, unpacked, List.length_cons, List.length_append,
      List.length_map, List.length_range, List.length_nil, List.length_take]
    rw [min_eq_left hm]
    push_cast
    rw [Int.toNat_of_nonneg hm0]
    ring
  · have hfun := imluaMultiColorOpFunc_match H L f r src_value dst_value sc sd dd x y hf h4
      hm0 hm
    rw [hfun] at h
    cases hcall : H.call f (multiColorOpArgs L src_value sc sd x y) with
    | error e => simp [hcall] at h
    | ok rs =>
      simp only [hcall] at h
      exact ⟨color_tail_state H dd dst_value L _ (adjustResults_length rs dd.toNat) out L1 h,
        rs, rfl⟩
  · rw [imluaMultiColorOpFunc_match H L f r src_value dst_value sc sd dd x y hf h4 hm0 hm]
    simp only [hcall]
    exact color_tail_nil H dd dst_value L _ (adjustResults_length rs dd.toNat) hdd hnil
  · rw [imluaMultiColorOpFunc_match H L f r src_value dst_value sc sd dd x y hf h4 hm0 hm]
    simp only [hcall]

theorem trampolines_restore_stack_witness :
    (imluaUnOpFunc exHost 5 9 1 0 0 (exUnaryState 0) = (Except.ok (0, 9), exUnaryState 0) ∧
      imluaUnColorOpFunc exHost [1, 5, 9] [0] [int2float 3, int2float 1] 1 0 (exUnaryState 0)
        = (Except.ok (0, [0]), exUnaryState 0) ∧
      imluaMultiOpFunc exHost [1, 2] 9 [int2float 2] 1 0 0 (exUnaryState 0)
        = (Except.ok (0, 9), exUnaryState 0) ∧
      imluaMultiColorOpFunc exHost [1, 2, 3, 4, 5, 6] [0, 0]
          [int2float 2, int2float 3, int2float 2] 1 0 (exUnaryState 0)
        = (Except.ok (0, [0, 0]), exUnaryState 0)) ∧
    (imluaUnOpFunc exHost 5 9 1 0 0 (exUnaryState 2) = (Except.ok (1, 7), exUnaryState 2) ∧
      imluaUnColorOpFunc exHost [1, 5, 9] [0] [int2float 3, int2float 1] 1 0 (exUnaryState 2)
        = (Except.ok (1, [7]), exUnaryState 2) ∧
      imluaMultiOpFunc exHost [1, 2] 9 [int2float 2] 1 0 0 (exUnaryState 2)
        = (Except.ok (1, 7), exUnaryState 2) ∧
      imluaMultiColorOpFunc exHost [1, 2, 3, 4, 5, 6] [0, 0]
          [int2float 2, int2float 3, int2float 1] 1 0 (exUnaryState 2)
        = (Except.ok (1, [7, 0]), exUnaryState 2)) ∧
    (multiOpArgs (exUnaryState 2) [1, 2] 2 1 0 0
        = [LuaValue.number 1, LuaValue.number 2, LuaValue.number 10, LuaValue.number 20,
            LuaValue.nil, LuaValue.number 1, LuaValue.number 0, LuaValue.number 0] ∧
      multiColorOpArgs (exUnaryState 2) [1, 2, 3, 4, 5, 6] 2 3 1 0
        = [LuaValue.number 1, LuaValue.number 2, LuaValue.number 3, LuaValue.number 4,
            LuaValue.number 5, LuaValue.number 6, LuaValue.number 10, LuaValue.number 20,
            LuaValue.nil, LuaValue.number 1, LuaValue.number 0]) :=
  ⟨⟨((trampolines_restore_stack exHost (exUnaryState 0) 0 0 rfl rfl).1
        5 9 1 0 0).2.2.1 [] rfl rfl,
      ((trampolines_restore_stack exHost (exUnaryState 0) 0 0 rfl rfl).2.1
        [1, 5, 9] [0] 3 1 1 0 (by decide) (by decide) (by decide)).2.2.1 [] rfl (by decide) rfl,
      ((trampolines_restore_stack exHost (exUnaryState 0) 0 0 rfl rfl).2.2.1
        [1, 2] 9 2 1 0 0 (by decide) (by decide)).2.2.1 [] rfl rfl,
      ((trampolines_restore_stack exHost (exUnaryState 0) 0 0 rfl rfl).2.2.2
        [1, 2, 3, 4, 5, 6] [0, 0] 2 3 2 1 0 (by decide) (by decide) (by decide)).2.2.1 [] rfl
          (by decide) rfl⟩,
    by decide!, by decide!⟩

end ImLua
